import Mathlib

/-! The pledge enforcement engine of `sys/kern/kern_pledge.c`.

A shallow embedding of the promise parser, the syscall gate, the path gate,
the violation handler and the lexical path canonicaliser, followed by the
properties established about them.

Conventions of the embedding.

* A C string is a `List Char`: the bytes that precede the terminating NUL.
  Reading at or past the end of the list yields NUL (`peek`), so every test
  the C code makes on `*p`, `p[1]`, ... is made on the same byte here.
* `uint64_t` promise sets are natural numbers below `2 ^ 64`; `int` return
  values and syscall numbers are integers.
* The two `ps_flags` bits the code reads or writes, `PS_PLEDGE` and
  `PS_COREDUMP`, are Boolean fields of `process`.
-/

namespace Pledge

/-! ## Constants of headers that are not part of the sources -/

/-- Modelled from the spec: `sys/errno.h` is not among the sources; the
"permission-denied" error of the spec, with its BSD value. -/
def EPERM : Int := 1

/-- Modelled from the spec: `sys/errno.h` is not among the sources; the
"no such file" error of the spec, with its BSD value. -/
def ENOENT : Int := 2

/-- Modelled from the spec: `sys/errno.h` is not among the sources; the
"fault" error of the spec, with its BSD value. -/
def EFAULT : Int := 14

/-- Modelled from the spec: `sys/errno.h` is not among the sources; the
"invalid argument" error of the spec, with its BSD value. -/
def EINVAL : Int := 22

/-- Modelled from the spec: `sys/errno.h` is not among the sources; the
"name-too-long" error of the spec, with its BSD value. -/
def ENAMETOOLONG : Int := 63

/-- Modelled from the spec: `sys/param.h` and `sys/syslimits.h` are not among
the sources; the "path-length cap" of the spec (`MAXPATHLEN`, equal to
`PATH_MAX`). -/
def MAXPATHLEN : Nat := 1024

/-- Modelled from the spec: see `MAXPATHLEN`. -/
def PATH_MAX : Nat := 1024

/-- The NUL byte that terminates a C string. -/
def NUL : Char := Char.ofNat 0

/-! ### Promise bits

Modelled from the spec: `sys/pledge.h` is not among the sources.  The spec
(section 3) fixes a 64-bit word in which every promise is one bit, with the
three internal values `ALWAYS`, `YPACTIVE` and `STATLIE` outside the
user-settable set; the values are those of the header. -/

/-- Modelled from the spec: `sys/pledge.h` is missing; the distinguished
`ALWAYS` entry, all 64 bits set. -/
def PLEDGE_ALWAYS : Nat := 0xffffffffffffffff
/-- Modelled from the spec: `sys/pledge.h` is missing; the `rpath` bit. -/
def PLEDGE_RPATH : Nat := 0x0000000000000001
/-- Modelled from the spec: `sys/pledge.h` is missing; the `wpath` bit. -/
def PLEDGE_WPATH : Nat := 0x0000000000000002
/-- Modelled from the spec: `sys/pledge.h` is missing; the `cpath` bit. -/
def PLEDGE_CPATH : Nat := 0x0000000000000004
/-- Modelled from the spec: `sys/pledge.h` is missing; the `stdio` bit. -/
def PLEDGE_STDIO : Nat := 0x0000000000000008
/-- Modelled from the spec: `sys/pledge.h` is missing; the `tmppath` bit. -/
def PLEDGE_TMPPATH : Nat := 0x0000000000000010
/-- Modelled from the spec: `sys/pledge.h` is missing; the `dns` bit. -/
def PLEDGE_DNS : Nat := 0x0000000000000020
/-- Modelled from the spec: `sys/pledge.h` is missing; the `inet` bit. -/
def PLEDGE_INET : Nat := 0x0000000000000040
/-- Modelled from the spec: `sys/pledge.h` is missing; the `flock` bit. -/
def PLEDGE_FLOCK : Nat := 0x0000000000000080
/-- Modelled from the spec: `sys/pledge.h` is missing; the `unix` bit. -/
def PLEDGE_UNIX : Nat := 0x0000000000000100
/-- Modelled from the spec: `sys/pledge.h` is missing; the `id` bit. -/
def PLEDGE_ID : Nat := 0x0000000000000200
/-- Modelled from the spec: `sys/pledge.h` is missing; the `tape` bit. -/
def PLEDGE_TAPE : Nat := 0x0000000000000400
/-- Modelled from the spec: `sys/pledge.h` is missing; the `getpw` bit. -/
def PLEDGE_GETPW : Nat := 0x0000000000000800
/-- Modelled from the spec: `sys/pledge.h` is missing; the `proc` bit. -/
def PLEDGE_PROC : Nat := 0x0000000000001000
/-- Modelled from the spec: `sys/pledge.h` is missing; the `settime` bit. -/
def PLEDGE_SETTIME : Nat := 0x0000000000002000
/-- Modelled from the spec: `sys/pledge.h` is missing; the `fattr` bit. -/
def PLEDGE_FATTR : Nat := 0x0000000000004000
/-- Modelled from the spec: `sys/pledge.h` is missing; the `prot_exec` bit. -/
def PLEDGE_PROTEXEC : Nat := 0x0000000000008000
/-- Modelled from the spec: `sys/pledge.h` is missing; the `tty` bit. -/
def PLEDGE_TTY : Nat := 0x0000000000010000
/-- Modelled from the spec: `sys/pledge.h` is missing; the `sendfd` bit. -/
def PLEDGE_SENDFD : Nat := 0x0000000000020000
/-- Modelled from the spec: `sys/pledge.h` is missing; the `recvfd` bit. -/
def PLEDGE_RECVFD : Nat := 0x0000000000040000
/-- Modelled from the spec: `sys/pledge.h` is missing; the `exec` bit. -/
def PLEDGE_EXEC : Nat := 0x0000000000080000
/-- Modelled from the spec: `sys/pledge.h` is missing; the `route` bit. -/
def PLEDGE_ROUTE : Nat := 0x0000000000100000
/-- Modelled from the spec: `sys/pledge.h` is missing; the `mcast` bit. -/
def PLEDGE_MCAST : Nat := 0x0000000000200000
/-- Modelled from the spec: `sys/pledge.h` is missing; the `vminfo` bit. -/
def PLEDGE_VMINFO : Nat := 0x0000000000400000
/-- Modelled from the spec: `sys/pledge.h` is missing; the `ps` bit. -/
def PLEDGE_PS : Nat := 0x0000000000800000
/-- Modelled from the spec: `sys/pledge.h` is missing; the `disklabel` bit. -/
def PLEDGE_DISKLABEL : Nat := 0x0000000002000000
/-- Modelled from the spec: `sys/pledge.h` is missing; the `pf` bit. -/
def PLEDGE_PF : Nat := 0x0000000004000000
/-- Modelled from the spec: `sys/pledge.h` is missing; the `audio` bit. -/
def PLEDGE_AUDIO : Nat := 0x0000000008000000
/-- Modelled from the spec: `sys/pledge.h` is missing; the `dpath` bit. -/
def PLEDGE_DPATH : Nat := 0x0000000010000000
/-- Modelled from the spec: `sys/pledge.h` is missing; the `drm` (video) bit. -/
def PLEDGE_DRM : Nat := 0x0000000020000000
/-- Modelled from the spec: `sys/pledge.h` is missing; the `vmm` bit. -/
def PLEDGE_VMM : Nat := 0x0000000040000000
/-- Modelled from the spec: `sys/pledge.h` is missing; the `chown` bit. -/
def PLEDGE_CHOWN : Nat := 0x0000000080000000
/-- Modelled from the spec: `sys/pledge.h` is missing; the `chown-uid` bit. -/
def PLEDGE_CHOWNUID : Nat := 0x0000000100000000
/-- Modelled from the spec: `sys/pledge.h` is missing; the `bpf` bit. -/
def PLEDGE_BPF : Nat := 0x0000000200000000
/-- Modelled from the spec: `sys/pledge.h` is missing; the internal,
request-scoped `STATLIE` bit. -/
def PLEDGE_STATLIE : Nat := 0x4000000000000000
/-- Modelled from the spec: `sys/pledge.h` is missing; the internal
`YPACTIVE` bit. -/
def PLEDGE_YPACTIVE : Nat := 0x8000000000000000

/-! ### Syscall numbers

Modelled from the spec: `sys/syscall.h` is not among the sources.  The path
gate only compares the current syscall number with these labels of one C
`switch`, so all that matters is that they are pairwise distinct; the values
are those of the header. -/

/-- Modelled from the spec: `sys/syscall.h` is missing; number of `open`. -/
def SYS_open : Int := 5
/-- Modelled from the spec: `sys/syscall.h` is missing; number of `unlink`. -/
def SYS_unlink : Int := 10
/-- Modelled from the spec: `sys/syscall.h` is missing; number of `access`. -/
def SYS_access : Int := 33
/-- Modelled from the spec: `sys/syscall.h` is missing; number of `stat`. -/
def SYS_stat : Int := 38
/-- Modelled from the spec: `sys/syscall.h` is missing; number of `readlink`. -/
def SYS_readlink : Int := 58

/-! ## C strings and machine words -/

/-- The byte `s[k]` of the C string `s`; NUL at and past its end. -/
def peek (s : List Char) (k : Nat) : Char := s.getD k NUL

/-- The C string held in a buffer: its bytes up to the first NUL. -/
def cstr (s : List Char) : List Char := s.takeWhile (fun c => c != NUL)

/-- Bitwise complement of a `uint64_t`: the C operator `~`. -/
def not64 (x : Nat) : Nat := (x ^^^ (2 ^ 64 - 1)) % 2 ^ 64

/-! ## Per-process state -/

/-- What one invocation of `pledge_fail` emits: its log line and ktrace record
carry the error, the missing bits and the syscall number, and the process is
sent `SIGABRT`. -/
structure violation where
  error : Int
  code : Nat
  syscall : Int
deriving DecidableEq, Repr

/-- The fields of `struct process` that the pledge code touches. -/
structure process where
  /-- The bit `PS_PLEDGE` of `ps_flags`. -/
  PS_PLEDGE : Bool
  /-- The bit `PS_COREDUMP` of `ps_flags`. -/
  PS_COREDUMP : Bool
  /-- Field `ps_pledge`, the current promises. -/
  ps_pledge : Nat
deriving DecidableEq, Repr

/-- The fields of `struct proc` that the pledge code touches, with the
record of the violations reported so far. -/
structure proc where
  p_p : process
  p_pledge_syscall : Int
  /-- Every `pledge_fail` so far, oldest first. -/
  violations : List violation
deriving DecidableEq, Repr

/-- The field of `struct nameidata` the path gate reads: `ni_pledge`, the
promise bits the call site requires. -/
structure nameidata where
  ni_pledge : Nat
deriving DecidableEq, Repr

/-! ## Violation handler and syscall gate -/

/-- Source `pledge_fail(p, error, code)`: log, trace and signal the violation,
clear every promise, return `error`. -/
def pledge_fail (p : proc) (error : Int) (code : Nat) : Int × proc :=
  (error,
    { p with
      p_p := { p.p_p with ps_pledge := 0 }
      violations := p.violations ++ [⟨error, code, p.p_pledge_syscall⟩] })

/-- Source `pledge_syscall(p, code, tval)`.  The table `pledge_syscalls` is
indexed by the syscall numbers of the missing `sys/syscall.h`, so it is a
parameter: a list of `SYS_MAXSYSCALL` entries.  Returns the error, `*tval`
and the process. -/
def pledge_syscall (pledge_syscalls : List Nat) (p : proc) (code : Int) :
    Int × Nat × proc :=
  let p1 : proc := { p with p_pledge_syscall := code }
  if code < 0 ∨ code > (pledge_syscalls.length : Int) - 1 then
    (EINVAL, 0, p1)
  else if pledge_syscalls.getD code.toNat 0 = PLEDGE_ALWAYS then
    (0, 0, p1)
  else if p.p_p.ps_pledge &&& pledge_syscalls.getD code.toNat 0 ≠ 0 then
    (0, 0, p1)
  else
    (EPERM, pledge_syscalls.getD code.toNat 0, p1)

/-! ## The path canonicaliser

The output buffer of `canonpath` is the list `q` of the bytes written so
far, most recent first: `*q++ = c` is `c :: q`, `q != buf` is `q ≠ []`, and
`q - buf` is `q.length`. -/

deriving instance DecidableEq for Except

/-- Source `while (*--q != '/') continue;`: step back over the bytes written
until a slash has been stepped over.  On an absolute input the first byte
written is a slash, so the scan ends inside the buffer; the empty case is the
read before the start of `buf`, which such an input never reaches. -/
def scan_back : List Char → List Char
  | [] => []
  | c :: r => if c = '/' then r else scan_back r

/-- The tail of `canonpath`: `if ((*p == '\0') && (q - buf < bufsize))`
terminate the output and return 0, `else return ENAMETOOLONG`. -/
def canon_exit (bufsize : Nat) (p q : List Char) : Except Int (List Char) :=
  if peek p 0 = NUL ∧ q.length < bufsize then .ok q.reverse else .error ENAMETOOLONG

/-- The loop `while (*p && (q - buf < bufsize))` of `canonpath`, followed by
its tail.  The first argument bounds the iterations; every iteration moves
`p` forward, so with a bound of at least the length of the string at `p` the
bound 0 is only met at the end of the string, where the C loop ends too
(`canon_loop_fuel`). -/
def canon_loop (bufsize : Nat) : Nat → List Char → List Char → Except Int (List Char)
  | 0, p, q => canon_exit bufsize p q
  | n + 1, p, q =>
    if peek p 0 ≠ NUL ∧ q.length < bufsize then
      if peek p 0 = '/' ∧ (peek p 1 = '/' ∨ peek p 1 = NUL) then
        canon_loop bufsize n (p.drop 1) q
      else if peek p 0 = '/' ∧ peek p 1 = '.' ∧ (peek p 2 = '/' ∨ peek p 2 = NUL) then
        canon_loop bufsize n (p.drop 2) q
      else if peek p 0 = '/' ∧ peek p 1 = '.' ∧ peek p 2 = '.' ∧
          (peek p 3 = '/' ∨ peek p 3 = NUL) then
        canon_loop bufsize n (p.drop 3) (if q ≠ [] then scan_back q else q)
      else
        canon_loop bufsize n (p.drop 1) (peek p 0 :: q)
    else canon_exit bufsize p q

/-- The C library `strlcpy(dst, src, dstsize)`: what it stores in `dst` (at
most `dstsize - 1` bytes of `src`) and its return value, `strlen(src)`. -/
def strlcpy (src : List Char) (dstsize : Nat) : List Char × Nat :=
  ((cstr src).take (dstsize - 1), (cstr src).length)

/-- Source `canonpath(input, buf, bufsize)`: the string left in `buf` when
it returns 0, the error ENAMETOOLONG otherwise. -/
def canonpath (input : List Char) (bufsize : Nat) : Except Int (List Char) :=
  if peek input 0 ≠ '/' then
    if (strlcpy input bufsize).2 ≥ bufsize then .error ENAMETOOLONG
    else .ok (strlcpy input bufsize).1
  else canon_loop bufsize input.length input []

/-- The loop of `canonpath` run from read position `p` with `q` written. -/
def canon_run (b : Nat) (p q : List Char) : Except Int (List Char) :=
  canon_loop b p.length p q

/-! ### Reference: lexical normalisation by components -/

/-- One component of the reference normalisation: an empty or `.` component
is dropped, `..` removes the most recently kept component (nothing when none
is kept), any other component is kept. -/
def lexical_step (kept : List (List Char)) (w : List Char) : List (List Char) :=
  if w = [] ∨ w = ['.'] then kept
  else if w = ['.', '.'] then kept.dropLast
  else kept ++ [w]

/-- The kept components written out: `/` followed by the component, for
each component in order. -/
def lexical_render (kept : List (List Char)) : List Char :=
  (kept.map (fun w => '/' :: w)).flatten

/-- The reference result for `input`: split on `/`, fold `lexical_step`
over the components, write the kept ones out. -/
def lexical_normalise (input : List Char) : List Char :=
  lexical_render ((input.splitOn '/').foldl lexical_step [])

/-- The read position is at a component boundary: a slash or the end. -/
def at_boundary (rest : List Char) : Prop := peek rest 0 = '/' ∨ peek rest 0 = NUL

/-- Every prefix of the components leaves an output that fits, with its NUL,
in `b` bytes. -/
def fits (b : Nat) : List (List Char) → List (List Char) → Bool
  | kept, [] => decide ((lexical_render kept).length < b)
  | kept, w :: ws =>
    decide ((lexical_render kept).length < b) && fits b (lexical_step kept w) ws

/-- A component that the canonicaliser keeps: non-empty, not `.` or `..`,
free of slashes and of NUL. -/
def proper (w : List Char) : Prop :=
  w ≠ [] ∧ w ≠ ['.'] ∧ w ≠ ['.', '.'] ∧ '/' ∉ w ∧ NUL ∉ w

/-- The reference result for the first `k` components of `input`. -/
def lexical_upto (input : List Char) (k : Nat) : List Char :=
  lexical_render (((input.splitOn '/').take k).foldl lexical_step [])

/-! ## The promise vocabulary and the request parser -/

/-- The C library `strcmp`: the difference of the first pair of bytes that
differ, compared as `unsigned char`; 0 when both strings end together. -/
def strcmp : List Char → List Char → Int
  | [], t => (NUL.toNat : Int) - ((peek t 0).toNat : Int)
  | c :: s, t =>
    if c = peek t 0 then
      if c = NUL then 0 else strcmp s (t.drop 1)
    else (c.toNat : Int) - ((peek t 0).toNat : Int)

/-- The C library `strncmp`: `strcmp` limited to the first `n` bytes. -/
def strncmp : List Char → List Char → Nat → Int
  | _, _, 0 => 0
  | s, t, n + 1 =>
    if peek s 0 = peek t 0 then
      if peek s 0 = NUL then 0 else strncmp (s.drop 1) (t.drop 1) n
    else ((peek s 0).toNat : Int) - ((peek t 0).toNat : Int)

/-- Source table `pledgereq[]`: promise names, sorted, with their flags. -/
def pledgereq : List (List Char × Nat) :=
  [ ("audio".toList, PLEDGE_AUDIO),
    ("bpf".toList, PLEDGE_BPF),
    ("chown".toList, PLEDGE_CHOWN ||| PLEDGE_CHOWNUID),
    ("cpath".toList, PLEDGE_CPATH),
    ("disklabel".toList, PLEDGE_DISKLABEL),
    ("dns".toList, PLEDGE_DNS),
    ("dpath".toList, PLEDGE_DPATH),
    ("drm".toList, PLEDGE_DRM),
    ("exec".toList, PLEDGE_EXEC),
    ("fattr".toList, PLEDGE_FATTR ||| PLEDGE_CHOWN),
    ("flock".toList, PLEDGE_FLOCK),
    ("getpw".toList, PLEDGE_GETPW),
    ("id".toList, PLEDGE_ID),
    ("inet".toList, PLEDGE_INET),
    ("mcast".toList, PLEDGE_MCAST),
    ("pf".toList, PLEDGE_PF),
    ("proc".toList, PLEDGE_PROC),
    ("prot_exec".toList, PLEDGE_PROTEXEC),
    ("ps".toList, PLEDGE_PS),
    ("recvfd".toList, PLEDGE_RECVFD),
    ("route".toList, PLEDGE_ROUTE),
    ("rpath".toList, PLEDGE_RPATH),
    ("sendfd".toList, PLEDGE_SENDFD),
    ("settime".toList, PLEDGE_SETTIME),
    ("stdio".toList, PLEDGE_STDIO),
    ("tape".toList, PLEDGE_TAPE),
    ("tmppath".toList, PLEDGE_TMPPATH),
    ("tty".toList, PLEDGE_TTY),
    ("unix".toList, PLEDGE_UNIX),
    ("vminfo".toList, PLEDGE_VMINFO),
    ("vmm".toList, PLEDGE_VMM),
    ("wpath".toList, PLEDGE_WPATH) ]

/-- The loop of `pledgereq_flags`: `for (lim = nitems; lim != 0; lim >>= 1)`.
The first argument bounds the iterations; `lim` shrinks at every iteration,
so with a bound of at least `lim` the bound 0 is only met with `lim = 0`,
where the C loop ends and returns 0 as well. -/
def pledgereq_search (req_name : List Char) : Nat → Nat → Nat → Nat
  | 0, _, _ => 0
  | n + 1, base, lim =>
    if lim = 0 then 0
    else
      let i := base + (lim >>> 1)
      let cmp := strcmp req_name (pledgereq.getD i ([], 0)).1
      if cmp = 0 then (pledgereq.getD i ([], 0)).2
      else if cmp > 0 then pledgereq_search req_name n (i + 1) ((lim - 1) >>> 1)
      else pledgereq_search req_name n base (lim >>> 1)

/-- Source `pledgereq_flags(req_name)`: binary search over `pledgereq`;
the flags of the entry found, 0 otherwise. -/
def pledgereq_flags (req_name : List Char) : Nat :=
  pledgereq_search req_name pledgereq.length 0 pledgereq.length

/-- The C library `strchr(s, ch)` for a non-NUL `ch`: the string from the
first occurrence of `ch` on, `none` (NULL) when there is none. -/
def strchr : List Char → Char → Option (List Char)
  | [], _ => none
  | c :: r, ch => if c = NUL then none else if c = ch then some (c :: r) else strchr r ch

/-- Source `while (*pn == ' ') *pn++ = '\0';`: the position after the run of
spaces at `pn`. -/
def skip_spaces : List Char → List Char
  | [] => []
  | c :: r => if c = ' ' then skip_spaces r else c :: r

/-- The C string read at `rp` once the spaces that follow the first token
have been overwritten with NUL: the bytes before the first space or NUL. -/
def first_token (rp : List Char) : List Char :=
  rp.takeWhile (fun c => c != ' ' && c != NUL)

/-- The loop `for (rp = rbuf; rp && *rp && error == 0; rp = pn)` of
`sys_pledge`: EINVAL at the first unknown token, else the flags gathered.
The first argument bounds the iterations; every iteration moves `rp` forward,
so with a bound of at least the length of the string at `rp` the bound 0 is
only met at the end of the string, where the C loop ends too. -/
def request_loop : Nat → Option (List Char) → Nat → Except Int Nat
  | 0, _, flags => .ok flags
  | n + 1, rp, flags =>
    match rp with
    | none => .ok flags
    | some s =>
      if peek s 0 = NUL then .ok flags
      else if pledgereq_flags (first_token s) = 0 then .error EINVAL
      else
        request_loop n ((strchr s ' ').map skip_spaces)
          (flags ||| pledgereq_flags (first_token s))

/-- The kernel routine `copyinstr(uaddr, kaddr, len, done)` on a readable
user string: the string when it fits `len` bytes with its NUL, and
ENAMETOOLONG otherwise. -/
def copyinstr (uaddr : List Char) (len : Nat) : Except Int (List Char) :=
  if (cstr uaddr).length + 1 ≤ len then .ok (cstr uaddr) else .error ENAMETOOLONG

/-- What `sys_pledge` parses a request string to: the request is copied in
with `copyinstr` and scanned by the token loop. -/
def pledge_parse (request : List Char) : Except Int Nat :=
  match copyinstr request MAXPATHLEN with
  | .error e => .error e
  | .ok rbuf => request_loop rbuf.length (some rbuf) 0

/-- The first block of `sys_pledge`, `if (SCARG(uap, request)) { ... }`: the
error it returns, or the parsed flags when control leaves the block. -/
def pledge_request (p : proc) (request : List Char) : Except Int Nat :=
  match pledge_parse request with
  | .error e => .error e
  | .ok flags =>
    if p.p_p.PS_PLEDGE = true ∧ flags ||| p.p_p.ps_pledge ≠ p.p_p.ps_pledge then
      .error EPERM
    else .ok flags

/-- Source `sys_pledge(p, v, retval)` with the arguments `request` and
`paths` of the syscall, each `none` when the pointer is NULL. -/
def sys_pledge (p : proc) (request : Option (List Char))
    (paths : Option (List (List Char))) : Int × proc :=
  match (match request with
      | some r => pledge_request p r
      | none => .ok 0) with
  | .error e => (e, p)
  | .ok flags =>
    if paths.isSome then (EINVAL, p)
    else
      match request with
      | some _ =>
        (0, { p with p_p := { p.p_p with ps_pledge := flags, PS_PLEDGE := true } })
      | none => (0, p)

/-! ## The path gate -/

/-- The `switch (p->p_pledge_syscall)` of `pledge_namei` on the canonical
`path`: the value of the `return` it executes, `none` when control leaves
the switch through a `break`.  The tests are those of the source, in source
order; a test nested in an `if` is written as a conjunction with the
condition of that `if`.  In the `SYS_access` case `error` is still the 0 that
`canonpath` returned, so `pledge_fail(p, error, PLEDGE_GETPW)` is called
with 0. -/
def namei_switch (p : proc) (ni : nameidata) (path : List Char) : Option (Int × proc) :=
  if p.p_pledge_syscall = SYS_access then
    if ni.ni_pledge = PLEDGE_RPATH ∧ strcmp path "/etc/localtime".toList = 0 then
      some (0, p)
    else if ni.ni_pledge = PLEDGE_RPATH ∧ strcmp path "/var/run/ypbind.lock".toList = 0 then
      if p.p_p.ps_pledge &&& PLEDGE_GETPW ≠ 0 then some (0, p)
      else some (pledge_fail p 0 PLEDGE_GETPW)
    else none
  else if p.p_pledge_syscall = SYS_open then
    if ni.ni_pledge &&& not64 (PLEDGE_RPATH ||| PLEDGE_WPATH) = 0 ∧
        strcmp path "/dev/null".toList = 0 then
      some (0, p)
    else if p.p_p.ps_pledge &&& PLEDGE_TTY ≠ 0 ∧
        ni.ni_pledge &&& not64 (PLEDGE_RPATH ||| PLEDGE_WPATH) = 0 ∧
        strcmp path "/dev/tty".toList = 0 then
      some (0, p)
    else if ni.ni_pledge = PLEDGE_RPATH ∧ p.p_p.ps_pledge &&& PLEDGE_GETPW ≠ 0 ∧
        strcmp path "/etc/spwd.db".toList = 0 then
      some (EPERM, p)
    else if ni.ni_pledge = PLEDGE_RPATH ∧ p.p_p.ps_pledge &&& PLEDGE_GETPW ≠ 0 ∧
        strcmp path "/etc/pwd.db".toList = 0 then
      some (0, p)
    else if ni.ni_pledge = PLEDGE_RPATH ∧ p.p_p.ps_pledge &&& PLEDGE_GETPW ≠ 0 ∧
        strcmp path "/etc/group".toList = 0 then
      some (0, p)
    else if ni.ni_pledge = PLEDGE_RPATH ∧ p.p_p.ps_pledge &&& PLEDGE_GETPW ≠ 0 ∧
        strcmp path "/etc/netid".toList = 0 then
      some (0, p)
    else if ni.ni_pledge = PLEDGE_RPATH ∧ p.p_p.ps_pledge &&& PLEDGE_DNS ≠ 0 ∧
        strcmp path "/etc/resolv.conf".toList = 0 then
      some (0, p)
    else if ni.ni_pledge = PLEDGE_RPATH ∧ p.p_p.ps_pledge &&& PLEDGE_DNS ≠ 0 ∧
        strcmp path "/etc/hosts".toList = 0 then
      some (0, p)
    else if ni.ni_pledge = PLEDGE_RPATH ∧ p.p_p.ps_pledge &&& PLEDGE_DNS ≠ 0 ∧
        strcmp path "/etc/services".toList = 0 then
      some (0, p)
    else if ni.ni_pledge = PLEDGE_RPATH ∧ p.p_p.ps_pledge &&& PLEDGE_GETPW ≠ 0 ∧
        strcmp path "/var/run/ypbind.lock".toList = 0 then
      some (0, { p with p_p := { p.p_p with
        ps_pledge := p.p_p.ps_pledge ||| PLEDGE_YPACTIVE } })
    else if ni.ni_pledge = PLEDGE_RPATH ∧ p.p_p.ps_pledge &&& PLEDGE_GETPW ≠ 0 ∧
        strncmp path "/var/yp/binding/".toList "/var/yp/binding/".toList.length = 0 then
      some (0, p)
    else if ni.ni_pledge = PLEDGE_RPATH ∧
        strncmp path "/usr/share/zoneinfo/".toList
          "/usr/share/zoneinfo/".toList.length = 0 then
      some (0, p)
    else if ni.ni_pledge = PLEDGE_RPATH ∧ strcmp path "/etc/localtime".toList = 0 then
      some (0, p)
    else none
  else if p.p_pledge_syscall = SYS_readlink then
    if ni.ni_pledge = PLEDGE_RPATH ∧ strcmp path "/etc/malloc.conf".toList = 0 then
      some (0, p)
    else none
  else if p.p_pledge_syscall = SYS_stat then
    if ni.ni_pledge = PLEDGE_RPATH ∧ p.p_p.ps_pledge &&& PLEDGE_DNS ≠ 0 ∧
        strcmp path "/etc/resolv.conf".toList = 0 then
      some (0, p)
    else none
  else none

/-- Source `pledge_namei(p, ni, origpath)`.  The result is `none` when the
kernel panics (`panic("ni_pledge")`), else the return value and the
process. -/
def pledge_namei (p : proc) (ni : Option nameidata) (origpath : List Char) :
    Option (Int × proc) :=
  if p.p_p.PS_PLEDGE = false ∨ p.p_p.PS_COREDUMP = true then some (0, p)
  else
    match ni with
    | none => none
    | some ni =>
      if ni.ni_pledge = 0 then none
      else if ni.ni_pledge &&& PLEDGE_EXEC ≠ 0 ∧ p.p_p.ps_pledge &&& PLEDGE_EXEC ≠ 0 then
        some (0, p)
      else
        match canonpath origpath PATH_MAX with
        | .error error => some (error, p)
        | .ok path =>
          if p.p_p.ps_pledge &&& PLEDGE_TMPPATH ≠ 0 ∧ p.p_pledge_syscall = SYS_open ∧
              ni.ni_pledge &&& PLEDGE_CPATH ≠ 0 ∧
              strncmp path "/tmp/".toList "/tmp/".toList.length = 0 then
            some (0, p)
          else if p.p_p.ps_pledge &&& PLEDGE_TMPPATH ≠ 0 ∧
              p.p_pledge_syscall = SYS_unlink ∧
              strncmp path "/tmp/".toList "/tmp/".toList.length = 0 then
            some (0, p)
          else
            match namei_switch p ni path with
            | some r => some r
            | none =>
              if ni.ni_pledge &&& not64 p.p_p.ps_pledge ≠ 0 then
                some (pledge_fail p EPERM (ni.ni_pledge &&& not64 p.p_p.ps_pledge))
              else some (0, p)

/-- The exception table of the path gate (spec section 4.4) for a lookup
made by `syscall` that requires the bits `required`, by a process holding
`held`, on the canonical `path`: some row of the table applies. -/
def namei_exception (syscall : Int) (required held : Nat) (path : List Char) : Prop :=
  (held &&& PLEDGE_TMPPATH ≠ 0 ∧ syscall = SYS_open ∧ required &&& PLEDGE_CPATH ≠ 0 ∧
    "/tmp/".toList <+: path) ∨
  (held &&& PLEDGE_TMPPATH ≠ 0 ∧ syscall = SYS_unlink ∧ "/tmp/".toList <+: path) ∨
  (syscall = SYS_access ∧ required = PLEDGE_RPATH ∧
    (path = "/etc/localtime".toList ∨ path = "/var/run/ypbind.lock".toList)) ∨
  (syscall = SYS_open ∧ required &&& not64 (PLEDGE_RPATH ||| PLEDGE_WPATH) = 0 ∧
    (path = "/dev/null".toList ∨
      (held &&& PLEDGE_TTY ≠ 0 ∧ path = "/dev/tty".toList))) ∨
  (syscall = SYS_open ∧ required = PLEDGE_RPATH ∧ held &&& PLEDGE_GETPW ≠ 0 ∧
    (path = "/etc/spwd.db".toList ∨ path = "/etc/pwd.db".toList ∨
      path = "/etc/group".toList ∨ path = "/etc/netid".toList ∨
      path = "/var/run/ypbind.lock".toList ∨ "/var/yp/binding/".toList <+: path)) ∨
  (syscall = SYS_open ∧ required = PLEDGE_RPATH ∧ held &&& PLEDGE_DNS ≠ 0 ∧
    (path = "/etc/resolv.conf".toList ∨ path = "/etc/hosts".toList ∨
      path = "/etc/services".toList)) ∨
  (syscall = SYS_open ∧ required = PLEDGE_RPATH ∧
    ("/usr/share/zoneinfo/".toList <+: path ∨ path = "/etc/localtime".toList)) ∨
  (syscall = SYS_readlink ∧ required = PLEDGE_RPATH ∧ path = "/etc/malloc.conf".toList) ∨
  (syscall = SYS_stat ∧ required = PLEDGE_RPATH ∧ held &&& PLEDGE_DNS ≠ 0 ∧
    path = "/etc/resolv.conf".toList)

instance (syscall : Int) (required held : Nat) (path : List Char) :
    Decidable (namei_exception syscall required held path) := by
  unfold namei_exception
  infer_instance

/-! ### Reference: the request as a sequence of tokens -/

/-- The promise vocabulary: the names of the table `pledgereq`. -/
def vocabulary : List (List Char) := pledgereq.map Prod.fst

/-- The tokens of a request string: its maximal runs of bytes other than
the space. -/
def request_tokens (s : List Char) : List (List Char) :=
  (s.splitOn ' ').filter (fun t => t != [])

/-- The reference parse of a token sequence: EINVAL at the first token that
`pledgereq_flags` does not know, else the flags of all tokens or-ed into
`flags`. -/
def tokens_flags : List (List Char) → Nat → Except Int Nat
  | [], flags => .ok flags
  | t :: ts, flags =>
    if pledgereq_flags t = 0 then .error EINVAL
    else tokens_flags ts (flags ||| pledgereq_flags t)

/-- A request string made of names: `lead` spaces, the first name, each
further name preceded by its number of extra spaces plus one space, and
`trail` spaces at the end. -/
def spaced_request (lead : Nat) (first : List Char) (more : List (Nat × List Char))
    (trail : Nat) : List Char :=
  List.replicate lead ' ' ++ first ++
    (more.map (fun gw => List.replicate (gw.1 + 1) ' ' ++ gw.2)).flatten ++
    List.replicate trail ' '

/-- The bitwise OR of the flags of table entries. -/
def flags_or (es : List (List Char × Nat)) : Nat :=
  es.foldl (fun acc e => acc ||| e.2) 0

/-- The request string of a bitset `b`: the names of the table (which is
sorted) whose flags are contained in `b`, joined by single spaces. -/
def request_of_bits (b : Nat) : List Char :=
  [' '].intercalate ((pledgereq.filter (fun e => decide (e.2 ||| b = b))).map Prod.fst)

/-! ## The specialised hooks

Every `return` of a hook either hands back an error code or goes through
`pledge_fail`; a hook is modelled as the `verdict` it reaches, run on the
process. -/

/-- Modelled from the spec: `sys/errno.h` is not among the sources; the
"not a terminal" error that the ioctl filter returns, with its BSD value. -/
def ENOTTY : Int := 25

/-- Modelled from the spec: `sys/file.h` is not among the sources; the
descriptor type "vnode". -/
def DTYPE_VNODE : Int := 1
/-- Modelled from the spec: `sys/file.h` is not among the sources; the
descriptor type "socket". -/
def DTYPE_SOCKET : Int := 2
/-- Modelled from the spec: `sys/file.h` is not among the sources; the
descriptor type "pipe". -/
def DTYPE_PIPE : Int := 3

/-- Modelled from the spec: `sys/vnode.h` is not among the sources; the
vnode type "directory" of `enum vtype`. -/
def VDIR : Int := 2
/-- Modelled from the spec: `sys/vnode.h` is not among the sources; the
vnode type "block device". -/
def VBLK : Int := 3
/-- Modelled from the spec: `sys/vnode.h` is not among the sources; the
vnode type "character device". -/
def VCHR : Int := 4
/-- Modelled from the spec: `sys/vnode.h` is not among the sources; the
vnode type "bad". -/
def VBAD : Int := 8
/-- Modelled from the spec: `sys/vnode.h` is not among the sources; the
`v_flag` bit of a vnode that is a tty. -/
def VISTTY : Nat := 0x0008

/-- Modelled from the spec: `sys/conf.h` is not among the sources; the
device type "disk". -/
def D_DISK : Int := 1

/-- Modelled from the spec: `sys/socket.h` is not among the sources; the
unix socket domain. -/
def AF_UNIX : Int := 1
/-- Modelled from the spec: `sys/socket.h` is not among the sources; the
IPv4 socket domain. -/
def AF_INET : Int := 2
/-- Modelled from the spec: `sys/socket.h` is not among the sources; the
IPv6 socket domain. -/
def AF_INET6 : Int := 24
/-- Modelled from the spec: `sys/socketvar.h` is not among the sources; the
socket-state flag of a socket created for the DNS resolver. -/
def SS_DNS : Nat := 0x4000

/-- Modelled from the spec: `sys/fcntl.h` is not among the sources; the
fcntl command `F_SETOWN`. -/
def F_SETOWN : Int := 6
/-- Modelled from the spec: `sys/mman.h` is not among the sources; the
protection bit `PROT_EXEC`. -/
def PROT_EXEC : Nat := 0x04

/-- How a hook returns: `return (error)` or
`return pledge_fail(p, error, code)`. -/
inductive verdict where
  | ret (error : Int)
  | fail (error : Int) (code : Nat)
deriving DecidableEq, Repr

/-- Run a verdict on the process: a plain return leaves it untouched, a
failure goes through `pledge_fail`. -/
def verdict.run (p : proc) : verdict → Int × proc
  | .ret error => (error, p)
  | .fail error code => pledge_fail p error code

/-- The fields of `struct vnode` that the hooks read. -/
structure vnode where
  v_type : Int
  v_flag : Nat
  v_rdev : Nat
deriving DecidableEq, Repr

/-- The fields of `struct file` that the hooks read: the descriptor type,
the vnode `f_data` points to when the type is `DTYPE_VNODE`, and the address
of `f_ops->fo_ioctl`. -/
structure file where
  f_type : Int
  f_data : vnode
  fo_ioctl : Nat
deriving DecidableEq, Repr

/-- Source `pledge_recvfd(p, fp)`. -/
def pledge_recvfd (p : proc) (fp : file) : Int × proc :=
  verdict.run p <|
    if p.p_p.PS_PLEDGE = false then .ret 0
    else if p.p_p.ps_pledge &&& PLEDGE_RECVFD = 0 then .fail EPERM PLEDGE_RECVFD
    else if fp.f_type = DTYPE_SOCKET ∨ fp.f_type = DTYPE_PIPE then .ret 0
    else if fp.f_type = DTYPE_VNODE ∧ fp.f_data.v_type ≠ VDIR then .ret 0
    else .fail EINVAL PLEDGE_RECVFD

/-- Source `pledge_sendfd(p, fp)`. -/
def pledge_sendfd (p : proc) (fp : file) : Int × proc :=
  verdict.run p <|
    if p.p_p.PS_PLEDGE = false then .ret 0
    else if p.p_p.ps_pledge &&& PLEDGE_SENDFD = 0 then .fail EPERM PLEDGE_SENDFD
    else if fp.f_type = DTYPE_SOCKET ∨ fp.f_type = DTYPE_PIPE then .ret 0
    else if fp.f_type = DTYPE_VNODE ∧ fp.f_data.v_type ≠ VDIR then .ret 0
    else .fail EINVAL PLEDGE_SENDFD

/-- The caller's credentials `p->p_ucred` as `pledge_chown` uses them: the
uid `cr_uid` and the outcome of `groupmember(gid, p->p_ucred)`. -/
structure ucred where
  cr_uid : Nat
  groupmember : Nat → Bool

/-- Source `pledge_chown(p, uid, gid)`; `cred` is `p->p_ucred`, and the
`uid_t`/`gid_t` value `-1` is `2 ^ 32 - 1`. -/
def pledge_chown (p : proc) (cred : ucred) (uid gid : Nat) : Int × proc :=
  verdict.run p <|
    if p.p_p.PS_PLEDGE = false then .ret 0
    else if p.p_p.ps_pledge &&& PLEDGE_CHOWNUID ≠ 0 then .ret 0
    else if uid ≠ 2 ^ 32 - 1 ∧ uid ≠ cred.cr_uid then .ret EPERM
    else if gid ≠ 2 ^ 32 - 1 ∧ cred.groupmember gid = false then .ret EPERM
    else .ret 0

/-- Source `pledge_adjtime(p, v)`; `delta` is `none` for a NULL pointer. -/
def pledge_adjtime (p : proc) (delta : Option Int) : Int × proc :=
  verdict.run p <|
    if p.p_p.PS_PLEDGE = false then .ret 0
    else if p.p_p.ps_pledge &&& PLEDGE_SETTIME ≠ 0 then .ret 0
    else if delta.isSome then .ret EPERM
    else .ret 0

/-- Source `pledge_sendit(p, to)`; `to_addr` is the argument `to`, `none` for
a NULL address. -/
def pledge_sendit (p : proc) (to_addr : Option Nat) : Int × proc :=
  verdict.run p <|
    if p.p_p.PS_PLEDGE = false then .ret 0
    else if p.p_p.ps_pledge &&&
        (PLEDGE_INET ||| PLEDGE_UNIX ||| PLEDGE_DNS ||| PLEDGE_YPACTIVE) ≠ 0 then .ret 0
    else if to_addr = none then .ret 0
    else .fail EPERM PLEDGE_INET

/-- Source `pledge_socket(p, domain, state)`. -/
def pledge_socket (p : proc) (domain : Int) (state : Nat) : Int × proc :=
  verdict.run p <|
    if p.p_p.PS_PLEDGE = false then .ret 0
    else if state &&& SS_DNS ≠ 0 then
      if p.p_p.ps_pledge &&& PLEDGE_DNS ≠ 0 then .ret 0
      else .fail EPERM PLEDGE_DNS
    else if domain = -1 then .ret 0
    else if domain = AF_INET ∨ domain = AF_INET6 then
      if p.p_p.ps_pledge &&& PLEDGE_INET ≠ 0 ∨ p.p_p.ps_pledge &&& PLEDGE_YPACTIVE ≠ 0 then
        .ret 0
      else .fail EPERM PLEDGE_INET
    else if domain = AF_UNIX then
      if p.p_p.ps_pledge &&& PLEDGE_UNIX ≠ 0 then .ret 0
      else .fail EPERM PLEDGE_UNIX
    else .fail EINVAL PLEDGE_INET

/-- Source `pledge_flock(p)`. -/
def pledge_flock (p : proc) : Int × proc :=
  verdict.run p <|
    if p.p_p.PS_PLEDGE = false then .ret 0
    else if p.p_p.ps_pledge &&& PLEDGE_FLOCK ≠ 0 then .ret 0
    else .fail EPERM PLEDGE_FLOCK

/-- Source `pledge_swapctl(p)`. -/
def pledge_swapctl (p : proc) : Int × proc :=
  verdict.run p <|
    if p.p_p.PS_PLEDGE = false then .ret 0
    else .ret EPERM

/-- Source `pledge_fcntl(p, cmd)`. -/
def pledge_fcntl (p : proc) (cmd : Int) : Int × proc :=
  verdict.run p <|
    if p.p_p.PS_PLEDGE = false then .ret 0
    else if p.p_p.ps_pledge &&& PLEDGE_PROC = 0 ∧ cmd = F_SETOWN then .fail EPERM PLEDGE_PROC
    else .ret 0

/-- Source `pledge_kill(p, pid)`; `ps_pid` is `p->p_p->ps_pid`. -/
def pledge_kill (p : proc) (ps_pid : Int) (pid : Int) : Int × proc :=
  verdict.run p <|
    if p.p_p.PS_PLEDGE = false then .ret 0
    else if p.p_p.ps_pledge &&& PLEDGE_PROC ≠ 0 then .ret 0
    else if pid = 0 ∨ pid = ps_pid then .ret 0
    else .fail EPERM PLEDGE_PROC

/-- Source `pledge_protexec(p, prot)`. -/
def pledge_protexec (p : proc) (prot : Nat) : Int × proc :=
  verdict.run p <|
    if p.p_p.PS_PLEDGE = false then .ret 0
    else if p.p_p.ps_pledge &&& PLEDGE_PROTEXEC = 0 ∧ prot &&& PROT_EXEC ≠ 0 then
      .fail EPERM PLEDGE_PROTEXEC
    else .ret 0

/-! ### The sysctl filter

The mib names come from `sys/sysctl.h`, `uvm/uvmexp.h`, `net/route.h` and
`machine/cpu.h`, none of which is among the sources: they are the fields of
a parameter of the filter. -/

/-- The sysctl names that `pledge_sysctl` compares the mib with.
`CPU_CHR2BLK` is `none` on the machines whose `machine/cpu.h` does not
define it (`#ifdef CPU_CHR2BLK`). -/
structure sysctl_names where
  CTL_KERN : Int
  CTL_VM : Int
  CTL_VFS : Int
  CTL_NET : Int
  CTL_HW : Int
  CTL_MACHDEP : Int
  PF_ROUTE : Int
  NET_RT_DUMP : Int
  NET_RT_TABLE : Int
  NET_RT_FLAGS : Int
  NET_RT_IFLIST : Int
  NET_RT_IFNAMES : Int
  RTF_LLINFO : Int
  KERN_FSCALE : Int
  KERN_BOOTTIME : Int
  KERN_CONSDEV : Int
  KERN_CPTIME : Int
  KERN_CPTIME2 : Int
  KERN_PROC_ARGS : Int
  KERN_PROC_ARGV : Int
  KERN_PROC_ENV : Int
  KERN_PROC : Int
  KERN_PROC_CWD : Int
  HW_PHYSMEM64 : Int
  KERN_CCPU : Int
  VM_MAXSLP : Int
  VM_UVMEXP : Int
  VFS_GENERIC : Int
  VFS_BCACHESTAT : Int
  KERN_RAWPARTITION : Int
  KERN_MAXPARTITIONS : Int
  CPU_CHR2BLK : Option Int
  HW_SENSORS : Int
  KERN_DOMAINNAME : Int
  KERN_HOSTNAME : Int
  KERN_OSTYPE : Int
  KERN_OSRELEASE : Int
  KERN_OSVERSION : Int
  KERN_VERSION : Int
  KERN_CLOCKRATE : Int
  KERN_ARGMAX : Int
  KERN_NGROUPS : Int
  KERN_SYSVSHM : Int
  KERN_POSIX1 : Int
  HW_MACHINE : Int
  HW_PAGESIZE : Int
  VM_PSSTRINGS : Int
  HW_NCPU : Int
  VM_LOADAVG : Int

/-- The element `mib[i]` of the name array. -/
def mib_at (mib : List Int) (i : Nat) : Int := mib.getD i 0

/-- The tests of `pledge_sysctl` under `ps_pledge & PLEDGE_ROUTE`: routing
table observation. -/
def sysctl_route (k : sysctl_names) (miblen : Int) (mib : List Int) : Prop :=
  ((miblen = 6 ∨ miblen = 7) ∧ mib_at mib 0 = k.CTL_NET ∧ mib_at mib 1 = k.PF_ROUTE ∧
    mib_at mib 2 = 0 ∧ mib_at mib 4 = k.NET_RT_DUMP) ∨
  (miblen = 6 ∧ mib_at mib 0 = k.CTL_NET ∧ mib_at mib 1 = k.PF_ROUTE ∧ mib_at mib 2 = 0 ∧
    (mib_at mib 3 = 0 ∨ mib_at mib 3 = AF_INET6 ∨ mib_at mib 3 = AF_INET) ∧
    mib_at mib 4 = k.NET_RT_TABLE) ∨
  (miblen = 7 ∧ mib_at mib 0 = k.CTL_NET ∧ mib_at mib 1 = k.PF_ROUTE ∧ mib_at mib 2 = 0 ∧
    (mib_at mib 3 = 0 ∨ mib_at mib 3 = AF_INET6 ∨ mib_at mib 3 = AF_INET) ∧
    mib_at mib 4 = k.NET_RT_FLAGS ∧ mib_at mib 5 = k.RTF_LLINFO)

/-- The tests under `ps_pledge & (PLEDGE_PS | PLEDGE_VMINFO)`. -/
def sysctl_ps_vminfo (k : sysctl_names) (miblen : Int) (mib : List Int) : Prop :=
  (miblen = 2 ∧ mib_at mib 0 = k.CTL_KERN ∧ mib_at mib 1 = k.KERN_FSCALE) ∨
  (miblen = 2 ∧ mib_at mib 0 = k.CTL_KERN ∧ mib_at mib 1 = k.KERN_BOOTTIME) ∨
  (miblen = 2 ∧ mib_at mib 0 = k.CTL_KERN ∧ mib_at mib 1 = k.KERN_CONSDEV) ∨
  (miblen = 2 ∧ mib_at mib 0 = k.CTL_KERN ∧ mib_at mib 1 = k.KERN_CPTIME) ∨
  (miblen = 3 ∧ mib_at mib 0 = k.CTL_KERN ∧ mib_at mib 1 = k.KERN_CPTIME2)

/-- The tests under `ps_pledge & PLEDGE_PS`. -/
def sysctl_ps (k : sysctl_names) (miblen : Int) (mib : List Int) : Prop :=
  (miblen = 4 ∧ mib_at mib 0 = k.CTL_KERN ∧ mib_at mib 1 = k.KERN_PROC_ARGS ∧
    (mib_at mib 3 = k.KERN_PROC_ARGV ∨ mib_at mib 3 = k.KERN_PROC_ENV)) ∨
  (miblen = 6 ∧ mib_at mib 0 = k.CTL_KERN ∧ mib_at mib 1 = k.KERN_PROC) ∨
  (miblen = 3 ∧ mib_at mib 0 = k.CTL_KERN ∧ mib_at mib 1 = k.KERN_PROC_CWD) ∨
  (miblen = 2 ∧ mib_at mib 0 = k.CTL_HW ∧ mib_at mib 1 = k.HW_PHYSMEM64) ∨
  (miblen = 2 ∧ mib_at mib 0 = k.CTL_KERN ∧ mib_at mib 1 = k.KERN_CCPU) ∨
  (miblen = 2 ∧ mib_at mib 0 = k.CTL_VM ∧ mib_at mib 1 = k.VM_MAXSLP)

/-- The tests under `ps_pledge & PLEDGE_VMINFO`. -/
def sysctl_vminfo (k : sysctl_names) (miblen : Int) (mib : List Int) : Prop :=
  (miblen = 2 ∧ mib_at mib 0 = k.CTL_VM ∧ mib_at mib 1 = k.VM_UVMEXP) ∨
  (miblen = 3 ∧ mib_at mib 0 = k.CTL_VFS ∧ mib_at mib 1 = k.VFS_GENERIC ∧
    mib_at mib 2 = k.VFS_BCACHESTAT)

/-- The test under `ps_pledge & (PLEDGE_ROUTE | PLEDGE_INET | PLEDGE_DNS)`:
`getifaddrs()`. -/
def sysctl_ifaddrs (k : sysctl_names) (miblen : Int) (mib : List Int) : Prop :=
  miblen = 6 ∧ mib_at mib 0 = k.CTL_NET ∧ mib_at mib 1 = k.PF_ROUTE ∧ mib_at mib 2 = 0 ∧
    (mib_at mib 3 = 0 ∨ mib_at mib 3 = AF_INET6 ∨ mib_at mib 3 = AF_INET) ∧
    mib_at mib 4 = k.NET_RT_IFLIST

/-- The tests under `ps_pledge & PLEDGE_DISKLABEL`. -/
def sysctl_disklabel (k : sysctl_names) (miblen : Int) (mib : List Int) : Prop :=
  (miblen = 2 ∧ mib_at mib 0 = k.CTL_KERN ∧ mib_at mib 1 = k.KERN_RAWPARTITION) ∨
  (miblen = 2 ∧ mib_at mib 0 = k.CTL_KERN ∧ mib_at mib 1 = k.KERN_MAXPARTITIONS) ∨
  (k.CPU_CHR2BLK.isSome = true ∧ miblen = 3 ∧ mib_at mib 0 = k.CTL_MACHDEP ∧
    some (mib_at mib 1) = k.CPU_CHR2BLK)

/-- The tests of `pledge_sysctl` that no promise guards. -/
def sysctl_always (k : sysctl_names) (miblen : Int) (mib : List Int) : Prop :=
  (miblen ≥ 3 ∧ mib_at mib 0 = k.CTL_HW ∧ mib_at mib 1 = k.HW_SENSORS) ∨
  (miblen = 2 ∧ mib_at mib 0 = k.CTL_KERN ∧ mib_at mib 1 = k.KERN_DOMAINNAME) ∨
  (miblen = 2 ∧ mib_at mib 0 = k.CTL_KERN ∧ mib_at mib 1 = k.KERN_HOSTNAME) ∨
  (miblen = 6 ∧ mib_at mib 0 = k.CTL_NET ∧ mib_at mib 1 = k.PF_ROUTE ∧ mib_at mib 2 = 0 ∧
    mib_at mib 3 = 0 ∧ mib_at mib 4 = k.NET_RT_IFNAMES) ∨
  (miblen = 2 ∧ mib_at mib 0 = k.CTL_KERN ∧ mib_at mib 1 = k.KERN_OSTYPE) ∨
  (miblen = 2 ∧ mib_at mib 0 = k.CTL_KERN ∧ mib_at mib 1 = k.KERN_OSRELEASE) ∨
  (miblen = 2 ∧ mib_at mib 0 = k.CTL_KERN ∧ mib_at mib 1 = k.KERN_OSVERSION) ∨
  (miblen = 2 ∧ mib_at mib 0 = k.CTL_KERN ∧ mib_at mib 1 = k.KERN_VERSION) ∨
  (miblen = 2 ∧ mib_at mib 0 = k.CTL_KERN ∧ mib_at mib 1 = k.KERN_CLOCKRATE) ∨
  (miblen = 2 ∧ mib_at mib 0 = k.CTL_KERN ∧ mib_at mib 1 = k.KERN_ARGMAX) ∨
  (miblen = 2 ∧ mib_at mib 0 = k.CTL_KERN ∧ mib_at mib 1 = k.KERN_NGROUPS) ∨
  (miblen = 2 ∧ mib_at mib 0 = k.CTL_KERN ∧ mib_at mib 1 = k.KERN_SYSVSHM) ∨
  (miblen = 2 ∧ mib_at mib 0 = k.CTL_KERN ∧ mib_at mib 1 = k.KERN_POSIX1) ∨
  (miblen = 2 ∧ mib_at mib 0 = k.CTL_HW ∧ mib_at mib 1 = k.HW_MACHINE) ∨
  (miblen = 2 ∧ mib_at mib 0 = k.CTL_HW ∧ mib_at mib 1 = k.HW_PAGESIZE) ∨
  (miblen = 2 ∧ mib_at mib 0 = k.CTL_VM ∧ mib_at mib 1 = k.VM_PSSTRINGS) ∨
  (miblen = 2 ∧ mib_at mib 0 = k.CTL_HW ∧ mib_at mib 1 = k.HW_NCPU) ∨
  (miblen = 2 ∧ mib_at mib 0 = k.CTL_VM ∧ mib_at mib 1 = k.VM_LOADAVG)

instance (k : sysctl_names) (miblen : Int) (mib : List Int) :
    Decidable (sysctl_route k miblen mib) := by unfold sysctl_route; infer_instance
instance (k : sysctl_names) (miblen : Int) (mib : List Int) :
    Decidable (sysctl_ps_vminfo k miblen mib) := by unfold sysctl_ps_vminfo; infer_instance
instance (k : sysctl_names) (miblen : Int) (mib : List Int) :
    Decidable (sysctl_ps k miblen mib) := by unfold sysctl_ps; infer_instance
instance (k : sysctl_names) (miblen : Int) (mib : List Int) :
    Decidable (sysctl_vminfo k miblen mib) := by unfold sysctl_vminfo; infer_instance
instance (k : sysctl_names) (miblen : Int) (mib : List Int) :
    Decidable (sysctl_ifaddrs k miblen mib) := by unfold sysctl_ifaddrs; infer_instance
instance (k : sysctl_names) (miblen : Int) (mib : List Int) :
    Decidable (sysctl_disklabel k miblen mib) := by unfold sysctl_disklabel; infer_instance
instance (k : sysctl_names) (miblen : Int) (mib : List Int) :
    Decidable (sysctl_always k miblen mib) := by unfold sysctl_always; infer_instance

/-- Source `pledge_sysctl(p, miblen, mib, new)`; `new` is `none` for a NULL
pointer.  Every test that succeeds returns 0, so the tests of one block are
a disjunction, in source order. -/
def pledge_sysctl (k : sysctl_names) (p : proc) (miblen : Int) (mib : List Int)
    (new : Option Nat) : Int × proc :=
  verdict.run p <|
    if p.p_p.PS_PLEDGE = false then .ret 0
    else if new.isSome then .fail EFAULT 0
    else if p.p_p.ps_pledge &&& PLEDGE_ROUTE ≠ 0 ∧ sysctl_route k miblen mib then .ret 0
    else if p.p_p.ps_pledge &&& (PLEDGE_PS ||| PLEDGE_VMINFO) ≠ 0 ∧
        sysctl_ps_vminfo k miblen mib then .ret 0
    else if p.p_p.ps_pledge &&& PLEDGE_PS ≠ 0 ∧ sysctl_ps k miblen mib then .ret 0
    else if p.p_p.ps_pledge &&& PLEDGE_VMINFO ≠ 0 ∧ sysctl_vminfo k miblen mib then .ret 0
    else if p.p_p.ps_pledge &&& (PLEDGE_ROUTE ||| PLEDGE_INET ||| PLEDGE_DNS) ≠ 0 ∧
        sysctl_ifaddrs k miblen mib then .ret 0
    else if p.p_p.ps_pledge &&& PLEDGE_DISKLABEL ≠ 0 ∧ sysctl_disklabel k miblen mib then
      .ret 0
    else if sysctl_always k miblen mib then .ret 0
    else .fail EINVAL 0

/-! ### The socket-option filter

The levels and option names come from `sys/socket.h`, `netinet/in.h`,
`netinet6/in6.h` and `netinet/tcp.h`, none of which is among the sources:
they are the fields of a parameter of the filter. -/

/-- The levels and option names that `pledge_sockopt` compares with. -/
structure sockopt_names where
  SOL_SOCKET : Int
  SO_RCVBUF : Int
  SO_ERROR : Int
  SO_TIMESTAMP : Int
  SO_RTABLE : Int
  IPPROTO_IP : Int
  IPPROTO_ICMP : Int
  IPPROTO_TCP : Int
  IPPROTO_IPV6 : Int
  IPPROTO_ICMPV6 : Int
  TCP_NODELAY : Int
  TCP_MD5SIG : Int
  TCP_SACK_ENABLE : Int
  TCP_MAXSEG : Int
  TCP_NOPUSH : Int
  IP_OPTIONS : Int
  IP_TOS : Int
  IP_TTL : Int
  IP_MINTTL : Int
  IP_IPDEFTTL : Int
  IP_PORTRANGE : Int
  IP_RECVDSTADDR : Int
  IP_RECVDSTPORT : Int
  IP_MULTICAST_IF : Int
  IP_MULTICAST_TTL : Int
  IP_MULTICAST_LOOP : Int
  IP_ADD_MEMBERSHIP : Int
  IP_DROP_MEMBERSHIP : Int
  IPV6_TCLASS : Int
  IPV6_UNICAST_HOPS : Int
  IPV6_MINHOPCOUNT : Int
  IPV6_RECVHOPLIMIT : Int
  IPV6_PORTRANGE : Int
  IPV6_RECVPKTINFO : Int
  IPV6_RECVDSTPORT : Int
  IPV6_USE_MIN_MTU : Int
  IPV6_MULTICAST_IF : Int
  IPV6_MULTICAST_HOPS : Int
  IPV6_MULTICAST_LOOP : Int
  IPV6_JOIN_GROUP : Int
  IPV6_LEAVE_GROUP : Int

/-- The `switch (level)` under `ps_pledge & PLEDGE_YPACTIVE`: it returns 0. -/
def sockopt_ypactive (k : sockopt_names) (level optname : Int) : Bool :=
  if level = k.IPPROTO_IP then decide (optname = k.IP_PORTRANGE)
  else if level = k.IPPROTO_IPV6 then decide (optname = k.IPV6_PORTRANGE)
  else false

/-- The last `switch (level)` of `pledge_sockopt`, reached with `inet` held:
it returns 0. -/
def sockopt_inet (k : sockopt_names) (promises : Nat) (set : Int) (level optname : Int) :
    Bool :=
  if level = k.IPPROTO_TCP then
    decide (optname = k.TCP_NODELAY ∨ optname = k.TCP_MD5SIG ∨ optname = k.TCP_SACK_ENABLE ∨
      optname = k.TCP_MAXSEG ∨ optname = k.TCP_NOPUSH)
  else if level = k.IPPROTO_IP then
    if optname = k.IP_OPTIONS then decide (set = 0)
    else if optname = k.IP_TOS ∨ optname = k.IP_TTL ∨ optname = k.IP_MINTTL ∨
        optname = k.IP_IPDEFTTL ∨ optname = k.IP_PORTRANGE ∨ optname = k.IP_RECVDSTADDR ∨
        optname = k.IP_RECVDSTPORT then true
    else if optname = k.IP_MULTICAST_IF ∨ optname = k.IP_MULTICAST_TTL ∨
        optname = k.IP_MULTICAST_LOOP ∨ optname = k.IP_ADD_MEMBERSHIP ∨
        optname = k.IP_DROP_MEMBERSHIP then decide (promises &&& PLEDGE_MCAST ≠ 0)
    else false
  else if level = k.IPPROTO_ICMP then false
  else if level = k.IPPROTO_IPV6 then
    if optname = k.IPV6_TCLASS ∨ optname = k.IPV6_UNICAST_HOPS ∨
        optname = k.IPV6_MINHOPCOUNT ∨ optname = k.IPV6_RECVHOPLIMIT ∨
        optname = k.IPV6_PORTRANGE ∨ optname = k.IPV6_RECVPKTINFO ∨
        optname = k.IPV6_RECVDSTPORT then true
    else if optname = k.IPV6_MULTICAST_IF ∨ optname = k.IPV6_MULTICAST_HOPS ∨
        optname = k.IPV6_MULTICAST_LOOP ∨ optname = k.IPV6_JOIN_GROUP ∨
        optname = k.IPV6_LEAVE_GROUP then decide (promises &&& PLEDGE_MCAST ≠ 0)
    else false
  else false

/-- Source `pledge_sockopt(p, set, level, optname)`. -/
def pledge_sockopt (k : sockopt_names) (p : proc) (set : Int) (level optname : Int) :
    Int × proc :=
  verdict.run p <|
    if p.p_p.PS_PLEDGE = false then .ret 0
    else if level = k.SOL_SOCKET ∧ (optname = k.SO_RCVBUF ∨ optname = k.SO_ERROR) then .ret 0
    else if p.p_p.ps_pledge &&&
        (PLEDGE_INET ||| PLEDGE_UNIX ||| PLEDGE_DNS ||| PLEDGE_YPACTIVE) = 0 then
      .fail EPERM PLEDGE_INET
    else if level = k.SOL_SOCKET ∧ optname = k.SO_TIMESTAMP then .ret 0
    else if p.p_p.ps_pledge &&& PLEDGE_DNS ≠ 0 ∧ level = k.IPPROTO_IPV6 ∧
        (optname = k.IPV6_RECVPKTINFO ∨ optname = k.IPV6_USE_MIN_MTU) then .ret 0
    else if p.p_p.ps_pledge &&& PLEDGE_YPACTIVE ≠ 0 ∧
        sockopt_ypactive k level optname = true then .ret 0
    else if p.p_p.ps_pledge &&& (PLEDGE_INET ||| PLEDGE_UNIX) = 0 then
      .fail EPERM PLEDGE_INET
    else if level = k.SOL_SOCKET then
      if optname = k.SO_RTABLE then .fail EINVAL PLEDGE_INET else .ret 0
    else if p.p_p.ps_pledge &&& PLEDGE_INET = 0 then .fail EPERM PLEDGE_INET
    else if sockopt_inet k p.p_p.ps_pledge set level optname = true then .ret 0
    else .fail EPERM PLEDGE_INET

/-! ### The ioctl filter

The command numbers come from `sys/ioctl.h`, `sys/sockio.h`, `net/bpf.h`,
`sys/mtio.h`, `sys/audioio.h`, `sys/dkio.h`, `dev/biovar.h`, `net/pfvar.h`,
`sys/tty.h` and `netinet6/in6_var.h`; the device counts `NBPFILTER`, ... are
set by the kernel configuration; `cdevsw`, `bdevsw` and `major` belong to the
device switch; `pledge_ioctl_drm` and `pledge_ioctl_vmm` are defined in the
drivers.  None of them is among the sources: they are the fields of a
parameter of the filter.  Functions are compared by address. -/

/-- What `pledge_ioctl` takes from outside `kern_pledge.c`. -/
structure ioctl_env where
  FIONREAD : Int
  FIONBIO : Int
  FIOCLEX : Int
  FIONCLEX : Int
  SIOCATMARK : Int
  SIOCGIFGROUP : Int
  BIOCGSTATS : Int
  MTIOCGET : Int
  MTIOCTOP : Int
  AUDIO_GETPOS : Int
  AUDIO_GETPAR : Int
  AUDIO_SETPAR : Int
  AUDIO_START : Int
  AUDIO_STOP : Int
  DIOCGDINFO : Int
  DIOCGPDINFO : Int
  DIOCRLDINFO : Int
  DIOCWDINFO : Int
  BIOCDISK : Int
  BIOCINQ : Int
  BIOCINSTALLBOOT : Int
  BIOCVOL : Int
  DIOCMAP : Int
  DIOCADDRULE : Int
  DIOCGETSTATUS : Int
  DIOCNATLOOK : Int
  DIOCRADDTABLES : Int
  DIOCRCLRADDRS : Int
  DIOCRCLRTABLES : Int
  DIOCRCLRTSTATS : Int
  DIOCRGETTSTATS : Int
  DIOCRSETADDRS : Int
  DIOCXBEGIN : Int
  DIOCXCOMMIT : Int
  DIOCKILLSRCNODES : Int
  PTMGET : Int
  TIOCSTI : Int
  TIOCSPGRP : Int
  TIOCFLUSH : Int
  TIOCGPGRP : Int
  TIOCGETA : Int
  TIOCGWINSZ : Int
  TIOCSWINSZ : Int
  TIOCEXT : Int
  TIOCCBRK : Int
  TIOCSBRK : Int
  TIOCCDTR : Int
  TIOCSDTR : Int
  TIOCEXCL : Int
  TIOCSETA : Int
  TIOCSETAW : Int
  TIOCSETAF : Int
  TIOCSCTTY : Int
  SIOCGIFADDR : Int
  SIOCGIFFLAGS : Int
  SIOCGIFMETRIC : Int
  SIOCGIFGMEMB : Int
  SIOCGIFRDOMAIN : Int
  SIOCGIFDSTADDR_IN6 : Int
  SIOCGIFNETMASK_IN6 : Int
  SIOCGIFXFLAGS : Int
  SIOCGNBRINFO_IN6 : Int
  SIOCGIFINFO_IN6 : Int
  SIOCGIFMEDIA : Int
  NBPFILTER : Nat
  NDRM : Nat
  NAUDIO : Nat
  NPF : Nat
  NPTY : Nat
  NVMM : Nat
  major : Nat → Nat
  cdevsw_d_open : Nat → Nat
  cdevsw_d_ioctl : Nat → Nat
  cdevsw_d_type : Nat → Int
  bdevsw_d_type : Nat → Int
  vn_ioctl : Nat
  drmopen : Nat
  audioopen : Nat
  diskmapioctl : Nat
  pfopen : Nat
  ptmopen : Nat
  vmmopen : Nat
  pledge_ioctl_drm : proc → Int → Nat → Int
  pledge_ioctl_vmm : proc → Int → Int

/-- The test `fp->f_type == DTYPE_VNODE && (vp->v_flag & VISTTY)`. -/
def file_is_tty (fp : file) : Bool :=
  decide (fp.f_type = DTYPE_VNODE ∧ fp.f_data.v_flag &&& VISTTY ≠ 0)

/-- The test `fp->f_type == DTYPE_VNODE && vp->v_type == VCHR &&
cdevsw[major(vp->v_rdev)].d_open == dopen`. -/
def file_is_cdev (k : ioctl_env) (fp : file) (dopen : Nat) : Bool :=
  decide (fp.f_type = DTYPE_VNODE ∧ fp.f_data.v_type = VCHR ∧
    k.cdevsw_d_open (k.major fp.f_data.v_rdev) = dopen)

/-- The blocks of `pledge_ioctl` from `PLEDGE_INET` to `PLEDGE_TAPE`: the
value they return, `none` when control reaches the next block. -/
def ioctl_inet_bpf_tape (k : ioctl_env) (promises : Nat) (com : Int) (fp : file) :
    Option Int :=
  if promises &&& PLEDGE_INET ≠ 0 ∧ (com = k.SIOCATMARK ∨ com = k.SIOCGIFGROUP) ∧
      fp.f_type = DTYPE_SOCKET then some 0
  else if k.NBPFILTER > 0 ∧ promises &&& PLEDGE_BPF ≠ 0 ∧ com = k.BIOCGSTATS ∧
      fp.f_type = DTYPE_VNODE ∧ fp.fo_ioctl = k.vn_ioctl then some 0
  else if promises &&& PLEDGE_TAPE ≠ 0 ∧ (com = k.MTIOCGET ∨ com = k.MTIOCTOP) ∧
      fp.f_type = DTYPE_VNODE ∧ fp.f_data.v_type = VCHR then
    if fp.f_data.v_flag &&& VISTTY ≠ 0 then some ENOTTY else some 0
  else none

/-- The test that guards the call of `pledge_ioctl_drm`. -/
def ioctl_drm_guard (k : ioctl_env) (promises : Nat) (fp : file) : Bool :=
  decide (k.NDRM > 0 ∧ promises &&& PLEDGE_DRM ≠ 0) && file_is_cdev k fp k.drmopen

/-- The test that guards the call of `pledge_ioctl_vmm`. -/
def ioctl_vmm_guard (k : ioctl_env) (promises : Nat) (fp : file) : Bool :=
  decide (k.NVMM > 0 ∧ promises &&& PLEDGE_VMM ≠ 0) && file_is_cdev k fp k.vmmopen

/-- The `switch (com)` under `ps_pledge & PLEDGE_DISKLABEL`: it returns 0. -/
def ioctl_disklabel (k : ioctl_env) (com : Int) (fp : file) : Bool :=
  if com = k.DIOCGDINFO ∨ com = k.DIOCGPDINFO ∨ com = k.DIOCRLDINFO ∨ com = k.DIOCWDINFO ∨
      com = k.BIOCDISK ∨ com = k.BIOCINQ ∨ com = k.BIOCINSTALLBOOT ∨ com = k.BIOCVOL then
    decide (fp.f_type = DTYPE_VNODE ∧
      ((fp.f_data.v_type = VCHR ∧ k.cdevsw_d_type (k.major fp.f_data.v_rdev) = D_DISK) ∨
        (fp.f_data.v_type = VBLK ∧ k.bdevsw_d_type (k.major fp.f_data.v_rdev) = D_DISK)))
  else if com = k.DIOCMAP then
    decide (fp.f_type = DTYPE_VNODE ∧ fp.f_data.v_type = VCHR ∧
      k.cdevsw_d_ioctl (k.major fp.f_data.v_rdev) = k.diskmapioctl)
  else false

/-- The blocks of `pledge_ioctl` from ` PLEDGE_AUDIO` to `PLEDGE_PF`. -/
def ioctl_audio_disklabel_pf (k : ioctl_env) (promises : Nat) (com : Int) (fp : file) :
    Option Int :=
  if k.NAUDIO > 0 ∧ promises &&& PLEDGE_AUDIO ≠ 0 ∧
      (com = k.AUDIO_GETPOS ∨ com = k.AUDIO_GETPAR ∨ com = k.AUDIO_SETPAR ∨
        com = k.AUDIO_START ∨ com = k.AUDIO_STOP) ∧
      file_is_cdev k fp k.audioopen = true then some 0
  else if promises &&& PLEDGE_DISKLABEL ≠ 0 ∧ ioctl_disklabel k com fp = true then some 0
  else if k.NPF > 0 ∧ promises &&& PLEDGE_PF ≠ 0 ∧
      (com = k.DIOCADDRULE ∨ com = k.DIOCGETSTATUS ∨ com = k.DIOCNATLOOK ∨
        com = k.DIOCRADDTABLES ∨ com = k.DIOCRCLRADDRS ∨ com = k.DIOCRCLRTABLES ∨
        com = k.DIOCRCLRTSTATS ∨ com = k.DIOCRGETTSTATS ∨ com = k.DIOCRSETADDRS ∨
        com = k.DIOCXBEGIN ∨ com = k.DIOCXCOMMIT ∨ com = k.DIOCKILLSRCNODES) ∧
      file_is_cdev k fp k.pfopen = true then some 0
  else none

/-- The `switch (com)` under `ps_pledge & PLEDGE_TTY`: the value it returns,
`none` when control leaves it through a `break`. -/
def ioctl_tty (k : ioctl_env) (promises : Nat) (com : Int) (fp : file) : Option Int :=
  if k.NPTY > 0 ∧ com = k.PTMGET then
    if promises &&& PLEDGE_RPATH = 0 then none
    else if promises &&& PLEDGE_WPATH = 0 then none
    else if fp.f_type ≠ DTYPE_VNODE ∨ fp.f_data.v_type ≠ VCHR then none
    else if k.cdevsw_d_open (k.major fp.f_data.v_rdev) ≠ k.ptmopen then none
    else some 0
  else if com = k.TIOCSTI then
    if promises &&& PLEDGE_PROC ≠ 0 ∧ file_is_tty fp = true then some 0 else none
  else if com = k.TIOCSPGRP ∧ promises &&& PLEDGE_PROC = 0 then none
  else if com = k.TIOCSPGRP ∨ com = k.TIOCFLUSH ∨ com = k.TIOCGPGRP ∨ com = k.TIOCGETA ∨
      com = k.TIOCGWINSZ then
    if file_is_tty fp = true then some 0 else some ENOTTY
  else if com = k.TIOCSWINSZ ∨ com = k.TIOCEXT ∨ com = k.TIOCCBRK ∨ com = k.TIOCSBRK ∨
      com = k.TIOCCDTR ∨ com = k.TIOCSDTR ∨ com = k.TIOCEXCL ∨ com = k.TIOCSETA ∨
      com = k.TIOCSETAW ∨ com = k.TIOCSETAF ∨ com = k.TIOCSCTTY then
    if file_is_tty fp = true then some 0 else none
  else none

/-- The blocks `PLEDGE_TTY` and `PLEDGE_ROUTE` of `pledge_ioctl`. -/
def ioctl_tty_route (k : ioctl_env) (promises : Nat) (com : Int) (fp : file) : Option Int :=
  match (if promises &&& PLEDGE_TTY ≠ 0 then ioctl_tty k promises com fp else none) with
  | some r => some r
  | none =>
    if promises &&& PLEDGE_ROUTE ≠ 0 ∧
        (com = k.SIOCGIFADDR ∨ com = k.SIOCGIFFLAGS ∨ com = k.SIOCGIFMETRIC ∨
          com = k.SIOCGIFGMEMB ∨ com = k.SIOCGIFRDOMAIN ∨ com = k.SIOCGIFDSTADDR_IN6 ∨
          com = k.SIOCGIFNETMASK_IN6 ∨ com = k.SIOCGIFXFLAGS ∨ com = k.SIOCGNBRINFO_IN6 ∨
          com = k.SIOCGIFINFO_IN6 ∨ com = k.SIOCGIFMEDIA) ∧
        fp.f_type = DTYPE_SOCKET then some 0
    else none

/-- The part of `pledge_ioctl` that follows the `VBAD` test.  The local
`error` starts as EPERM, takes the result of `pledge_ioctl_drm` and of
`pledge_ioctl_vmm` when they are called, and is what the final
`pledge_fail(p, error, PLEDGE_TTY)` returns. -/
def ioctl_filter (k : ioctl_env) (p : proc) (com : Int) (fp : file) : verdict :=
  match ioctl_inet_bpf_tape k p.p_p.ps_pledge com fp with
  | some r => .ret r
  | none =>
    let error1 : Int :=
      if ioctl_drm_guard k p.p_p.ps_pledge fp = true then
        k.pledge_ioctl_drm p com fp.f_data.v_rdev
      else EPERM
    if ioctl_drm_guard k p.p_p.ps_pledge fp = true ∧ error1 = 0 then .ret 0
    else
      match ioctl_audio_disklabel_pf k p.p_p.ps_pledge com fp with
      | some r => .ret r
      | none =>
        match ioctl_tty_route k p.p_p.ps_pledge com fp with
        | some r => .ret r
        | none =>
          let error2 : Int :=
            if ioctl_vmm_guard k p.p_p.ps_pledge fp = true then k.pledge_ioctl_vmm p com
            else error1
          if ioctl_vmm_guard k p.p_p.ps_pledge fp = true ∧ error2 = 0 then .ret 0
          else .fail error2 PLEDGE_TTY

/-- Source `pledge_ioctl(p, com, fp)`. -/
def pledge_ioctl (k : ioctl_env) (p : proc) (com : Int) (fp : file) : Int × proc :=
  verdict.run p <|
    if p.p_p.PS_PLEDGE = false then .ret 0
    else if com = k.FIONREAD ∨ com = k.FIONBIO ∨ com = k.FIOCLEX ∨ com = k.FIONCLEX then
      .ret 0
    else if fp.f_type = DTYPE_VNODE ∧ fp.f_data.v_type = VBAD then .ret ENOTTY
    else ioctl_filter k p com fp

/-- The descriptor is one that may be passed: a socket, a pipe, or a vnode
that is not a directory. -/
def passable (fp : file) : Prop :=
  fp.f_type = DTYPE_SOCKET ∨ fp.f_type = DTYPE_PIPE ∨
    (fp.f_type = DTYPE_VNODE ∧ fp.f_data.v_type ≠ VDIR)

instance (fp : file) : Decidable (passable fp) := by
  unfold passable
  infer_instance

/-! ## The whitelist gate

`pledge_namei_wlpath` is compiled in although `sys_pledge` refuses every
paths argument; it compares the resolved path of a lookup with the entries of
the whitelist. -/

/-- Modelled from the spec: `sys/syscall.h` is missing; number of `lstat`. -/
def SYS_lstat : Int := 40
/-- Modelled from the spec: `sys/syscall.h` is missing; number of `fstatat`. -/
def SYS_fstatat : Int := 42
/-- Modelled from the spec: `sys/syscall.h` is missing; number of `fstat`. -/
def SYS_fstat : Int := 53

/-- The loop `for (i = 0; i < s1 || i < s2; i++) if (p1[i] != p2[i]) break;`
of `substrcmp`, from index `i`: the value of `i` when it ends.  The first
argument bounds the iterations; with `max s1 s2 - i` the bound 0 is met where
the loop condition fails. -/
def substrcmp_loop (p1 p2 : List Char) (s1 s2 : Nat) : Nat → Nat → Nat
  | 0, i => i
  | n + 1, i =>
    if i < s1 ∨ i < s2 then
      if peek p1 i ≠ peek p2 i then i
      else substrcmp_loop p1 p2 s1 s2 n (i + 1)
    else i

/-- Source `substrcmp(p1, s1, p2, s2)`: 1 when string 1 is a subpath of
string 2, 2 when string 2 is a subpath of string 1, else 0. -/
def substrcmp (p1 : List Char) (s1 : Nat) (p2 : List Char) (s2 : Nat) : Int :=
  if substrcmp_loop p1 p2 s1 s2 (max s1 s2) 0 = s1 then 1
  else if substrcmp_loop p1 p2 s1 s2 (max s1 s2) 0 = s2 then 2
  else 0

/-- One entry `wl_paths[i]` of `struct whitepaths`: the string `name` (`none`
for a NULL pointer) and `len`, its size with the terminating NUL.  `sys/pledge.h`
is missing; the fields are those the source reads and writes. -/
structure whitepath where
  name : Option (List Char)
  len : Nat
deriving DecidableEq, Repr

/-- What `resolvpath` obtains from the file system: `cwd` is the outcome of
`vfs_getcwd_common` on the current directory (an error or the string), and
`rdir` is `none` when the process is not chrooted (`fd_rdir == NULL`), else
the outcome of `vfs_getcwd_common` on the root directory. -/
structure lookup_env where
  cwd : Except Int (List Char)
  rdir : Option (Except Int (List Char))

/-- The C library `snprintf(buf, size, "%s...", ...)` on the formatted
string `s`: what it stores, at most `size - 1` bytes. -/
def snprintf (size : Nat) (s : List Char) : List Char := s.take (size - 1)

/-- Steps 2 and 3 of `resolvpath`: canonicalise `abspath` in a buffer of
`abspathlen` bytes, check the exact size against MAXPATHLEN, and prepend the
root directory when chrooted.  Returns `*resolved` and `*resolvedlen`. -/
def resolvpath_canon (env : lookup_env) (abspath : List Char) (abspathlen : Nat) :
    Except Int (List Char × Nat) :=
  match canonpath abspath abspathlen with
  | .error error => .error error
  | .ok canopath =>
    if (cstr canopath).length + 1 > MAXPATHLEN then .error ENAMETOOLONG
    else
      match env.rdir with
      | some (.error error) => .error error
      | some (.ok rdir) =>
        .ok (snprintf ((cstr rdir).length + 1 + ((cstr canopath).length + 1) - 1)
            (cstr rdir ++ cstr canopath),
          (cstr rdir).length + 1 + ((cstr canopath).length + 1) - 1)
      | none => .ok (canopath.take ((cstr canopath).length + 1), (cstr canopath).length + 1)

/-- Source `resolvpath(p, &rdir, &rdirlen, &cwd, &cwdlen, path, pathlen,
&resolved, &resolvedlen)` called with `*rdir == NULL` and `*cwd == NULL`, as
`pledge_namei_wlpath` does: the error, or the resolved string and its size
with the NUL.  A relative path is appended to the current directory, an
absolute one is copied (`pathlen` bytes). -/
def resolvpath (env : lookup_env) (path : List Char) (pathlen : Nat) :
    Except Int (List Char × Nat) :=
  if peek path 0 ≠ '/' then
    match env.cwd with
    | .error error => .error error
    | .ok cwd =>
      resolvpath_canon env
        (snprintf ((cstr cwd).length + 1 + pathlen) (cstr cwd ++ '/' :: cstr path))
        ((cstr cwd).length + 1 + pathlen)
  else resolvpath_canon env (path.take pathlen) pathlen

/-- The loop of `pledge_namei_wlpath` over the entries
`wl_paths[i], i < wl_count`, with the running `error` and `pardir_found`; it
ends at the first NULL name and as soon as `error` is 0.  An entry with a
name has `len >= 1`, so `len - 1` does not wrap. -/
def wl_loop (resolved : List Char) (resolvedlen : Nat) :
    List whitepath → Int → Bool → Int × Bool
  | [], error, pardir_found => (error, pardir_found)
  | w :: wl, error, pardir_found =>
    match w.name with
    | none => (error, pardir_found)
    | some name =>
      if error = 0 then (error, pardir_found)
      else if substrcmp name (w.len - 1) resolved (resolvedlen - 1) = 1 then
        if peek resolved (w.len - 1) = NUL ∨ peek resolved (w.len - 1) = '/' ∨
            peek name 1 = NUL then
          wl_loop resolved resolvedlen wl 0 pardir_found
        else wl_loop resolved resolvedlen wl error pardir_found
      else if substrcmp name (w.len - 1) resolved (resolvedlen - 1) = 2 then
        if peek resolved 1 = NUL ∨ peek name (resolvedlen - 1) = '/' then
          wl_loop resolved resolvedlen wl error true
        else wl_loop resolved resolvedlen wl error pardir_found
      else wl_loop resolved resolvedlen wl error pardir_found

/-- Source `pledge_namei_wlpath(p, ni)`.  `wl` is `p->p_p->ps_pledgepaths`
(`none` for NULL, on which the `KASSERT` fails: result `none`), its list the
entries below `wl_count`; `ni_p_path` and `ni_p_length` are those fields of
`ni`.  The result is the return value and the lookup, whose `ni_pledge` may
have been tagged. -/
def pledge_namei_wlpath (p : proc) (wl : Option (List whitepath)) (env : lookup_env)
    (ni : nameidata) (ni_p_path : Option (List Char)) (ni_p_length : Nat) :
    Option (Int × nameidata) :=
  match ni_p_path with
  | none => some (0, ni)
  | some path =>
    match wl with
    | none => none
    | some wl =>
      match resolvpath env path (ni_p_length + 1) with
      | .error error => some (error, ni)
      | .ok (resolved, resolvedlen) =>
        if (wl_loop resolved resolvedlen wl ENOENT false).2 = true ∧
            (p.p_pledge_syscall = SYS_stat ∨ p.p_pledge_syscall = SYS_lstat ∨
              p.p_pledge_syscall = SYS_fstatat ∨ p.p_pledge_syscall = SYS_fstat) then
          some (0, { ni with ni_pledge := ni.ni_pledge ||| PLEDGE_STATLIE })
        else some ((wl_loop resolved resolvedlen wl ENOENT false).1, ni)

/-- The length of the longest common prefix of two strings. -/
def lcp : List Char → List Char → Nat
  | c :: s, d :: t => if c = d then lcp s t + 1 else 0
  | _, _ => 0

/-- Reference: `a` is a proper path-ancestor of `b`: a proper prefix of `b`
that ends at a component boundary, that is, the byte of `b` after it is '/',
or `a` is the root "/" (which ends in the slash itself). -/
def path_ancestor (a b : List Char) : Prop :=
  a <+: b ∧ a ≠ b ∧ (peek b a.length = '/' ∨ a = ['/'])

instance (a b : List Char) : Decidable (path_ancestor a b) := by
  unfold path_ancestor
  infer_instance

/-- Reference: the whitelist entry `name` matches the resolved path `r`
exactly or as an ancestor (`r` is `name` or a descendant of it). -/
def wl_match (name r : List Char) : Prop := name = r ∨ path_ancestor name r

instance (name r : List Char) : Decidable (wl_match name r) := by
  unfold wl_match
  infer_instance

/-- The whitelist that `sys_pledge` stores for the resolved names `names`:
each with its size, NUL included. -/
def whitelist (names : List (List Char)) : List whitepath :=
  names.map (fun n => ⟨some n, n.length + 1⟩)

/-- The syscalls for which an ancestor-only match is admitted: the `case`
labels of the `switch` at the end of `pledge_namei_wlpath`. -/
def stat_family (syscall : Int) : Prop :=
  syscall = SYS_stat ∨ syscall = SYS_lstat ∨ syscall = SYS_fstatat ∨ syscall = SYS_fstat

instance (syscall : Int) : Decidable (stat_family syscall) := by
  unfold stat_family
  infer_instance

/-- A sample assignment of the levels and option names (the numbers of the
BSD socket headers), to run the socket-option filter on concrete calls. -/
def sample_sockopt_names : sockopt_names where
  SOL_SOCKET := 0xffff
  SO_RCVBUF := 0x1002
  SO_ERROR := 0x1007
  SO_TIMESTAMP := 0x0800
  SO_RTABLE := 0x1021
  IPPROTO_IP := 0
  IPPROTO_ICMP := 1
  IPPROTO_TCP := 6
  IPPROTO_IPV6 := 41
  IPPROTO_ICMPV6 := 58
  TCP_NODELAY := 1
  TCP_MD5SIG := 4
  TCP_SACK_ENABLE := 8
  TCP_MAXSEG := 2
  TCP_NOPUSH := 16
  IP_OPTIONS := 1
  IP_TOS := 3
  IP_TTL := 4
  IP_MINTTL := 32
  IP_IPDEFTTL := 37
  IP_PORTRANGE := 19
  IP_RECVDSTADDR := 7
  IP_RECVDSTPORT := 33
  IP_MULTICAST_IF := 9
  IP_MULTICAST_TTL := 10
  IP_MULTICAST_LOOP := 11
  IP_ADD_MEMBERSHIP := 12
  IP_DROP_MEMBERSHIP := 13
  IPV6_TCLASS := 61
  IPV6_UNICAST_HOPS := 4
  IPV6_MINHOPCOUNT := 65
  IPV6_RECVHOPLIMIT := 37
  IPV6_PORTRANGE := 14
  IPV6_RECVPKTINFO := 36
  IPV6_RECVDSTPORT := 64
  IPV6_USE_MIN_MTU := 42
  IPV6_MULTICAST_IF := 9
  IPV6_MULTICAST_HOPS := 10
  IPV6_MULTICAST_LOOP := 11
  IPV6_JOIN_GROUP := 12
  IPV6_LEAVE_GROUP := 13

/-! ## The syscall policy table -/

/-- Source table `pledge_syscalls[SYS_MAXSYSCALL]`: its designated
initialisers `[SYS_name] = flags`, in source order, each under the name of
its syscall. -/
def pledge_syscalls_init : List (String × Nat) :=
  [
    ("exit", PLEDGE_ALWAYS),
    ("kbind", PLEDGE_ALWAYS),
    ("__get_tcb", PLEDGE_ALWAYS),
    ("pledge", PLEDGE_ALWAYS),
    ("sendsyslog", PLEDGE_ALWAYS),
    ("thrkill", PLEDGE_ALWAYS),
    ("utrace", PLEDGE_ALWAYS),
    ("getuid", PLEDGE_STDIO),
    ("geteuid", PLEDGE_STDIO),
    ("getresuid", PLEDGE_STDIO),
    ("getgid", PLEDGE_STDIO),
    ("getegid", PLEDGE_STDIO),
    ("getresgid", PLEDGE_STDIO),
    ("getgroups", PLEDGE_STDIO),
    ("getlogin_r", PLEDGE_STDIO),
    ("getpgrp", PLEDGE_STDIO),
    ("getpgid", PLEDGE_STDIO),
    ("getppid", PLEDGE_STDIO),
    ("getsid", PLEDGE_STDIO),
    ("getthrid", PLEDGE_STDIO),
    ("getrlimit", PLEDGE_STDIO),
    ("gettimeofday", PLEDGE_STDIO),
    ("getdtablecount", PLEDGE_STDIO),
    ("getrusage", PLEDGE_STDIO),
    ("issetugid", PLEDGE_STDIO),
    ("clock_getres", PLEDGE_STDIO),
    ("clock_gettime", PLEDGE_STDIO),
    ("getpid", PLEDGE_STDIO),
    ("sysctl", PLEDGE_STDIO),
    ("getentropy", PLEDGE_STDIO),
    ("madvise", PLEDGE_STDIO),
    ("minherit", PLEDGE_STDIO),
    ("mmap", PLEDGE_STDIO),
    ("mprotect", PLEDGE_STDIO),
    ("mquery", PLEDGE_STDIO),
    ("munmap", PLEDGE_STDIO),
    ("msync", PLEDGE_STDIO),
    ("break", PLEDGE_STDIO),
    ("umask", PLEDGE_STDIO),
    ("read", PLEDGE_STDIO),
    ("readv", PLEDGE_STDIO),
    ("pread", PLEDGE_STDIO),
    ("preadv", PLEDGE_STDIO),
    ("write", PLEDGE_STDIO),
    ("writev", PLEDGE_STDIO),
    ("pwrite", PLEDGE_STDIO),
    ("pwritev", PLEDGE_STDIO),
    ("recvmsg", PLEDGE_STDIO),
    ("recvfrom", PLEDGE_STDIO ||| PLEDGE_YPACTIVE),
    ("ftruncate", PLEDGE_STDIO),
    ("lseek", PLEDGE_STDIO),
    ("fpathconf", PLEDGE_STDIO),
    ("sendto", PLEDGE_STDIO ||| PLEDGE_YPACTIVE),
    ("sendmsg", PLEDGE_STDIO),
    ("nanosleep", PLEDGE_STDIO),
    ("sigaltstack", PLEDGE_STDIO),
    ("sigprocmask", PLEDGE_STDIO),
    ("sigsuspend", PLEDGE_STDIO),
    ("sigaction", PLEDGE_STDIO),
    ("sigreturn", PLEDGE_STDIO),
    ("sigpending", PLEDGE_STDIO),
    ("getitimer", PLEDGE_STDIO),
    ("setitimer", PLEDGE_STDIO),
    ("poll", PLEDGE_STDIO),
    ("ppoll", PLEDGE_STDIO),
    ("kevent", PLEDGE_STDIO),
    ("kqueue", PLEDGE_STDIO),
    ("select", PLEDGE_STDIO),
    ("pselect", PLEDGE_STDIO),
    ("fstat", PLEDGE_STDIO),
    ("fsync", PLEDGE_STDIO),
    ("setsockopt", PLEDGE_STDIO),
    ("getsockopt", PLEDGE_STDIO),
    ("fcntl", PLEDGE_STDIO),
    ("close", PLEDGE_STDIO),
    ("dup", PLEDGE_STDIO),
    ("dup2", PLEDGE_STDIO),
    ("dup3", PLEDGE_STDIO),
    ("closefrom", PLEDGE_STDIO),
    ("shutdown", PLEDGE_STDIO),
    ("fchdir", PLEDGE_STDIO),
    ("pipe", PLEDGE_STDIO),
    ("pipe2", PLEDGE_STDIO),
    ("socketpair", PLEDGE_STDIO),
    ("wait4", PLEDGE_STDIO),
    ("kill", PLEDGE_STDIO),
    ("ioctl", PLEDGE_STDIO),
    ("open", PLEDGE_STDIO),
    ("stat", PLEDGE_STDIO),
    ("access", PLEDGE_STDIO),
    ("readlink", PLEDGE_STDIO),
    ("adjtime", PLEDGE_STDIO),
    ("adjfreq", PLEDGE_SETTIME),
    ("settimeofday", PLEDGE_SETTIME),
    ("__tfork", PLEDGE_STDIO),
    ("sched_yield", PLEDGE_STDIO),
    ("__thrsleep", PLEDGE_STDIO),
    ("futex", PLEDGE_ALWAYS),
    ("__thrwakeup", PLEDGE_STDIO),
    ("__threxit", PLEDGE_STDIO),
    ("__thrsigdivert", PLEDGE_STDIO),
    ("fork", PLEDGE_PROC),
    ("vfork", PLEDGE_PROC),
    ("setpgid", PLEDGE_PROC),
    ("setsid", PLEDGE_PROC),
    ("setrlimit", PLEDGE_PROC ||| PLEDGE_ID),
    ("getpriority", PLEDGE_PROC ||| PLEDGE_ID),
    ("setpriority", PLEDGE_PROC ||| PLEDGE_ID),
    ("setuid", PLEDGE_ID),
    ("seteuid", PLEDGE_ID),
    ("setreuid", PLEDGE_ID),
    ("setresuid", PLEDGE_ID),
    ("setgid", PLEDGE_ID),
    ("setegid", PLEDGE_ID),
    ("setregid", PLEDGE_ID),
    ("setresgid", PLEDGE_ID),
    ("setgroups", PLEDGE_ID),
    ("setlogin", PLEDGE_ID),
    ("execve", PLEDGE_EXEC),
    ("chdir", PLEDGE_RPATH),
    ("openat", PLEDGE_RPATH ||| PLEDGE_WPATH),
    ("fstatat", PLEDGE_RPATH ||| PLEDGE_WPATH),
    ("faccessat", PLEDGE_RPATH ||| PLEDGE_WPATH),
    ("readlinkat", PLEDGE_RPATH ||| PLEDGE_WPATH),
    ("lstat", PLEDGE_RPATH ||| PLEDGE_WPATH ||| PLEDGE_TMPPATH),
    ("truncate", PLEDGE_WPATH),
    ("rename", PLEDGE_RPATH ||| PLEDGE_CPATH),
    ("rmdir", PLEDGE_CPATH),
    ("renameat", PLEDGE_CPATH),
    ("link", PLEDGE_CPATH),
    ("linkat", PLEDGE_CPATH),
    ("symlink", PLEDGE_CPATH),
    ("symlinkat", PLEDGE_CPATH),
    ("unlink", PLEDGE_CPATH ||| PLEDGE_TMPPATH),
    ("unlinkat", PLEDGE_CPATH),
    ("mkdir", PLEDGE_CPATH),
    ("mkdirat", PLEDGE_CPATH),
    ("mkfifo", PLEDGE_DPATH),
    ("mknod", PLEDGE_DPATH),
    ("revoke", PLEDGE_TTY),
    ("__getcwd", PLEDGE_RPATH ||| PLEDGE_WPATH),
    ("getdents", PLEDGE_RPATH),
    ("getfsstat", PLEDGE_RPATH),
    ("statfs", PLEDGE_RPATH),
    ("fstatfs", PLEDGE_RPATH),
    ("pathconf", PLEDGE_RPATH),
    ("utimes", PLEDGE_FATTR),
    ("futimes", PLEDGE_FATTR),
    ("utimensat", PLEDGE_FATTR),
    ("futimens", PLEDGE_FATTR),
    ("chmod", PLEDGE_FATTR),
    ("fchmod", PLEDGE_FATTR),
    ("fchmodat", PLEDGE_FATTR),
    ("chflags", PLEDGE_FATTR),
    ("chflagsat", PLEDGE_FATTR),
    ("fchflags", PLEDGE_FATTR),
    ("chown", PLEDGE_CHOWN),
    ("fchownat", PLEDGE_CHOWN),
    ("lchown", PLEDGE_CHOWN),
    ("fchown", PLEDGE_CHOWN),
    ("socket", PLEDGE_INET ||| PLEDGE_UNIX ||| PLEDGE_DNS ||| PLEDGE_YPACTIVE),
    ("connect", PLEDGE_INET ||| PLEDGE_UNIX ||| PLEDGE_DNS ||| PLEDGE_YPACTIVE),
    ("bind", PLEDGE_INET ||| PLEDGE_UNIX ||| PLEDGE_DNS ||| PLEDGE_YPACTIVE),
    ("getsockname", PLEDGE_INET ||| PLEDGE_UNIX ||| PLEDGE_DNS ||| PLEDGE_YPACTIVE),
    ("listen", PLEDGE_INET ||| PLEDGE_UNIX),
    ("accept4", PLEDGE_INET ||| PLEDGE_UNIX),
    ("accept", PLEDGE_INET ||| PLEDGE_UNIX),
    ("getpeername", PLEDGE_INET ||| PLEDGE_UNIX),
    ("flock", PLEDGE_FLOCK ||| PLEDGE_YPACTIVE),
    ("swapctl", PLEDGE_VMINFO) ]
/-- C designated initialisers `[index] = value` of an array of `size`
entries: the array is zero-filled and the initialisers are stored in order,
a later one for the same index replacing an earlier one. -/
def designated (size : Nat) (init : List (Nat × Nat)) : List Nat :=
  init.foldl (fun a e => a.set e.1 e.2) (List.replicate size 0)

/-- Source array `pledge_syscalls`.  `sys/syscall.h` is not among the
sources: the numbering `SYS` of the syscall names and `SYS_MAXSYSCALL` are
parameters. -/
def pledge_syscalls (SYS : String → Nat) (SYS_MAXSYSCALL : Nat) : List Nat :=
  designated SYS_MAXSYSCALL (pledge_syscalls_init.map (fun e => (SYS e.1, e.2)))

/-- Reference: the flags the table gives for the syscall `name`: those of its
last initialiser, 0 when it has none. -/
def syscall_flags (name : String) : Nat :=
  match pledge_syscalls_init.reverse.find? (fun e => e.1 = name) with
  | some e => e.2
  | none => 0

/-- The syscall names that have an initialiser in the table. -/
def syscall_names : List String := pledge_syscalls_init.map Prod.fst

/-- Reference: a linear scan of the table `pledgereq` for the first entry
whose name compares equal to `req_name`; its flags, 0 when there is none. -/
def linear_scan (req_name : List Char) : Nat :=
  match pledgereq.find? (fun e => strcmp req_name e.1 = 0) with
  | some e => e.2
  | none => 0

/-- The state a violation leaves: the pledged flag set and no promise held. -/
def locked_out (s : proc) : Prop := s.p_p.PS_PLEDGE = true ∧ s.p_p.ps_pledge = 0

instance (s : proc) : Decidable (locked_out s) := by
  unfold locked_out
  infer_instance

/-! ## Memory accesses of canonpath

The loop of `canonpath` once more, with every store and every step of the
back-scan checked against the bounds of `buf`: the result is `none` as soon
as a byte would be stored at an index that is not below `bufsize` or the
back-scan would read before `buf[0]`. -/

/-- Source `while (*--q != '/') continue;` with the bound checked: `none`
when the scan reaches the start of `buf` without meeting a slash. -/
def scan_back_checked : List Char → Option (List Char)
  | [] => none
  | c :: r => if c = '/' then some r else scan_back_checked r

/-- The tail of `canonpath` with the store `*q = 0` checked. -/
def canon_exit_checked (bufsize : Nat) (p q : List Char) : Option (Except Int (List Char)) :=
  if peek p 0 = NUL ∧ q.length < bufsize then
    if q.length < bufsize then some (.ok q.reverse) else none
  else some (.error ENAMETOOLONG)

/-- The loop of `canonpath` with the store `*q++ = *p++` and the back-scan
checked. -/
def canon_loop_checked (bufsize : Nat) :
    Nat → List Char → List Char → Option (Except Int (List Char))
  | 0, p, q => canon_exit_checked bufsize p q
  | n + 1, p, q =>
    if peek p 0 ≠ NUL ∧ q.length < bufsize then
      if peek p 0 = '/' ∧ (peek p 1 = '/' ∨ peek p 1 = NUL) then
        canon_loop_checked bufsize n (p.drop 1) q
      else if peek p 0 = '/' ∧ peek p 1 = '.' ∧ (peek p 2 = '/' ∨ peek p 2 = NUL) then
        canon_loop_checked bufsize n (p.drop 2) q
      else if peek p 0 = '/' ∧ peek p 1 = '.' ∧ peek p 2 = '.' ∧
          (peek p 3 = '/' ∨ peek p 3 = NUL) then
        if q ≠ [] then
          match scan_back_checked q with
          | none => none
          | some q1 => canon_loop_checked bufsize n (p.drop 3) q1
        else canon_loop_checked bufsize n (p.drop 3) q
      else if q.length < bufsize then
        canon_loop_checked bufsize n (p.drop 1) (peek p 0 :: q)
      else none
    else canon_exit_checked bufsize p q

/-- Source `canonpath` with its memory accesses checked.  `strlcpy` stores at
most `bufsize - 1` bytes and a NUL, nothing when `bufsize` is 0 (its
contract). -/
def canonpath_checked (input : List Char) (bufsize : Nat) :
    Option (Except Int (List Char)) :=
  if peek input 0 ≠ '/' then
    if (strlcpy input bufsize).2 ≥ bufsize then some (.error ENAMETOOLONG)
    else if (strlcpy input bufsize).1.length + 1 ≤ bufsize then
      some (.ok (strlcpy input bufsize).1)
    else none
  else canon_loop_checked bufsize input.length input []

/-- What holds of the read position `p` and the bytes written `q` (last
written first) at every test of the loop condition: nothing is written and
`p` is at a component boundary, or the first byte of `buf` is a slash. -/
def canon_inv (p q : List Char) : Prop :=
  (q = [] ∧ at_boundary p) ∨ q.getLast? = some '/'

/-! ## Properties -/

/-- C2: the syscall gate returns EINVAL for a syscall number outside the
table, 0 when the entry is ALWAYS or shares a bit with the promises, and
otherwise EPERM with the required bitset handed back in tval; the promises
are unchanged in every case and tval is 0 unless the call is denied. -/
theorem pledge_syscall_gate (tbl : List Nat) (p : proc) (code : Int) :
    ((code < 0 ∨ (tbl.length : Int) ≤ code) →
        (pledge_syscall tbl p code).1 = EINVAL) ∧
    ((0 ≤ code ∧ code < (tbl.length : Int)) →
      ((tbl.getD code.toNat 0 = PLEDGE_ALWAYS ∨
          p.p_p.ps_pledge &&& tbl.getD code.toNat 0 ≠ 0) →
        (pledge_syscall tbl p code).1 = 0) ∧
      (¬ (tbl.getD code.toNat 0 = PLEDGE_ALWAYS ∨
          p.p_p.ps_pledge &&& tbl.getD code.toNat 0 ≠ 0) →
        (pledge_syscall tbl p code).1 = EPERM ∧
        (pledge_syscall tbl p code).2.1 = tbl.getD code.toNat 0)) ∧
    (pledge_syscall tbl p code).2.2.p_p = p.p_p ∧
    (pledge_syscall tbl p code).2.2.violations = p.violations ∧
    ((pledge_syscall tbl p code).1 ≠ EPERM →
      (pledge_syscall tbl p code).2.1 = 0) := by
  unfold pledge_syscall
  generalize tbl.getD code.toNat 0 = e
  refine ⟨?_, ?_, ?_, ?_, ?_⟩
  · intro h
    have h1 : code < 0 ∨ code > (tbl.length : Int) - 1 := by omega
    rw [if_pos h1]
  · intro h
    have h1 : ¬ (code < 0 ∨ code > (tbl.length : Int) - 1) := by omega
    rw [if_neg h1]
    constructor
    · rintro (ha | hb)
      · rw [if_pos ha]
      · by_cases ha : e = PLEDGE_ALWAYS
        · rw [if_pos ha]
        · rw [if_neg ha, if_pos hb]
    · intro hno
      push_neg at hno
      obtain ⟨ha, hb⟩ := hno
      rw [if_neg ha, if_neg (by simpa using hb)]
      exact ⟨rfl, rfl⟩
  · split_ifs <;> rfl
  · split_ifs <;> rfl
  · split_ifs <;> simp [EINVAL, EPERM]

/-- C4: the violation handler returns exactly the error it was given, sets
the promises to 0 and leaves the pledged flag and the recorded last-syscall
number unchanged. -/
theorem pledge_fail_clears (p : proc) (e : Int) (c : Nat) :
    (pledge_fail p e c).1 = e ∧
    (pledge_fail p e c).2.p_p.ps_pledge = 0 ∧
    (pledge_fail p e c).2.p_p.PS_PLEDGE = p.p_p.PS_PLEDGE ∧
    (pledge_fail p e c).2.p_p.PS_COREDUMP = p.p_p.PS_COREDUMP ∧
    (pledge_fail p e c).2.p_pledge_syscall = p.p_pledge_syscall ∧
    (pledge_fail p e c).2.violations =
      p.violations ++ [⟨e, c, p.p_pledge_syscall⟩] := by
  simp [pledge_fail]

theorem peek_nil (k : Nat) : peek [] k = NUL := by simp [peek]
theorem peek_cons_zero (c : Char) (s : List Char) : peek (c :: s) 0 = c := by simp [peek]
theorem peek_cons_succ (c : Char) (s : List Char) (k : Nat) :
    peek (c :: s) (k + 1) = peek s k := by simp [peek]

theorem canon_loop_fuel (b : Nat) : ∀ (n m : Nat) (p q : List Char),
    p.length ≤ n → p.length ≤ m → canon_loop b n p q = canon_loop b m p q := by
  intro n
  induction n with
  | zero =>
    intro m p q hn _
    have hp : p = [] := List.length_eq_zero.mp (Nat.le_zero.mp hn)
    subst hp
    cases m with
    | zero => rfl
    | succ m => simp [canon_loop, peek_nil]
  | succ n ih =>
    intro m p q hn hm
    cases m with
    | zero =>
      have hp : p = [] := List.length_eq_zero.mp (Nat.le_zero.mp hm)
      subst hp
      simp [canon_loop, peek_nil]
    | succ m =>
      cases p with
      | nil => simp [canon_loop, peek_nil]
      | cons c p1 =>
        have h1 : ∀ k, (List.drop k p1).length ≤ n := fun k => by
          have := List.length_drop k p1
          simp only [List.length_cons] at hn
          omega
        have h2 : ∀ k, (List.drop k p1).length ≤ m := fun k => by
          have := List.length_drop k p1
          simp only [List.length_cons] at hm
          omega
        simp only [canon_loop, List.drop_succ_cons]
        rw [ih m _ q (h1 0) (h2 0), ih m _ q (h1 1) (h2 1),
          ih m _ _ (h1 2) (h2 2), ih m _ (peek (c :: p1) 0 :: q) (h1 0) (h2 0)]

theorem canon_run_nil (b : Nat) (q : List Char) :
    canon_run b [] q = canon_exit b [] q := rfl

theorem canon_run_cons (b : Nat) (c : Char) (p1 q : List Char) :
    canon_run b (c :: p1) q =
    if c ≠ NUL ∧ q.length < b then
      if c = '/' ∧ (peek p1 0 = '/' ∨ peek p1 0 = NUL) then
        canon_run b p1 q
      else if c = '/' ∧ peek p1 0 = '.' ∧ (peek p1 1 = '/' ∨ peek p1 1 = NUL) then
        canon_run b (p1.drop 1) q
      else if c = '/' ∧ peek p1 0 = '.' ∧ peek p1 1 = '.' ∧
          (peek p1 2 = '/' ∨ peek p1 2 = NUL) then
        canon_run b (p1.drop 2) (if q ≠ [] then scan_back q else q)
      else
        canon_run b p1 (c :: q)
    else canon_exit b (c :: p1) q := by
  have h1 : ∀ k, (List.drop k p1).length ≤ p1.length := fun k => by
    have := List.length_drop k p1
    omega
  simp only [canon_run, List.length_cons, canon_loop, peek_cons_zero, peek_cons_succ,
    List.drop_succ_cons, List.drop_zero]
  rw [canon_loop_fuel b p1.length (List.drop 1 p1).length _ q (h1 1) le_rfl,
    canon_loop_fuel b p1.length (List.drop 2 p1).length _ _ (h1 2) le_rfl]

theorem canon_run_full (b : Nat) (p q : List Char) (h : ¬ q.length < b) :
    canon_run b p q = .error ENAMETOOLONG := by
  cases p with
  | nil => rw [canon_run_nil]; simp [canon_exit, h]
  | cons c p1 => rw [canon_run_cons]; simp [canon_exit, h]

theorem slash_ne_nul : ('/' : Char) ≠ NUL := by decide
theorem dot_ne_nul : ('.' : Char) ≠ NUL := by decide
theorem dot_ne_slash : ('.' : Char) ≠ '/' := by decide

theorem canon_run_empty (b : Nat) (rest q : List Char) (hq : q.length < b)
    (hr : at_boundary rest) :
    canon_run b ('/' :: rest) q = canon_run b rest q := by
  rw [canon_run_cons, if_pos ⟨slash_ne_nul, hq⟩, if_pos ⟨rfl, hr⟩]

theorem canon_run_dot (b : Nat) (rest q : List Char) (hq : q.length < b)
    (hr : at_boundary rest) :
    canon_run b ('/' :: '.' :: rest) q = canon_run b rest q := by
  rw [canon_run_cons, if_pos ⟨slash_ne_nul, hq⟩, if_neg, if_pos]
  · simp
  · exact ⟨rfl, by simp [peek_cons_zero], by simpa [peek_cons_succ] using hr⟩
  · simp [peek_cons_zero, dot_ne_slash, dot_ne_nul]

theorem canon_run_dotdot (b : Nat) (rest q : List Char) (hq : q.length < b)
    (hr : at_boundary rest) :
    canon_run b ('/' :: '.' :: '.' :: rest) q =
      canon_run b rest (if q ≠ [] then scan_back q else q) := by
  rw [canon_run_cons, if_pos ⟨slash_ne_nul, hq⟩, if_neg, if_neg, if_pos]
  · simp
  · exact ⟨rfl, by simp [peek_cons_zero], by simp [peek_cons_succ, peek_cons_zero],
      by simpa [peek_cons_succ] using hr⟩
  · simp [peek_cons_zero, peek_cons_succ, dot_ne_slash, dot_ne_nul]
  · simp [peek_cons_zero, dot_ne_slash, dot_ne_nul]

theorem canon_run_copy (b : Nat) (rest : List Char) :
    ∀ (w q : List Char), '/' ∉ w → NUL ∉ w →
      canon_run b (w ++ rest) q = canon_run b rest (w.reverse ++ q) := by
  intro w
  induction w with
  | nil => intro q _ _; simp
  | cons c w ih =>
    intro q hs hn
    have hc1 : c ≠ '/' := fun h => hs (by simp [h])
    have hc2 : c ≠ NUL := fun h => hn (by simp [h])
    have hs' : '/' ∉ w := fun h => hs (List.mem_cons_of_mem _ h)
    have hn' : NUL ∉ w := fun h => hn (List.mem_cons_of_mem _ h)
    by_cases hq : q.length < b
    · rw [List.cons_append, canon_run_cons, if_pos ⟨hc2, hq⟩, if_neg (by simp [hc1]),
        if_neg (by simp [hc1]), if_neg (by simp [hc1]), ih _ hs' hn']
      simp
    · rw [canon_run_full b _ q hq, canon_run_full]
      simp only [List.length_append, List.length_reverse, List.length_cons]
      omega

theorem canon_run_component (b : Nat) (w rest q : List Char) (hs : '/' ∉ w) (hn : NUL ∉ w)
    (h0 : w ≠ []) (h1 : w ≠ ['.']) (h2 : w ≠ ['.', '.']) :
    canon_run b ('/' :: (w ++ rest)) q = canon_run b rest (w.reverse ++ '/' :: q) := by
  by_cases hq : q.length < b
  · have key : canon_run b ('/' :: (w ++ rest)) q = canon_run b (w ++ rest) ('/' :: q) := by
      rw [canon_run_cons, if_pos ⟨slash_ne_nul, hq⟩]
      cases w with
      | nil => exact absurd rfl h0
      | cons c w1 =>
        have hc1 : c ≠ '/' := fun h => hs (by simp [h])
        have hc2 : c ≠ NUL := fun h => hn (by simp [h])
        rw [if_neg (by simp [peek_cons_zero, hc1, hc2])]
        cases w1 with
        | nil =>
          have hc3 : c ≠ '.' := fun h => h1 (by simp [h])
          rw [if_neg (by simp [peek_cons_zero, hc3]), if_neg (by simp [peek_cons_zero, hc3])]
        | cons d w2 =>
          have hd1 : d ≠ '/' := fun h => hs (by simp [h])
          have hd2 : d ≠ NUL := fun h => hn (by simp [h])
          rw [if_neg (by simp [peek_cons_zero, peek_cons_succ, hd1, hd2])]
          cases w2 with
          | nil =>
            have hcd : ¬ (c = '.' ∧ d = '.') := fun h => h2 (by simp [h.1, h.2])
            rw [if_neg]
            simp only [List.cons_append, peek_cons_zero, peek_cons_succ, not_and]
            intro _ hc hd
            exact absurd ⟨hc, hd⟩ hcd
          | cons e w3 =>
            have he1 : e ≠ '/' := fun h => hs (by simp [h])
            have he2 : e ≠ NUL := fun h => hn (by simp [h])
            rw [if_neg (by simp [peek_cons_zero, peek_cons_succ, he1, he2])]
    rw [key, canon_run_copy b rest w _ hs hn]
  · rw [canon_run_full b _ q hq, canon_run_full]
    simp only [List.length_append, List.length_reverse, List.length_cons]
    omega

theorem lexical_render_nil : lexical_render [] = [] := rfl

theorem lexical_render_cons (w : List Char) (ws : List (List Char)) :
    lexical_render (w :: ws) = '/' :: (w ++ lexical_render ws) := by
  simp [lexical_render]

theorem lexical_render_append (k l : List (List Char)) :
    lexical_render (k ++ l) = lexical_render k ++ lexical_render l := by
  simp [lexical_render]

theorem at_boundary_render (ws : List (List Char)) : at_boundary (lexical_render ws) := by
  cases ws with
  | nil => right; simp [lexical_render_nil, peek_nil]
  | cons w ws => left; simp [lexical_render_cons, peek_cons_zero]

theorem scan_back_append (w r : List Char) (hs : '/' ∉ w) :
    scan_back (w ++ '/' :: r) = r := by
  induction w with
  | nil => simp [scan_back]
  | cons c w ih =>
    have hc1 : c ≠ '/' := fun h => hs (by simp [h])
    have hs' : '/' ∉ w := fun h => hs (List.mem_cons_of_mem _ h)
    simp [scan_back, hc1, ih hs']

theorem scan_back_render (kept : List (List Char)) (hk : ∀ w ∈ kept, '/' ∉ w) :
    (if (lexical_render kept).reverse ≠ [] then scan_back (lexical_render kept).reverse
      else (lexical_render kept).reverse) = (lexical_render kept.dropLast).reverse := by
  rcases List.eq_nil_or_concat kept with h | ⟨k, x, h⟩
  · subst h; simp [lexical_render_nil]
  · rw [List.concat_eq_append] at h
    subst h
    have hx : '/' ∉ x.reverse := by
      have := hk x (by simp)
      simpa using this
    rw [List.dropLast_concat, lexical_render_append, lexical_render_cons, lexical_render_nil]
    simp only [List.append_nil, List.reverse_append, List.reverse_cons, List.append_assoc,
      List.singleton_append]
    rw [if_pos (by simp), scan_back_append _ _ hx]

theorem lexical_step_slashfree (kept : List (List Char)) (w : List Char)
    (hk : ∀ v ∈ kept, '/' ∉ v) (hw : '/' ∉ w) : ∀ v ∈ lexical_step kept w, '/' ∉ v := by
  unfold lexical_step
  split_ifs
  · exact hk
  · intro v hv; exact hk v (List.mem_of_mem_dropLast hv)
  · intro v hv
    rcases List.mem_append.mp hv with h | h
    · exact hk v h
    · rw [List.mem_singleton.mp h]; exact hw

theorem canon_run_components (b : Nat) : ∀ (ws kept : List (List Char)),
    (∀ w ∈ ws, '/' ∉ w ∧ NUL ∉ w) → (∀ w ∈ kept, '/' ∉ w) →
    canon_run b (lexical_render ws) (lexical_render kept).reverse =
      if fits b kept ws then .ok (lexical_render (ws.foldl lexical_step kept))
      else .error ENAMETOOLONG := by
  intro ws
  induction ws with
  | nil =>
    intro kept _ _
    simp [lexical_render_nil, canon_run_nil, canon_exit, fits, peek_nil]
  | cons w ws ih =>
    intro kept hws hk
    have hw := hws w (List.mem_cons_self _ _)
    have hws' : ∀ v ∈ ws, '/' ∉ v ∧ NUL ∉ v := fun v hv => hws v (List.mem_cons_of_mem _ hv)
    have hb := at_boundary_render ws
    by_cases hq : (lexical_render kept).length < b
    · have hq' : (lexical_render kept).reverse.length < b := by simpa using hq
      have ihs := ih (lexical_step kept w) hws' (lexical_step_slashfree kept w hk hw.1)
      simp only [fits, hq, decide_True, Bool.true_and, List.foldl_cons]
      rw [← ihs, lexical_render_cons]
      by_cases h0 : w = []
      · subst h0
        rw [List.nil_append, canon_run_empty b _ _ hq' hb]
        simp [lexical_step]
      by_cases h1 : w = ['.']
      · subst h1
        rw [List.singleton_append, canon_run_dot b _ _ hq' hb]
        simp [lexical_step]
      by_cases h2 : w = ['.', '.']
      · subst h2
        have e : ['.', '.'] ++ lexical_render ws = '.' :: '.' :: lexical_render ws := rfl
        rw [e, canon_run_dotdot b _ _ hq' hb, scan_back_render kept hk]
        simp [lexical_step]
      · rw [canon_run_component b w _ _ hw.1 hw.2 h0 h1 h2]
        simp [lexical_step, h0, h1, h2, lexical_render_append, lexical_render_cons,
          lexical_render_nil]
    · have hq' : ¬ (lexical_render kept).reverse.length < b := by simpa using hq
      rw [canon_run_full b _ _ hq']
      simp [fits, hq]

theorem splitOn_slash_shape (s : List Char) :
    ∃ w0 ws, s.splitOn '/' = w0 :: ws ∧ s = w0 ++ lexical_render ws ∧
      '/' ∉ w0 ∧ ∀ w ∈ ws, '/' ∉ w := by
  induction s with
  | nil => exact ⟨[], [], rfl, rfl, by simp, by simp⟩
  | cons c s ih =>
    obtain ⟨w0, ws, h1, h2, h3, h4⟩ := ih
    unfold List.splitOn at h1 ⊢
    rw [List.splitOnP_cons, h1]
    by_cases hc : c = '/'
    · subst hc
      refine ⟨[], w0 :: ws, by simp, ?_, by simp, ?_⟩
      · rw [lexical_render_cons, ← h2]; rfl
      · intro w hw
        rcases List.mem_cons.mp hw with h | h
        · rw [h]; exact h3
        · exact h4 w h
    · refine ⟨c :: w0, ws, by simp [hc], ?_, ?_, h4⟩
      · rw [List.cons_append, ← h2]
      · intro h
        rcases List.mem_cons.mp h with h | h
        · exact hc h.symm
        · exact h3 h

theorem absolute_shape (s : List Char) (habs : peek s 0 = '/') :
    s.splitOn '/' = [] :: (s.splitOn '/').tail ∧
    s = lexical_render (s.splitOn '/').tail ∧ ∀ w ∈ (s.splitOn '/').tail, '/' ∉ w := by
  obtain ⟨w0, ws, h1, h2, h3, h4⟩ := splitOn_slash_shape s
  have hw0 : w0 = [] := by
    cases w0 with
    | nil => rfl
    | cons c w =>
      exfalso
      rw [h2] at habs
      simp only [List.cons_append, peek_cons_zero] at habs
      exact h3 (by simp [habs])
  subst hw0
  rw [h1]
  exact ⟨rfl, by simpa using h2, h4⟩

theorem mem_lexical_render (ws : List (List Char)) (w : List Char) (c : Char)
    (hw : w ∈ ws) (hc : c ∈ w) : c ∈ lexical_render ws := by
  induction ws with
  | nil => cases hw
  | cons v ws ih =>
    rw [lexical_render_cons]
    rcases List.mem_cons.mp hw with h | h
    · subst h; simp [hc]
    · simp [ih h]

theorem canonpath_absolute (input : List Char) (b : Nat) (habs : peek input 0 = '/')
    (hnul : NUL ∉ input) :
    canonpath input b =
      if fits b [] (input.splitOn '/').tail then .ok (lexical_normalise input)
      else .error ENAMETOOLONG := by
  obtain ⟨h1, h2, h3⟩ := absolute_shape input habs
  have hws : ∀ w ∈ (input.splitOn '/').tail, '/' ∉ w ∧ NUL ∉ w := by
    intro w hw
    refine ⟨h3 w hw, fun hc => hnul ?_⟩
    rw [h2]
    exact mem_lexical_render _ w NUL hw hc
  have key := canon_run_components b (input.splitOn '/').tail [] hws (by simp)
  rw [← h2] at key
  have hn : lexical_normalise input =
      lexical_render (List.foldl lexical_step [] (input.splitOn '/').tail) := by
    unfold lexical_normalise
    rw [h1]
    simp [lexical_step]
  unfold canonpath
  rw [if_neg (by simp [habs]), hn, ← key]
  rfl

theorem lexical_render_length_cons (w : List Char) (ws : List (List Char)) :
    (lexical_render (w :: ws)).length = 1 + w.length + (lexical_render ws).length := by
  rw [lexical_render_cons]; simp; omega

theorem lexical_render_dropLast_le (kept : List (List Char)) :
    (lexical_render kept.dropLast).length ≤ (lexical_render kept).length := by
  rcases List.eq_nil_or_concat kept with h | ⟨k, x, h⟩
  · subst h; simp
  · rw [List.concat_eq_append] at h
    subst h
    rw [List.dropLast_concat, lexical_render_append]
    simp

theorem lexical_step_length_le (kept : List (List Char)) (w : List Char) :
    (lexical_render (lexical_step kept w)).length ≤
      (lexical_render kept).length + 1 + w.length := by
  unfold lexical_step
  split_ifs
  · omega
  · have := lexical_render_dropLast_le kept; omega
  · rw [lexical_render_append, lexical_render_cons, lexical_render_nil]
    simp; omega

theorem fits_of_length (b : Nat) : ∀ (ws kept : List (List Char)),
    (lexical_render kept).length + (lexical_render ws).length < b → fits b kept ws = true := by
  intro ws
  induction ws with
  | nil => intro kept h; simpa [fits, lexical_render_nil] using h
  | cons w ws ih =>
    intro kept h
    rw [lexical_render_length_cons] at h
    have h1 := lexical_step_length_le kept w
    simp only [fits, Bool.and_eq_true, decide_eq_true_eq]
    exact ⟨by omega, ih _ (by omega)⟩

theorem fits_final (b : Nat) : ∀ (ws kept : List (List Char)),
    fits b kept ws = true → (lexical_render (ws.foldl lexical_step kept)).length < b := by
  intro ws
  induction ws with
  | nil => intro kept h; simpa [fits] using h
  | cons w ws ih =>
    intro kept h
    simp only [fits, Bool.and_eq_true, decide_eq_true_eq] at h
    exact ih _ h.2

theorem fits_iff_upto (b : Nat) : ∀ (ws kept : List (List Char)),
    fits b kept ws = true ↔
      ∀ k, k ≤ ws.length →
        (lexical_render ((ws.take k).foldl lexical_step kept)).length < b := by
  intro ws
  induction ws with
  | nil =>
    intro kept
    simp [fits]
  | cons w ws ih =>
    intro kept
    simp only [fits, Bool.and_eq_true, decide_eq_true_eq, ih, List.length_cons]
    constructor
    · rintro ⟨h0, h1⟩ k hk
      cases k with
      | zero => simpa using h0
      | succ k => simpa using h1 k (by omega)
    · intro h
      refine ⟨by simpa using h 0 (by omega), fun k hk => ?_⟩
      simpa using h (k + 1) (by omega)

theorem lexical_step_proper (kept : List (List Char)) (w : List Char)
    (hk : ∀ v ∈ kept, proper v) (hw : '/' ∉ w ∧ NUL ∉ w) :
    ∀ v ∈ lexical_step kept w, proper v := by
  unfold lexical_step
  split_ifs with h1 h2
  · exact hk
  · intro v hv; exact hk v (List.mem_of_mem_dropLast hv)
  · intro v hv
    rcases List.mem_append.mp hv with h | h
    · exact hk v h
    · rw [List.mem_singleton.mp h]
      push_neg at h1
      exact ⟨h1.1, h1.2, h2, hw.1, hw.2⟩

theorem foldl_lexical_step_proper : ∀ (ws kept : List (List Char)),
    (∀ v ∈ kept, proper v) → (∀ w ∈ ws, '/' ∉ w ∧ NUL ∉ w) →
    ∀ v ∈ ws.foldl lexical_step kept, proper v := by
  intro ws
  induction ws with
  | nil => intro kept hk _; simpa using hk
  | cons w ws ih =>
    intro kept hk hws
    rw [List.foldl_cons]
    exact ih _ (lexical_step_proper kept w hk (hws w (List.mem_cons_self _ _)))
      (fun v hv => hws v (List.mem_cons_of_mem _ hv))

theorem foldl_lexical_step_of_proper : ∀ (ws kept : List (List Char)),
    (∀ w ∈ ws, proper w) → ws.foldl lexical_step kept = kept ++ ws := by
  intro ws
  induction ws with
  | nil => intro kept _; simp
  | cons w ws ih =>
    intro kept hws
    obtain ⟨h0, h1, h2, _, _⟩ := hws w (List.mem_cons_self _ _)
    rw [List.foldl_cons, ih _ (fun v hv => hws v (List.mem_cons_of_mem _ hv))]
    simp [lexical_step, h0, h1, h2]

theorem fits_of_proper (b : Nat) : ∀ (ws kept : List (List Char)),
    (∀ w ∈ ws, proper w) → (lexical_render (kept ++ ws)).length < b →
    fits b kept ws = true := by
  intro ws
  induction ws with
  | nil => intro kept _ h; simpa [fits] using h
  | cons w ws ih =>
    intro kept hws h
    obtain ⟨h0, h1, h2, _, _⟩ := hws w (List.mem_cons_self _ _)
    have e : lexical_step kept w = kept ++ [w] := by simp [lexical_step, h0, h1, h2]
    simp only [fits, Bool.and_eq_true, decide_eq_true_eq, e]
    refine ⟨?_, ih _ (fun v hv => hws v (List.mem_cons_of_mem _ hv)) (by simpa using h)⟩
    rw [lexical_render_append] at h
    simp at h
    omega

/-- The components `canonpath` keeps for an absolute, NUL-free input. -/
theorem canonpath_ok_shape (input out : List Char) (b : Nat) (habs : peek input 0 = '/')
    (hnul : NUL ∉ input) (h : canonpath input b = .ok out) :
    ∃ K : List (List Char), out = lexical_render K ∧ (∀ w ∈ K, proper w) ∧
      out.length < b ∧ out = lexical_normalise input := by
  rw [canonpath_absolute input b habs hnul] at h
  obtain ⟨h1, h2, h3⟩ := absolute_shape input habs
  have hws : ∀ w ∈ (input.splitOn '/').tail, '/' ∉ w ∧ NUL ∉ w := by
    intro w hw
    refine ⟨h3 w hw, fun hc => hnul ?_⟩
    rw [h2]
    exact mem_lexical_render _ w NUL hw hc
  have hn : lexical_normalise input =
      lexical_render (List.foldl lexical_step [] (input.splitOn '/').tail) := by
    unfold lexical_normalise
    rw [h1]
    simp [lexical_step]
  by_cases hf : fits b [] (input.splitOn '/').tail = true
  · rw [if_pos hf] at h
    have ho : lexical_normalise input = out := by injection h
    refine ⟨_, (ho.symm.trans hn), foldl_lexical_step_proper _ [] (by simp) hws, ?_, ho.symm⟩
    rw [← ho, hn]
    exact fits_final b _ [] hf
  · rw [if_neg hf] at h
    cases h

theorem splitOn_append_slash (a c : List Char) :
    (a ++ '/' :: c).splitOn '/' = a.splitOn '/' ++ c.splitOn '/' := by
  induction a with
  | nil => simp [List.splitOn]
  | cons x a ih =>
    unfold List.splitOn at ih ⊢
    rw [List.cons_append, List.splitOnP_cons, List.splitOnP_cons, ih]
    by_cases hx : x = '/'
    · simp [hx]
    · simp only [beq_iff_eq, hx, if_false]
      cases h : List.splitOnP (fun t => t == '/') a with
      | nil => exact absurd h (List.splitOnP_ne_nil _ _)
      | cons v vs => rfl

theorem splitOn_slashfree (w : List Char) (hw : '/' ∉ w) : w.splitOn '/' = [w] := by
  unfold List.splitOn
  apply List.splitOnP_eq_single
  intro x hx h
  rw [beq_iff_eq] at h
  exact hw (h ▸ hx)

theorem splitOn_ne_nil (s : List Char) : s.splitOn '/' ≠ [] := List.splitOnP_ne_nil _ _

theorem splitOn_render (K : List (List Char)) (hK : ∀ w ∈ K, '/' ∉ w) :
    ∀ w : List Char, '/' ∉ w → (w ++ lexical_render K).splitOn '/' = w :: K := by
  induction K with
  | nil => intro w hw; simpa [lexical_render_nil] using splitOn_slashfree w hw
  | cons k K ih =>
    intro w hw
    rw [lexical_render_cons, splitOn_append_slash, splitOn_slashfree w hw,
      ih (fun v hv => hK v (List.mem_cons_of_mem _ hv)) k (hK k (List.mem_cons_self _ _))]
    rfl

theorem mem_of_slash_between (K : List (List Char)) (hK : ∀ w ∈ K, '/' ∉ w)
    (s c : List Char) (h : s ++ '/' :: c = lexical_render K) :
    ∀ w ∈ c.splitOn '/', w ∈ K := by
  intro w hw
  have e := splitOn_render K hK [] (by simp)
  rw [List.nil_append, ← h, splitOn_append_slash] at e
  cases hs : s.splitOn '/' with
  | nil => exact absurd hs (splitOn_ne_nil s)
  | cons v vs =>
    rw [hs, List.cons_append] at e
    injection e with _ e2
    rw [← e2]
    exact List.mem_append_right _ hw

theorem nul_not_mem_render (K : List (List Char)) (hK : ∀ w ∈ K, proper w) :
    NUL ∉ lexical_render K := by
  induction K with
  | nil => simp [lexical_render_nil]
  | cons k K ih =>
    rw [lexical_render_cons]
    have hk := hK k (List.mem_cons_self _ _)
    have := ih (fun v hv => hK v (List.mem_cons_of_mem _ hv))
    simp only [List.mem_cons, List.mem_append, not_or]
    exact ⟨fun h => slash_ne_nul h.symm, hk.2.2.2.2, this⟩

theorem canonpath_render_proper (K : List (List Char)) (b : Nat) (hK : ∀ w ∈ K, proper w)
    (hb : (lexical_render K).length < b) :
    canonpath (lexical_render K) b = .ok (lexical_render K) := by
  cases K with
  | nil =>
    have hb' : 0 < b := by simpa [lexical_render_nil] using hb
    have hb'' : ¬ b ≤ 0 := by omega
    have hne : ¬ (NUL = '/') := by decide
    simp [canonpath, lexical_render_nil, peek_nil, strlcpy, cstr, hb'', hne]
  | cons k K =>
    have key := canon_run_components b (k :: K) []
      (fun w hw => ⟨(hK w hw).2.2.2.1, (hK w hw).2.2.2.2⟩) (by simp)
    rw [foldl_lexical_step_of_proper _ _ hK, fits_of_proper b _ [] hK (by simpa using hb)] at key
    unfold canonpath
    rw [if_neg (by simp [lexical_render_cons, peek_cons_zero])]
    simpa [canon_run, lexical_render_nil] using key

theorem fits_of_absolute_length (input : List Char) (b : Nat) (habs : peek input 0 = '/')
    (hsize : input.length < b) : fits b [] (input.splitOn '/').tail = true := by
  apply fits_of_length
  have h2 := (absolute_shape input habs).2.1
  rw [← h2]
  simpa [lexical_render_nil] using hsize

/-- C5: canonpath equals lexical normalisation.  For every absolute input
(first byte '/', no NUL inside) and every bufsize greater than the input
length, canonpath returns 0 and its output is the reference result: split
the input on '/', drop the empty and "." components, let each ".." remove the
most recently kept component (none when nothing is kept), and write '/'
followed by the component for each kept component in order. -/
theorem canonpath_lexical_normalisation (input : List Char) (bufsize : Nat)
    (habs : peek input 0 = '/') (hnul : NUL ∉ input) (hsize : input.length < bufsize) :
    canonpath input bufsize = .ok (lexical_normalise input) := by
  rw [canonpath_absolute input bufsize habs hnul,
    if_pos (fits_of_absolute_length input bufsize habs hsize)]

/-- C6: canonicaliser idempotence.  For every absolute path x and buffer
size on which canonpath succeeds with output `out`, canonpath applied to
`out` with the same buffer size succeeds and returns `out` again. -/
theorem canonpath_idempotent (x out : List Char) (bufsize : Nat)
    (habs : peek x 0 = '/') (hnul : NUL ∉ x) (h : canonpath x bufsize = .ok out) :
    canonpath out bufsize = .ok out := by
  obtain ⟨K, h1, h2, h3, _⟩ := canonpath_ok_shape x out bufsize habs hnul h
  subst h1
  exact canonpath_render_proper K bufsize h2 h3

/-- C7: for every absolute input on which canonpath returns 0, the output
contains none of the substrings "//", "/./" and "/../". -/
theorem canonpath_no_slash_dot_runs (input out : List Char) (bufsize : Nat)
    (habs : peek input 0 = '/') (hnul : NUL ∉ input)
    (h : canonpath input bufsize = .ok out) :
    ¬ "//".toList <:+: out ∧ ¬ "/./".toList <:+: out ∧ ¬ "/../".toList <:+: out := by
  obtain ⟨K, h1, h2, _, _⟩ := canonpath_ok_shape input out bufsize habs hnul h
  subst h1
  have hK : ∀ w ∈ K, '/' ∉ w := fun w hw => (h2 w hw).2.2.2.1
  refine ⟨?_, ?_, ?_⟩
  · rintro ⟨s, t, e⟩
    have e' : s ++ '/' :: ('/' :: t) = lexical_render K := by rw [← e]; simp
    have := mem_of_slash_between K hK s _ e' [] (by
      have : ('/' :: t).splitOn '/' = [] :: t.splitOn '/' := by
        simpa using splitOn_append_slash [] t
      rw [this]; exact List.mem_cons_self _ _)
    exact (h2 _ this).1 rfl
  · rintro ⟨s, t, e⟩
    have e' : s ++ '/' :: ('.' :: '/' :: t) = lexical_render K := by rw [← e]; simp
    have := mem_of_slash_between K hK s _ e' ['.'] (by
      have : ('.' :: '/' :: t).splitOn '/' = ['.'] :: t.splitOn '/' := by
        simpa [splitOn_slashfree ['.'] (by decide)] using splitOn_append_slash ['.'] t
      rw [this]; exact List.mem_cons_self _ _)
    exact (h2 _ this).2.1 rfl
  · rintro ⟨s, t, e⟩
    have e' : s ++ '/' :: ('.' :: '.' :: '/' :: t) = lexical_render K := by rw [← e]; simp
    have := mem_of_slash_between K hK s _ e' ['.', '.'] (by
      have : ('.' :: '.' :: '/' :: t).splitOn '/' = ['.', '.'] :: t.splitOn '/' := by
        simpa [splitOn_slashfree ['.', '.'] (by decide)] using
          splitOn_append_slash ['.', '.'] t
      rw [this]; exact List.mem_cons_self _ _)
    exact (h2 _ this).2.2.1 rfl

theorem fits_iff_lexical_upto (input : List Char) (b : Nat) (habs : peek input 0 = '/') :
    fits b [] (input.splitOn '/').tail = true ↔
      ∀ k, (lexical_upto input k).length + 1 ≤ b := by
  obtain ⟨h1, _, _⟩ := absolute_shape input habs
  rw [fits_iff_upto]
  unfold lexical_upto
  rw [h1]
  generalize (input.splitOn '/').tail = ws
  simp only [List.tail_cons]
  constructor
  · intro h k
    cases k with
    | zero => simpa [lexical_render_nil] using h 0 (by omega)
    | succ k =>
      by_cases hk : k ≤ ws.length
      · have := h k hk
        simp only [List.take_succ_cons, List.foldl_cons]
        simp only [lexical_step, true_or, if_true]
        omega
      · have := h ws.length le_rfl
        simp only [List.take_succ_cons, List.foldl_cons]
        simp only [lexical_step, true_or, if_true]
        rw [List.take_of_length_le (by omega)]
        rw [List.take_length] at this
        omega
  · intro h k _
    have := h (k + 1)
    simp only [List.take_succ_cons, List.foldl_cons] at this
    simp only [lexical_step, true_or, if_true] at this
    omega

/-- C9, amended: the buffer contract of canonpath.  For every absolute input
and every bufsize, canonpath returns 0 (with the canonical result) exactly
when, for every k, the canonical form of the first k components of the
input fits in bufsize bytes together with its terminating NUL, and returns
ENAMETOOLONG exactly when one of them does not fit. -/
theorem canonpath_buffer_contract (input : List Char) (bufsize : Nat)
    (habs : peek input 0 = '/') (hnul : NUL ∉ input) :
    (canonpath input bufsize = .ok (lexical_normalise input) ↔
      ∀ k, (lexical_upto input k).length + 1 ≤ bufsize) ∧
    (canonpath input bufsize = .error ENAMETOOLONG ↔
      ¬ ∀ k, (lexical_upto input k).length + 1 ≤ bufsize) := by
  rw [canonpath_absolute input bufsize habs hnul, ← fits_iff_lexical_upto input bufsize habs]
  by_cases hf : fits bufsize [] (input.splitOn '/').tail = true
  · simp [hf]
  · simp [hf]

/-- Witness for C9, amended: `"/abc/.."` with bufsize 5. -/
theorem canonpath_buffer_contract_witness :
    (canonpath "/abc/..".toList 5 = .ok (lexical_normalise "/abc/..".toList) ↔
      ∀ k, (lexical_upto "/abc/..".toList k).length + 1 ≤ 5) ∧
    (canonpath "/abc/..".toList 5 = .error ENAMETOOLONG ↔
      ¬ ∀ k, (lexical_upto "/abc/..".toList k).length + 1 ≤ 5) :=
  canonpath_buffer_contract "/abc/..".toList 5 (by decide) (by decide)

/-- Counterexample to C9 as stated: the canonical result of `"/abc/.."` is
empty and fits any buffer of at least one byte, yet with bufsize 4 the scan
fills the buffer with `"/abc"` first and canonpath returns ENAMETOOLONG. -/
theorem canonpath_buffer_counterexample :
    canonpath "/abc/..".toList 5 = .ok [] ∧
    ([] : List Char).length + 1 ≤ 4 ∧
    canonpath "/abc/..".toList 4 = .error ENAMETOOLONG := by
  decide

theorem lexical_fold_skip (K : List (List Char)) (S : List (List Char)) :
    List.foldl lexical_step K ([] :: S) = List.foldl lexical_step K S := by
  simp [lexical_step]

theorem lexical_normalise_insert (a c : List Char)
    (hbd : peek c 0 = '/' ∨ c = [] ∨ ∃ a1, a = a1 ++ ['/']) :
    lexical_normalise (a ++ '/' :: '.' :: '/' :: c) = lexical_normalise (a ++ c) := by
  unfold lexical_normalise
  congr 1
  have e1 : ('.' :: '/' :: c).splitOn '/' = ['.'] :: c.splitOn '/' := by
    simpa [splitOn_slashfree ['.'] (by decide)] using splitOn_append_slash ['.'] c
  rw [splitOn_append_slash, e1, List.foldl_append, List.foldl_cons]
  have e2 : lexical_step (List.foldl lexical_step [] (a.splitOn '/')) ['.'] =
      List.foldl lexical_step [] (a.splitOn '/') := by simp [lexical_step]
  rw [e2]
  rcases hbd with h | h | ⟨a1, h⟩
  · cases c with
    | nil => simp [peek_nil] at h; exact absurd h.symm slash_ne_nul
    | cons x c1 =>
      rw [peek_cons_zero] at h
      subst h
      have e3 : ('/' :: c1).splitOn '/' = [] :: c1.splitOn '/' := by
        simpa using splitOn_append_slash [] c1
      rw [e3, lexical_fold_skip, splitOn_append_slash, List.foldl_append]
  · subst h
    simp [lexical_step]
  · subst h
    have e3 : (a1 ++ ['/']).splitOn '/' = a1.splitOn '/' ++ [[]] := by
      simpa using splitOn_append_slash a1 []
    have e4 : a1 ++ ['/'] ++ c = a1 ++ '/' :: c := by simp
    rw [e3, e4, splitOn_append_slash, List.foldl_append, List.foldl_append, List.foldl_cons,
      List.foldl_nil]
    simp [lexical_step]

/-- C10, amended: for every absolute path x and every position i of x that
is a component boundary (x[i] is '/', or i is the end of x, or x[i-1] is
'/'), with a buffer larger than the lengthened input, canonpath of x with
"/./" inserted at position i equals canonpath of x. -/
theorem canonpath_insert_dot_segment (x : List Char) (i bufsize : Nat)
    (habs : peek x 0 = '/') (hnul : NUL ∉ x) (hi : i ≤ x.length)
    (hbd : peek x i = '/' ∨ i = x.length ∨ (0 < i ∧ peek x (i - 1) = '/'))
    (hsize : x.length + 3 < bufsize) :
    canonpath (x.take i ++ "/./".toList ++ x.drop i) bufsize = canonpath x bufsize := by
  have hx : x.take i ++ x.drop i = x := List.take_append_drop i x
  have e : x.take i ++ "/./".toList ++ x.drop i = x.take i ++ '/' :: '.' :: '/' :: x.drop i := by
    simp
  have habs' : peek (x.take i ++ '/' :: '.' :: '/' :: x.drop i) 0 = '/' := by
    cases i with
    | zero => simp [peek_cons_zero]
    | succ j =>
      cases x with
      | nil => simp at hi
      | cons c x1 =>
        simpa [peek_cons_zero] using habs
  have hnul' : NUL ∉ x.take i ++ '/' :: '.' :: '/' :: x.drop i := by
    simp only [List.mem_append, List.mem_cons, not_or]
    refine ⟨fun h => hnul (List.mem_of_mem_take h), fun h => slash_ne_nul h.symm,
      fun h => dot_ne_nul h.symm, fun h => slash_ne_nul h.symm,
      fun h => hnul (List.mem_of_mem_drop h)⟩
  have hlen : (x.take i ++ '/' :: '.' :: '/' :: x.drop i).length < bufsize := by
    have : (x.take i ++ '/' :: '.' :: '/' :: x.drop i).length = x.length + 3 := by
      simp only [List.length_append, List.length_cons, List.length_take, List.length_drop]
      omega
    omega
  rw [e, canonpath_absolute _ bufsize habs' hnul',
    if_pos (fits_of_absolute_length _ bufsize habs' hlen),
    canonpath_absolute x bufsize habs hnul,
    if_pos (fits_of_absolute_length x bufsize habs (by omega)),
    lexical_normalise_insert, hx]
  rcases hbd with h | h | ⟨h0, h⟩
  · left
    simpa [peek, List.getD_eq_getElem?_getD] using h
  · right; left
    simp [h]
  · right; right
    refine ⟨x.take (i - 1), ?_⟩
    have hlt : i - 1 < x.length := by omega
    have hget : x[i - 1] = '/' := by
      simpa [peek, List.getD_eq_getElem?_getD, List.getElem?_eq_getElem hlt] using h
    have : i = (i - 1) + 1 := by omega
    rw [this, List.take_succ, List.getElem?_eq_getElem hlt, hget]
    simp

/-- Witness for C10, amended: `"/./"` inserted before the second slash of
`"/a/b"`. -/
theorem canonpath_insert_dot_segment_witness :
    canonpath ("/a/b".toList.take 2 ++ "/./".toList ++ "/a/b".toList.drop 2) 16 =
      canonpath "/a/b".toList 16 :=
  canonpath_insert_dot_segment "/a/b".toList 2 16 (by decide) (by decide) (by decide)
    (by decide) (by decide)

/-- Counterexample to C10 as stated: `"./"` prepended to `"/a"` makes the
input relative, so it is copied unchanged; and `"/./"` inserted inside the
component of `"/ab"` splits it in two. -/
theorem canonpath_irrelevant_tokens_counterexample :
    canonpath ("./".toList ++ "/a".toList) 1024 ≠ canonpath "/a".toList 1024 ∧
    canonpath ("/ab".toList.take 2 ++ "/./".toList ++ "/ab".toList.drop 2) 1024 ≠
      canonpath "/ab".toList 1024 := by
  decide

theorem pledgereq_search_fuel (req : List Char) : ∀ (n m base lim : Nat),
    lim ≤ n → lim ≤ m →
    pledgereq_search req n base lim = pledgereq_search req m base lim := by
  intro n
  induction n with
  | zero =>
    intro m base lim hn _
    have : lim = 0 := by omega
    subst this
    cases m <;> simp [pledgereq_search]
  | succ n ih =>
    intro m base lim hn hm
    cases m with
    | zero =>
      have : lim = 0 := by omega
      subst this
      simp [pledgereq_search]
    | succ m =>
      by_cases hl : lim = 0
      · simp [pledgereq_search, hl]
      · have h1 : lim >>> 1 < lim := by
          rw [Nat.shiftRight_eq_div_pow]; omega
        have h2 : (lim - 1) >>> 1 < lim := by
          rw [Nat.shiftRight_eq_div_pow]; omega
        simp only [pledgereq_search, hl, if_false]
        rw [ih m _ _ (by omega) (by omega), ih m base _ (by omega) (by omega)]

theorem skip_spaces_length (s : List Char) : (skip_spaces s).length ≤ s.length := by
  induction s with
  | nil => simp [skip_spaces]
  | cons c r ih =>
    simp only [skip_spaces]
    split_ifs
    · simp only [List.length_cons]; omega
    · exact le_rfl

theorem strchr_space_length (s t : List Char) (h : strchr s ' ' = some t) :
    (skip_spaces t).length < s.length := by
  induction s with
  | nil => simp [strchr] at h
  | cons c r ih =>
    simp only [strchr] at h
    split_ifs at h with h1 h2
    · injection h with h
      subst h
      have := skip_spaces_length r
      simp only [skip_spaces, h2, if_true, List.length_cons]
      omega
    · have := ih h
      simp only [List.length_cons]
      omega

theorem request_loop_fuel : ∀ (n m : Nat) (s : List Char) (flags : Nat),
    s.length ≤ n → s.length ≤ m →
    request_loop n (some s) flags = request_loop m (some s) flags := by
  intro n
  induction n with
  | zero =>
    intro m s flags hn _
    have hs : s = [] := List.length_eq_zero.mp (Nat.le_zero.mp hn)
    subst hs
    cases m <;> simp [request_loop, peek_nil]
  | succ n ih =>
    intro m s flags hn hm
    cases m with
    | zero =>
      have hs : s = [] := List.length_eq_zero.mp (Nat.le_zero.mp hm)
      subst hs
      simp [request_loop, peek_nil]
    | succ m =>
      simp only [request_loop]
      split_ifs with h1 h2
      · rfl
      · rfl
      · cases hc : strchr s ' ' with
        | none => cases n <;> cases m <;> simp [request_loop]
        | some t =>
          have := strchr_space_length s t hc
          simp only [Option.map_some']
          exact ih m _ _ (by omega) (by omega)

/-- C1: monotonicity of sys_pledge.  On an already pledged process with
promises P, a request (paths argument null) that parses to the bitset F is
accepted, with return value 0, if and only if F is a subset of P
(F | P == P); on success the promises become exactly F (the pledged flag
stays set), otherwise sys_pledge returns EPERM and leaves the process, its
promises and its pledged flag unchanged. -/
theorem sys_pledge_monotone (p : proc) (request : List Char) (F : Nat)
    (hpledged : p.p_p.PS_PLEDGE = true) (hparse : pledge_parse request = .ok F) :
    ((sys_pledge p (some request) none).1 = 0 ↔ F ||| p.p_p.ps_pledge = p.p_p.ps_pledge) ∧
    (F ||| p.p_p.ps_pledge = p.p_p.ps_pledge →
      sys_pledge p (some request) none =
        (0, { p with p_p := { p.p_p with ps_pledge := F, PS_PLEDGE := true } }) ∧
      (sys_pledge p (some request) none).2.p_p.ps_pledge = F ∧
      (sys_pledge p (some request) none).2.p_p.PS_PLEDGE = true) ∧
    (F ||| p.p_p.ps_pledge ≠ p.p_p.ps_pledge →
      sys_pledge p (some request) none = (EPERM, p)) := by
  by_cases h : F ||| p.p_p.ps_pledge = p.p_p.ps_pledge
  · have e : sys_pledge p (some request) none =
        (0, { p with p_p := { p.p_p with ps_pledge := F, PS_PLEDGE := true } }) := by
      simp [sys_pledge, pledge_request, hparse, hpledged, h]
    refine ⟨?_, ?_, ?_⟩
    · rw [e]; simp [h]
    · intro _; rw [e]; exact ⟨rfl, rfl, rfl⟩
    · intro hn; exact absurd h hn
  · have e : sys_pledge p (some request) none = (EPERM, p) := by
      simp [sys_pledge, pledge_request, hparse, hpledged, h]
    refine ⟨?_, ?_, ?_⟩
    · rw [e]; simp [h, EPERM]
    · intro hy; exact absurd hy h
    · intro _; exact e

/-- Witness for C1: after `pledge("stdio rpath")`, the request
`"stdio rpath wpath"` is rejected with EPERM and the process is unchanged. -/
theorem sys_pledge_monotone_witness :
    ((sys_pledge ⟨⟨true, false, PLEDGE_STDIO ||| PLEDGE_RPATH⟩, 0, []⟩
        (some "stdio rpath wpath".toList) none).1 = 0 ↔
      ( PLEDGE_STDIO ||| PLEDGE_RPATH ||| PLEDGE_WPATH) ||| ( PLEDGE_STDIO ||| PLEDGE_RPATH) =
        ( PLEDGE_STDIO ||| PLEDGE_RPATH)) ∧
    sys_pledge ⟨⟨true, false, PLEDGE_STDIO ||| PLEDGE_RPATH⟩, 0, []⟩
        (some "stdio rpath wpath".toList) none =
      (EPERM, ⟨⟨true, false, PLEDGE_STDIO ||| PLEDGE_RPATH⟩, 0, []⟩) :=
  ⟨(sys_pledge_monotone ⟨⟨true, false, PLEDGE_STDIO ||| PLEDGE_RPATH⟩, 0, []⟩
      "stdio rpath wpath".toList ( PLEDGE_STDIO ||| PLEDGE_RPATH ||| PLEDGE_WPATH)
      rfl (by decide)).1,
    (sys_pledge_monotone ⟨⟨true, false, PLEDGE_STDIO ||| PLEDGE_RPATH⟩, 0, []⟩
      "stdio rpath wpath".toList ( PLEDGE_STDIO ||| PLEDGE_RPATH ||| PLEDGE_WPATH)
      rfl (by decide)).2.2 (by decide)⟩

theorem char_eq_of_toNat_sub (c d : Char) (h : (c.toNat : Int) - (d.toNat : Int) = 0) :
    c = d := by
  have h1 : c.toNat = d.toNat := by omega
  rw [← Char.ofNat_toNat c, ← Char.ofNat_toNat d, h1]

theorem strcmp_eq_zero : ∀ (s t : List Char), NUL ∉ s → NUL ∉ t → strcmp s t = 0 → s = t := by
  intro s
  induction s with
  | nil =>
    intro t _ ht h
    cases t with
    | nil => rfl
    | cons d t =>
      simp only [strcmp, peek_cons_zero] at h
      exact absurd (char_eq_of_toNat_sub _ _ h) (fun e => ht (by simp [e]))
  | cons c s ih =>
    intro t hs ht h
    have hc : c ≠ NUL := fun e => hs (by simp [e])
    cases t with
    | nil =>
      simp only [strcmp, peek_nil, hc, if_false] at h
      exact absurd (char_eq_of_toNat_sub _ _ h) hc
    | cons d t =>
      simp only [strcmp, peek_cons_zero, List.drop_succ_cons, List.drop_zero] at h
      by_cases hcd : c = d
      · subst hcd
        simp only [if_true, hc, if_false] at h
        rw [ih t (fun e => hs (List.mem_cons_of_mem _ e))
          (fun e => ht (List.mem_cons_of_mem _ e)) h]
      · simp only [hcd, if_false] at h
        exact absurd (char_eq_of_toNat_sub _ _ h) hcd

theorem strcmp_self : ∀ s : List Char, strcmp s s = 0 := by
  intro s
  induction s with
  | nil => simp [strcmp, peek_nil]
  | cons c s ih =>
    simp only [strcmp, peek_cons_zero, if_true, List.drop_succ_cons, List.drop_zero, ih]
    simp

theorem strncmp_eq_zero_imp : ∀ (t s : List Char), NUL ∉ t → strncmp s t t.length = 0 →
    t <+: s := by
  intro t
  induction t with
  | nil => intro s _ _; exact List.nil_prefix
  | cons d t ih =>
    intro s ht h
    have hd : d ≠ NUL := fun e => ht (by simp [e])
    cases s with
    | nil =>
      simp only [List.length_cons, strncmp, peek_nil, peek_cons_zero] at h
      rw [if_neg (fun e => hd e.symm)] at h
      exact absurd (char_eq_of_toNat_sub _ _ h) (fun e => hd e.symm)
    | cons c s =>
      simp only [List.length_cons, strncmp, peek_cons_zero, List.drop_succ_cons,
        List.drop_zero] at h
      by_cases hcd : c = d
      · subst hcd
        simp only [if_true, hd, if_false] at h
        have := ih s (fun e => ht (List.mem_cons_of_mem _ e)) h
        exact (List.cons_prefix_cons).mpr ⟨rfl, this⟩
      · simp only [hcd, if_false] at h
        exact absurd (char_eq_of_toNat_sub _ _ h) hcd

theorem strncmp_eq_zero_of : ∀ (t s : List Char), NUL ∉ t → t <+: s →
    strncmp s t t.length = 0 := by
  intro t
  induction t with
  | nil => intro s _ _; simp [strncmp]
  | cons d t ih =>
    intro s ht h
    have hd : d ≠ NUL := fun e => ht (by simp [e])
    cases s with
    | nil => simp at h
    | cons c s =>
      obtain ⟨h1, h2⟩ := List.cons_prefix_cons.mp h
      subst h1
      simp only [List.length_cons, strncmp, peek_cons_zero, List.drop_succ_cons,
        List.drop_zero, if_true, hd, if_false]
      exact ih s (fun e => ht (List.mem_cons_of_mem _ e)) h2

theorem mem_scan_back (c : Char) : ∀ q : List Char, c ∈ scan_back q → c ∈ q := by
  intro q
  induction q with
  | nil => simp [scan_back]
  | cons d q ih =>
    intro h
    simp only [scan_back] at h
    split_ifs at h
    · exact List.mem_cons_of_mem _ h
    · exact List.mem_cons_of_mem _ (ih h)

theorem canon_loop_nul_free (b : Nat) : ∀ (n : Nat) (p q out : List Char),
    NUL ∉ q → canon_loop b n p q = .ok out → NUL ∉ out := by
  intro n
  induction n with
  | zero =>
    intro p q out hq h
    simp only [canon_loop, canon_exit] at h
    split_ifs at h
    injection h with h
    subst h
    simpa using hq
  | succ n ih =>
    intro p q out hq h
    simp only [canon_loop] at h
    split_ifs at h with h1 h2 h3 h4 h5
    · exact ih _ _ _ hq h
    · exact ih _ _ _ hq h
    · exact ih _ _ _ (fun e => hq (mem_scan_back _ _ e)) h
    · exact ih _ _ _ hq h
    · refine ih _ _ _ ?_ h
      intro e
      rcases List.mem_cons.mp e with e | e
      · exact h1.1 e.symm
      · exact hq e
    · simp only [canon_exit] at h
      split_ifs at h
      injection h with h
      subst h
      simpa using hq

theorem cstr_nul_free (s : List Char) : NUL ∉ cstr s := by
  intro h
  have := List.mem_takeWhile_imp h
  simp at this

theorem canonpath_nul_free (input out : List Char) (b : Nat)
    (h : canonpath input b = .ok out) : NUL ∉ out := by
  unfold canonpath at h
  split_ifs at h with h1 h2
  · injection h with h
    subst h
    intro e
    exact cstr_nul_free input (List.mem_of_mem_take e)
  · exact canon_loop_nul_free b _ _ _ _ (by simp) h

theorem and_not64_eq_zero_iff (r P : Nat) (hr : r < 2 ^ 64) :
    r &&& not64 P = 0 ↔ ∀ i, r.testBit i = true → P.testBit i = true := by
  constructor
  · intro h i hi
    have hlt : i < 64 := by
      by_contra hge
      have : r < 2 ^ i := lt_of_lt_of_le hr (Nat.pow_le_pow_right (by omega) (by omega))
      rw [Nat.testBit_lt_two_pow this] at hi
      cases hi
    have hz : (r &&& not64 P).testBit i = false := by rw [h]; exact Nat.zero_testBit i
    simp only [not64, Nat.testBit_and, Nat.testBit_mod_two_pow, Nat.testBit_xor,
      Nat.testBit_two_pow_sub_one, hi, hlt, decide_True, Bool.true_and] at hz
    cases hP : P.testBit i with
    | true => rfl
    | false => rw [hP] at hz; cases hz
  · intro h
    apply Nat.eq_of_testBit_eq
    intro i
    rw [Nat.zero_testBit]
    simp only [not64, Nat.testBit_and, Nat.testBit_mod_two_pow, Nat.testBit_xor,
      Nat.testBit_two_pow_sub_one]
    cases hr' : r.testBit i with
    | false => simp
    | true => simp [h i hr']

theorem namei_switch_none (p : proc) (ni : nameidata) (path : List Char)
    (hnul : NUL ∉ path)
    (hno : ¬ namei_exception p.p_pledge_syscall ni.ni_pledge p.p_p.ps_pledge path) :
    namei_switch p ni path = none := by
  have hs : ∀ lit : List Char, NUL ∉ lit → strcmp path lit = 0 → path = lit :=
    fun lit hl h => strcmp_eq_zero path lit hnul hl h
  have hp : ∀ lit : List Char, NUL ∉ lit → strncmp path lit lit.length = 0 → lit <+: path :=
    fun lit hl h => strncmp_eq_zero_imp lit path hl h
  unfold namei_exception at hno
  have hacc := fun h => hno (Or.inr (Or.inr (Or.inl h)))
  have hdev := fun h => hno (Or.inr (Or.inr (Or.inr (Or.inl h))))
  have hpw := fun h => hno (Or.inr (Or.inr (Or.inr (Or.inr (Or.inl h)))))
  have hdns := fun h => hno (Or.inr (Or.inr (Or.inr (Or.inr (Or.inr (Or.inl h))))))
  have hzone := fun h => hno (Or.inr (Or.inr (Or.inr (Or.inr (Or.inr (Or.inr (Or.inl h)))))))
  have hrl := fun h =>
    hno (Or.inr (Or.inr (Or.inr (Or.inr (Or.inr (Or.inr (Or.inr (Or.inl h))))))))
  have hst := fun h =>
    hno (Or.inr (Or.inr (Or.inr (Or.inr (Or.inr (Or.inr (Or.inr (Or.inr h))))))))
  unfold namei_switch
  by_cases c1 : p.p_pledge_syscall = SYS_access
  · rw [if_pos c1, if_neg, if_neg]
    · rintro ⟨h1, h2⟩
      exact hacc ⟨c1, h1, Or.inr (hs _ (by decide) h2)⟩
    · rintro ⟨h1, h2⟩
      exact hacc ⟨c1, h1, Or.inl (hs _ (by decide) h2)⟩
  rw [if_neg c1]
  by_cases c5 : p.p_pledge_syscall = SYS_open
  · rw [if_pos c5, if_neg, if_neg, if_neg, if_neg, if_neg, if_neg, if_neg, if_neg, if_neg,
      if_neg, if_neg, if_neg, if_neg]
    · rintro ⟨h1, h2⟩
      exact hzone ⟨c5, h1, Or.inr (hs _ (by decide) h2)⟩
    · rintro ⟨h1, h2⟩
      exact hzone ⟨c5, h1, Or.inl (hp _ (by decide) h2)⟩
    · rintro ⟨h1, h2, h3⟩
      exact hpw ⟨c5, h1, h2,
        Or.inr (Or.inr (Or.inr (Or.inr (Or.inr (hp _ (by decide) h3)))))⟩
    · rintro ⟨h1, h2, h3⟩
      exact hpw ⟨c5, h1, h2,
        Or.inr (Or.inr (Or.inr (Or.inr (Or.inl (hs _ (by decide) h3)))))⟩
    · rintro ⟨h1, h2, h3⟩
      exact hdns ⟨c5, h1, h2, Or.inr (Or.inr (hs _ (by decide) h3))⟩
    · rintro ⟨h1, h2, h3⟩
      exact hdns ⟨c5, h1, h2, Or.inr (Or.inl (hs _ (by decide) h3))⟩
    · rintro ⟨h1, h2, h3⟩
      exact hdns ⟨c5, h1, h2, Or.inl (hs _ (by decide) h3)⟩
    · rintro ⟨h1, h2, h3⟩
      exact hpw ⟨c5, h1, h2, Or.inr (Or.inr (Or.inr (Or.inl (hs _ (by decide) h3))))⟩
    · rintro ⟨h1, h2, h3⟩
      exact hpw ⟨c5, h1, h2, Or.inr (Or.inr (Or.inl (hs _ (by decide) h3)))⟩
    · rintro ⟨h1, h2, h3⟩
      exact hpw ⟨c5, h1, h2, Or.inr (Or.inl (hs _ (by decide) h3))⟩
    · rintro ⟨h1, h2, h3⟩
      exact hpw ⟨c5, h1, h2, Or.inl (hs _ (by decide) h3)⟩
    · rintro ⟨h1, h2, h3⟩
      exact hdev ⟨c5, h2, Or.inr ⟨h1, hs _ (by decide) h3⟩⟩
    · rintro ⟨h1, h2⟩
      exact hdev ⟨c5, h1, Or.inl (hs _ (by decide) h2)⟩
  rw [if_neg c5]
  by_cases c19 : p.p_pledge_syscall = SYS_readlink
  · rw [if_pos c19, if_neg]
    rintro ⟨h1, h2⟩
    exact hrl ⟨c19, h1, hs _ (by decide) h2⟩
  rw [if_neg c19]
  by_cases c21 : p.p_pledge_syscall = SYS_stat
  · rw [if_pos c21, if_neg]
    rintro ⟨h1, h2, h3⟩
    exact hst ⟨c21, h1, h2, hs _ (by decide) h3⟩
  rw [if_neg c21]

/-- C3: the final bit check of the path gate.  For a pledged process that is
not dumping core and a lookup with non-zero required bits whose path
canonicalises to `path`, when neither the execve short-circuit nor any row
of the exception table applies, pledge_namei returns 0 if and only if every
required bit is held (required & ~promises == 0); otherwise it returns EPERM
through the violation handler, which is given exactly the missing bits
required & ~promises and clears the promises. -/
theorem pledge_namei_final_check (p : proc) (ni : nameidata) (origpath path : List Char)
    (hpledged : p.p_p.PS_PLEDGE = true) (hcore : p.p_p.PS_COREDUMP = false)
    (hreq : ni.ni_pledge ≠ 0) (hreq64 : ni.ni_pledge < 2 ^ 64)
    (hexec : ¬ (ni.ni_pledge &&& PLEDGE_EXEC ≠ 0 ∧ p.p_p.ps_pledge &&& PLEDGE_EXEC ≠ 0))
    (hcanon : canonpath origpath PATH_MAX = .ok path)
    (hno : ¬ namei_exception p.p_pledge_syscall ni.ni_pledge p.p_p.ps_pledge path) :
    (ni.ni_pledge &&& not64 p.p_p.ps_pledge = 0 ↔
      ∀ i, ni.ni_pledge.testBit i = true → p.p_p.ps_pledge.testBit i = true) ∧
    ((pledge_namei p (some ni) origpath).map Prod.fst = some 0 ↔
      ni.ni_pledge &&& not64 p.p_p.ps_pledge = 0) ∧
    (ni.ni_pledge &&& not64 p.p_p.ps_pledge = 0 →
      pledge_namei p (some ni) origpath = some (0, p)) ∧
    (ni.ni_pledge &&& not64 p.p_p.ps_pledge ≠ 0 →
      pledge_namei p (some ni) origpath =
        some (EPERM,
          { p with
            p_p := { p.p_p with ps_pledge := 0 }
            violations := p.violations ++
              [⟨EPERM, ni.ni_pledge &&& not64 p.p_p.ps_pledge, p.p_pledge_syscall⟩] })) := by
  have hnul := canonpath_nul_free origpath path PATH_MAX hcanon
  have hsw := namei_switch_none p ni path hnul hno
  have htmp1 : ¬ (p.p_p.ps_pledge &&& PLEDGE_TMPPATH ≠ 0 ∧ p.p_pledge_syscall = SYS_open ∧
      ni.ni_pledge &&& PLEDGE_CPATH ≠ 0 ∧
      strncmp path "/tmp/".toList "/tmp/".toList.length = 0) := by
    rintro ⟨h1, h2, h3, h4⟩
    exact hno (Or.inl ⟨h1, h2, h3, strncmp_eq_zero_imp _ path (by decide) h4⟩)
  have htmp2 : ¬ (p.p_p.ps_pledge &&& PLEDGE_TMPPATH ≠ 0 ∧ p.p_pledge_syscall = SYS_unlink ∧
      strncmp path "/tmp/".toList "/tmp/".toList.length = 0) := by
    rintro ⟨h1, h2, h3⟩
    exact hno (Or.inr (Or.inl ⟨h1, h2, strncmp_eq_zero_imp _ path (by decide) h3⟩))
  have hgate : ¬ (p.p_p.PS_PLEDGE = false ∨ p.p_p.PS_COREDUMP = true) := by
    rw [hpledged, hcore]; simp
  have e : pledge_namei p (some ni) origpath =
      if ni.ni_pledge &&& not64 p.p_p.ps_pledge ≠ 0 then
        some (pledge_fail p EPERM (ni.ni_pledge &&& not64 p.p_p.ps_pledge))
      else some (0, p) := by
    unfold pledge_namei
    rw [if_neg hgate]
    simp only []
    rw [if_neg hreq, if_neg hexec, hcanon]
    simp only []
    rw [if_neg htmp1, if_neg htmp2, hsw]
  refine ⟨and_not64_eq_zero_iff _ _ hreq64, ?_, ?_, ?_⟩
  · rw [e]
    by_cases hz : ni.ni_pledge &&& not64 p.p_p.ps_pledge = 0
    · simp [hz]
    · simp [hz, pledge_fail, EPERM]
  · intro hz
    rw [e, if_neg (not_not.mpr hz)]
  · intro hz
    rw [e, if_pos hz]
    rfl

/-- Witness for C3: with promises {stdio}, `open("/tmp/x")` requiring rpath
is killed: EPERM, missing bits rpath reported, promises cleared. -/
theorem pledge_namei_final_check_witness :
    pledge_namei ⟨⟨true, false, PLEDGE_STDIO⟩, SYS_open, []⟩ (some ⟨PLEDGE_RPATH⟩)
        "/tmp/x".toList =
      some (EPERM, ⟨⟨true, false, 0⟩, SYS_open, [⟨EPERM, PLEDGE_RPATH, SYS_open⟩]⟩) :=
  (pledge_namei_final_check ⟨⟨true, false, PLEDGE_STDIO⟩, SYS_open, []⟩ ⟨PLEDGE_RPATH⟩
    "/tmp/x".toList "/tmp/x".toList rfl rfl (by decide) (by decide) (by decide) (by decide)
    (by decide)).2.2.2 (by decide)

/-- Witness for C5: `"/a/../b//c/./d/"` in a buffer of 16 bytes. -/
theorem canonpath_lexical_normalisation_witness :
    canonpath "/a/../b//c/./d/".toList 16 =
      .ok (lexical_normalise "/a/../b//c/./d/".toList) ∧
    lexical_normalise "/a/../b//c/./d/".toList = "/b/c/d".toList :=
  ⟨canonpath_lexical_normalisation "/a/../b//c/./d/".toList 16 (by decide) (by decide)
    (by decide), by decide⟩

/-- Witness for C6: `"/a/./b/../c"` canonicalises to `"/a/c"`, a fixed point. -/
theorem canonpath_idempotent_witness :
    canonpath "/a/./b/../c".toList 12 = .ok "/a/c".toList ∧
    canonpath "/a/c".toList 12 = .ok "/a/c".toList :=
  ⟨by decide, canonpath_idempotent "/a/./b/../c".toList "/a/c".toList 12 (by decide)
    (by decide) (by decide)⟩

/-- Witness for C7: the output `"/a/c"` of `"//a/.//b/../c/"`. -/
theorem canonpath_no_slash_dot_runs_witness :
    canonpath "//a/.//b/../c/".toList 1024 = .ok "/a/c".toList ∧
    (¬ "//".toList <:+: "/a/c".toList ∧ ¬ "/./".toList <:+: "/a/c".toList ∧
      ¬ "/../".toList <:+: "/a/c".toList) :=
  ⟨by decide, canonpath_no_slash_dot_runs "//a/.//b/../c/".toList "/a/c".toList 1024
    (by decide) (by decide) (by decide)⟩

/-- C8: on the inputs "/" and "/a/.." canonpath returns 0 with the empty
string, which does not begin with '/': the canonical-form invariant fails
for every input whose components all cancel. -/
theorem canonpath_root_is_empty :
    canonpath "/".toList PATH_MAX = .ok [] ∧
    canonpath "/a/..".toList PATH_MAX = .ok [] ∧
    peek [] 0 ≠ '/' := by
  decide

/-- Witness for C2: a three-entry table (ALWAYS, stdio, rpath) and a process
holding only stdio: entry 2 is denied with EPERM and tval rpath, and the
number 3 is outside the table. -/
theorem pledge_syscall_gate_witness :
    ((pledge_syscall [PLEDGE_ALWAYS, PLEDGE_STDIO, PLEDGE_RPATH]
        ⟨⟨true, false, PLEDGE_STDIO⟩, 0, []⟩ 2).1 = EPERM ∧
      (pledge_syscall [PLEDGE_ALWAYS, PLEDGE_STDIO, PLEDGE_RPATH]
        ⟨⟨true, false, PLEDGE_STDIO⟩, 0, []⟩ 2).2.1 = PLEDGE_RPATH) ∧
    (pledge_syscall [PLEDGE_ALWAYS, PLEDGE_STDIO, PLEDGE_RPATH]
        ⟨⟨true, false, PLEDGE_STDIO⟩, 0, []⟩ 3).1 = EINVAL :=
  ⟨((pledge_syscall_gate [PLEDGE_ALWAYS, PLEDGE_STDIO, PLEDGE_RPATH]
      ⟨⟨true, false, PLEDGE_STDIO⟩, 0, []⟩ 2).2.1 (by decide)).2 (by decide),
    (pledge_syscall_gate [PLEDGE_ALWAYS, PLEDGE_STDIO, PLEDGE_RPATH]
      ⟨⟨true, false, PLEDGE_STDIO⟩, 0, []⟩ 3).1 (by decide)⟩

theorem space_ne_nul : (' ' : Char) ≠ NUL := by decide

theorem first_token_word (w rest : List Char) (hs : ' ' ∉ w) (hn : NUL ∉ w)
    (hr : rest = [] ∨ ∃ r, rest = ' ' :: r) : first_token (w ++ rest) = w := by
  unfold first_token
  induction w with
  | nil =>
    rcases hr with h | ⟨r, h⟩
    · subst h; rfl
    · subst h; simp
  | cons c w ih =>
    have hc1 : c ≠ ' ' := fun h => hs (by simp [h])
    have hc2 : c ≠ NUL := fun h => hn (by simp [h])
    have := ih (fun h => hs (List.mem_cons_of_mem _ h)) (fun h => hn (List.mem_cons_of_mem _ h))
    simp [List.takeWhile_cons, hc1, hc2, this]

theorem strchr_word_space (w r : List Char) (hs : ' ' ∉ w) (hn : NUL ∉ w) :
    strchr (w ++ ' ' :: r) ' ' = some (' ' :: r) := by
  induction w with
  | nil => simp [strchr, space_ne_nul]
  | cons c w ih =>
    have hc1 : c ≠ ' ' := fun h => hs (by simp [h])
    have hc2 : c ≠ NUL := fun h => hn (by simp [h])
    simp [strchr, hc1, hc2,
      ih (fun h => hs (List.mem_cons_of_mem _ h)) (fun h => hn (List.mem_cons_of_mem _ h))]

theorem strchr_word (w : List Char) (hs : ' ' ∉ w) : strchr w ' ' = none := by
  induction w with
  | nil => rfl
  | cons c w ih =>
    have hc1 : c ≠ ' ' := fun h => hs (by simp [h])
    simp only [strchr, hc1, if_false, ih (fun h => hs (List.mem_cons_of_mem _ h))]
    split_ifs <;> rfl

theorem word_split (s : List Char) :
    ∃ w rest, s = w ++ rest ∧ ' ' ∉ w ∧ (rest = [] ∨ ∃ r, rest = ' ' :: r) := by
  induction s with
  | nil => exact ⟨[], [], rfl, by simp, Or.inl rfl⟩
  | cons c s ih =>
    by_cases hc : c = ' '
    · exact ⟨[], c :: s, rfl, by simp, Or.inr ⟨s, by rw [hc]⟩⟩
    · obtain ⟨w, rest, h1, h2, h3⟩ := ih
      refine ⟨c :: w, rest, by rw [h1]; rfl, ?_, h3⟩
      intro h
      rcases List.mem_cons.mp h with h | h
      · exact hc h.symm
      · exact h2 h

theorem request_tokens_word (w : List Char) (hs : ' ' ∉ w) :
    request_tokens w = if w = [] then [] else [w] := by
  unfold request_tokens List.splitOn
  rw [List.splitOnP_eq_single]
  · by_cases hw : w = [] <;> simp [hw]
  · intro x hx h
    rw [beq_iff_eq] at h
    exact hs (h ▸ hx)

theorem request_tokens_word_space (w r : List Char) (hs : ' ' ∉ w) :
    request_tokens (w ++ ' ' :: r) = (if w = [] then [] else [w]) ++ request_tokens r := by
  unfold request_tokens List.splitOn
  rw [List.splitOnP_first]
  · by_cases hw : w = [] <;> simp [hw]
  · intro x hx h
    rw [beq_iff_eq] at h
    exact hs (h ▸ hx)
  · simp

theorem request_tokens_skip_spaces (r : List Char) :
    request_tokens (skip_spaces r) = request_tokens r := by
  induction r with
  | nil => rfl
  | cons c r ih =>
    simp only [skip_spaces]
    split_ifs with h
    · subst h
      have := request_tokens_word_space [] r (by simp)
      simp only [List.nil_append, if_true] at this
      rw [this, ih]
    · rfl

theorem skip_spaces_head (r : List Char) : peek (skip_spaces r) 0 ≠ ' ' := by
  induction r with
  | nil => simp [skip_spaces, peek_nil]; decide
  | cons c r ih =>
    simp only [skip_spaces]
    split_ifs with h
    · exact ih
    · rw [peek_cons_zero]; exact h

theorem mem_skip_spaces (c : Char) (r : List Char) (h : c ∈ skip_spaces r) : c ∈ r := by
  induction r with
  | nil => exact h
  | cons d r ih =>
    simp only [skip_spaces] at h
    split_ifs at h
    · exact List.mem_cons_of_mem _ (ih h)
    · exact h

theorem pledgereq_flags_nil : pledgereq_flags [] = 0 := by decide

theorem request_loop_none (n flags : Nat) : request_loop n none flags = .ok flags := by
  cases n <;> rfl

theorem request_loop_tokens : ∀ (n : Nat) (s : List Char) (flags : Nat),
    s.length ≤ n → NUL ∉ s → peek s 0 ≠ ' ' →
    request_loop n (some s) flags = tokens_flags (request_tokens s) flags := by
  intro n
  induction n with
  | zero =>
    intro s flags hn _ _
    have hs : s = [] := List.length_eq_zero.mp (Nat.le_zero.mp hn)
    subst hs
    rfl
  | succ n ih =>
    intro s flags hn hnul hhead
    cases s with
    | nil => simp [request_loop, peek_nil, request_tokens, tokens_flags]
    | cons c s1 =>
      have hc1 : c ≠ ' ' := by simpa [peek_cons_zero] using hhead
      have hc2 : c ≠ NUL := fun h => hnul (by simp [h])
      obtain ⟨w, rest, h1, h2, h3⟩ := word_split (c :: s1)
      have hwn : NUL ∉ w := fun h => hnul (by rw [h1]; exact List.mem_append_left _ h)
      have hw0 : w ≠ [] := by
        intro hw
        subst hw
        rcases h3 with h | ⟨r, h⟩
        · subst h; simp at h1
        · subst h
          simp only [List.nil_append, List.cons.injEq] at h1
          exact hc1 h1.1
      have hft : first_token (c :: s1) = w := by
        rw [h1]; exact first_token_word w rest h2 hwn h3
      have hp : peek (c :: s1) 0 ≠ NUL := by simpa [peek_cons_zero] using hc2
      simp only [request_loop, if_neg hp, hft]
      rcases h3 with h | ⟨r, h⟩
      · subst h
        rw [List.append_nil] at h1
        rw [h1, strchr_word w h2, request_tokens_word w h2, if_neg hw0]
        simp only [tokens_flags, Option.map_none', request_loop_none]
      · subst h
        have hlen : (skip_spaces (' ' :: r)).length ≤ n := by
          have := strchr_space_length (c :: s1) (' ' :: r) (by
            rw [h1]; exact strchr_word_space w r h2 hwn)
          omega
        have hnul' : NUL ∉ skip_spaces (' ' :: r) := fun h =>
          hnul (by rw [h1]; exact List.mem_append_right _ (mem_skip_spaces _ _ h))
        rw [h1, strchr_word_space w r h2 hwn, request_tokens_word_space w r h2, if_neg hw0]
        simp only [Option.map_some', List.singleton_append, tokens_flags]
        rw [ih _ _ hlen hnul' (skip_spaces_head _), request_tokens_skip_spaces]
        have := request_tokens_word_space [] r (by simp)
        simp only [List.nil_append, if_true] at this
        rw [this]
        rfl

theorem request_loop_leading_space (n : Nat) (s : List Char) (flags : Nat) :
    request_loop (n + 1) (some (' ' :: s)) flags = .error EINVAL := by
  have h : first_token (' ' :: s) = [] := by simp [first_token]
  simp [request_loop, peek_cons_zero, space_ne_nul, h, pledgereq_flags_nil]

theorem pledgereq_search_sound (t : List Char) : ∀ (n base lim : Nat),
    pledgereq_search t n base lim ≠ 0 →
    ∃ e ∈ pledgereq, strcmp t e.1 = 0 ∧ pledgereq_search t n base lim = e.2 := by
  intro n
  induction n with
  | zero => intro base lim h; exact absurd rfl h
  | succ n ih =>
    intro base lim h
    simp only [pledgereq_search] at h ⊢
    split_ifs at h ⊢ with h1 h2 h3
    · exact absurd rfl h
    · by_cases hi : base + (lim >>> 1) < pledgereq.length
      · refine ⟨pledgereq.getD (base + (lim >>> 1)) ([], 0), ?_, h2, rfl⟩
        rw [List.getD_eq_getElem _ _ hi]
        exact List.getElem_mem _
      · exfalso
        apply h
        rw [List.getD_eq_default _ _ (by omega)]
    · exact ih _ _ h
    · exact ih _ _ h

theorem pledgereq_names_nul_free : ∀ e ∈ pledgereq, NUL ∉ e.1 := by decide

theorem pledgereq_names_space_free : ∀ e ∈ pledgereq, ' ' ∉ e.1 := by decide

theorem pledgereq_names_ne_nil : ∀ e ∈ pledgereq, e.1 ≠ [] := by decide

theorem pledgereq_flags_entry : ∀ e ∈ pledgereq, pledgereq_flags e.1 = e.2 ∧ e.2 ≠ 0 := by
  decide

theorem pledgereq_flags_known (t : List Char) (hn : NUL ∉ t) (h : pledgereq_flags t ≠ 0) :
    t ∈ vocabulary := by
  obtain ⟨e, he, h1, _⟩ := pledgereq_search_sound t _ _ _ h
  have := strcmp_eq_zero t e.1 hn (pledgereq_names_nul_free e he) h1
  rw [this]
  exact List.mem_map_of_mem _ he

theorem tokens_flags_unknown : ∀ (ts : List (List Char)) (flags : Nat),
    (∃ t ∈ ts, pledgereq_flags t = 0) → tokens_flags ts flags = .error EINVAL := by
  intro ts
  induction ts with
  | nil => intro _ h; obtain ⟨t, ht, _⟩ := h; cases ht
  | cons u ts ih =>
    intro flags h
    simp only [tokens_flags]
    split_ifs with hu
    · rfl
    · obtain ⟨t, ht, h0⟩ := h
      rcases List.mem_cons.mp ht with e | e
      · subst e; exact absurd h0 hu
      · exact ih _ ⟨t, e, h0⟩

theorem mem_request_tokens : ∀ (n : Nat) (s : List Char), s.length ≤ n →
    ∀ t ∈ request_tokens s, ∀ c ∈ t, c ∈ s := by
  intro n
  induction n with
  | zero =>
    intro s hn t ht
    have hs : s = [] := List.length_eq_zero.mp (Nat.le_zero.mp hn)
    subst hs
    simp [request_tokens] at ht
  | succ n ih =>
    intro s hn t ht c hc
    obtain ⟨w, rest, h1, h2, h3⟩ := word_split s
    rcases h3 with h | ⟨r, h⟩
    · subst h
      rw [List.append_nil] at h1
      subst h1
      rw [request_tokens_word _ h2] at ht
      split_ifs at ht with hw
      · cases ht
      · rw [List.mem_singleton.mp ht] at hc; exact hc
    · subst h
      subst h1
      rw [request_tokens_word_space w r h2] at ht
      rcases List.mem_append.mp ht with e | e
      · split_ifs at e with hw
        · cases e
        · rw [List.mem_singleton.mp e] at hc
          exact List.mem_append_left _ hc
      · have hr : r.length ≤ n := by
          simp only [List.length_append, List.length_cons] at hn
          omega
        exact List.mem_append_right _ (List.mem_cons_of_mem _ (ih r hr t e c hc))

theorem cstr_of_nul_free (s : List Char) (h : NUL ∉ s) : cstr s = s := by
  unfold cstr
  rw [List.takeWhile_eq_self_iff]
  intro c hc
  simp only [bne_iff_ne, ne_eq]
  intro e
  exact h (e ▸ hc)

theorem pledge_parse_eq (request : List Char) (hnul : NUL ∉ request)
    (hlen : request.length < MAXPATHLEN) :
    pledge_parse request = request_loop request.length (some request) 0 := by
  unfold pledge_parse copyinstr
  rw [cstr_of_nul_free request hnul, if_pos (by omega)]

theorem pledge_parse_unknown (request : List Char) (hnul : NUL ∉ request)
    (hlen : request.length < MAXPATHLEN)
    (hunk : ∃ t ∈ request_tokens request, t ∉ vocabulary) :
    pledge_parse request = .error EINVAL := by
  rw [pledge_parse_eq request hnul hlen]
  cases request with
  | nil =>
    obtain ⟨t, ht, _⟩ := hunk
    simp [request_tokens] at ht
  | cons c s =>
    by_cases hc : c = ' '
    · subst hc
      exact request_loop_leading_space _ _ _
    · rw [request_loop_tokens _ _ _ le_rfl hnul (by rw [peek_cons_zero]; exact hc)]
      apply tokens_flags_unknown
      obtain ⟨t, ht, hv⟩ := hunk
      refine ⟨t, ht, ?_⟩
      by_contra h0
      exact hv (pledgereq_flags_known t
        (fun h => hnul (mem_request_tokens _ _ le_rfl t ht _ h)) h0)

/-- C11: unknown promise token.  For every request string (a C string that
copyinstr accepts, shorter than MAXPATHLEN) that contains at least one token
not in the promise vocabulary, sys_pledge returns EINVAL and leaves the
process, its promises and its pledged flag unchanged, whether or not the
process was already pledged, whatever the other tokens are and whatever the
paths argument is. -/
theorem sys_pledge_unknown_token (p : proc) (request : List Char)
    (paths : Option (List (List Char))) (hnul : NUL ∉ request)
    (hlen : request.length < MAXPATHLEN)
    (hunk : ∃ t ∈ request_tokens request, t ∉ vocabulary) :
    sys_pledge p (some request) paths = (EINVAL, p) ∧
    (sys_pledge p (some request) paths).2.p_p.ps_pledge = p.p_p.ps_pledge ∧
    (sys_pledge p (some request) paths).2.p_p.PS_PLEDGE = p.p_p.PS_PLEDGE := by
  have e : sys_pledge p (some request) paths = (EINVAL, p) := by
    simp only [sys_pledge, pledge_request, pledge_parse_unknown request hnul hlen hunk]
  rw [e]
  exact ⟨rfl, rfl, rfl⟩

/-- Witness for C11: `"stdio bogus rpath"` on a process pledged to stdio. -/
theorem sys_pledge_unknown_token_witness :
    sys_pledge ⟨⟨true, false, PLEDGE_STDIO⟩, 0, []⟩ (some "stdio bogus rpath".toList) none =
      (EINVAL, ⟨⟨true, false, PLEDGE_STDIO⟩, 0, []⟩) :=
  (sys_pledge_unknown_token ⟨⟨true, false, PLEDGE_STDIO⟩, 0, []⟩ "stdio bogus rpath".toList
    none (by decide) (by decide) ⟨"bogus".toList, by decide, by decide⟩).1

theorem request_tokens_spaces (g : Nat) (x : List Char) :
    request_tokens (List.replicate g ' ' ++ x) = request_tokens x := by
  induction g with
  | zero => rfl
  | succ g ih =>
    have := request_tokens_word_space [] (List.replicate g ' ' ++ x) (by simp)
    simp only [List.nil_append, if_true] at this
    rw [List.replicate_succ, List.cons_append, this, ih]

theorem request_tokens_spaces_only (g : Nat) : request_tokens (List.replicate g ' ') = [] := by
  have := request_tokens_spaces g []
  rw [List.append_nil] at this
  rw [this]
  rfl

theorem request_tokens_name_gap (w x : List Char) (g : Nat) (hs : ' ' ∉ w) (hw : w ≠ []) :
    request_tokens (w ++ (List.replicate (g + 1) ' ' ++ x)) = w :: request_tokens x := by
  rw [List.replicate_succ, List.cons_append, request_tokens_word_space w _ hs, if_neg hw,
    request_tokens_spaces]
  rfl

theorem request_tokens_more (more : List (Nat × List Char)) (trail : Nat)
    (hs : ∀ gw ∈ more, ' ' ∉ gw.2 ∧ gw.2 ≠ []) :
    ∀ w : List Char, ' ' ∉ w → w ≠ [] →
    request_tokens (w ++
      ((more.map (fun gw => List.replicate (gw.1 + 1) ' ' ++ gw.2)).flatten ++
        List.replicate trail ' ')) = w :: more.map Prod.snd := by
  induction more with
  | nil =>
    intro w hw1 hw2
    cases trail with
    | zero => simp [request_tokens_word w hw1, hw2]
    | succ t =>
      simp only [List.map_nil, List.flatten_nil, List.nil_append]
      have := request_tokens_name_gap w [] t hw1 hw2
      rw [List.append_nil] at this
      rw [this]
      rfl
  | cons gw more ih =>
    intro w hw1 hw2
    have h1 := hs gw (List.mem_cons_self _ _)
    have := ih (fun x hx => hs x (List.mem_cons_of_mem _ hx)) gw.2 h1.1 h1.2
    simp only [List.map_cons, List.flatten_cons, List.append_assoc]
    rw [request_tokens_name_gap w _ gw.1 hw1 hw2, this]

theorem tokens_flags_known : ∀ (es : List (List Char × Nat)) (flags : Nat),
    (∀ e ∈ es, e ∈ pledgereq) →
    tokens_flags (es.map Prod.fst) flags = .ok (es.foldl (fun acc e => acc ||| e.2) flags) := by
  intro es
  induction es with
  | nil => intro flags _; rfl
  | cons e es ih =>
    intro flags h
    have he := pledgereq_flags_entry e (h e (List.mem_cons_self _ _))
    simp only [List.map_cons, tokens_flags, List.foldl_cons]
    rw [he.1, if_neg he.2, ih _ (fun x hx => h x (List.mem_cons_of_mem _ hx))]

theorem sys_pledge_unpledged (p : proc) (request : List Char) (F : Nat)
    (hp : p.p_p.PS_PLEDGE = false) (h : pledge_parse request = .ok F) :
    sys_pledge p (some request) none =
      (0, { p with p_p := { p.p_p with ps_pledge := F, PS_PLEDGE := true } }) := by
  simp [sys_pledge, pledge_request, h, hp]

theorem mem_flatten_gaps (c : Char) (more : List (Nat × List Char))
    (h : c ∈ (more.map (fun gw => List.replicate (gw.1 + 1) ' ' ++ gw.2)).flatten) :
    c = ' ' ∨ ∃ gw ∈ more, c ∈ gw.2 := by
  induction more with
  | nil => simp at h
  | cons gw more ih =>
    simp only [List.map_cons, List.flatten_cons, List.mem_append] at h
    rcases h with (h | h) | h
    · exact Or.inl (List.eq_of_mem_replicate h)
    · exact Or.inr ⟨gw, List.mem_cons_self _ _, h⟩
    · rcases ih h with e | ⟨x, hx, hc⟩
      · exact Or.inl e
      · exact Or.inr ⟨x, List.mem_cons_of_mem _ hx, hc⟩

theorem pledge_parse_spaced (first : List Char × Nat)
    (more : List (Nat × (List Char × Nat))) (trail : Nat)
    (hfirst : first ∈ pledgereq)
    (hmore : ∀ ge ∈ more, ge.2 ∈ pledgereq)
    (hlen : (spaced_request 0 first.1 (more.map (fun ge => (ge.1, ge.2.1))) trail).length <
      MAXPATHLEN) :
    pledge_parse (spaced_request 0 first.1 (more.map (fun ge => (ge.1, ge.2.1))) trail) =
      .ok (flags_or (first :: more.map Prod.snd)) := by
  have hf1 := pledgereq_names_space_free first hfirst
  have hf2 := pledgereq_names_ne_nil first hfirst
  have hf3 := pledgereq_names_nul_free first hfirst
  have hm : ∀ gw ∈ more.map (fun ge => (ge.1, ge.2.1)), ' ' ∉ gw.2 ∧ gw.2 ≠ [] := by
    intro gw hgw
    obtain ⟨ge, hge, e⟩ := List.mem_map.mp hgw
    subst e
    exact ⟨pledgereq_names_space_free _ (hmore ge hge), pledgereq_names_ne_nil _ (hmore ge hge)⟩
  have hshape : spaced_request 0 first.1 (more.map (fun ge => (ge.1, ge.2.1))) trail =
      first.1 ++ (((more.map (fun ge => (ge.1, ge.2.1))).map
        (fun gw => List.replicate (gw.1 + 1) ' ' ++ gw.2)).flatten ++
          List.replicate trail ' ') := by
    simp [spaced_request]
  have hnul : NUL ∉ spaced_request 0 first.1 (more.map (fun ge => (ge.1, ge.2.1))) trail := by
    rw [hshape]
    intro h
    rcases List.mem_append.mp h with h | h
    · exact hf3 h
    · rcases List.mem_append.mp h with h | h
      · rcases mem_flatten_gaps _ _ h with e | ⟨gw, hgw, hc⟩
        · exact space_ne_nul e.symm
        · obtain ⟨ge, hge, e⟩ := List.mem_map.mp hgw
          subst e
          exact pledgereq_names_nul_free _ (hmore ge hge) hc
      · exact space_ne_nul (List.eq_of_mem_replicate h).symm
  have hhead : peek (spaced_request 0 first.1 (more.map (fun ge => (ge.1, ge.2.1))) trail) 0
      ≠ ' ' := by
    rw [hshape]
    cases hfn : first.1 with
    | nil => exact absurd hfn hf2
    | cons c w =>
      rw [List.cons_append, peek_cons_zero]
      intro e
      exact hf1 (by rw [hfn, e]; exact List.mem_cons_self _ _)
  rw [pledge_parse_eq _ hnul hlen, request_loop_tokens _ _ _ le_rfl hnul hhead, hshape,
    request_tokens_more _ trail hm first.1 hf1 hf2]
  have hall : ∀ e ∈ first :: more.map Prod.snd, e ∈ pledgereq := by
    intro e he
    rcases List.mem_cons.mp he with h | h
    · rw [h]; exact hfirst
    · obtain ⟨ge, hge, e'⟩ := List.mem_map.mp h
      rw [← e']; exact hmore ge hge
  have := tokens_flags_known (first :: more.map Prod.snd) 0 hall
  simp only [List.map_cons, List.map_map] at this ⊢
  exact this

/-- C12, amended: space tolerance of the promise parser.  For every
non-empty sequence of vocabulary names, the request string that starts with
the first name (no leading space), separates consecutive names with one or
more spaces and ends with any number of trailing spaces is accepted on an
unpledged process (when it is shorter than MAXPATHLEN) and sets the promises
to exactly the bitwise OR of the names' flags. -/
theorem sys_pledge_space_tolerance (p : proc) (first : List Char × Nat)
    (more : List (Nat × (List Char × Nat))) (trail : Nat)
    (hp : p.p_p.PS_PLEDGE = false) (hfirst : first ∈ pledgereq)
    (hmore : ∀ ge ∈ more, ge.2 ∈ pledgereq)
    (hlen : (spaced_request 0 first.1 (more.map (fun ge => (ge.1, ge.2.1))) trail).length <
      MAXPATHLEN) :
    sys_pledge p (some (spaced_request 0 first.1 (more.map (fun ge => (ge.1, ge.2.1))) trail))
        none =
      (0, { p with p_p := { p.p_p with
        ps_pledge := flags_or (first :: more.map Prod.snd), PS_PLEDGE := true } }) :=
  sys_pledge_unpledged p _ _ hp (pledge_parse_spaced first more trail hfirst hmore hlen)

/-- Witness for C12, amended: `"stdio  rpath   inet "`. -/
theorem sys_pledge_space_tolerance_witness :
    sys_pledge ⟨⟨false, false, 0⟩, 0, []⟩ (some "stdio  rpath   inet ".toList) none =
      (0, ⟨⟨true, false, PLEDGE_STDIO ||| PLEDGE_RPATH ||| PLEDGE_INET⟩, 0, []⟩) :=
  sys_pledge_space_tolerance ⟨⟨false, false, 0⟩, 0, []⟩ ("stdio".toList, PLEDGE_STDIO)
    [(1, ("rpath".toList, PLEDGE_RPATH)), (2, ("inet".toList, PLEDGE_INET))] 1 rfl
    (by decide) (by decide) (by decide)

/-- Counterexample to C12 as stated: one leading space before the vocabulary
name `stdio` makes sys_pledge return EINVAL on an unpledged process, which
stays unpledged. -/
theorem sys_pledge_leading_space_counterexample :
    spaced_request 1 "stdio".toList [] 0 = " stdio".toList ∧
    sys_pledge ⟨⟨false, false, 0⟩, 0, []⟩ (some (spaced_request 1 "stdio".toList [] 0)) none =
      (EINVAL, ⟨⟨false, false, 0⟩, 0, []⟩) := by
  decide

theorem or_and_eq_zero (a b m : Nat) (ha : a &&& m = 0) (hb : b &&& m = 0) :
    (a ||| b) &&& m = 0 := by
  apply Nat.eq_of_testBit_eq
  intro i
  have h1 : (a &&& m).testBit i = false := by rw [ha]; exact Nat.zero_testBit i
  have h2 : (b &&& m).testBit i = false := by rw [hb]; exact Nat.zero_testBit i
  rw [Nat.testBit_and] at h1 h2
  rw [Nat.zero_testBit, Nat.testBit_and, Nat.testBit_lor]
  cases hm : m.testBit i with
  | false => simp
  | true =>
    rw [hm] at h1 h2
    simp only [Bool.and_true] at h1 h2
    simp [h1, h2]

theorem pledgereq_entries_user : ∀ e ∈ pledgereq,
    e.2 &&& (PLEDGE_YPACTIVE ||| PLEDGE_STATLIE) = 0 := by decide

theorem pledgereq_flags_user (t : List Char) :
    pledgereq_flags t &&& (PLEDGE_YPACTIVE ||| PLEDGE_STATLIE) = 0 := by
  by_cases h : pledgereq_flags t = 0
  · rw [h]; exact Nat.zero_and _
  · obtain ⟨e, he, _, h2⟩ := pledgereq_search_sound t _ _ _ h
    unfold pledgereq_flags
    rw [h2]
    exact pledgereq_entries_user e he

theorem request_loop_user : ∀ (n : Nat) (rp : Option (List Char)) (flags F : Nat),
    flags &&& (PLEDGE_YPACTIVE ||| PLEDGE_STATLIE) = 0 →
    request_loop n rp flags = .ok F → F &&& (PLEDGE_YPACTIVE ||| PLEDGE_STATLIE) = 0 := by
  intro n
  induction n with
  | zero =>
    intro rp flags F hf h
    simp only [request_loop] at h
    injection h with h
    rw [← h]; exact hf
  | succ n ih =>
    intro rp flags F hf h
    cases rp with
    | none =>
      simp only [request_loop] at h
      injection h with h
      rw [← h]; exact hf
    | some s =>
      simp only [request_loop] at h
      split_ifs at h with h1 h2
      · injection h with h
        rw [← h]; exact hf
      · exact ih _ _ F (or_and_eq_zero _ _ _ hf (pledgereq_flags_user _)) h

set_option maxRecDepth 100000 in
/-- C13: the promise vocabulary.  `chown` maps to exactly CHOWN | CHOWNUID,
`fattr` to exactly FATTR | CHOWN (CHOWNUID not included); the table has 32
names, each of the 30 others maps to exactly one bit, distinct names map to
distinct flags, and no name's flags contain the internal bits YPACTIVE or
STATLIE, so no request string parses to a set that contains them. -/
theorem pledgereq_vocabulary :
    pledgereq_flags "chown".toList = PLEDGE_CHOWN ||| PLEDGE_CHOWNUID ∧
    pledgereq_flags "fattr".toList = PLEDGE_FATTR ||| PLEDGE_CHOWN ∧
    (PLEDGE_FATTR ||| PLEDGE_CHOWN) &&& PLEDGE_CHOWNUID = 0 ∧
    pledgereq.length = 32 ∧
    (∀ e ∈ pledgereq, e.1 ≠ "chown".toList → e.1 ≠ "fattr".toList →
      ∃ k, k < 64 ∧ pledgereq_flags e.1 = 2 ^ k) ∧
    (∀ e1 ∈ pledgereq, ∀ e2 ∈ pledgereq, e1.1 ≠ e2.1 →
      pledgereq_flags e1.1 ≠ pledgereq_flags e2.1 ∧
      (e1.1 ≠ "chown".toList → e1.1 ≠ "fattr".toList → e2.1 ≠ "chown".toList →
        e2.1 ≠ "fattr".toList → pledgereq_flags e1.1 &&& pledgereq_flags e2.1 = 0)) ∧
    (∀ e ∈ pledgereq,
      pledgereq_flags e.1 &&& (PLEDGE_YPACTIVE ||| PLEDGE_STATLIE) = 0) ∧
    (∀ (request : List Char) (F : Nat), pledge_parse request = .ok F →
      F &&& (PLEDGE_YPACTIVE ||| PLEDGE_STATLIE) = 0) := by
  refine ⟨by decide, by decide, by decide, by decide, by decide, by decide, by decide, ?_⟩
  intro request F h
  unfold pledge_parse at h
  cases hc : copyinstr request MAXPATHLEN with
  | error e => rw [hc] at h; cases h
  | ok rbuf =>
    rw [hc] at h
    exact request_loop_user _ _ 0 F (Nat.zero_and _) h

theorem foldl_or_le (X : Nat) : ∀ (L : List (List Char × Nat)) (acc : Nat),
    (∀ e ∈ L, e.2 ||| X = X) → acc ||| X = X →
    (L.foldl (fun a e => a ||| e.2) acc) ||| X = X := by
  intro L
  induction L with
  | nil => intro acc _ h; exact h
  | cons e L ih =>
    intro acc hL h
    rw [List.foldl_cons]
    apply ih _ (fun x hx => hL x (List.mem_cons_of_mem _ hx))
    rw [Nat.lor_assoc, hL e (List.mem_cons_self _ _), h]

theorem foldl_or_acc : ∀ (L : List (List Char × Nat)) (acc : Nat),
    acc ||| (L.foldl (fun a e => a ||| e.2) acc) = L.foldl (fun a e => a ||| e.2) acc := by
  intro L
  induction L with
  | nil => intro acc; exact Nat.or_self acc
  | cons e L ih =>
    intro acc
    rw [List.foldl_cons]
    have := ih (acc ||| e.2)
    rw [← this, ← Nat.lor_assoc, ← Nat.lor_assoc, Nat.or_self]

theorem foldl_or_mem : ∀ (L : List (List Char × Nat)) (acc : Nat), ∀ e ∈ L,
    e.2 ||| (L.foldl (fun a x => a ||| x.2) acc) = L.foldl (fun a x => a ||| x.2) acc := by
  intro L
  induction L with
  | nil => intro acc e he; cases he
  | cons x L ih =>
    intro acc e he
    rw [List.foldl_cons]
    rcases List.mem_cons.mp he with h | h
    · subst h
      have := foldl_or_acc L (acc ||| e.2)
      rw [← this, ← Nat.lor_assoc, ← Nat.lor_assoc, Nat.lor_comm e.2 acc, Nat.lor_assoc acc,
        Nat.or_self]
    · exact ih _ e h

theorem flags_or_filter (S : List (List Char × Nat)) (hS : ∀ e ∈ S, e ∈ pledgereq) :
    flags_or (pledgereq.filter (fun e => decide (e.2 ||| flags_or S = flags_or S))) =
      flags_or S := by
  have h1 : flags_or (pledgereq.filter (fun e => decide (e.2 ||| flags_or S = flags_or S)))
      ||| flags_or S = flags_or S := by
    apply foldl_or_le
    · intro e he
      have := (List.mem_filter.mp he).2
      simpa using this
    · exact Nat.zero_or _
  have h2 : flags_or S |||
      flags_or (pledgereq.filter (fun e => decide (e.2 ||| flags_or S = flags_or S))) =
      flags_or (pledgereq.filter (fun e => decide (e.2 ||| flags_or S = flags_or S))) := by
    apply foldl_or_le
    · intro e he
      apply foldl_or_mem
      rw [List.mem_filter]
      refine ⟨hS e he, ?_⟩
      simp only [decide_eq_true_eq]
      exact foldl_or_mem S 0 e he
    · exact Nat.zero_or _
  rw [← h2, Nat.lor_comm]
  exact h1.symm ▸ rfl

theorem intercalate_space_cons (w : List Char) (ws : List (List Char)) :
    [' '].intercalate (w :: ws) = spaced_request 0 w (ws.map (fun x => (0, x))) 0 := by
  induction ws generalizing w with
  | nil => simp [spaced_request, List.intercalate]
  | cons v ws ih =>
    have := ih v
    simp only [spaced_request, List.intercalate, List.intersperse, List.flatten_cons,
      List.replicate_zero, List.nil_append, List.append_nil, List.map_cons, List.map_map,
      List.replicate_succ, List.cons_append] at this ⊢
    rw [this]

theorem intercalate_space_length : ∀ ws : List (List Char),
    ([' '].intercalate ws).length ≤ (ws.map (fun w => w.length + 1)).sum := by
  intro ws
  induction ws with
  | nil => simp [List.intercalate]
  | cons w ws ih =>
    cases ws with
    | nil => simp [List.intercalate]
    | cons v vs =>
      simp only [List.intercalate, List.intersperse, List.flatten_cons, List.length_append,
        List.map_cons, List.sum_cons, List.length_cons, List.length_nil] at ih ⊢
      omega

theorem request_of_bits_length (b : Nat) : (request_of_bits b).length < MAXPATHLEN := by
  have h1 := intercalate_space_length
    ((pledgereq.filter (fun e => decide (e.2 ||| b = b))).map Prod.fst)
  have h2 : (((pledgereq.filter (fun e => decide (e.2 ||| b = b))).map Prod.fst).map
      (fun w => w.length + 1)).sum ≤ ((pledgereq.map Prod.fst).map (fun w => w.length + 1)).sum :=
    List.Sublist.sum_le_sum ((List.filter_sublist _).map _ |>.map _) (fun _ _ => Nat.zero_le _)
  have h3 : ((pledgereq.map Prod.fst).map (fun w => w.length + 1)).sum < MAXPATHLEN := by
    decide
  unfold request_of_bits
  omega

theorem pledge_parse_request_of_bits (S : List (List Char × Nat))
    (hS : ∀ e ∈ S, e ∈ pledgereq) :
    pledge_parse (request_of_bits (flags_or S)) = .ok (flags_or S) := by
  have hlen := request_of_bits_length (flags_or S)
  have hfl := flags_or_filter S hS
  unfold request_of_bits at hlen ⊢
  cases hL : pledgereq.filter (fun e => decide (e.2 ||| flags_or S = flags_or S)) with
  | nil =>
    rw [hL] at hfl
    rw [← hfl]
    rfl
  | cons e L =>
    rw [hL] at hlen hfl
    have hmem : ∀ x ∈ e :: L, x ∈ pledgereq := fun x hx =>
      (List.mem_filter.mp (hL ▸ hx)).1
    have key := pledge_parse_spaced e (L.map (fun x => (0, x))) 0
      (hmem e (List.mem_cons_self _ _))
      (by
        intro ge hge
        obtain ⟨x, hx, e'⟩ := List.mem_map.mp hge
        rw [← e']
        exact hmem x (List.mem_cons_of_mem _ hx))
    simp only [List.map_map] at key
    have e1 : ((fun ge : Nat × (List Char × Nat) => (ge.1, ge.2.1)) ∘
        fun x : List Char × Nat => (0, x)) = ((fun x : List Char => (0, x)) ∘ Prod.fst) := by
      funext x; rfl
    have e2 : (Prod.snd ∘ fun x : List Char × Nat => ((0 : Nat), x)) = id := by
      funext x; rfl
    rw [e1, e2, List.map_id, ← List.map_map] at key
    rw [List.map_cons, intercalate_space_cons] at hlen ⊢
    rw [key hlen, hfl]

/-- C14: promise parse round trip.  For every collection S of vocabulary
entries (the empty one included), with b the bitwise OR of their table
flags, the request made of all table names whose flags are contained in b,
in table (sorted) order and joined by single spaces, on an unpledged process
succeeds, sets the promises to exactly b and marks the process pledged; in
particular the empty string succeeds with zero bits and marks the process
pledged. -/
theorem sys_pledge_round_trip (p : proc) (S : List (List Char × Nat))
    (hp : p.p_p.PS_PLEDGE = false) (hS : ∀ e ∈ S, e ∈ pledgereq) :
    sys_pledge p (some (request_of_bits (flags_or S))) none =
      (0, { p with p_p := { p.p_p with ps_pledge := flags_or S, PS_PLEDGE := true } }) ∧
    sys_pledge p (some []) none =
      (0, { p with p_p := { p.p_p with ps_pledge := 0, PS_PLEDGE := true } }) :=
  ⟨sys_pledge_unpledged p _ _ hp (pledge_parse_request_of_bits S hS),
    sys_pledge_unpledged p _ _ hp rfl⟩

/-- Witness for C14: S = {fattr, stdio}; the bitset FATTR | CHOWN | STDIO is
written `"fattr stdio"` (chown is left out: its flags include CHOWNUID). -/
theorem sys_pledge_round_trip_witness :
    request_of_bits (flags_or [("stdio".toList, PLEDGE_STDIO),
      ("fattr".toList, PLEDGE_FATTR ||| PLEDGE_CHOWN)]) = "fattr stdio".toList ∧
    sys_pledge ⟨⟨false, false, 0⟩, 0, []⟩ (some "fattr stdio".toList) none =
      (0, ⟨⟨true, false, PLEDGE_STDIO ||| PLEDGE_FATTR ||| PLEDGE_CHOWN⟩, 0, []⟩) :=
  ⟨by decide,
    (sys_pledge_round_trip ⟨⟨false, false, 0⟩, 0, []⟩
      [("stdio".toList, PLEDGE_STDIO), ("fattr".toList, PLEDGE_FATTR ||| PLEDGE_CHOWN)]
      rfl (by decide)).1⟩

/-- C15, amended: for every process state, a sys_pledge call in which both
the request string and the paths array are null returns 0 and leaves the
process exactly as it was: the call is accepted as a no-op, not rejected. -/
theorem sys_pledge_null_null (p : proc) : sys_pledge p none none = (0, p) := by
  rfl

/-- Counterexample to C15 as stated: `pledge(NULL, NULL)` on an unpledged
process returns 0. -/
theorem sys_pledge_null_null_counterexample :
    (sys_pledge ⟨⟨false, false, 0⟩, 0, []⟩ none none).1 = 0 := by
  decide

theorem pledge_request_error_ne_zero (p : proc) (r : List Char) (e : Int)
    (h : pledge_request p r = .error e) : e ≠ 0 := by
  unfold pledge_request pledge_parse copyinstr at h
  split_ifs at h with h1
  · simp only [] at h
    cases n : (cstr r).length with
    | zero =>
      rw [n] at h
      simp only [request_loop] at h
      split_ifs at h with h2
      injection h with h; rw [← h]; decide
    | succ k =>
      rw [n] at h
      cases hl : request_loop (k + 1) (some (cstr r)) 0 with
      | error e' =>
        have he' : e' = EINVAL := by
          clear h n
          generalize (0 : Nat) = f at hl
          generalize cstr r = s at hl
          generalize k + 1 = m at hl
          induction m generalizing s f with
          | zero => simp [request_loop] at hl
          | succ m ih =>
            simp only [request_loop] at hl
            split_ifs at hl with a b
            · injection hl with hl; exact hl.symm
            · cases hs : strchr s ' ' with
              | none =>
                rw [hs] at hl
                simp only [Option.map_none', request_loop_none] at hl
                cases hl
              | some t =>
                rw [hs] at hl
                exact ih _ _ hl
        rw [hl] at h
        simp only [] at h
        injection h with h
        rw [← h, he']; decide
      | ok F =>
        rw [hl] at h
        simp only [] at h
        split_ifs at h with h2
        injection h with h
        rw [← h]; decide
  · simp only [] at h
    injection h with h
    rw [← h]; decide

/-- C16: the disabled paths feature.  For every process state and every call
with a non-null paths argument, sys_pledge does not return 0 and leaves the
process (its promises and its pledged flag) unchanged; when the request is
null, or is accepted by the first block (well-formed and passing the
monotonicity check), the error is EINVAL, so a valid request that
accompanies paths is not applied. -/
theorem sys_pledge_paths_disabled (p : proc) (request : Option (List Char))
    (paths : List (List Char)) :
    (sys_pledge p request (some paths)).1 ≠ 0 ∧
    (sys_pledge p request (some paths)).2 = p ∧
    (sys_pledge p none (some paths)).1 = EINVAL ∧
    (∀ r F, request = some r → pledge_request p r = .ok F →
      (sys_pledge p request (some paths)).1 = EINVAL) := by
  refine ⟨?_, ?_, rfl, ?_⟩
  · cases request with
    | none => simp [sys_pledge, EINVAL]
    | some r =>
      cases h : pledge_request p r with
      | error e =>
        simp only [sys_pledge, h]
        exact pledge_request_error_ne_zero p r e h
      | ok F => simp [sys_pledge, h, EINVAL]
  · cases request with
    | none => rfl
    | some r =>
      cases h : pledge_request p r with
      | error e => simp only [sys_pledge, h]
      | ok F => simp [sys_pledge, h]
  · intro r F hr h
    subst hr
    simp [sys_pledge, h]

/-- Witness for C16: an unpledged process calling `pledge("stdio", paths)`
gets EINVAL and stays unpledged with zero promises. -/
theorem sys_pledge_paths_disabled_witness :
    sys_pledge ⟨⟨false, false, 0⟩, 0, []⟩ (some "stdio".toList) (some ["/tmp".toList]) =
      (EINVAL, ⟨⟨false, false, 0⟩, 0, []⟩) :=
  Prod.ext
    ((sys_pledge_paths_disabled ⟨⟨false, false, 0⟩, 0, []⟩ (some "stdio".toList)
      ["/tmp".toList]).2.2.2 "stdio".toList PLEDGE_STDIO rfl (by decide))
    (sys_pledge_paths_disabled ⟨⟨false, false, 0⟩, 0, []⟩ (some "stdio".toList)
      ["/tmp".toList]).2.1

/-- C18, amended: pledge_syscall does not test the pledged flag.  For every
process whose pledged flag is clear and whose promises are zero, and every
valid syscall number, it returns 0 exactly when the table entry is ALWAYS
and otherwise EPERM with the required bits in tval; it records the syscall
number in p_pledge_syscall and changes nothing else (promises, pledged flag
and violation record are untouched, nothing is killed). -/
theorem pledge_syscall_unpledged (tbl : List Nat) (p : proc) (code : Int)
    (hp : p.p_p.PS_PLEDGE = false) (hz : p.p_p.ps_pledge = 0)
    (hcode : 0 ≤ code ∧ code < (tbl.length : Int)) :
    ((pledge_syscall tbl p code).1 = 0 ↔ tbl.getD code.toNat 0 = PLEDGE_ALWAYS) ∧
    (tbl.getD code.toNat 0 ≠ PLEDGE_ALWAYS →
      (pledge_syscall tbl p code).1 = EPERM ∧
      (pledge_syscall tbl p code).2.1 = tbl.getD code.toNat 0) ∧
    (pledge_syscall tbl p code).2.2 = { p with p_pledge_syscall := code } ∧
    (pledge_syscall tbl p code).2.2.p_p.PS_PLEDGE = false := by
  unfold pledge_syscall
  generalize tbl.getD code.toNat 0 = e
  have h1 : ¬ (code < 0 ∨ code > (tbl.length : Int) - 1) := by omega
  have h2 : ¬ (p.p_p.ps_pledge &&& e ≠ 0) := by rw [hz, Nat.zero_and]; simp
  simp only [if_neg h1, if_neg h2]
  by_cases ha : e = PLEDGE_ALWAYS
  · simp [ha, hp]
  · simp [ha, hp, EPERM]

/-- Witness for C18, amended: with the table (ALWAYS, stdio), entry 0 is
admitted and entry 1 is denied for an unpledged process. -/
theorem pledge_syscall_unpledged_witness :
    (pledge_syscall [PLEDGE_ALWAYS, PLEDGE_STDIO] ⟨⟨false, false, 0⟩, 0, []⟩ 1).1 = EPERM ∧
    (pledge_syscall [PLEDGE_ALWAYS, PLEDGE_STDIO] ⟨⟨false, false, 0⟩, 0, []⟩ 1).2.1 =
      PLEDGE_STDIO :=
  (pledge_syscall_unpledged [PLEDGE_ALWAYS, PLEDGE_STDIO] ⟨⟨false, false, 0⟩, 0, []⟩ 1 rfl rfl
    (by decide)).2.1 (by decide)

/-- Counterexample to C18 as stated: for an unpledged process with zero
promises and the table (ALWAYS, stdio), the valid syscall number 1 is denied
with EPERM, and the call changes the recorded syscall number. -/
theorem pledge_syscall_unpledged_counterexample :
    (pledge_syscall [PLEDGE_ALWAYS, PLEDGE_STDIO] ⟨⟨false, false, 0⟩, 0, []⟩ 1).1 = EPERM ∧
    (pledge_syscall [PLEDGE_ALWAYS, PLEDGE_STDIO] ⟨⟨false, false, 0⟩, 0, []⟩ 1).2.2 ≠
      ⟨⟨false, false, 0⟩, 0, []⟩ := by
  decide

theorem verdict_run_promises (p : proc) (v : verdict) :
    (verdict.run p v).2.p_p.ps_pledge = p.p_p.ps_pledge ∨
    (verdict.run p v).2.p_p.ps_pledge = 0 := by
  cases v with
  | ret e => left; rfl
  | fail e c => right; rfl

/-- C17: unpledged no-op for the specialised hooks.  For every process whose
pledged flag is clear and for all arguments, each of pledge_namei,
pledge_recvfd, pledge_sendfd, pledge_sysctl, pledge_chown, pledge_adjtime,
pledge_sendit, pledge_ioctl, pledge_sockopt, pledge_socket, pledge_flock,
pledge_swapctl, pledge_fcntl, pledge_kill and pledge_protexec returns 0 and
leaves the process unchanged. -/
theorem hooks_unpledged_noop (p : proc) (h : p.p_p.PS_PLEDGE = false) :
    (∀ ni origpath, pledge_namei p ni origpath = some (0, p)) ∧
    (∀ fp, pledge_recvfd p fp = (0, p)) ∧
    (∀ fp, pledge_sendfd p fp = (0, p)) ∧
    (∀ k miblen mib new, pledge_sysctl k p miblen mib new = (0, p)) ∧
    (∀ cred uid gid, pledge_chown p cred uid gid = (0, p)) ∧
    (∀ delta, pledge_adjtime p delta = (0, p)) ∧
    (∀ to_addr, pledge_sendit p to_addr = (0, p)) ∧
    (∀ k com fp, pledge_ioctl k p com fp = (0, p)) ∧
    (∀ k set level optname, pledge_sockopt k p set level optname = (0, p)) ∧
    (∀ domain state, pledge_socket p domain state = (0, p)) ∧
    pledge_flock p = (0, p) ∧
    pledge_swapctl p = (0, p) ∧
    (∀ cmd, pledge_fcntl p cmd = (0, p)) ∧
    (∀ ps_pid pid, pledge_kill p ps_pid pid = (0, p)) ∧
    (∀ prot, pledge_protexec p prot = (0, p)) := by
  refine ⟨?_, ?_, ?_, ?_, ?_, ?_, ?_, ?_, ?_, ?_, ?_, ?_, ?_, ?_, ?_⟩
  · intro ni origpath
    unfold pledge_namei
    rw [if_pos (Or.inl h)]
  · intro fp; unfold pledge_recvfd; rw [if_pos h]; rfl
  · intro fp; unfold pledge_sendfd; rw [if_pos h]; rfl
  · intro k miblen mib new; unfold pledge_sysctl; rw [if_pos h]; rfl
  · intro cred uid gid; unfold pledge_chown; rw [if_pos h]; rfl
  · intro delta; unfold pledge_adjtime; rw [if_pos h]; rfl
  · intro to_addr; unfold pledge_sendit; rw [if_pos h]; rfl
  · intro k com fp; unfold pledge_ioctl; rw [if_pos h]; rfl
  · intro k set level optname; unfold pledge_sockopt; rw [if_pos h]; rfl
  · intro domain state; unfold pledge_socket; rw [if_pos h]; rfl
  · unfold pledge_flock; rw [if_pos h]; rfl
  · unfold pledge_swapctl; rw [if_pos h]; rfl
  · intro cmd; unfold pledge_fcntl; rw [if_pos h]; rfl
  · intro ps_pid pid; unfold pledge_kill; rw [if_pos h]; rfl
  · intro prot; unfold pledge_protexec; rw [if_pos h]; rfl

/-- Witness for C17: an unpledged process with zero promises; for instance a
socket of an unknown domain and a lookup without a nameidata are let
through. -/
theorem hooks_unpledged_noop_witness :
    pledge_socket ⟨⟨false, false, 0⟩, 0, []⟩ 99 0 = (0, ⟨⟨false, false, 0⟩, 0, []⟩) ∧
    pledge_namei ⟨⟨false, false, 0⟩, 0, []⟩ none "/etc/passwd".toList =
      some (0, ⟨⟨false, false, 0⟩, 0, []⟩) ∧
    pledge_swapctl ⟨⟨false, false, 0⟩, 0, []⟩ = (0, ⟨⟨false, false, 0⟩, 0, []⟩) :=
  ⟨(hooks_unpledged_noop ⟨⟨false, false, 0⟩, 0, []⟩ rfl).2.2.2.2.2.2.2.2.2.1 99 0,
    (hooks_unpledged_noop ⟨⟨false, false, 0⟩, 0, []⟩ rfl).1 none "/etc/passwd".toList,
    (hooks_unpledged_noop ⟨⟨false, false, 0⟩, 0, []⟩ rfl).2.2.2.2.2.2.2.2.2.2.2.1⟩

theorem namei_switch_effect (p : proc) (ni : nameidata) (path : List Char) (r : Int)
    (p' : proc) (h : namei_switch p ni path = some (r, p')) :
    p' = p ∨ p' = (pledge_fail p 0 PLEDGE_GETPW).2 ∨
    (p' = { p with p_p := { p.p_p with ps_pledge := p.p_p.ps_pledge ||| PLEDGE_YPACTIVE } } ∧
      r = 0 ∧ p.p_pledge_syscall = SYS_open ∧ ni.ni_pledge = PLEDGE_RPATH ∧
      p.p_p.ps_pledge &&& PLEDGE_GETPW ≠ 0 ∧
      strcmp path "/var/run/ypbind.lock".toList = 0) := by
  unfold namei_switch at h
  generalize hyp : strcmp path "/var/run/ypbind.lock".toList = s_yp at h ⊢
  generalize strcmp path "/etc/localtime".toList = s1 at h
  generalize strcmp path "/dev/null".toList = s2 at h
  generalize strcmp path "/dev/tty".toList = s3 at h
  generalize strcmp path "/etc/spwd.db".toList = s4 at h
  generalize strcmp path "/etc/pwd.db".toList = s5 at h
  generalize strcmp path "/etc/group".toList = s6 at h
  generalize strcmp path "/etc/netid".toList = s7 at h
  generalize strcmp path "/etc/resolv.conf".toList = s8 at h
  generalize strcmp path "/etc/hosts".toList = s9 at h
  generalize strcmp path "/etc/services".toList = s10 at h
  generalize strcmp path "/etc/malloc.conf".toList = s11 at h
  generalize strncmp path "/var/yp/binding/".toList "/var/yp/binding/".toList.length = s12 at h
  generalize strncmp path "/usr/share/zoneinfo/".toList
    "/usr/share/zoneinfo/".toList.length = s13 at h
  by_cases c1 : p.p_pledge_syscall = SYS_access
  · rw [if_pos c1] at h
    by_cases a1 : ni.ni_pledge = PLEDGE_RPATH ∧ s1 = 0
    · rw [if_pos a1] at h; injection h with h; injection h with h1 h2; left; exact h2.symm
    rw [if_neg a1] at h
    by_cases a2 : ni.ni_pledge = PLEDGE_RPATH ∧ s_yp = 0
    · rw [if_pos a2] at h
      by_cases a3 : p.p_p.ps_pledge &&& PLEDGE_GETPW ≠ 0
      · rw [if_pos a3] at h; injection h with h; injection h with h1 h2; left; exact h2.symm
      · rw [if_neg a3] at h; injection h with h; injection h with h1 h2; right; left; exact h2.symm
    rw [if_neg a2] at h; cases h
  rw [if_neg c1] at h
  by_cases c5 : p.p_pledge_syscall = SYS_open
  · rw [if_pos c5] at h
    by_cases o1 : ni.ni_pledge &&& not64 (PLEDGE_RPATH ||| PLEDGE_WPATH) = 0 ∧ s2 = 0
    · rw [if_pos o1] at h; injection h with h; injection h with h1 h2; left; exact h2.symm
    rw [if_neg o1] at h
    by_cases o2 : p.p_p.ps_pledge &&& PLEDGE_TTY ≠ 0 ∧ ni.ni_pledge &&& not64 (PLEDGE_RPATH ||| PLEDGE_WPATH) = 0 ∧ s3 = 0
    · rw [if_pos o2] at h; injection h with h; injection h with h1 h2; left; exact h2.symm
    rw [if_neg o2] at h
    by_cases o3 : ni.ni_pledge = PLEDGE_RPATH ∧ p.p_p.ps_pledge &&& PLEDGE_GETPW ≠ 0 ∧ s4 = 0
    · rw [if_pos o3] at h; injection h with h; injection h with h1 h2; left; exact h2.symm
    rw [if_neg o3] at h
    by_cases o4 : ni.ni_pledge = PLEDGE_RPATH ∧ p.p_p.ps_pledge &&& PLEDGE_GETPW ≠ 0 ∧ s5 = 0
    · rw [if_pos o4] at h; injection h with h; injection h with h1 h2; left; exact h2.symm
    rw [if_neg o4] at h
    by_cases o5 : ni.ni_pledge = PLEDGE_RPATH ∧ p.p_p.ps_pledge &&& PLEDGE_GETPW ≠ 0 ∧ s6 = 0
    · rw [if_pos o5] at h; injection h with h; injection h with h1 h2; left; exact h2.symm
    rw [if_neg o5] at h
    by_cases o6 : ni.ni_pledge = PLEDGE_RPATH ∧ p.p_p.ps_pledge &&& PLEDGE_GETPW ≠ 0 ∧ s7 = 0
    · rw [if_pos o6] at h; injection h with h; injection h with h1 h2; left; exact h2.symm
    rw [if_neg o6] at h
    by_cases o7 : ni.ni_pledge = PLEDGE_RPATH ∧ p.p_p.ps_pledge &&& PLEDGE_DNS ≠ 0 ∧ s8 = 0
    · rw [if_pos o7] at h; injection h with h; injection h with h1 h2; left; exact h2.symm
    rw [if_neg o7] at h
    by_cases o8 : ni.ni_pledge = PLEDGE_RPATH ∧ p.p_p.ps_pledge &&& PLEDGE_DNS ≠ 0 ∧ s9 = 0
    · rw [if_pos o8] at h; injection h with h; injection h with h1 h2; left; exact h2.symm
    rw [if_neg o8] at h
    by_cases o9 : ni.ni_pledge = PLEDGE_RPATH ∧ p.p_p.ps_pledge &&& PLEDGE_DNS ≠ 0 ∧ s10 = 0
    · rw [if_pos o9] at h; injection h with h; injection h with h1 h2; left; exact h2.symm
    rw [if_neg o9] at h
    by_cases o10 : ni.ni_pledge = PLEDGE_RPATH ∧ p.p_p.ps_pledge &&& PLEDGE_GETPW ≠ 0 ∧ s_yp = 0
    · rw [if_pos o10] at h; injection h with h; injection h with h1 h2; right; right
      exact ⟨h2.symm, h1.symm, c5, o10.1, o10.2.1, o10.2.2⟩
    rw [if_neg o10] at h
    by_cases o11 : ni.ni_pledge = PLEDGE_RPATH ∧ p.p_p.ps_pledge &&& PLEDGE_GETPW ≠ 0 ∧ s12 = 0
    · rw [if_pos o11] at h; injection h with h; injection h with h1 h2; left; exact h2.symm
    rw [if_neg o11] at h
    by_cases o12 : ni.ni_pledge = PLEDGE_RPATH ∧ s13 = 0
    · rw [if_pos o12] at h; injection h with h; injection h with h1 h2; left; exact h2.symm
    rw [if_neg o12] at h
    by_cases o13 : ni.ni_pledge = PLEDGE_RPATH ∧ s1 = 0
    · rw [if_pos o13] at h; injection h with h; injection h with h1 h2; left; exact h2.symm
    rw [if_neg o13] at h
    cases h
  rw [if_neg c5] at h
  by_cases c19 : p.p_pledge_syscall = SYS_readlink
  · rw [if_pos c19] at h
    by_cases r1 : ni.ni_pledge = PLEDGE_RPATH ∧ s11 = 0
    · rw [if_pos r1] at h; injection h with h; injection h with h1 h2; left; exact h2.symm
    rw [if_neg r1] at h
    cases h
  rw [if_neg c19] at h
  by_cases c21 : p.p_pledge_syscall = SYS_stat
  · rw [if_pos c21] at h
    by_cases t1 : ni.ni_pledge = PLEDGE_RPATH ∧ p.p_p.ps_pledge &&& PLEDGE_DNS ≠ 0 ∧ s8 = 0
    · rw [if_pos t1] at h; injection h with h; injection h with h1 h2; left; exact h2.symm
    rw [if_neg t1] at h
    cases h
  rw [if_neg c21] at h
  cases h
theorem pledgereq_entries_ypactive : ∀ e ∈ pledgereq, PLEDGE_YPACTIVE &&& e.2 = 0 := by
  decide

theorem pledge_namei_effect (p : proc) (ni : Option nameidata) (origpath : List Char)
    (r : Int) (p' : proc) (h : pledge_namei p ni origpath = some (r, p')) :
    p'.p_p.ps_pledge = p.p_p.ps_pledge ∨ p'.p_p.ps_pledge = 0 ∨
    (p'.p_p.ps_pledge = p.p_p.ps_pledge ||| PLEDGE_YPACTIVE ∧ r = 0 ∧
      p.p_pledge_syscall = SYS_open ∧ (∃ n, ni = some n ∧ n.ni_pledge = PLEDGE_RPATH) ∧
      p.p_p.ps_pledge &&& PLEDGE_GETPW ≠ 0 ∧
      canonpath origpath PATH_MAX = .ok "/var/run/ypbind.lock".toList) := by
  unfold pledge_namei at h
  by_cases g : p.p_p.PS_PLEDGE = false ∨ p.p_p.PS_COREDUMP = true
  · rw [if_pos g] at h
    injection h with h; injection h with h1 h2
    left; rw [h2]
  rw [if_neg g] at h
  cases ni with
  | none => cases h
  | some n =>
    simp only [] at h
    by_cases g1 : n.ni_pledge = 0
    · rw [if_pos g1] at h; cases h
    rw [if_neg g1] at h
    by_cases g2 : n.ni_pledge &&& PLEDGE_EXEC ≠ 0 ∧ p.p_p.ps_pledge &&& PLEDGE_EXEC ≠ 0
    · rw [if_pos g2] at h
      injection h with h; injection h with h1 h2
      left; rw [h2]
    rw [if_neg g2] at h
    cases hc : canonpath origpath PATH_MAX with
    | error e =>
      rw [hc] at h
      simp only [] at h
      injection h with h; injection h with h1 h2
      left; rw [h2]
    | ok path =>
      rw [hc] at h
      simp only [] at h
      have hnul := canonpath_nul_free origpath path PATH_MAX hc
      by_cases g3 : p.p_p.ps_pledge &&& PLEDGE_TMPPATH ≠ 0 ∧ p.p_pledge_syscall = SYS_open ∧
          n.ni_pledge &&& PLEDGE_CPATH ≠ 0 ∧
          strncmp path "/tmp/".toList "/tmp/".toList.length = 0
      · rw [if_pos g3] at h
        injection h with h; injection h with h1 h2
        left; rw [h2]
      rw [if_neg g3] at h
      by_cases g4 : p.p_p.ps_pledge &&& PLEDGE_TMPPATH ≠ 0 ∧
          p.p_pledge_syscall = SYS_unlink ∧
          strncmp path "/tmp/".toList "/tmp/".toList.length = 0
      · rw [if_pos g4] at h
        injection h with h; injection h with h1 h2
        left; rw [h2]
      rw [if_neg g4] at h
      cases hs : namei_switch p n path with
      | some x =>
        rw [hs] at h
        simp only [] at h
        injection h with h
        subst h
        rcases namei_switch_effect p n path r p' hs with e | e | ⟨e1, e2, e3, e4, e5, e6⟩
        · left; rw [e]
        · right; left; rw [e]; rfl
        · right; right
          refine ⟨by rw [e1], e2, e3, ⟨n, rfl, e4⟩, e5, ?_⟩
          rw [strcmp_eq_zero path _ hnul (by decide) e6]
      | none =>
        rw [hs] at h
        simp only [] at h
        by_cases g5 : n.ni_pledge &&& not64 p.p_p.ps_pledge ≠ 0
        · rw [if_pos g5] at h
          injection h with h; injection h with h1 h2
          right; left; rw [← h2]
        · rw [if_neg g5] at h
          injection h with h; injection h with h1 h2
          left; rw [h2]

theorem pledge_namei_returns (p : proc) (ni : nameidata) (origpath : List Char)
    (hni : ni.ni_pledge ≠ 0) : ∃ r p', pledge_namei p (some ni) origpath = some (r, p') := by
  unfold pledge_namei
  by_cases g : p.p_p.PS_PLEDGE = false ∨ p.p_p.PS_COREDUMP = true
  · rw [if_pos g]; exact ⟨_, _, rfl⟩
  rw [if_neg g]
  simp only []
  rw [if_neg hni]
  by_cases g2 : ni.ni_pledge &&& PLEDGE_EXEC ≠ 0 ∧ p.p_p.ps_pledge &&& PLEDGE_EXEC ≠ 0
  · rw [if_pos g2]; exact ⟨_, _, rfl⟩
  rw [if_neg g2]
  cases hc : canonpath origpath PATH_MAX with
  | error e => exact ⟨_, _, rfl⟩
  | ok path =>
    simp only []
    by_cases g3 : p.p_p.ps_pledge &&& PLEDGE_TMPPATH ≠ 0 ∧ p.p_pledge_syscall = SYS_open ∧
        ni.ni_pledge &&& PLEDGE_CPATH ≠ 0 ∧
        strncmp path "/tmp/".toList "/tmp/".toList.length = 0
    · rw [if_pos g3]; exact ⟨_, _, rfl⟩
    rw [if_neg g3]
    by_cases g4 : p.p_p.ps_pledge &&& PLEDGE_TMPPATH ≠ 0 ∧
        p.p_pledge_syscall = SYS_unlink ∧
        strncmp path "/tmp/".toList "/tmp/".toList.length = 0
    · rw [if_pos g4]; exact ⟨_, _, rfl⟩
    rw [if_neg g4]
    cases hs : namei_switch p ni path with
    | some x => exact ⟨x.1, x.2, rfl⟩
    | none =>
      simp only []
      by_cases g5 : ni.ni_pledge &&& not64 p.p_p.ps_pledge ≠ 0
      · rw [if_pos g5]; exact ⟨_, _, rfl⟩
      · rw [if_neg g5]; exact ⟨_, _, rfl⟩

/-- C19: promise mutation discipline.  For every gate hook and all inputs,
the promises after the call are unchanged or 0 (a violation); the one other
outcome, the previous promises with YPACTIVE added, occurs only in
pledge_namei, with return value 0, for syscall open, getpw held, required
bits exactly rpath and canonical path /var/run/ypbind.lock.  No gate adds a
user-settable bit: a bit of the table pledgereq that was not held before
pledge_namei is not held after it.  pledge_namei returns for every lookup
with non-zero required bits (it panics on the others). -/
theorem promise_mutation_discipline (p : proc) :
    (∀ tbl code, (pledge_syscall tbl p code).2.2.p_p.ps_pledge = p.p_p.ps_pledge) ∧
    (∀ ni origpath r p', pledge_namei p ni origpath = some (r, p') →
      p'.p_p.ps_pledge = p.p_p.ps_pledge ∨ p'.p_p.ps_pledge = 0 ∨
      (p'.p_p.ps_pledge = p.p_p.ps_pledge ||| PLEDGE_YPACTIVE ∧ r = 0 ∧
        p.p_pledge_syscall = SYS_open ∧ (∃ n, ni = some n ∧ n.ni_pledge = PLEDGE_RPATH) ∧
        p.p_p.ps_pledge &&& PLEDGE_GETPW ≠ 0 ∧
        canonpath origpath PATH_MAX = .ok "/var/run/ypbind.lock".toList)) ∧
    (∀ ni origpath r p', pledge_namei p ni origpath = some (r, p') →
      ∀ e ∈ pledgereq, p.p_p.ps_pledge &&& e.2 = 0 → p'.p_p.ps_pledge &&& e.2 = 0) ∧
    (∀ (ni : nameidata) origpath, ni.ni_pledge ≠ 0 →
      ∃ r p', pledge_namei p (some ni) origpath = some (r, p')) ∧
    (∀ fp, (pledge_recvfd p fp).2.p_p.ps_pledge = p.p_p.ps_pledge ∨
      (pledge_recvfd p fp).2.p_p.ps_pledge = 0) ∧
    (∀ fp, (pledge_sendfd p fp).2.p_p.ps_pledge = p.p_p.ps_pledge ∨
      (pledge_sendfd p fp).2.p_p.ps_pledge = 0) ∧
    (∀ k miblen mib new,
      (pledge_sysctl k p miblen mib new).2.p_p.ps_pledge = p.p_p.ps_pledge ∨
      (pledge_sysctl k p miblen mib new).2.p_p.ps_pledge = 0) ∧
    (∀ cred uid gid, (pledge_chown p cred uid gid).2.p_p.ps_pledge = p.p_p.ps_pledge ∨
      (pledge_chown p cred uid gid).2.p_p.ps_pledge = 0) ∧
    (∀ delta, (pledge_adjtime p delta).2.p_p.ps_pledge = p.p_p.ps_pledge ∨
      (pledge_adjtime p delta).2.p_p.ps_pledge = 0) ∧
    (∀ to_addr, (pledge_sendit p to_addr).2.p_p.ps_pledge = p.p_p.ps_pledge ∨
      (pledge_sendit p to_addr).2.p_p.ps_pledge = 0) ∧
    (∀ k com fp, (pledge_ioctl k p com fp).2.p_p.ps_pledge = p.p_p.ps_pledge ∨
      (pledge_ioctl k p com fp).2.p_p.ps_pledge = 0) ∧
    (∀ k set level optname,
      (pledge_sockopt k p set level optname).2.p_p.ps_pledge = p.p_p.ps_pledge ∨
      (pledge_sockopt k p set level optname).2.p_p.ps_pledge = 0) ∧
    (∀ domain state, (pledge_socket p domain state).2.p_p.ps_pledge = p.p_p.ps_pledge ∨
      (pledge_socket p domain state).2.p_p.ps_pledge = 0) ∧
    ((pledge_flock p).2.p_p.ps_pledge = p.p_p.ps_pledge ∨
      (pledge_flock p).2.p_p.ps_pledge = 0) ∧
    ((pledge_swapctl p).2.p_p.ps_pledge = p.p_p.ps_pledge ∨
      (pledge_swapctl p).2.p_p.ps_pledge = 0) ∧
    (∀ cmd, (pledge_fcntl p cmd).2.p_p.ps_pledge = p.p_p.ps_pledge ∨
      (pledge_fcntl p cmd).2.p_p.ps_pledge = 0) ∧
    (∀ ps_pid pid, (pledge_kill p ps_pid pid).2.p_p.ps_pledge = p.p_p.ps_pledge ∨
      (pledge_kill p ps_pid pid).2.p_p.ps_pledge = 0) ∧
    (∀ prot, (pledge_protexec p prot).2.p_p.ps_pledge = p.p_p.ps_pledge ∨
      (pledge_protexec p prot).2.p_p.ps_pledge = 0) := by
  refine ⟨?_, ?_, ?_, ?_, ?_, ?_, ?_, ?_, ?_, ?_, ?_, ?_, ?_, ?_, ?_, ?_, ?_, ?_⟩
  · intro tbl code
    unfold pledge_syscall
    split_ifs <;> rfl
  · intro ni origpath r p' h
    exact pledge_namei_effect p ni origpath r p' h
  · intro ni origpath r p' h e he hz
    rcases pledge_namei_effect p ni origpath r p' h with h1 | h1 | h1
    · rw [h1]; exact hz
    · rw [h1]; exact Nat.zero_and _
    · rw [h1.1]; exact or_and_eq_zero _ _ _ hz (pledgereq_entries_ypactive e he)
  · intro ni origpath hni
    exact pledge_namei_returns p ni origpath hni
  · intro fp; exact verdict_run_promises p _
  · intro fp; exact verdict_run_promises p _
  · intro k miblen mib new; exact verdict_run_promises p _
  · intro cred uid gid; exact verdict_run_promises p _
  · intro delta; exact verdict_run_promises p _
  · intro to_addr; exact verdict_run_promises p _
  · intro k com fp; exact verdict_run_promises p _
  · intro k set level optname; exact verdict_run_promises p _
  · intro domain state; exact verdict_run_promises p _
  · exact verdict_run_promises p _
  · exact verdict_run_promises p _
  · intro cmd; exact verdict_run_promises p _
  · intro ps_pid pid; exact verdict_run_promises p _
  · intro prot; exact verdict_run_promises p _

theorem namei_switch_open_rpath (p : proc) (ni : nameidata) (path : List Char)
    (hsys : p.p_pledge_syscall = SYS_open) (hni : ni.ni_pledge = PLEDGE_RPATH)
    (hpw : p.p_p.ps_pledge &&& PLEDGE_GETPW = 0) (hdns : p.p_p.ps_pledge &&& PLEDGE_DNS ≠ 0)
    (hadm : strcmp path "/dev/null".toList = 0 ∨ strcmp path "/etc/resolv.conf".toList = 0 ∨
      strcmp path "/etc/hosts".toList = 0 ∨ strcmp path "/etc/services".toList = 0 ∨
      strncmp path "/usr/share/zoneinfo/".toList "/usr/share/zoneinfo/".toList.length = 0 ∨
      strcmp path "/etc/localtime".toList = 0) :
    namei_switch p ni path = some (0, p) := by
  have hmask : ni.ni_pledge &&& not64 (PLEDGE_RPATH ||| PLEDGE_WPATH) = 0 := by
    rw [hni]; decide
  have c1 : ¬ p.p_pledge_syscall = SYS_access := by rw [hsys]; decide
  unfold namei_switch
  generalize strcmp path "/var/run/ypbind.lock".toList = s_yp at hadm ⊢
  generalize strcmp path "/etc/localtime".toList = s1 at hadm ⊢
  generalize strcmp path "/dev/null".toList = s2 at hadm ⊢
  generalize strcmp path "/dev/tty".toList = s3 at hadm ⊢
  generalize strcmp path "/etc/spwd.db".toList = s4 at hadm ⊢
  generalize strcmp path "/etc/pwd.db".toList = s5 at hadm ⊢
  generalize strcmp path "/etc/group".toList = s6 at hadm ⊢
  generalize strcmp path "/etc/netid".toList = s7 at hadm ⊢
  generalize strcmp path "/etc/resolv.conf".toList = s8 at hadm ⊢
  generalize strcmp path "/etc/hosts".toList = s9 at hadm ⊢
  generalize strcmp path "/etc/services".toList = s10 at hadm ⊢
  generalize strcmp path "/etc/malloc.conf".toList = s11 at hadm ⊢
  generalize strncmp path "/var/yp/binding/".toList "/var/yp/binding/".toList.length = s12
    at hadm ⊢
  generalize strncmp path "/usr/share/zoneinfo/".toList
    "/usr/share/zoneinfo/".toList.length = s13 at hadm ⊢
  rw [if_neg c1, if_pos hsys]
  by_cases o1 : ni.ni_pledge &&& not64 (PLEDGE_RPATH ||| PLEDGE_WPATH) = 0 ∧ s2 = 0
  · rw [if_pos o1]
  rw [if_neg o1]
  by_cases o2 : p.p_p.ps_pledge &&& PLEDGE_TTY ≠ 0 ∧
      ni.ni_pledge &&& not64 (PLEDGE_RPATH ||| PLEDGE_WPATH) = 0 ∧ s3 = 0
  · rw [if_pos o2]
  rw [if_neg o2]
  have o3 : ¬ (ni.ni_pledge = PLEDGE_RPATH ∧ p.p_p.ps_pledge &&& PLEDGE_GETPW ≠ 0 ∧ s4 = 0) :=
    fun h => h.2.1 hpw
  have o4 : ¬ (ni.ni_pledge = PLEDGE_RPATH ∧ p.p_p.ps_pledge &&& PLEDGE_GETPW ≠ 0 ∧ s5 = 0) :=
    fun h => h.2.1 hpw
  have o5 : ¬ (ni.ni_pledge = PLEDGE_RPATH ∧ p.p_p.ps_pledge &&& PLEDGE_GETPW ≠ 0 ∧ s6 = 0) :=
    fun h => h.2.1 hpw
  have o6 : ¬ (ni.ni_pledge = PLEDGE_RPATH ∧ p.p_p.ps_pledge &&& PLEDGE_GETPW ≠ 0 ∧ s7 = 0) :=
    fun h => h.2.1 hpw
  rw [if_neg o3, if_neg o4, if_neg o5, if_neg o6]
  by_cases o7 : ni.ni_pledge = PLEDGE_RPATH ∧ p.p_p.ps_pledge &&& PLEDGE_DNS ≠ 0 ∧ s8 = 0
  · rw [if_pos o7]
  rw [if_neg o7]
  by_cases o8 : ni.ni_pledge = PLEDGE_RPATH ∧ p.p_p.ps_pledge &&& PLEDGE_DNS ≠ 0 ∧ s9 = 0
  · rw [if_pos o8]
  rw [if_neg o8]
  by_cases o9 : ni.ni_pledge = PLEDGE_RPATH ∧ p.p_p.ps_pledge &&& PLEDGE_DNS ≠ 0 ∧ s10 = 0
  · rw [if_pos o9]
  rw [if_neg o9]
  have o10 : ¬ (ni.ni_pledge = PLEDGE_RPATH ∧ p.p_p.ps_pledge &&& PLEDGE_GETPW ≠ 0 ∧
      s_yp = 0) := fun h => h.2.1 hpw
  have o11 : ¬ (ni.ni_pledge = PLEDGE_RPATH ∧ p.p_p.ps_pledge &&& PLEDGE_GETPW ≠ 0 ∧
      s12 = 0) := fun h => h.2.1 hpw
  rw [if_neg o10, if_neg o11]
  by_cases o12 : ni.ni_pledge = PLEDGE_RPATH ∧ s13 = 0
  · rw [if_pos o12]
  rw [if_neg o12]
  by_cases o13 : ni.ni_pledge = PLEDGE_RPATH ∧ s1 = 0
  · rw [if_pos o13]
  exfalso
  rcases hadm with h | h | h | h | h | h
  · exact o1 ⟨hmask, h⟩
  · exact o7 ⟨hni, hdns, h⟩
  · exact o8 ⟨hni, hdns, h⟩
  · exact o9 ⟨hni, hdns, h⟩
  · exact o12 ⟨hni, h⟩
  · exact o13 ⟨hni, h⟩

/-- C20 (as written): a pledged process holding exactly {stdio, dns} that is
dumping core opens /etc/passwd with required bits rpath: pledge_namei
returns 0 and changes nothing, although the canonical path is none of the
admitted ones. -/
theorem pledge_namei_dns_coredump_counterexample :
    pledge_namei ⟨⟨true, true, PLEDGE_STDIO ||| PLEDGE_DNS⟩, SYS_open, []⟩
        (some ⟨PLEDGE_RPATH⟩) "/etc/passwd".toList =
      some (0, ⟨⟨true, true, PLEDGE_STDIO ||| PLEDGE_DNS⟩, SYS_open, []⟩) ∧
    canonpath "/etc/passwd".toList PATH_MAX = .ok "/etc/passwd".toList ∧
    ¬ ("/etc/passwd".toList = "/etc/resolv.conf".toList ∨
      "/etc/passwd".toList = "/etc/hosts".toList ∨
      "/etc/passwd".toList = "/etc/services".toList ∨
      "/etc/passwd".toList = "/dev/null".toList ∨
      "/etc/passwd".toList = "/etc/localtime".toList ∨
      "/usr/share/zoneinfo/".toList <+: "/etc/passwd".toList) := by
  decide

/-- C20 (amended): for a pledged process that is not dumping core, whose
promises are exactly {stdio, dns}, in syscall open with required bits
exactly rpath, and every path whose canonical form (canonpath on the
PATH_MAX buffer) is `path`: pledge_namei admits (returns 0, process
unchanged) if and only if `path` is one of /etc/resolv.conf, /etc/hosts,
/etc/services, /dev/null, /etc/localtime or begins with
/usr/share/zoneinfo/; for every other path it returns EPERM through the
violation handler, which reports rpath and clears the promises. -/
theorem pledge_namei_dns_exception (p : proc) (x path : List Char)
    (hpledged : p.p_p.PS_PLEDGE = true) (hcore : p.p_p.PS_COREDUMP = false)
    (hprom : p.p_p.ps_pledge = PLEDGE_STDIO ||| PLEDGE_DNS)
    (hsys : p.p_pledge_syscall = SYS_open)
    (hcanon : canonpath x PATH_MAX = .ok path) :
    (pledge_namei p (some ⟨PLEDGE_RPATH⟩) x = some (0, p) ↔
      (path = "/etc/resolv.conf".toList ∨ path = "/etc/hosts".toList ∨
        path = "/etc/services".toList ∨ path = "/dev/null".toList ∨
        path = "/etc/localtime".toList ∨ "/usr/share/zoneinfo/".toList <+: path)) ∧
    (¬ (path = "/etc/resolv.conf".toList ∨ path = "/etc/hosts".toList ∨
        path = "/etc/services".toList ∨ path = "/dev/null".toList ∨
        path = "/etc/localtime".toList ∨ "/usr/share/zoneinfo/".toList <+: path) →
      pledge_namei p (some ⟨PLEDGE_RPATH⟩) x =
        some (EPERM,
          { p with
            p_p := { p.p_p with ps_pledge := 0 }
            violations := p.violations ++ [⟨EPERM, PLEDGE_RPATH, SYS_open⟩] })) := by
  have hnul := canonpath_nul_free x path PATH_MAX hcanon
  have hgate : ¬ (p.p_p.PS_PLEDGE = false ∨ p.p_p.PS_COREDUMP = true) := by
    rw [hpledged, hcore]; simp
  have hreq : ¬ (({ ni_pledge := PLEDGE_RPATH } : nameidata).ni_pledge = 0) := by decide
  have hexec : ¬ (({ ni_pledge := PLEDGE_RPATH } : nameidata).ni_pledge &&& PLEDGE_EXEC ≠ 0 ∧
      p.p_p.ps_pledge &&& PLEDGE_EXEC ≠ 0) := fun h => h.1 (by decide)
  have htmp : p.p_p.ps_pledge &&& PLEDGE_TMPPATH = 0 := by rw [hprom]; decide
  have htmp1 : ¬ (p.p_p.ps_pledge &&& PLEDGE_TMPPATH ≠ 0 ∧ p.p_pledge_syscall = SYS_open ∧
      ({ ni_pledge := PLEDGE_RPATH } : nameidata).ni_pledge &&& PLEDGE_CPATH ≠ 0 ∧
      strncmp path "/tmp/".toList "/tmp/".toList.length = 0) := fun h => h.1 htmp
  have htmp2 : ¬ (p.p_p.ps_pledge &&& PLEDGE_TMPPATH ≠ 0 ∧
      p.p_pledge_syscall = SYS_unlink ∧
      strncmp path "/tmp/".toList "/tmp/".toList.length = 0) := fun h => h.1 htmp
  have e : pledge_namei p (some ⟨PLEDGE_RPATH⟩) x =
      match namei_switch p ⟨PLEDGE_RPATH⟩ path with
      | some r => some r
      | none =>
        if PLEDGE_RPATH &&& not64 p.p_p.ps_pledge ≠ 0 then
          some (pledge_fail p EPERM (PLEDGE_RPATH &&& not64 p.p_p.ps_pledge))
        else some (0, p) := by
    unfold pledge_namei
    rw [if_neg hgate]
    simp only []
    rw [if_neg hreq, if_neg hexec, hcanon]
    simp only []
    rw [if_neg htmp1, if_neg htmp2]
  have hmiss : PLEDGE_RPATH &&& not64 p.p_p.ps_pledge = PLEDGE_RPATH := by
    rw [hprom]; decide
  have hdeny : ¬ (path = "/etc/resolv.conf".toList ∨ path = "/etc/hosts".toList ∨
        path = "/etc/services".toList ∨ path = "/dev/null".toList ∨
        path = "/etc/localtime".toList ∨ "/usr/share/zoneinfo/".toList <+: path) →
      pledge_namei p (some ⟨PLEDGE_RPATH⟩) x =
        some (EPERM,
          { p with
            p_p := { p.p_p with ps_pledge := 0 }
            violations := p.violations ++ [⟨EPERM, PLEDGE_RPATH, SYS_open⟩] }) := by
    intro hno
    have hex : ¬ namei_exception p.p_pledge_syscall
        ({ ni_pledge := PLEDGE_RPATH } : nameidata).ni_pledge p.p_p.ps_pledge path := by
      unfold namei_exception
      rintro (h | h | h | h | h | h | h | h | h)
      · exact h.1 htmp
      · exact h.1 htmp
      · rw [hsys] at h; exact absurd h.1 (by decide)
      · rcases h.2.2 with h1 | h1
        · exact hno (Or.inr (Or.inr (Or.inr (Or.inl h1))))
        · rw [hprom] at h1; exact h1.1 (by decide)
      · rw [hprom] at h; exact h.2.2.1 (by decide)
      · rcases h.2.2.2 with h1 | h1 | h1
        · exact hno (Or.inl h1)
        · exact hno (Or.inr (Or.inl h1))
        · exact hno (Or.inr (Or.inr (Or.inl h1)))
      · rcases h.2.2 with h1 | h1
        · exact hno (Or.inr (Or.inr (Or.inr (Or.inr (Or.inr h1)))))
        · exact hno (Or.inr (Or.inr (Or.inr (Or.inr (Or.inl h1)))))
      · rw [hsys] at h; exact absurd h.1 (by decide)
      · rw [hsys] at h; exact absurd h.1 (by decide)
    rw [e, namei_switch_none p ⟨PLEDGE_RPATH⟩ path hnul hex]
    simp only []
    rw [hmiss, if_pos (by decide)]
    unfold pledge_fail
    rw [hsys]
  refine ⟨⟨?_, ?_⟩, hdeny⟩
  · intro hadm
    by_contra hno
    rw [hdeny hno] at hadm
    injection hadm with hadm
    injection hadm with h1 h2
    exact absurd h1 (by decide)
  · intro hadm
    have hs : namei_switch p ⟨PLEDGE_RPATH⟩ path = some (0, p) := by
      apply namei_switch_open_rpath p ⟨PLEDGE_RPATH⟩ path hsys rfl
      · rw [hprom]; decide
      · rw [hprom]; decide
      · rcases hadm with h | h | h | h | h | h
        · right; left; rw [h]; exact strcmp_self _
        · right; right; left; rw [h]; exact strcmp_self _
        · right; right; right; left; rw [h]; exact strcmp_self _
        · left; rw [h]; exact strcmp_self _
        · right; right; right; right; right; rw [h]; exact strcmp_self _
        · right; right; right; right; left
          exact strncmp_eq_zero_of _ path (by decide) h
    rw [e, hs]

/-- Witness for C20: promises {stdio, dns}: `open("/etc/../etc/resolv.conf")`
is admitted and `open("/etc/passwd")` is killed reporting rpath. -/
theorem pledge_namei_dns_exception_witness :
    pledge_namei ⟨⟨true, false, PLEDGE_STDIO ||| PLEDGE_DNS⟩, SYS_open, []⟩
        (some ⟨PLEDGE_RPATH⟩) "/etc/../etc/resolv.conf".toList =
      some (0, ⟨⟨true, false, PLEDGE_STDIO ||| PLEDGE_DNS⟩, SYS_open, []⟩) ∧
    pledge_namei ⟨⟨true, false, PLEDGE_STDIO ||| PLEDGE_DNS⟩, SYS_open, []⟩
        (some ⟨PLEDGE_RPATH⟩) "/etc/passwd".toList =
      some (EPERM, ⟨⟨true, false, 0⟩, SYS_open, [⟨EPERM, PLEDGE_RPATH, SYS_open⟩]⟩) :=
  ⟨(pledge_namei_dns_exception ⟨⟨true, false, PLEDGE_STDIO ||| PLEDGE_DNS⟩, SYS_open, []⟩
      "/etc/../etc/resolv.conf".toList "/etc/resolv.conf".toList rfl rfl rfl rfl
      (by decide)).1.2 (by decide),
    (pledge_namei_dns_exception ⟨⟨true, false, PLEDGE_STDIO ||| PLEDGE_DNS⟩, SYS_open, []⟩
      "/etc/passwd".toList "/etc/passwd".toList rfl rfl rfl rfl
      (by decide)).2 (by decide)⟩

/-- Witness for C19: a process holding stdio and getpw opens
/var/run/ypbind.lock with required bits rpath: pledge_namei returns 0 and the
promises become the previous ones with YPACTIVE added, which is the third
outcome of the discipline. -/
theorem promise_mutation_discipline_witness :
    pledge_namei ⟨⟨true, false, PLEDGE_STDIO ||| PLEDGE_GETPW⟩, SYS_open, []⟩
        (some ⟨PLEDGE_RPATH⟩) "/var/run/ypbind.lock".toList =
      some (0, ⟨⟨true, false, PLEDGE_STDIO ||| PLEDGE_GETPW ||| PLEDGE_YPACTIVE⟩,
        SYS_open, []⟩) ∧
    ( PLEDGE_STDIO ||| PLEDGE_GETPW ||| PLEDGE_YPACTIVE) &&& PLEDGE_INET = 0 :=
  ⟨by decide,
    (promise_mutation_discipline
      ⟨⟨true, false, PLEDGE_STDIO ||| PLEDGE_GETPW⟩, SYS_open, []⟩).2.2.1
      (some ⟨PLEDGE_RPATH⟩) "/var/run/ypbind.lock".toList 0
      ⟨⟨true, false, PLEDGE_STDIO ||| PLEDGE_GETPW ||| PLEDGE_YPACTIVE⟩, SYS_open, []⟩
      (by decide) ("inet".toList, PLEDGE_INET) (by decide) (by decide)⟩

theorem namei_switch_open_ypbind (p : proc) (ni : nameidata)
    (hsys : p.p_pledge_syscall = SYS_open) (hni : ni.ni_pledge = PLEDGE_RPATH)
    (hpw : p.p_p.ps_pledge &&& PLEDGE_GETPW ≠ 0) :
    namei_switch p ni "/var/run/ypbind.lock".toList =
      some (0, { p with p_p := { p.p_p with
        ps_pledge := p.p_p.ps_pledge ||| PLEDGE_YPACTIVE } }) := by
  have c1 : ¬ p.p_pledge_syscall = SYS_access := by rw [hsys]; decide
  unfold namei_switch
  rw [if_neg c1, if_pos hsys]
  rw [if_neg (show ¬ (ni.ni_pledge &&& not64 (PLEDGE_RPATH ||| PLEDGE_WPATH) = 0 ∧ strcmp "/var/run/ypbind.lock".toList "/dev/null".toList = 0) from
    fun h => absurd h.2 (by decide))]
  rw [if_neg (show ¬ (p.p_p.ps_pledge &&& PLEDGE_TTY ≠ 0 ∧
        ni.ni_pledge &&& not64 (PLEDGE_RPATH ||| PLEDGE_WPATH) = 0 ∧
        strcmp "/var/run/ypbind.lock".toList "/dev/tty".toList = 0) from
    fun h => absurd h.2.2 (by decide))]
  rw [if_neg (show ¬ (ni.ni_pledge = PLEDGE_RPATH ∧ p.p_p.ps_pledge &&& PLEDGE_GETPW ≠ 0 ∧
        strcmp "/var/run/ypbind.lock".toList "/etc/spwd.db".toList = 0) from
    fun h => absurd h.2.2 (by decide))]
  rw [if_neg (show ¬ (ni.ni_pledge = PLEDGE_RPATH ∧ p.p_p.ps_pledge &&& PLEDGE_GETPW ≠ 0 ∧
        strcmp "/var/run/ypbind.lock".toList "/etc/pwd.db".toList = 0) from
    fun h => absurd h.2.2 (by decide))]
  rw [if_neg (show ¬ (ni.ni_pledge = PLEDGE_RPATH ∧ p.p_p.ps_pledge &&& PLEDGE_GETPW ≠ 0 ∧
        strcmp "/var/run/ypbind.lock".toList "/etc/group".toList = 0) from
    fun h => absurd h.2.2 (by decide))]
  rw [if_neg (show ¬ (ni.ni_pledge = PLEDGE_RPATH ∧ p.p_p.ps_pledge &&& PLEDGE_GETPW ≠ 0 ∧
        strcmp "/var/run/ypbind.lock".toList "/etc/netid".toList = 0) from
    fun h => absurd h.2.2 (by decide))]
  rw [if_neg (show ¬ (ni.ni_pledge = PLEDGE_RPATH ∧ p.p_p.ps_pledge &&& PLEDGE_DNS ≠ 0 ∧
        strcmp "/var/run/ypbind.lock".toList "/etc/resolv.conf".toList = 0) from
    fun h => absurd h.2.2 (by decide))]
  rw [if_neg (show ¬ (ni.ni_pledge = PLEDGE_RPATH ∧ p.p_p.ps_pledge &&& PLEDGE_DNS ≠ 0 ∧
        strcmp "/var/run/ypbind.lock".toList "/etc/hosts".toList = 0) from
    fun h => absurd h.2.2 (by decide))]
  rw [if_neg (show ¬ (ni.ni_pledge = PLEDGE_RPATH ∧ p.p_p.ps_pledge &&& PLEDGE_DNS ≠ 0 ∧
        strcmp "/var/run/ypbind.lock".toList "/etc/services".toList = 0) from
    fun h => absurd h.2.2 (by decide))]
  rw [if_pos ⟨hni, hpw, by decide⟩]

theorem namei_switch_open_spwd (p : proc) (ni : nameidata)
    (hsys : p.p_pledge_syscall = SYS_open) (hni : ni.ni_pledge = PLEDGE_RPATH)
    (hpw : p.p_p.ps_pledge &&& PLEDGE_GETPW ≠ 0) :
    namei_switch p ni "/etc/spwd.db".toList = some (EPERM, p) := by
  have c1 : ¬ p.p_pledge_syscall = SYS_access := by rw [hsys]; decide
  unfold namei_switch
  rw [if_neg c1, if_pos hsys]
  rw [if_neg (show ¬ (ni.ni_pledge &&& not64 (PLEDGE_RPATH ||| PLEDGE_WPATH) = 0 ∧ strcmp "/etc/spwd.db".toList "/dev/null".toList = 0) from
    fun h => absurd h.2 (by decide))]
  rw [if_neg (show ¬ (p.p_p.ps_pledge &&& PLEDGE_TTY ≠ 0 ∧
        ni.ni_pledge &&& not64 (PLEDGE_RPATH ||| PLEDGE_WPATH) = 0 ∧
        strcmp "/etc/spwd.db".toList "/dev/tty".toList = 0) from
    fun h => absurd h.2.2 (by decide))]
  rw [if_pos ⟨hni, hpw, by decide⟩]

theorem namei_switch_access_ypbind (p : proc) (ni : nameidata)
    (hsys : p.p_pledge_syscall = SYS_access) (hni : ni.ni_pledge = PLEDGE_RPATH) :
    namei_switch p ni "/var/run/ypbind.lock".toList =
      some (if p.p_p.ps_pledge &&& PLEDGE_GETPW ≠ 0 then (0, p)
        else pledge_fail p 0 PLEDGE_GETPW) := by
  unfold namei_switch
  rw [if_pos hsys]
  rw [if_neg (show ¬ (ni.ni_pledge = PLEDGE_RPATH ∧ strcmp "/var/run/ypbind.lock".toList "/etc/localtime".toList = 0) from
    fun h => absurd h.2 (by decide))]
  rw [if_pos ⟨hni, by decide⟩]
  by_cases c : p.p_p.ps_pledge &&& PLEDGE_GETPW ≠ 0
  · rw [if_pos c, if_pos c]
  · rw [if_neg c, if_neg c]
theorem and_not64_of_disjoint (r P : Nat) (hr : r < 2 ^ 64) (h : P &&& r = 0) :
    r &&& not64 P = r := by
  apply Nat.eq_of_testBit_eq
  intro i
  simp only [not64, Nat.testBit_and, Nat.testBit_mod_two_pow, Nat.testBit_xor,
    Nat.testBit_two_pow_sub_one]
  cases hr' : r.testBit i with
  | false => simp
  | true =>
    have hlt : i < 64 := by
      by_contra hge
      have : r < 2 ^ i := lt_of_lt_of_le hr (Nat.pow_le_pow_right (by omega) (by omega))
      rw [Nat.testBit_lt_two_pow this] at hr'
      cases hr'
    have hP : P.testBit i = false := by
      have hz : (P &&& r).testBit i = false := by rw [h]; exact Nat.zero_testBit i
      rw [Nat.testBit_and, hr', Bool.and_true] at hz
      exact hz
    simp [hlt, hP]

theorem pledge_namei_of_switch (p : proc) (ni : nameidata) (x path : List Char)
    (r : Int × proc)
    (hpledged : p.p_p.PS_PLEDGE = true) (hcore : p.p_p.PS_COREDUMP = false)
    (hreq : ni.ni_pledge ≠ 0)
    (hexec : ¬ (ni.ni_pledge &&& PLEDGE_EXEC ≠ 0 ∧ p.p_p.ps_pledge &&& PLEDGE_EXEC ≠ 0))
    (hcanon : canonpath x PATH_MAX = .ok path) (htmp : ¬ "/tmp/".toList <+: path)
    (hs : namei_switch p ni path = some r) :
    pledge_namei p (some ni) x = some r := by
  have hgate : ¬ (p.p_p.PS_PLEDGE = false ∨ p.p_p.PS_COREDUMP = true) := by
    rw [hpledged, hcore]; simp
  have htmp1 : ¬ (p.p_p.ps_pledge &&& PLEDGE_TMPPATH ≠ 0 ∧ p.p_pledge_syscall = SYS_open ∧
      ni.ni_pledge &&& PLEDGE_CPATH ≠ 0 ∧
      strncmp path "/tmp/".toList "/tmp/".toList.length = 0) :=
    fun h => htmp (strncmp_eq_zero_imp _ path (by decide) h.2.2.2)
  have htmp2 : ¬ (p.p_p.ps_pledge &&& PLEDGE_TMPPATH ≠ 0 ∧
      p.p_pledge_syscall = SYS_unlink ∧
      strncmp path "/tmp/".toList "/tmp/".toList.length = 0) :=
    fun h => htmp (strncmp_eq_zero_imp _ path (by decide) h.2.2)
  unfold pledge_namei
  rw [if_neg hgate]
  simp only []
  rw [if_neg hreq, if_neg hexec, hcanon]
  simp only []
  rw [if_neg htmp1, if_neg htmp2, hs]

/-- C21: getpw triggers YPACTIVE.  For every pledged, non-core-dumping
process holding getpw, in syscall open with required bits exactly rpath, and
every path whose canonical form is /var/run/ypbind.lock, pledge_namei returns
0 and the promises become exactly the previous promises | YPACTIVE; nothing
else in the process changes. -/
theorem pledge_namei_getpw_ypactive (p : proc) (x : List Char)
    (hpledged : p.p_p.PS_PLEDGE = true) (hcore : p.p_p.PS_COREDUMP = false)
    (hpw : p.p_p.ps_pledge &&& PLEDGE_GETPW ≠ 0) (hsys : p.p_pledge_syscall = SYS_open)
    (hcanon : canonpath x PATH_MAX = .ok "/var/run/ypbind.lock".toList) :
    pledge_namei p (some ⟨PLEDGE_RPATH⟩) x =
      some (0, { p with p_p := { p.p_p with
        ps_pledge := p.p_p.ps_pledge ||| PLEDGE_YPACTIVE } }) :=
  pledge_namei_of_switch p ⟨PLEDGE_RPATH⟩ x _ _ hpledged hcore (by decide)
    (fun h => h.1 (by decide)) hcanon (by decide)
    (namei_switch_open_ypbind p ⟨PLEDGE_RPATH⟩ hsys rfl hpw)

/-- Witness for C21: promises stdio|rpath|getpw|inet become
stdio|rpath|getpw|inet|YPACTIVE on `open("/var/run/./ypbind.lock")`. -/
theorem pledge_namei_getpw_ypactive_witness :
    pledge_namei
        ⟨⟨true, false, PLEDGE_STDIO ||| PLEDGE_RPATH ||| PLEDGE_GETPW ||| PLEDGE_INET⟩,
          SYS_open, []⟩
        (some ⟨PLEDGE_RPATH⟩) "/var/run/./ypbind.lock".toList =
      some (0,
        ⟨⟨true, false,
            PLEDGE_STDIO ||| PLEDGE_RPATH ||| PLEDGE_GETPW ||| PLEDGE_INET ||| PLEDGE_YPACTIVE⟩,
          SYS_open, []⟩) :=
  pledge_namei_getpw_ypactive
    ⟨⟨true, false, PLEDGE_STDIO ||| PLEDGE_RPATH ||| PLEDGE_GETPW ||| PLEDGE_INET⟩,
      SYS_open, []⟩
    "/var/run/./ypbind.lock".toList rfl rfl (by decide) rfl (by decide)

/-- C22 (as written): a pledged process holding getpw that is dumping core
opens /etc/spwd.db with required bits rpath: pledge_namei returns 0, not
EPERM. -/
theorem pledge_namei_spwd_coredump_counterexample :
    canonpath "/etc/spwd.db".toList PATH_MAX = .ok "/etc/spwd.db".toList ∧
    pledge_namei ⟨⟨true, true, PLEDGE_STDIO ||| PLEDGE_GETPW⟩, SYS_open, []⟩
        (some ⟨PLEDGE_RPATH⟩) "/etc/spwd.db".toList =
      some (0, ⟨⟨true, true, PLEDGE_STDIO ||| PLEDGE_GETPW⟩, SYS_open, []⟩) := by
  decide

/-- C22 (amended): silent denial of the shadow password database.  For every
pledged, non-core-dumping process holding getpw (whatever else it holds,
rpath included), in syscall open with required bits exactly rpath, and every
path whose canonical form is /etc/spwd.db, pledge_namei returns EPERM
without invoking the violation handler: the process, its promises and its
violation record are unchanged. -/
theorem pledge_namei_spwd_silent (p : proc) (x : List Char)
    (hpledged : p.p_p.PS_PLEDGE = true) (hcore : p.p_p.PS_COREDUMP = false)
    (hpw : p.p_p.ps_pledge &&& PLEDGE_GETPW ≠ 0) (hsys : p.p_pledge_syscall = SYS_open)
    (hcanon : canonpath x PATH_MAX = .ok "/etc/spwd.db".toList) :
    pledge_namei p (some ⟨PLEDGE_RPATH⟩) x = some (EPERM, p) :=
  pledge_namei_of_switch p ⟨PLEDGE_RPATH⟩ x _ _ hpledged hcore (by decide)
    (fun h => h.1 (by decide)) hcanon (by decide)
    (namei_switch_open_spwd p ⟨PLEDGE_RPATH⟩ hsys rfl hpw)

/-- Witness for C22, amended: promises stdio|rpath|getpw, `open("/etc/spwd.db")`
returns EPERM although rpath is held, and nothing is reported. -/
theorem pledge_namei_spwd_silent_witness :
    pledge_namei ⟨⟨true, false, PLEDGE_STDIO ||| PLEDGE_RPATH ||| PLEDGE_GETPW⟩, SYS_open, []⟩
        (some ⟨PLEDGE_RPATH⟩) "/etc/spwd.db".toList =
      some (EPERM,
        ⟨⟨true, false, PLEDGE_STDIO ||| PLEDGE_RPATH ||| PLEDGE_GETPW⟩, SYS_open, []⟩) :=
  pledge_namei_spwd_silent
    ⟨⟨true, false, PLEDGE_STDIO ||| PLEDGE_RPATH ||| PLEDGE_GETPW⟩, SYS_open, []⟩
    "/etc/spwd.db".toList rfl rfl (by decide) rfl (by decide)

theorem pledge_namei_access_ypbind_exact (p : proc) (x : List Char)
    (hpledged : p.p_p.PS_PLEDGE = true) (hcore : p.p_p.PS_COREDUMP = false)
    (hsys : p.p_pledge_syscall = SYS_access)
    (hcanon : canonpath x PATH_MAX = .ok "/var/run/ypbind.lock".toList) :
    (p.p_p.ps_pledge &&& PLEDGE_GETPW ≠ 0 →
      pledge_namei p (some ⟨PLEDGE_RPATH⟩) x = some (0, p)) ∧
    (p.p_p.ps_pledge &&& PLEDGE_GETPW = 0 →
      pledge_namei p (some ⟨PLEDGE_RPATH⟩) x = some (pledge_fail p 0 PLEDGE_GETPW) ∧
      (pledge_namei p (some ⟨PLEDGE_RPATH⟩) x).map Prod.fst = some 0) := by
  have e := pledge_namei_of_switch p ⟨PLEDGE_RPATH⟩ x _ _ hpledged hcore (by decide)
    (fun h => h.1 (by decide)) hcanon (by decide)
    (namei_switch_access_ypbind p ⟨PLEDGE_RPATH⟩ hsys rfl)
  constructor
  · intro hpw
    rw [e, if_pos hpw]
  · intro hpw
    rw [e, if_neg (not_not.mpr hpw)]
    exact ⟨rfl, rfl⟩

/-- C23: access to the YP lock file without getpw returns 0.  A pledged
process that is not dumping core and holds only stdio calls access on
/var/run/ypbind.lock with required bits rpath: the violation handler runs
(getpw is reported, the promises are cleared), but it is handed the error 0
left by the successful canonpath, so pledge_namei returns 0 to the caller and
the violation is recorded with error 0.  With getpw held the same lookup is
admitted and nothing changes. -/
theorem pledge_namei_access_ypbind_returns_zero :
    canonpath "/var/run/ypbind.lock".toList PATH_MAX = .ok "/var/run/ypbind.lock".toList ∧
    PLEDGE_STDIO &&& PLEDGE_GETPW = 0 ∧
    pledge_namei ⟨⟨true, false, PLEDGE_STDIO⟩, SYS_access, []⟩
        (some ⟨PLEDGE_RPATH⟩) "/var/run/ypbind.lock".toList =
      some (0, ⟨⟨true, false, 0⟩, SYS_access, [⟨0, PLEDGE_GETPW, SYS_access⟩]⟩) ∧
    pledge_namei ⟨⟨true, false, PLEDGE_STDIO⟩, SYS_access, []⟩
        (some ⟨PLEDGE_RPATH⟩) "/var/run/ypbind.lock".toList =
      some (pledge_fail ⟨⟨true, false, PLEDGE_STDIO⟩, SYS_access, []⟩ 0 PLEDGE_GETPW) ∧
    pledge_namei ⟨⟨true, false, PLEDGE_STDIO ||| PLEDGE_GETPW⟩, SYS_access, []⟩
        (some ⟨PLEDGE_RPATH⟩) "/var/run/ypbind.lock".toList =
      some (0, ⟨⟨true, false, PLEDGE_STDIO ||| PLEDGE_GETPW⟩, SYS_access, []⟩) := by
  decide

theorem pledge_namei_tmppath_open (p : proc) (ni : nameidata) (x path : List Char)
    (hpledged : p.p_p.PS_PLEDGE = true) (hcore : p.p_p.PS_COREDUMP = false)
    (htp : p.p_p.ps_pledge &&& PLEDGE_TMPPATH ≠ 0)
    (hcanon : canonpath x PATH_MAX = .ok path) (htmp : "/tmp/".toList <+: path)
    (hsys : p.p_pledge_syscall = SYS_open) (hreq : ni.ni_pledge &&& PLEDGE_CPATH ≠ 0) :
    pledge_namei p (some ni) x = some (0, p) := by
  have hgate : ¬ (p.p_p.PS_PLEDGE = false ∨ p.p_p.PS_COREDUMP = true) := by
    rw [hpledged, hcore]; simp
  have hne : ¬ ni.ni_pledge = 0 := fun h => hreq (by rw [h]; exact Nat.zero_and _)
  unfold pledge_namei
  rw [if_neg hgate]
  simp only []
  rw [if_neg hne]
  by_cases hexec : ni.ni_pledge &&& PLEDGE_EXEC ≠ 0 ∧ p.p_p.ps_pledge &&& PLEDGE_EXEC ≠ 0
  · rw [if_pos hexec]
  rw [if_neg hexec, hcanon]
  simp only []
  rw [if_pos ⟨htp, hsys, hreq, strncmp_eq_zero_of _ path (by decide) htmp⟩]

theorem pledge_namei_tmppath_unlink (p : proc) (ni : nameidata) (x path : List Char)
    (hpledged : p.p_p.PS_PLEDGE = true) (hcore : p.p_p.PS_COREDUMP = false)
    (htp : p.p_p.ps_pledge &&& PLEDGE_TMPPATH ≠ 0)
    (hcanon : canonpath x PATH_MAX = .ok path) (htmp : "/tmp/".toList <+: path)
    (hsys : p.p_pledge_syscall = SYS_unlink) (hreq : ni.ni_pledge ≠ 0) :
    pledge_namei p (some ni) x = some (0, p) := by
  have hgate : ¬ (p.p_p.PS_PLEDGE = false ∨ p.p_p.PS_COREDUMP = true) := by
    rw [hpledged, hcore]; simp
  have hopen : ¬ (p.p_p.ps_pledge &&& PLEDGE_TMPPATH ≠ 0 ∧ p.p_pledge_syscall = SYS_open ∧
      ni.ni_pledge &&& PLEDGE_CPATH ≠ 0 ∧
      strncmp path "/tmp/".toList "/tmp/".toList.length = 0) := by
    rw [hsys]; exact fun h => absurd h.2.1 (by decide)
  unfold pledge_namei
  rw [if_neg hgate]
  simp only []
  rw [if_neg hreq]
  by_cases hexec : ni.ni_pledge &&& PLEDGE_EXEC ≠ 0 ∧ p.p_p.ps_pledge &&& PLEDGE_EXEC ≠ 0
  · rw [if_pos hexec]
  rw [if_neg hexec, hcanon]
  simp only []
  rw [if_neg hopen, if_pos ⟨htp, hsys, strncmp_eq_zero_of _ path (by decide) htmp⟩]

theorem pledge_namei_cpath_outside_tmp (p : proc) (x path : List Char)
    (hpledged : p.p_p.PS_PLEDGE = true) (hcore : p.p_p.PS_COREDUMP = false)
    (hcanon : canonpath x PATH_MAX = .ok path) (htmp : ¬ "/tmp/".toList <+: path)
    (hsys : p.p_pledge_syscall = SYS_open ∨ p.p_pledge_syscall = SYS_unlink)
    (hcp : p.p_p.ps_pledge &&& PLEDGE_CPATH = 0) :
    pledge_namei p (some ⟨PLEDGE_CPATH⟩) x = some (pledge_fail p EPERM PLEDGE_CPATH) := by
  have hnul := canonpath_nul_free x path PATH_MAX hcanon
  have hgate : ¬ (p.p_p.PS_PLEDGE = false ∨ p.p_p.PS_COREDUMP = true) := by
    rw [hpledged, hcore]; simp
  have hreq : ¬ (({ ni_pledge := PLEDGE_CPATH } : nameidata).ni_pledge = 0) := by decide
  have hexec : ¬ (({ ni_pledge := PLEDGE_CPATH } : nameidata).ni_pledge &&& PLEDGE_EXEC ≠ 0 ∧
      p.p_p.ps_pledge &&& PLEDGE_EXEC ≠ 0) := fun h => h.1 (by decide)
  have htmp1 : ¬ (p.p_p.ps_pledge &&& PLEDGE_TMPPATH ≠ 0 ∧ p.p_pledge_syscall = SYS_open ∧
      ({ ni_pledge := PLEDGE_CPATH } : nameidata).ni_pledge &&& PLEDGE_CPATH ≠ 0 ∧
      strncmp path "/tmp/".toList "/tmp/".toList.length = 0) :=
    fun h => htmp (strncmp_eq_zero_imp _ path (by decide) h.2.2.2)
  have htmp2 : ¬ (p.p_p.ps_pledge &&& PLEDGE_TMPPATH ≠ 0 ∧
      p.p_pledge_syscall = SYS_unlink ∧
      strncmp path "/tmp/".toList "/tmp/".toList.length = 0) :=
    fun h => htmp (strncmp_eq_zero_imp _ path (by decide) h.2.2)
  have hacc : p.p_pledge_syscall ≠ SYS_access := by
    rcases hsys with h | h <;> rw [h] <;> decide
  have hrl : p.p_pledge_syscall ≠ SYS_readlink := by
    rcases hsys with h | h <;> rw [h] <;> decide
  have hst : p.p_pledge_syscall ≠ SYS_stat := by
    rcases hsys with h | h <;> rw [h] <;> decide
  have hex : ¬ namei_exception p.p_pledge_syscall
      ({ ni_pledge := PLEDGE_CPATH } : nameidata).ni_pledge p.p_p.ps_pledge path := by
    unfold namei_exception
    rintro (h | h | h | h | h | h | h | h | h)
    · exact htmp h.2.2.2
    · exact htmp h.2.2
    · exact hacc h.1
    · exact absurd h.2.1 (by decide)
    · exact absurd h.2.1 (by decide)
    · exact absurd h.2.1 (by decide)
    · exact absurd h.2.1 (by decide)
    · exact hrl h.1
    · exact hst h.1
  have hmiss : ({ ni_pledge := PLEDGE_CPATH } : nameidata).ni_pledge &&&
      not64 p.p_p.ps_pledge = PLEDGE_CPATH :=
    and_not64_of_disjoint PLEDGE_CPATH _ (by decide) hcp
  unfold pledge_namei
  rw [if_neg hgate]
  simp only []
  rw [if_neg hreq, if_neg hexec, hcanon]
  simp only []
  rw [if_neg htmp1, if_neg htmp2, namei_switch_none p ⟨PLEDGE_CPATH⟩ path hnul hex]
  simp only []
  rw [hmiss, if_pos (by decide)]

/-- C24: tmppath exceptions.  For every pledged, non-core-dumping process
holding tmppath and every path whose canonical form begins with "/tmp/",
pledge_namei admits (returns 0, process unchanged) an open whose required
bits include cpath and an unlink with any non-zero required bits, whether or
not the required bits are held.  The exception is decided on the canonical
form: "/tmp/../etc/x" canonicalises to "/etc/x", and for every path whose
canonical form does not begin with "/tmp/" an open or unlink requiring cpath,
by a process that does not hold cpath, is denied with EPERM through the
violation handler, tmppath or not. -/
theorem pledge_namei_tmppath (p : proc) (x path : List Char)
    (hpledged : p.p_p.PS_PLEDGE = true) (hcore : p.p_p.PS_COREDUMP = false)
    (htp : p.p_p.ps_pledge &&& PLEDGE_TMPPATH ≠ 0)
    (hcanon : canonpath x PATH_MAX = .ok path) :
    ("/tmp/".toList <+: path →
      (∀ ni : nameidata, p.p_pledge_syscall = SYS_open → ni.ni_pledge &&& PLEDGE_CPATH ≠ 0 →
        pledge_namei p (some ni) x = some (0, p)) ∧
      (∀ ni : nameidata, p.p_pledge_syscall = SYS_unlink → ni.ni_pledge ≠ 0 →
        pledge_namei p (some ni) x = some (0, p))) ∧
    (¬ "/tmp/".toList <+: path →
      p.p_pledge_syscall = SYS_open ∨ p.p_pledge_syscall = SYS_unlink →
      p.p_p.ps_pledge &&& PLEDGE_CPATH = 0 →
      pledge_namei p (some ⟨PLEDGE_CPATH⟩) x = some (pledge_fail p EPERM PLEDGE_CPATH)) ∧
    (canonpath "/tmp/../etc/x".toList PATH_MAX = .ok "/etc/x".toList ∧
      ¬ "/tmp/".toList <+: "/etc/x".toList) :=
  ⟨fun htmp =>
    ⟨fun ni hsys hreq =>
        pledge_namei_tmppath_open p ni x path hpledged hcore htp hcanon htmp hsys hreq,
      fun ni hsys hreq =>
        pledge_namei_tmppath_unlink p ni x path hpledged hcore htp hcanon htmp hsys hreq⟩,
    fun htmp hsys hcp =>
      pledge_namei_cpath_outside_tmp p x path hpledged hcore hcanon htmp hsys hcp,
    by decide⟩

/-- Witness for C24: promises stdio|tmppath.  `open("/tmp/a/../x")` requiring
wpath|cpath is admitted, `unlink("/tmp/x")` requiring cpath is admitted, and
`open("/tmp/../etc/x")` requiring cpath is killed reporting cpath. -/
theorem pledge_namei_tmppath_witness :
    pledge_namei ⟨⟨true, false, PLEDGE_STDIO ||| PLEDGE_TMPPATH⟩, SYS_open, []⟩
        (some ⟨PLEDGE_WPATH ||| PLEDGE_CPATH⟩) "/tmp/a/../x".toList =
      some (0, ⟨⟨true, false, PLEDGE_STDIO ||| PLEDGE_TMPPATH⟩, SYS_open, []⟩) ∧
    pledge_namei ⟨⟨true, false, PLEDGE_STDIO ||| PLEDGE_TMPPATH⟩, SYS_unlink, []⟩
        (some ⟨PLEDGE_CPATH⟩) "/tmp/x".toList =
      some (0, ⟨⟨true, false, PLEDGE_STDIO ||| PLEDGE_TMPPATH⟩, SYS_unlink, []⟩) ∧
    pledge_namei ⟨⟨true, false, PLEDGE_STDIO ||| PLEDGE_TMPPATH⟩, SYS_open, []⟩
        (some ⟨PLEDGE_CPATH⟩) "/tmp/../etc/x".toList =
      some (EPERM, ⟨⟨true, false, 0⟩, SYS_open, [⟨EPERM, PLEDGE_CPATH, SYS_open⟩]⟩) :=
  ⟨((pledge_namei_tmppath ⟨⟨true, false, PLEDGE_STDIO ||| PLEDGE_TMPPATH⟩, SYS_open, []⟩
      "/tmp/a/../x".toList "/tmp/x".toList rfl rfl (by decide) (by decide)).1
      (by decide)).1 ⟨PLEDGE_WPATH ||| PLEDGE_CPATH⟩ rfl (by decide),
    ((pledge_namei_tmppath ⟨⟨true, false, PLEDGE_STDIO ||| PLEDGE_TMPPATH⟩, SYS_unlink, []⟩
      "/tmp/x".toList "/tmp/x".toList rfl rfl (by decide) (by decide)).1
      (by decide)).2 ⟨PLEDGE_CPATH⟩ rfl (by decide),
    (pledge_namei_tmppath ⟨⟨true, false, PLEDGE_STDIO ||| PLEDGE_TMPPATH⟩, SYS_open, []⟩
      "/tmp/../etc/x".toList "/etc/x".toList rfl rfl (by decide) (by decide)).2.1
      (by decide) (Or.inl rfl) (by decide)⟩

/-- C27: the chown gate.  For every pledged process, pledge_chown returns 0
whenever chown-uid is held; without chown-uid it returns 0 if and only if
(uid is -1 or equals the caller's uid) and (gid is -1 or the caller is a
member of gid), and otherwise returns EPERM; in every case the process is
unchanged (the violation handler is not invoked). -/
theorem pledge_chown_gate (p : proc) (cred : ucred) (uid gid : Nat)
    (hpledged : p.p_p.PS_PLEDGE = true) :
    (p.p_p.ps_pledge &&& PLEDGE_CHOWNUID ≠ 0 → (pledge_chown p cred uid gid).1 = 0) ∧
    (p.p_p.ps_pledge &&& PLEDGE_CHOWNUID = 0 →
      ((pledge_chown p cred uid gid).1 = 0 ↔
        (uid = 2 ^ 32 - 1 ∨ uid = cred.cr_uid) ∧
        (gid = 2 ^ 32 - 1 ∨ cred.groupmember gid = true)) ∧
      ((pledge_chown p cred uid gid).1 ≠ 0 → (pledge_chown p cred uid gid).1 = EPERM)) ∧
    (pledge_chown p cred uid gid).2 = p := by
  have hpl : ¬ p.p_p.PS_PLEDGE = false := by rw [hpledged]; decide
  unfold pledge_chown
  rw [if_neg hpl]
  refine ⟨?_, ?_, ?_⟩
  · intro h
    rw [if_pos h]
    rfl
  · intro h
    rw [if_neg (not_not.mpr h)]
    by_cases hu : uid ≠ 2 ^ 32 - 1 ∧ uid ≠ cred.cr_uid
    · rw [if_pos hu]
      refine ⟨⟨fun h0 => absurd (show EPERM = (0 : Int) from h0) (by decide), fun h1 => ?_⟩, fun _ => rfl⟩
      rcases h1.1 with h2 | h2
      · exact absurd h2 hu.1
      · exact absurd h2 hu.2
    · rw [if_neg hu]
      have hu' : uid = 2 ^ 32 - 1 ∨ uid = cred.cr_uid := by
        by_cases h1 : uid = 2 ^ 32 - 1
        · exact Or.inl h1
        · by_cases h2 : uid = cred.cr_uid
          · exact Or.inr h2
          · exact absurd ⟨h1, h2⟩ hu
      by_cases hg : gid ≠ 2 ^ 32 - 1 ∧ cred.groupmember gid = false
      · rw [if_pos hg]
        refine ⟨⟨fun h0 => absurd (show EPERM = (0 : Int) from h0) (by decide), fun h1 => ?_⟩, fun _ => rfl⟩
        rcases h1.2 with h2 | h2
        · exact absurd h2 hg.1
        · rw [hg.2] at h2; cases h2
      · rw [if_neg hg]
        refine ⟨⟨fun _ => ⟨hu', ?_⟩, fun _ => rfl⟩, fun h0 => absurd rfl h0⟩
        by_cases h1 : gid = 2 ^ 32 - 1
        · exact Or.inl h1
        · cases h2 : cred.groupmember gid with
          | true => exact Or.inr rfl
          | false => exact absurd ⟨h1, h2⟩ hg
  · split_ifs <;> rfl

/-- Witness for C27: promises stdio|rpath|fattr (fattr grants FATTR|CHOWN
without chown-uid), caller uid 1000 in group 1000.  `chown(f, 1000, -1)`
is admitted and `chown(f, 0, -1)` gets EPERM; the promises stay. -/
theorem pledge_chown_gate_witness :
    pledge_chown
        ⟨⟨true, false, PLEDGE_STDIO ||| PLEDGE_RPATH ||| PLEDGE_FATTR ||| PLEDGE_CHOWN⟩, 0, []⟩
        ⟨1000, fun g => g == 1000⟩ 1000 (2 ^ 32 - 1) =
      (0, ⟨⟨true, false, PLEDGE_STDIO ||| PLEDGE_RPATH ||| PLEDGE_FATTR ||| PLEDGE_CHOWN⟩,
        0, []⟩) ∧
    pledge_chown
        ⟨⟨true, false, PLEDGE_STDIO ||| PLEDGE_RPATH ||| PLEDGE_FATTR ||| PLEDGE_CHOWN⟩, 0, []⟩
        ⟨1000, fun g => g == 1000⟩ 0 (2 ^ 32 - 1) =
      (EPERM, ⟨⟨true, false, PLEDGE_STDIO ||| PLEDGE_RPATH ||| PLEDGE_FATTR ||| PLEDGE_CHOWN⟩,
        0, []⟩) ∧
    pledgereq_flags "fattr".toList = PLEDGE_FATTR ||| PLEDGE_CHOWN :=
  ⟨Prod.ext
      (((pledge_chown_gate
        ⟨⟨true, false, PLEDGE_STDIO ||| PLEDGE_RPATH ||| PLEDGE_FATTR ||| PLEDGE_CHOWN⟩, 0, []⟩
        ⟨1000, fun g => g == 1000⟩ 1000 (2 ^ 32 - 1) rfl).2.1 (by decide)).1.2
        ⟨Or.inr rfl, Or.inl rfl⟩)
      (pledge_chown_gate
        ⟨⟨true, false, PLEDGE_STDIO ||| PLEDGE_RPATH ||| PLEDGE_FATTR ||| PLEDGE_CHOWN⟩, 0, []⟩
        ⟨1000, fun g => g == 1000⟩ 1000 (2 ^ 32 - 1) rfl).2.2,
    by decide, by decide⟩

theorem fd_gate_verdict (p : proc) (fp : file) (bit : Nat)
    (hpledged : p.p_p.PS_PLEDGE = true) :
    let r := verdict.run p
      (if p.p_p.PS_PLEDGE = false then .ret 0
      else if p.p_p.ps_pledge &&& bit = 0 then .fail EPERM bit
      else if fp.f_type = DTYPE_SOCKET ∨ fp.f_type = DTYPE_PIPE then .ret 0
      else if fp.f_type = DTYPE_VNODE ∧ fp.f_data.v_type ≠ VDIR then .ret 0
      else .fail EINVAL bit)
    (r.1 = 0 ↔ p.p_p.ps_pledge &&& bit ≠ 0 ∧ passable fp) ∧
    (p.p_p.ps_pledge &&& bit ≠ 0 → passable fp → r = (0, p)) ∧
    (p.p_p.ps_pledge &&& bit = 0 → r = pledge_fail p EPERM bit) ∧
    (p.p_p.ps_pledge &&& bit ≠ 0 → ¬ passable fp → r = pledge_fail p EINVAL bit) := by
  have hpl : ¬ p.p_p.PS_PLEDGE = false := by rw [hpledged]; decide
  intro r
  have hr : r = verdict.run p
      (if p.p_p.PS_PLEDGE = false then .ret 0
      else if p.p_p.ps_pledge &&& bit = 0 then .fail EPERM bit
      else if fp.f_type = DTYPE_SOCKET ∨ fp.f_type = DTYPE_PIPE then .ret 0
      else if fp.f_type = DTYPE_VNODE ∧ fp.f_data.v_type ≠ VDIR then .ret 0
      else .fail EINVAL bit) := rfl
  rw [if_neg hpl] at hr
  by_cases hb : p.p_p.ps_pledge &&& bit = 0
  · rw [if_pos hb] at hr
    refine ⟨⟨fun h => ?_, fun h => absurd hb h.1⟩, fun h => absurd hb h, fun _ => hr,
      fun h => absurd hb h⟩
    rw [hr] at h
    exact absurd (show EPERM = (0 : Int) from h) (by decide)
  · rw [if_neg hb] at hr
    by_cases h1 : fp.f_type = DTYPE_SOCKET ∨ fp.f_type = DTYPE_PIPE
    · rw [if_pos h1] at hr
      have hp : passable fp := by
        rcases h1 with h1 | h1
        · exact Or.inl h1
        · exact Or.inr (Or.inl h1)
      exact ⟨⟨fun _ => ⟨hb, hp⟩, fun _ => by rw [hr]; rfl⟩, fun _ _ => hr,
        fun h => absurd h hb, fun _ h => absurd hp h⟩
    · rw [if_neg h1] at hr
      by_cases h2 : fp.f_type = DTYPE_VNODE ∧ fp.f_data.v_type ≠ VDIR
      · rw [if_pos h2] at hr
        have hp : passable fp := Or.inr (Or.inr h2)
        exact ⟨⟨fun _ => ⟨hb, hp⟩, fun _ => by rw [hr]; rfl⟩, fun _ _ => hr,
          fun h => absurd h hb, fun _ h => absurd hp h⟩
      · rw [if_neg h2] at hr
        have hp : ¬ passable fp := by
          rintro (h | h | h)
          · exact h1 (Or.inl h)
          · exact h1 (Or.inr h)
          · exact h2 h
        refine ⟨⟨fun h => ?_, fun h => absurd h.2 hp⟩, fun _ h => absurd h hp,
          fun h => absurd h hb, fun _ _ => hr⟩
        rw [hr] at h
        exact absurd (show EINVAL = (0 : Int) from h) (by decide)

/-- C28: the descriptor-passing gates.  For every pledged process,
pledge_recvfd (respectively pledge_sendfd) returns 0 if and only if recvfd
(respectively sendfd) is held and the descriptor is a socket, a pipe, or a
vnode that is not a directory, and then the process is unchanged; when the
promise is missing it returns EPERM through the violation handler, and when
the promise is held and the descriptor is a directory vnode or of any other
type it returns EINVAL through the violation handler; the handler is given
the promise's bit and clears the promises. -/
theorem pledge_fd_gates (p : proc) (fp : file) (hpledged : p.p_p.PS_PLEDGE = true) :
    (((pledge_recvfd p fp).1 = 0 ↔ p.p_p.ps_pledge &&& PLEDGE_RECVFD ≠ 0 ∧ passable fp) ∧
      (p.p_p.ps_pledge &&& PLEDGE_RECVFD ≠ 0 → passable fp → pledge_recvfd p fp = (0, p)) ∧
      (p.p_p.ps_pledge &&& PLEDGE_RECVFD = 0 →
        pledge_recvfd p fp = pledge_fail p EPERM PLEDGE_RECVFD) ∧
      (p.p_p.ps_pledge &&& PLEDGE_RECVFD ≠ 0 → ¬ passable fp →
        pledge_recvfd p fp = pledge_fail p EINVAL PLEDGE_RECVFD)) ∧
    (((pledge_sendfd p fp).1 = 0 ↔ p.p_p.ps_pledge &&& PLEDGE_SENDFD ≠ 0 ∧ passable fp) ∧
      (p.p_p.ps_pledge &&& PLEDGE_SENDFD ≠ 0 → passable fp → pledge_sendfd p fp = (0, p)) ∧
      (p.p_p.ps_pledge &&& PLEDGE_SENDFD = 0 →
        pledge_sendfd p fp = pledge_fail p EPERM PLEDGE_SENDFD) ∧
      (p.p_p.ps_pledge &&& PLEDGE_SENDFD ≠ 0 → ¬ passable fp →
        pledge_sendfd p fp = pledge_fail p EINVAL PLEDGE_SENDFD)) :=
  ⟨fd_gate_verdict p fp PLEDGE_RECVFD hpledged, fd_gate_verdict p fp PLEDGE_SENDFD hpledged⟩

/-- Witness for C28: promises stdio|recvfd.  Receiving a regular-file vnode
(type 1) is admitted, receiving a directory vnode is killed with EINVAL, and
sending anything is killed with EPERM. -/
theorem pledge_fd_gates_witness :
    pledge_recvfd ⟨⟨true, false, PLEDGE_STDIO ||| PLEDGE_RECVFD⟩, 0, []⟩
        ⟨DTYPE_VNODE, ⟨1, 0, 0⟩, 0⟩ =
      (0, ⟨⟨true, false, PLEDGE_STDIO ||| PLEDGE_RECVFD⟩, 0, []⟩) ∧
    pledge_recvfd ⟨⟨true, false, PLEDGE_STDIO ||| PLEDGE_RECVFD⟩, 0, []⟩
        ⟨DTYPE_VNODE, ⟨VDIR, 0, 0⟩, 0⟩ =
      (EINVAL, ⟨⟨true, false, 0⟩, 0, [⟨EINVAL, PLEDGE_RECVFD, 0⟩]⟩) ∧
    pledge_sendfd ⟨⟨true, false, PLEDGE_STDIO ||| PLEDGE_RECVFD⟩, 0, []⟩
        ⟨DTYPE_SOCKET, ⟨0, 0, 0⟩, 0⟩ =
      (EPERM, ⟨⟨true, false, 0⟩, 0, [⟨EPERM, PLEDGE_SENDFD, 0⟩]⟩) :=
  ⟨(pledge_fd_gates ⟨⟨true, false, PLEDGE_STDIO ||| PLEDGE_RECVFD⟩, 0, []⟩
      ⟨DTYPE_VNODE, ⟨1, 0, 0⟩, 0⟩ rfl).1.2.1 (by decide) (by decide),
    (pledge_fd_gates ⟨⟨true, false, PLEDGE_STDIO ||| PLEDGE_RECVFD⟩, 0, []⟩
      ⟨DTYPE_VNODE, ⟨VDIR, 0, 0⟩, 0⟩ rfl).1.2.2.2 (by decide) (by decide),
    (pledge_fd_gates ⟨⟨true, false, PLEDGE_STDIO ||| PLEDGE_RECVFD⟩, 0, []⟩
      ⟨DTYPE_SOCKET, ⟨0, 0, 0⟩, 0⟩ rfl).2.2.2.1 (by decide)⟩

/-- C29: the socket-domain gate.  For every pledged process: when the socket
state carries the DNS flag, pledge_socket admits if and only if dns is held,
whatever the domain; without the DNS flag, AF_INET and AF_INET6 are admitted
if and only if inet or YPACTIVE is held, and AF_UNIX if and only if unix is
held.  Every admission leaves the process unchanged and each of these
denials returns EPERM through the violation handler (reporting dns, inet and
unix respectively). -/
theorem pledge_socket_gate (p : proc) (domain : Int) (state : Nat)
    (hpledged : p.p_p.PS_PLEDGE = true) :
    (state &&& SS_DNS ≠ 0 →
      ((pledge_socket p domain state).1 = 0 ↔ p.p_p.ps_pledge &&& PLEDGE_DNS ≠ 0) ∧
      (p.p_p.ps_pledge &&& PLEDGE_DNS ≠ 0 → pledge_socket p domain state = (0, p)) ∧
      (p.p_p.ps_pledge &&& PLEDGE_DNS = 0 →
        pledge_socket p domain state = pledge_fail p EPERM PLEDGE_DNS)) ∧
    (state &&& SS_DNS = 0 → domain = AF_INET ∨ domain = AF_INET6 →
      ((pledge_socket p domain state).1 = 0 ↔
        p.p_p.ps_pledge &&& PLEDGE_INET ≠ 0 ∨ p.p_p.ps_pledge &&& PLEDGE_YPACTIVE ≠ 0) ∧
      (p.p_p.ps_pledge &&& PLEDGE_INET ≠ 0 ∨ p.p_p.ps_pledge &&& PLEDGE_YPACTIVE ≠ 0 →
        pledge_socket p domain state = (0, p)) ∧
      (¬ (p.p_p.ps_pledge &&& PLEDGE_INET ≠ 0 ∨ p.p_p.ps_pledge &&& PLEDGE_YPACTIVE ≠ 0) →
        pledge_socket p domain state = pledge_fail p EPERM PLEDGE_INET)) ∧
    (state &&& SS_DNS = 0 → domain = AF_UNIX →
      ((pledge_socket p domain state).1 = 0 ↔ p.p_p.ps_pledge &&& PLEDGE_UNIX ≠ 0) ∧
      (p.p_p.ps_pledge &&& PLEDGE_UNIX ≠ 0 → pledge_socket p domain state = (0, p)) ∧
      (p.p_p.ps_pledge &&& PLEDGE_UNIX = 0 →
        pledge_socket p domain state = pledge_fail p EPERM PLEDGE_UNIX)) := by
  have hpl : ¬ p.p_p.PS_PLEDGE = false := by rw [hpledged]; decide
  unfold pledge_socket
  rw [if_neg hpl]
  refine ⟨?_, ?_, ?_⟩
  · intro hs
    rw [if_pos hs]
    by_cases hd : p.p_p.ps_pledge &&& PLEDGE_DNS ≠ 0
    · rw [if_pos hd]
      exact ⟨⟨fun _ => hd, fun _ => rfl⟩, fun _ => rfl, fun h => absurd h hd⟩
    · rw [if_neg hd]
      exact ⟨⟨fun h => absurd (show EPERM = (0 : Int) from h) (by decide),
        fun h => absurd h hd⟩, fun h => absurd h hd, fun _ => rfl⟩
  · intro hs hdom
    have hm1 : ¬ domain = -1 := by
      rcases hdom with h | h <;> rw [h] <;> decide
    rw [if_neg (not_not.mpr hs), if_neg hm1, if_pos hdom]
    by_cases hi : p.p_p.ps_pledge &&& PLEDGE_INET ≠ 0 ∨ p.p_p.ps_pledge &&& PLEDGE_YPACTIVE ≠ 0
    · rw [if_pos hi]
      exact ⟨⟨fun _ => hi, fun _ => rfl⟩, fun _ => rfl, fun h => absurd hi h⟩
    · rw [if_neg hi]
      exact ⟨⟨fun h => absurd (show EPERM = (0 : Int) from h) (by decide),
        fun h => absurd h hi⟩, fun h => absurd h hi, fun _ => rfl⟩
  · intro hs hdom
    have hm1 : ¬ domain = -1 := by rw [hdom]; decide
    have hin : ¬ (domain = AF_INET ∨ domain = AF_INET6) := by rw [hdom]; decide
    rw [if_neg (not_not.mpr hs), if_neg hm1, if_neg hin, if_pos hdom]
    by_cases hu : p.p_p.ps_pledge &&& PLEDGE_UNIX ≠ 0
    · rw [if_pos hu]
      exact ⟨⟨fun _ => hu, fun _ => rfl⟩, fun _ => rfl, fun h => absurd h hu⟩
    · rw [if_neg hu]
      exact ⟨⟨fun h => absurd (show EPERM = (0 : Int) from h) (by decide),
        fun h => absurd h hu⟩, fun h => absurd h hu, fun _ => rfl⟩

/-- Witness for C29: with promises stdio|rpath|getpw|YPACTIVE (inet not
held), `socket(AF_INET)` without the DNS flag is admitted. -/
theorem pledge_socket_gate_witness :
    ( PLEDGE_STDIO ||| PLEDGE_RPATH ||| PLEDGE_GETPW ||| PLEDGE_YPACTIVE) &&& PLEDGE_INET = 0 ∧
    pledge_socket
        ⟨⟨true, false, PLEDGE_STDIO ||| PLEDGE_RPATH ||| PLEDGE_GETPW ||| PLEDGE_YPACTIVE⟩,
          0, []⟩ AF_INET 0 =
      (0, ⟨⟨true, false, PLEDGE_STDIO ||| PLEDGE_RPATH ||| PLEDGE_GETPW ||| PLEDGE_YPACTIVE⟩,
        0, []⟩) :=
  ⟨by decide,
    ((pledge_socket_gate
      ⟨⟨true, false, PLEDGE_STDIO ||| PLEDGE_RPATH ||| PLEDGE_GETPW ||| PLEDGE_YPACTIVE⟩,
        0, []⟩ AF_INET 0 rfl).2.1 (by decide) (Or.inl rfl)).2.1 (Or.inr (by decide))⟩

/-- C30 (as written): the domain value -1, which is none of AF_INET,
AF_INET6 and AF_UNIX, is admitted for a socket without the DNS flag by a
pledged process holding only stdio. -/
theorem pledge_socket_any_domain_counterexample :
    ((-1 : Int) ≠ AF_INET ∧ (-1 : Int) ≠ AF_INET6 ∧ (-1 : Int) ≠ AF_UNIX) ∧
    pledge_socket ⟨⟨true, false, PLEDGE_STDIO⟩, 0, []⟩ (-1) 0 =
      (0, ⟨⟨true, false, PLEDGE_STDIO⟩, 0, []⟩) := by
  decide

/-- C30 (amended): for every pledged process, every promise set and every
socket without the DNS flag, pledge_socket admits the domain value -1
("accept on any domain", process unchanged) and denies every domain value
other than -1, AF_INET, AF_INET6 and AF_UNIX with EINVAL through the
violation handler, which reports inet and clears the promises. -/
theorem pledge_socket_other_domain (p : proc) (domain : Int) (state : Nat)
    (hpledged : p.p_p.PS_PLEDGE = true) (hs : state &&& SS_DNS = 0) :
    (domain = -1 → pledge_socket p domain state = (0, p)) ∧
    (domain ≠ -1 → domain ≠ AF_INET → domain ≠ AF_INET6 → domain ≠ AF_UNIX →
      pledge_socket p domain state = pledge_fail p EINVAL PLEDGE_INET) := by
  have hpl : ¬ p.p_p.PS_PLEDGE = false := by rw [hpledged]; decide
  unfold pledge_socket
  rw [if_neg hpl, if_neg (not_not.mpr hs)]
  constructor
  · intro h
    rw [if_pos h]
    rfl
  · intro h1 h2 h3 h4
    have hin : ¬ (domain = AF_INET ∨ domain = AF_INET6) := by
      rintro (h | h)
      · exact h2 h
      · exact h3 h
    rw [if_neg h1, if_neg hin, if_neg h4]
    rfl

/-- Witness for C30, amended: domain 17 (none of the four values) is denied
with EINVAL and the promises are cleared. -/
theorem pledge_socket_other_domain_witness :
    pledge_socket ⟨⟨true, false, PLEDGE_STDIO ||| PLEDGE_INET⟩, 0, []⟩ 17 0 =
      (EINVAL, ⟨⟨true, false, 0⟩, 0, [⟨EINVAL, PLEDGE_INET, 0⟩]⟩) :=
  (pledge_socket_other_domain ⟨⟨true, false, PLEDGE_STDIO ||| PLEDGE_INET⟩, 0, []⟩ 17 0 rfl
    (by decide)).2 (by decide) (by decide) (by decide) (by decide)

theorem peek_append_right (pa a : List Char) (k : Nat) :
    peek (pa ++ a) (pa.length + k) = peek a k := by
  unfold peek
  rw [List.getD_append_right _ _ _ _ (Nat.le_add_right _ _), Nat.add_sub_cancel_left]

theorem substrcmp_loop_lcp : ∀ (a b pa pb : List Char) (n : Nat), NUL ∉ a → NUL ∉ b →
    pa.length = pb.length → max a.length b.length ≤ n →
    substrcmp_loop (pa ++ a) (pb ++ b) (pa.length + a.length) (pb.length + b.length) n
      pa.length = pa.length + lcp a b := by
  intro a
  induction a with
  | nil =>
    intro b pa pb n _ hb hl hn
    cases b with
    | nil =>
      cases n with
      | zero => simp [substrcmp_loop, lcp]
      | succ n => simp [substrcmp_loop, lcp, hl]
    | cons d t =>
      cases n with
      | zero => simp at hn
      | succ n =>
        have hd : d ≠ NUL := fun e => hb (by simp [e])
        have h1 : peek (pa ++ []) pa.length = NUL := by
          have := peek_append_right pa [] 0
          rw [Nat.add_zero] at this
          rw [this, peek_nil]
        have h2 : peek (pb ++ d :: t) pa.length = d := by
          have := peek_append_right pb (d :: t) 0
          rw [Nat.add_zero, ← hl] at this
          rw [this, peek_cons_zero]
        rw [substrcmp_loop, if_pos (Or.inr (by rw [hl]; simp)), h1, h2,
          if_pos (fun e => hd e.symm)]
        simp [lcp]
  | cons c s ih =>
    intro b pa pb n ha hb hl hn
    have hc : c ≠ NUL := fun e => ha (by simp [e])
    have hs : NUL ∉ s := fun h => ha (List.mem_cons_of_mem _ h)
    have h1 : peek (pa ++ c :: s) pa.length = c := by
      have := peek_append_right pa (c :: s) 0
      rw [Nat.add_zero] at this
      rw [this, peek_cons_zero]
    cases n with
    | zero => simp at hn
    | succ n =>
      cases b with
      | nil =>
        have h2 : peek (pb ++ []) pa.length = NUL := by
          have := peek_append_right pb [] 0
          rw [Nat.add_zero, ← hl] at this
          rw [this, peek_nil]
        rw [substrcmp_loop, if_pos (Or.inl (by simp)), h1, h2, if_pos hc]
        simp [lcp]
      | cons d t =>
        have ht : NUL ∉ t := fun h => hb (List.mem_cons_of_mem _ h)
        have h2 : peek (pb ++ d :: t) pa.length = d := by
          have := peek_append_right pb (d :: t) 0
          rw [Nat.add_zero, ← hl] at this
          rw [this, peek_cons_zero]
        rw [substrcmp_loop, if_pos (Or.inl (by simp)), h1, h2]
        by_cases hcd : c = d
        · subst hcd
          rw [if_neg (fun h => h rfl)]
          have hn' : max s.length t.length ≤ n := by
            simp only [List.length_cons] at hn
            omega
          have := ih t (pa ++ [c]) (pb ++ [c]) n hs ht (by simp [hl]) hn'
          simp only [List.append_assoc, List.singleton_append, List.length_append,
            List.length_singleton] at this
          have e1 : pa.length + (c :: s).length = pa.length + 1 + s.length := by
            simp only [List.length_cons]; omega
          have e2 : pb.length + (c :: t).length = pb.length + 1 + t.length := by
            simp only [List.length_cons]; omega
          rw [e1, e2, this]
          simp [lcp]
          omega
        · rw [if_pos hcd]
          simp [lcp, hcd]

theorem lcp_le_left : ∀ a b : List Char, lcp a b ≤ a.length := by
  intro a
  induction a with
  | nil => intro b; simp [lcp]
  | cons c s ih =>
    intro b
    cases b with
    | nil => simp [lcp]
    | cons d t =>
      simp only [lcp, List.length_cons]
      split_ifs
      · exact Nat.succ_le_succ (ih t)
      · omega

theorem lcp_eq_length_iff : ∀ a b : List Char, lcp a b = a.length ↔ a <+: b := by
  intro a
  induction a with
  | nil => intro b; simp [lcp]
  | cons c s ih =>
    intro b
    cases b with
    | nil => simp [lcp]
    | cons d t =>
      simp only [lcp, List.length_cons]
      by_cases hcd : c = d
      · subst hcd
        rw [if_pos rfl, Nat.succ_inj', ih t]
        constructor
        · rintro ⟨u, hu⟩
          exact ⟨u, by rw [← hu]; rfl⟩
        · rintro ⟨u, hu⟩
          exact ⟨u, by simpa using hu⟩
      · rw [if_neg hcd]
        constructor
        · intro h; omega
        · rintro ⟨u, hu⟩
          simp only [List.cons_append, List.cons.injEq] at hu
          exact absurd hu.1 hcd

theorem lcp_comm : ∀ a b : List Char, lcp a b = lcp b a := by
  intro a
  induction a with
  | nil => intro b; cases b <;> simp [lcp]
  | cons c s ih =>
    intro b
    cases b with
    | nil => simp [lcp]
    | cons d t =>
      simp only [lcp]
      by_cases hcd : c = d
      · subst hcd; simp [ih t]
      · rw [if_neg hcd, if_neg (fun h => hcd h.symm)]

theorem substrcmp_eq (a b : List Char) (ha : NUL ∉ a) (hb : NUL ∉ b) :
    substrcmp a a.length b b.length =
      if a <+: b then 1 else if b <+: a then 2 else 0 := by
  have h := substrcmp_loop_lcp a b [] [] (max a.length b.length) ha hb rfl (le_refl _)
  simp only [List.nil_append, List.length_nil, Nat.zero_add] at h
  unfold substrcmp
  rw [h]
  by_cases h1 : a <+: b
  · rw [if_pos h1, if_pos ((lcp_eq_length_iff a b).mpr h1)]
  · rw [if_neg h1, if_neg (fun e => h1 ((lcp_eq_length_iff a b).mp e))]
    by_cases h2 : b <+: a
    · rw [if_pos h2, if_pos (by rw [lcp_comm]; exact (lcp_eq_length_iff b a).mpr h2)]
    · rw [if_neg h2, if_neg (fun e => h2 ((lcp_eq_length_iff b a).mp (by rw [lcp_comm]; exact e)))]

theorem peek_eq_nul_iff (s : List Char) (h : NUL ∉ s) (k : Nat) :
    peek s k = NUL ↔ s.length ≤ k := by
  unfold peek
  constructor
  · intro e
    by_contra hk
    have hk' : k < s.length := Nat.lt_of_not_le hk
    rw [List.getD_eq_getElem _ _ hk'] at e
    exact h (e ▸ List.getElem_mem _)
  · intro hk
    exact List.getD_eq_default _ _ hk

theorem eq_of_prefix_of_length_le (a b : List Char) (h : a <+: b) (hl : b.length ≤ a.length) :
    a = b :=
  List.IsPrefix.eq_of_length_le h hl

theorem absolute_short (name : List Char) (habs : peek name 0 = '/') (hl : name.length ≤ 1) :
    name = ['/'] := by
  cases name with
  | nil => rw [peek_nil] at habs; exact absurd habs (by decide)
  | cons c s =>
    rw [peek_cons_zero] at habs
    cases s with
    | nil => rw [habs]
    | cons d t => simp at hl

theorem wl_match_iff (name r : List Char) (hname : NUL ∉ name) (hr : NUL ∉ r)
    (habs : peek name 0 = '/') :
    (substrcmp name name.length r r.length = 1 ∧
      (peek r name.length = NUL ∨ peek r name.length = '/' ∨ peek name 1 = NUL)) ↔
    wl_match name r := by
  rw [substrcmp_eq name r hname hr, peek_eq_nul_iff r hr, peek_eq_nul_iff name hname]
  unfold wl_match path_ancestor
  by_cases h1 : name <+: r
  · rw [if_pos h1]
    constructor
    · rintro ⟨_, h | h | h⟩
      · exact Or.inl (eq_of_prefix_of_length_le name r h1 h)
      · by_cases e : name = r
        · exact Or.inl e
        · exact Or.inr ⟨h1, e, Or.inl h⟩
      · by_cases e : name = r
        · exact Or.inl e
        · exact Or.inr ⟨h1, e, Or.inr (absolute_short name habs h)⟩
    · rintro (h | ⟨_, _, h | h⟩)
      · exact ⟨rfl, Or.inl (by rw [h])⟩
      · exact ⟨rfl, Or.inr (Or.inl h)⟩
      · exact ⟨rfl, Or.inr (Or.inr (by rw [h]; simp))⟩
  · rw [if_neg h1]
    constructor
    · rintro ⟨h, _⟩
      split_ifs at h <;> exact absurd h (by decide)
    · rintro (h | ⟨h, _⟩)
      · exact absurd (h ▸ List.prefix_refl _) h1
      · exact absurd h h1

theorem wl_pardir_iff (name r : List Char) (hname : NUL ∉ name) (hr : NUL ∉ r)
    (habs : peek name 0 = '/') :
    (substrcmp name name.length r r.length = 2 ∧
      (peek r 1 = NUL ∨ peek name r.length = '/')) ↔
    path_ancestor r name := by
  rw [substrcmp_eq name r hname hr, peek_eq_nul_iff r hr]
  unfold path_ancestor
  by_cases h1 : name <+: r
  · rw [if_pos h1]
    constructor
    · rintro ⟨h, _⟩
      exact absurd h (by decide)
    · rintro ⟨h2, h3, _⟩
      exact absurd (eq_of_prefix_of_length_le r name h2 h1.length_le) h3
  · rw [if_neg h1]
    by_cases h2 : r <+: name
    · rw [if_pos h2]
      have hne : r ≠ name := fun e => h1 (e ▸ List.prefix_refl _)
      constructor
      · rintro ⟨_, h | h⟩
        · refine ⟨h2, hne, ?_⟩
          cases r with
          | nil => exact Or.inl habs
          | cons c s =>
            cases s with
            | nil =>
              right
              obtain ⟨u, hu⟩ := h2
              rw [← hu, List.cons_append, peek_cons_zero] at habs
              rw [habs]
            | cons d t => simp at h
        · exact ⟨h2, hne, Or.inl h⟩
      · rintro ⟨_, _, h | h⟩
        · exact ⟨rfl, Or.inr h⟩
        · exact ⟨rfl, Or.inl (by rw [h]; simp)⟩
    · rw [if_neg h2]
      constructor
      · rintro ⟨h, _⟩
        exact absurd h (by decide)
      · rintro ⟨h, _⟩
        exact absurd h h2

theorem wl_match_not_pardir (name r : List Char) (h : wl_match name r) :
    ¬ path_ancestor r name := by
  rintro ⟨h2, h3, _⟩
  rcases h with h | ⟨h, _, _⟩
  · exact h3 h.symm
  · exact h3 (eq_of_prefix_of_length_le r name h2 h.length_le)

theorem wl_loop_zero (r : List Char) (rl : Nat) (wl : List whitepath) (pd : Bool) :
    wl_loop r rl wl 0 pd = (0, pd) := by
  cases wl with
  | nil => rfl
  | cons w wl =>
    unfold wl_loop
    cases w.name with
    | none => rfl
    | some name => simp

theorem wl_loop_cons (r name : List Char) (names : List (List Char)) (error : Int) (pd : Bool)
    (he : error ≠ 0) (hname : NUL ∉ name) (hr : NUL ∉ r) (habs : peek name 0 = '/') :
    wl_loop r (r.length + 1) (whitelist (name :: names)) error pd =
      if wl_match name r then (0, pd)
      else if path_ancestor r name then wl_loop r (r.length + 1) (whitelist names) error true
      else wl_loop r (r.length + 1) (whitelist names) error pd := by
  have e : whitelist (name :: names) = ⟨some name, name.length + 1⟩ :: whitelist names := rfl
  rw [e, wl_loop]
  simp only [Nat.add_sub_cancel]
  rw [if_neg he]
  by_cases hm : wl_match name r
  · have hc := (wl_match_iff name r hname hr habs).mpr hm
    rw [if_pos hc.1, if_pos hc.2, if_pos hm, wl_loop_zero]
  · rw [if_neg hm]
    by_cases hs : substrcmp name name.length r r.length = 1
    · have hc : ¬ (peek r name.length = NUL ∨ peek r name.length = '/' ∨ peek name 1 = NUL) :=
        fun h => hm ((wl_match_iff name r hname hr habs).mp ⟨hs, h⟩)
      have hp : ¬ path_ancestor r name := fun h =>
        absurd ((wl_pardir_iff name r hname hr habs).mpr h).1 (by rw [hs]; decide)
      rw [if_pos hs, if_neg hc, if_neg hp]
    · rw [if_neg hs]
      by_cases hp : path_ancestor r name
      · have hc := (wl_pardir_iff name r hname hr habs).mpr hp
        rw [if_pos hc.1, if_pos hc.2, if_pos hp]
      · rw [if_neg hp]
        by_cases hs2 : substrcmp name name.length r r.length = 2
        · have hc : ¬ (peek r 1 = NUL ∨ peek name r.length = '/') :=
            fun h => hp ((wl_pardir_iff name r hname hr habs).mp ⟨hs2, h⟩)
          rw [if_pos hs2, if_neg hc]
        · rw [if_neg hs2]

theorem wl_loop_hit (r : List Char) (hr : NUL ∉ r) : ∀ (names : List (List Char)) (error : Int)
    (pd : Bool), error ≠ 0 → (∀ n ∈ names, peek n 0 = '/' ∧ NUL ∉ n) →
    (∃ n ∈ names, wl_match n r) →
    (wl_loop r (r.length + 1) (whitelist names) error pd).1 = 0 := by
  intro names
  induction names with
  | nil => intro _ _ _ _ h; simp at h
  | cons name names ih =>
    intro error pd he hn hex
    have h0 := hn name (List.mem_cons_self _ _)
    have hn' : ∀ n ∈ names, peek n 0 = '/' ∧ NUL ∉ n :=
      fun n h => hn n (List.mem_cons_of_mem _ h)
    rw [wl_loop_cons r name names error pd he h0.2 hr h0.1]
    by_cases hm : wl_match name r
    · rw [if_pos hm]
    · rw [if_neg hm]
      have hex' : ∃ n ∈ names, wl_match n r := by
        obtain ⟨n, hmem, hmn⟩ := hex
        rcases List.mem_cons.mp hmem with e | e
        · exact absurd (e ▸ hmn) hm
        · exact ⟨n, e, hmn⟩
      split_ifs
      · exact ih error true he hn' hex'
      · exact ih error pd he hn' hex'

theorem wl_loop_miss (r : List Char) (hr : NUL ∉ r) : ∀ (names : List (List Char)) (error : Int)
    (pd : Bool), error ≠ 0 → (∀ n ∈ names, peek n 0 = '/' ∧ NUL ∉ n) →
    ¬ (∃ n ∈ names, wl_match n r) →
    (wl_loop r (r.length + 1) (whitelist names) error pd).1 = error ∧
    ((wl_loop r (r.length + 1) (whitelist names) error pd).2 = true ↔
      pd = true ∨ ∃ n ∈ names, path_ancestor r n) := by
  intro names
  induction names with
  | nil => intro error pd _ _ _; simp [whitelist, wl_loop]
  | cons name names ih =>
    intro error pd he hn hex
    have h0 := hn name (List.mem_cons_self _ _)
    have hn' : ∀ n ∈ names, peek n 0 = '/' ∧ NUL ∉ n :=
      fun n h => hn n (List.mem_cons_of_mem _ h)
    have hm : ¬ wl_match name r := fun h => hex ⟨name, List.mem_cons_self _ _, h⟩
    have hex' : ¬ (∃ n ∈ names, wl_match n r) := by
      rintro ⟨n, hmem, hmn⟩
      exact hex ⟨n, List.mem_cons_of_mem _ hmem, hmn⟩
    rw [wl_loop_cons r name names error pd he h0.2 hr h0.1, if_neg hm]
    by_cases hp : path_ancestor r name
    · rw [if_pos hp]
      obtain ⟨i1, i2⟩ := ih error true he hn' hex'
      refine ⟨i1, ?_⟩
      rw [i2]
      constructor
      · intro _
        exact Or.inr ⟨name, List.mem_cons_self _ _, hp⟩
      · intro _
        exact Or.inl rfl
    · rw [if_neg hp]
      obtain ⟨i1, i2⟩ := ih error pd he hn' hex'
      refine ⟨i1, ?_⟩
      rw [i2]
      constructor
      · rintro (h | ⟨n, hmem, hpn⟩)
        · exact Or.inl h
        · exact Or.inr ⟨n, List.mem_cons_of_mem _ hmem, hpn⟩
      · rintro (h | ⟨n, hmem, hpn⟩)
        · exact Or.inl h
        · rcases List.mem_cons.mp hmem with e | e
          · exact absurd (e ▸ hpn) hp
          · exact Or.inr ⟨n, e, hpn⟩

theorem resolvpath_canon_ok (env : lookup_env) (abspath : List Char) (n : Nat)
    (r : List Char) (rl : Nat) (h : resolvpath_canon env abspath n = .ok (r, rl)) :
    rl = r.length + 1 ∧ NUL ∉ r := by
  unfold resolvpath_canon at h
  cases hc : canonpath abspath n with
  | error e => rw [hc] at h; cases h
  | ok canopath =>
    rw [hc] at h
    simp only [] at h
    have hnul := canonpath_nul_free abspath canopath n hc
    rw [cstr_of_nul_free canopath hnul] at h
    split_ifs at h with h1
    cases hr : env.rdir with
    | none =>
      rw [hr] at h
      simp only [] at h
      injection h with h
      injection h with h2 h3
      rw [List.take_of_length_le (Nat.le_succ _)] at h2
      rw [← h2, ← h3]
      exact ⟨rfl, hnul⟩
    | some rd =>
      rw [hr] at h
      cases rd with
      | error e => cases h
      | ok rdir =>
        simp only [] at h
        injection h with h
        injection h with h2 h3
        have hlen : (cstr rdir ++ canopath).length ≤
            (cstr rdir).length + 1 + (canopath.length + 1) - 1 - 1 := by
          rw [List.length_append]; omega
        unfold snprintf at h2
        rw [List.take_of_length_le hlen] at h2
        rw [← h2, ← h3]
        refine ⟨by rw [List.length_append]; omega, ?_⟩
        intro hmem
        rcases List.mem_append.mp hmem with h4 | h4
        · exact cstr_nul_free rdir h4
        · exact hnul h4

theorem resolvpath_ok (env : lookup_env) (path : List Char) (n : Nat)
    (r : List Char) (rl : Nat) (h : resolvpath env path n = .ok (r, rl)) :
    rl = r.length + 1 ∧ NUL ∉ r := by
  unfold resolvpath at h
  split_ifs at h with h1
  · cases hc : env.cwd with
    | error e => rw [hc] at h; cases h
    | ok cwd =>
      rw [hc] at h
      exact resolvpath_canon_ok env _ _ r rl h
  · exact resolvpath_canon_ok env _ _ r rl h

theorem pledge_namei_wlpath_eq (p : proc) (names : List (List Char)) (env : lookup_env)
    (ni : nameidata) (path : List Char) (len : Nat) (r : List Char) (rl : Nat)
    (hres : resolvpath env path (len + 1) = .ok (r, rl)) :
    pledge_namei_wlpath p (some (whitelist names)) env ni (some path) len =
      if (wl_loop r (r.length + 1) (whitelist names) ENOENT false).2 = true ∧
          stat_family p.p_pledge_syscall then
        some (0, { ni with ni_pledge := ni.ni_pledge ||| PLEDGE_STATLIE })
      else some ((wl_loop r (r.length + 1) (whitelist names) ENOENT false).1, ni) := by
  have hrl := (resolvpath_ok env path (len + 1) r rl hres).1
  subst hrl
  unfold pledge_namei_wlpath
  simp only [hres]
  rfl

/-- C25: whitepath outcomes.  For every whitelist of absolute NUL-free paths
and every lookup whose path resolves to r: pledge_namei_wlpath returns 0 when
some entry equals r or is a path-ancestor of r; otherwise, when r is a proper
path-ancestor of some entry, it returns 0 and sets STATLIE on the lookup if
the current syscall is stat, lstat, fstatat or fstat, and returns ENOENT with
the lookup untouched for every other syscall; when nothing matches it
returns ENOENT with the lookup untouched. -/
theorem pledge_namei_wlpath_outcomes (p : proc) (names : List (List Char)) (env : lookup_env)
    (ni : nameidata) (path : List Char) (len : Nat) (r : List Char) (rl : Nat)
    (hnames : ∀ n ∈ names, peek n 0 = '/' ∧ NUL ∉ n)
    (hres : resolvpath env path (len + 1) = .ok (r, rl)) :
    ((∃ n ∈ names, wl_match n r) →
      (pledge_namei_wlpath p (some (whitelist names)) env ni (some path) len).map Prod.fst =
        some 0) ∧
    (¬ (∃ n ∈ names, wl_match n r) → (∃ n ∈ names, path_ancestor r n) →
      (stat_family p.p_pledge_syscall →
        pledge_namei_wlpath p (some (whitelist names)) env ni (some path) len =
          some (0, { ni with ni_pledge := ni.ni_pledge ||| PLEDGE_STATLIE })) ∧
      (¬ stat_family p.p_pledge_syscall →
        pledge_namei_wlpath p (some (whitelist names)) env ni (some path) len =
          some (ENOENT, ni))) ∧
    (¬ (∃ n ∈ names, wl_match n r) → ¬ (∃ n ∈ names, path_ancestor r n) →
      pledge_namei_wlpath p (some (whitelist names)) env ni (some path) len =
        some (ENOENT, ni)) := by
  have hr := (resolvpath_ok env path (len + 1) r rl hres).2
  rw [pledge_namei_wlpath_eq p names env ni path len r rl hres]
  refine ⟨?_, ?_, ?_⟩
  · intro hex
    have h0 := wl_loop_hit r hr names ENOENT false (by decide) hnames hex
    split_ifs
    · rfl
    · rw [h0]; rfl
  · intro hex hpar
    obtain ⟨h1, h2⟩ := wl_loop_miss r hr names ENOENT false (by decide) hnames hex
    have hpd := h2.mpr (Or.inr hpar)
    constructor
    · intro hs
      rw [if_pos ⟨hpd, hs⟩]
    · intro hs
      rw [if_neg (fun h => hs h.2), h1]
  · intro hex hpar
    obtain ⟨h1, h2⟩ := wl_loop_miss r hr names ENOENT false (by decide) hnames hex
    have hpd : ¬ (wl_loop r (r.length + 1) (whitelist names) ENOENT false).2 = true := by
      rw [h2]
      rintro (h | h)
      · cases h
      · exact hpar h
    rw [if_neg (fun h => hpd h.1), h1]

/-- Witness for C25: whitelist /home/u/doc and /var/www, not chrooted.
open of /var/www/./a/b is admitted (descendant), stat of /home/u is
admitted with STATLIE (ancestor only), open of /home/u gets ENOENT, and
open of /var/wwwx gets ENOENT (no match: not at a component boundary). -/
theorem pledge_namei_wlpath_outcomes_witness :
    (pledge_namei_wlpath ⟨⟨true, false, PLEDGE_STDIO ||| PLEDGE_RPATH⟩, SYS_open, []⟩
        (some (whitelist ["/home/u/doc".toList, "/var/www".toList])) ⟨.ok "/".toList, none⟩
        ⟨PLEDGE_RPATH⟩ (some "/var/www/./a/b".toList) 14).map Prod.fst = some 0 ∧
    pledge_namei_wlpath ⟨⟨true, false, PLEDGE_STDIO ||| PLEDGE_RPATH⟩, SYS_stat, []⟩
        (some (whitelist ["/home/u/doc".toList, "/var/www".toList])) ⟨.ok "/".toList, none⟩
        ⟨PLEDGE_RPATH⟩ (some "/home/u".toList) 7 =
      some (0, ⟨PLEDGE_RPATH ||| PLEDGE_STATLIE⟩) ∧
    pledge_namei_wlpath ⟨⟨true, false, PLEDGE_STDIO ||| PLEDGE_RPATH⟩, SYS_open, []⟩
        (some (whitelist ["/home/u/doc".toList, "/var/www".toList])) ⟨.ok "/".toList, none⟩
        ⟨PLEDGE_RPATH⟩ (some "/home/u".toList) 7 = some (ENOENT, ⟨PLEDGE_RPATH⟩) ∧
    pledge_namei_wlpath ⟨⟨true, false, PLEDGE_STDIO ||| PLEDGE_RPATH⟩, SYS_open, []⟩
        (some (whitelist ["/home/u/doc".toList, "/var/www".toList])) ⟨.ok "/".toList, none⟩
        ⟨PLEDGE_RPATH⟩ (some "/var/wwwx".toList) 9 = some (ENOENT, ⟨PLEDGE_RPATH⟩) :=
  ⟨(pledge_namei_wlpath_outcomes
      ⟨⟨true, false, PLEDGE_STDIO ||| PLEDGE_RPATH⟩, SYS_open, []⟩
      ["/home/u/doc".toList, "/var/www".toList] ⟨.ok "/".toList, none⟩ ⟨PLEDGE_RPATH⟩
      "/var/www/./a/b".toList 14 "/var/www/a/b".toList 13 (by decide) (by decide)).1
      (by decide),
    ((pledge_namei_wlpath_outcomes
      ⟨⟨true, false, PLEDGE_STDIO ||| PLEDGE_RPATH⟩, SYS_stat, []⟩
      ["/home/u/doc".toList, "/var/www".toList] ⟨.ok "/".toList, none⟩ ⟨PLEDGE_RPATH⟩
      "/home/u".toList 7 "/home/u".toList 8 (by decide) (by decide)).2.1
      (by decide) (by decide)).1 (by decide),
    ((pledge_namei_wlpath_outcomes
      ⟨⟨true, false, PLEDGE_STDIO ||| PLEDGE_RPATH⟩, SYS_open, []⟩
      ["/home/u/doc".toList, "/var/www".toList] ⟨.ok "/".toList, none⟩ ⟨PLEDGE_RPATH⟩
      "/home/u".toList 7 "/home/u".toList 8 (by decide) (by decide)).2.1
      (by decide) (by decide)).2 (by decide),
    (pledge_namei_wlpath_outcomes
      ⟨⟨true, false, PLEDGE_STDIO ||| PLEDGE_RPATH⟩, SYS_open, []⟩
      ["/home/u/doc".toList, "/var/www".toList] ⟨.ok "/".toList, none⟩ ⟨PLEDGE_RPATH⟩
      "/var/wwwx".toList 9 "/var/wwwx".toList 10 (by decide) (by decide)).2.2
      (by decide) (by decide)⟩

theorem wl_match_descend (name r s : List Char) (h : wl_match name r) : wl_match name (r ++ '/' :: s) := by
  right
  have hne : ∀ (a : List Char), a ≠ a ++ '/' :: s := by
    intro a e
    have := congrArg List.length e
    simp at this
  rcases h with h | ⟨h1, h2, h3⟩
  · subst h
    refine ⟨List.prefix_append _ _, hne name, Or.inl ?_⟩
    have := peek_append_right name ('/' :: s) 0
    rw [Nat.add_zero, peek_cons_zero] at this
    exact this
  · obtain ⟨u, hu⟩ := h1
    refine ⟨⟨u ++ '/' :: s, by rw [← List.append_assoc, hu]⟩, ?_, ?_⟩
    · intro e
      have := congrArg List.length e
      rw [← hu] at this
      simp at this
    · rcases h3 with h3 | h3
      · left
        cases u with
        | nil => rw [List.append_nil] at hu; exact absurd hu h2
        | cons c v =>
          rw [← hu] at h3 ⊢
          have e1 := peek_append_right name (c :: v) 0
          have e2 := peek_append_right name ((c :: v) ++ '/' :: s) 0
          rw [Nat.add_zero] at e1 e2
          rw [List.append_assoc, e2]
          rw [e1] at h3
          rw [List.cons_append, peek_cons_zero]
          rw [peek_cons_zero] at h3
          exact h3
      · exact Or.inr h3

/-- C26: whitelist descendant closure.  For every whitelist of absolute
NUL-free paths and every resolved path r that some entry matches exactly or
as an ancestor, every lookup whose path resolves to r ++ "/" ++ s, for any
suffix s (a canonical relative one in particular), is admitted by
pledge_namei_wlpath (returns 0), for every syscall. -/
theorem pledge_namei_wlpath_descendant_closure (p : proc) (names : List (List Char))
    (env : lookup_env) (ni : nameidata) (path : List Char) (len : Nat) (r s : List Char)
    (rl : Nat)
    (hnames : ∀ n ∈ names, peek n 0 = '/' ∧ NUL ∉ n)
    (hmatch : ∃ n ∈ names, wl_match n r)
    (hres : resolvpath env path (len + 1) = .ok (r ++ '/' :: s, rl)) :
    (pledge_namei_wlpath p (some (whitelist names)) env ni (some path) len).map Prod.fst =
      some 0 := by
  have hr := (resolvpath_ok env path (len + 1) _ rl hres).2
  have hex : ∃ n ∈ names, wl_match n (r ++ '/' :: s) := by
    obtain ⟨n, hmem, hm⟩ := hmatch
    exact ⟨n, hmem, wl_match_descend n r s hm⟩
  rw [pledge_namei_wlpath_eq p names env ni path len _ rl hres]
  have h0 := wl_loop_hit _ hr names ENOENT false (by decide) hnames hex
  split_ifs
  · rfl
  · rw [h0]; rfl

/-- Witness for C26: the entry /var/www matches /var/www/a, so the unlink of
/var/www/a/b/c is admitted. -/
theorem pledge_namei_wlpath_descendant_closure_witness :
    wl_match "/var/www".toList "/var/www/a".toList ∧
    (pledge_namei_wlpath ⟨⟨true, false, PLEDGE_STDIO ||| PLEDGE_CPATH⟩, SYS_unlink, []⟩
        (some (whitelist ["/home/u/doc".toList, "/var/www".toList])) ⟨.ok "/".toList, none⟩
        ⟨PLEDGE_CPATH⟩ (some "/var/www/a/b/c".toList) 14).map Prod.fst = some 0 :=
  ⟨by decide,
    pledge_namei_wlpath_descendant_closure
      ⟨⟨true, false, PLEDGE_STDIO ||| PLEDGE_CPATH⟩, SYS_unlink, []⟩
      ["/home/u/doc".toList, "/var/www".toList] ⟨.ok "/".toList, none⟩ ⟨PLEDGE_CPATH⟩
      "/var/www/a/b/c".toList 14 "/var/www/a".toList "b/c".toList 15 (by decide)
      (by decide) (by decide)⟩

theorem and_or_ne_zero_left (P a b : Nat) (h : P &&& a ≠ 0) : P &&& (a ||| b) ≠ 0 := by
  intro e
  apply h
  apply Nat.eq_of_testBit_eq
  intro i
  have hz : (P &&& (a ||| b)).testBit i = false := by rw [e]; exact Nat.zero_testBit i
  rw [Nat.testBit_and, Nat.testBit_lor] at hz
  rw [Nat.zero_testBit, Nat.testBit_and]
  cases hP : P.testBit i with
  | false => simp
  | true =>
    rw [hP] at hz
    cases ha : a.testBit i with
    | false => simp
    | true => rw [ha] at hz; simp at hz

theorem and_or_ne_zero_right (P a b : Nat) (h : P &&& b ≠ 0) : P &&& (a ||| b) ≠ 0 := by
  rw [Nat.lor_comm]
  exact and_or_ne_zero_left P b a h

theorem and_or_eq_zero (P a b : Nat) (ha : P &&& a = 0) (hb : P &&& b = 0) :
    P &&& (a ||| b) = 0 := by
  rw [Nat.land_comm]
  apply or_and_eq_zero
  · rw [Nat.land_comm]; exact ha
  · rw [Nat.land_comm]; exact hb

/-- C31: SO_RTABLE is never admitted.  For every pledged process and every
promise set, pledge_sockopt with level SOL_SOCKET and option SO_RTABLE, get
or set, returns a non-zero error through the violation handler (the promises
are cleared, inet is reported): EINVAL when inet or unix is held, EPERM
otherwise.  The header constants are parameters; what is used of them is that
SO_RTABLE differs from SO_RCVBUF, SO_ERROR and SO_TIMESTAMP, and SOL_SOCKET
from IPPROTO_IP and IPPROTO_IPV6. -/
theorem pledge_sockopt_rtable (k : sockopt_names) (p : proc) (set : Int)
    (hpledged : p.p_p.PS_PLEDGE = true)
    (hopt : k.SO_RTABLE ≠ k.SO_RCVBUF ∧ k.SO_RTABLE ≠ k.SO_ERROR ∧
      k.SO_RTABLE ≠ k.SO_TIMESTAMP)
    (hlevel : k.SOL_SOCKET ≠ k.IPPROTO_IP ∧ k.SOL_SOCKET ≠ k.IPPROTO_IPV6) :
    (pledge_sockopt k p set k.SOL_SOCKET k.SO_RTABLE).1 ≠ 0 ∧
    (pledge_sockopt k p set k.SOL_SOCKET k.SO_RTABLE).2.p_p.ps_pledge = 0 ∧
    (p.p_p.ps_pledge &&& PLEDGE_INET ≠ 0 ∨ p.p_p.ps_pledge &&& PLEDGE_UNIX ≠ 0 →
      pledge_sockopt k p set k.SOL_SOCKET k.SO_RTABLE = pledge_fail p EINVAL PLEDGE_INET) ∧
    (p.p_p.ps_pledge &&& PLEDGE_INET = 0 ∧ p.p_p.ps_pledge &&& PLEDGE_UNIX = 0 →
      pledge_sockopt k p set k.SOL_SOCKET k.SO_RTABLE = pledge_fail p EPERM PLEDGE_INET) := by
  have hpl : ¬ p.p_p.PS_PLEDGE = false := by rw [hpledged]; decide
  have h1 : ¬ (k.SOL_SOCKET = k.SOL_SOCKET ∧
      (k.SO_RTABLE = k.SO_RCVBUF ∨ k.SO_RTABLE = k.SO_ERROR)) := by
    rintro ⟨_, h | h⟩
    · exact hopt.1 h
    · exact hopt.2.1 h
  have h2 : ¬ (k.SOL_SOCKET = k.SOL_SOCKET ∧ k.SO_RTABLE = k.SO_TIMESTAMP) :=
    fun h => hopt.2.2 h.2
  have h3 : ¬ (p.p_p.ps_pledge &&& PLEDGE_DNS ≠ 0 ∧ k.SOL_SOCKET = k.IPPROTO_IPV6 ∧
      (k.SO_RTABLE = k.IPV6_RECVPKTINFO ∨ k.SO_RTABLE = k.IPV6_USE_MIN_MTU)) :=
    fun h => hlevel.2 h.2.1
  have h4 : ¬ (p.p_p.ps_pledge &&& PLEDGE_YPACTIVE ≠ 0 ∧
      sockopt_ypactive k k.SOL_SOCKET k.SO_RTABLE = true) := by
    rintro ⟨_, h⟩
    unfold sockopt_ypactive at h
    rw [if_neg hlevel.1, if_neg hlevel.2] at h
    cases h
  have hE : pledge_sockopt k p set k.SOL_SOCKET k.SO_RTABLE = pledge_fail p EINVAL PLEDGE_INET ∨
      pledge_sockopt k p set k.SOL_SOCKET k.SO_RTABLE = pledge_fail p EPERM PLEDGE_INET := by
    unfold pledge_sockopt
    rw [if_neg hpl, if_neg h1]
    by_cases c1 : p.p_p.ps_pledge &&&
        (PLEDGE_INET ||| PLEDGE_UNIX ||| PLEDGE_DNS ||| PLEDGE_YPACTIVE) = 0
    · rw [if_pos c1]; exact Or.inr rfl
    rw [if_neg c1, if_neg h2, if_neg h3, if_neg h4]
    by_cases c2 : p.p_p.ps_pledge &&& (PLEDGE_INET ||| PLEDGE_UNIX) = 0
    · rw [if_pos c2]; exact Or.inr rfl
    rw [if_neg c2, if_pos rfl, if_pos rfl]
    exact Or.inl rfl
  refine ⟨?_, ?_, ?_, ?_⟩
  · rcases hE with e | e <;> rw [e]
    · exact (by decide : EINVAL ≠ (0 : Int))
    · exact (by decide : EPERM ≠ (0 : Int))
  · rcases hE with e | e <;> rw [e] <;> rfl
  · intro hnet
    have c2 : ¬ p.p_p.ps_pledge &&& (PLEDGE_INET ||| PLEDGE_UNIX) = 0 := by
      rcases hnet with h | h
      · exact and_or_ne_zero_left _ _ _ h
      · exact and_or_ne_zero_right _ _ _ h
    have c1 : ¬ p.p_p.ps_pledge &&&
        (PLEDGE_INET ||| PLEDGE_UNIX ||| PLEDGE_DNS ||| PLEDGE_YPACTIVE) = 0 :=
      and_or_ne_zero_left _ _ _ (and_or_ne_zero_left _ _ _ c2)
    unfold pledge_sockopt
    rw [if_neg hpl, if_neg h1, if_neg c1, if_neg h2, if_neg h3, if_neg h4, if_neg c2,
      if_pos rfl, if_pos rfl]
    rfl
  · intro hnet
    have c2 : p.p_p.ps_pledge &&& (PLEDGE_INET ||| PLEDGE_UNIX) = 0 :=
      and_or_eq_zero _ _ _ hnet.1 hnet.2
    unfold pledge_sockopt
    rw [if_neg hpl, if_neg h1]
    by_cases c1 : p.p_p.ps_pledge &&&
        (PLEDGE_INET ||| PLEDGE_UNIX ||| PLEDGE_DNS ||| PLEDGE_YPACTIVE) = 0
    · rw [if_pos c1]; rfl
    rw [if_neg c1, if_neg h2, if_neg h3, if_neg h4, if_pos c2]
    rfl

/-- Witness for C31: after pledge "stdio inet", `setsockopt(SOL_SOCKET,
SO_RTABLE)` returns EINVAL and the promises are cleared. -/
theorem pledge_sockopt_rtable_witness :
    pledge_sockopt sample_sockopt_names ⟨⟨true, false, PLEDGE_STDIO ||| PLEDGE_INET⟩, 0, []⟩ 1
        sample_sockopt_names.SOL_SOCKET sample_sockopt_names.SO_RTABLE =
      (EINVAL, ⟨⟨true, false, 0⟩, 0, [⟨EINVAL, PLEDGE_INET, 0⟩]⟩) :=
  (pledge_sockopt_rtable sample_sockopt_names
    ⟨⟨true, false, PLEDGE_STDIO ||| PLEDGE_INET⟩, 0, []⟩ 1 rfl (by decide)
    (by decide)).2.2.1 (Or.inl (by decide))

/-- C32: sysctl setters.  For every promise set and every mib, on the
always-allowed list or not, pledge_sysctl called with a non-null new value by
a pledged process returns EFAULT through the violation handler, which clears
the promises (code 0 is reported); an unpledged process is let through. -/
theorem pledge_sysctl_setter (k : sysctl_names) (p : proc) (miblen : Int) (mib : List Int)
    (new : Nat) :
    pledge_sysctl k p miblen mib (some new) =
      if p.p_p.PS_PLEDGE = false then (0, p) else pledge_fail p EFAULT 0 := by
  unfold pledge_sysctl
  by_cases h : p.p_p.PS_PLEDGE = false
  · rw [if_pos h, if_pos h]; rfl
  · rw [if_neg h, if_neg h, if_pos (show (some new).isSome = true from rfl)]; rfl

/-- C33 (as written): a pledged process holding vminfo calls pledge_swapctl
and gets EPERM. -/
theorem pledge_swapctl_vminfo_counterexample :
    pledge_swapctl ⟨⟨true, false, PLEDGE_STDIO ||| PLEDGE_VMINFO⟩, 0, []⟩ =
      (EPERM, ⟨⟨true, false, PLEDGE_STDIO ||| PLEDGE_VMINFO⟩, 0, []⟩) ∧
    ( PLEDGE_STDIO ||| PLEDGE_VMINFO) &&& PLEDGE_VMINFO ≠ 0 := by
  decide

/-- C33 (amended): pledge_swapctl looks at no promise bit.  For every
pledged process, whatever it holds (vminfo included), it returns EPERM and
leaves the process unchanged (no violation is reported); only an unpledged
process is admitted. -/
theorem pledge_swapctl_denies (p : proc) :
    pledge_swapctl p = if p.p_p.PS_PLEDGE = false then (0, p) else (EPERM, p) := by
  unfold pledge_swapctl
  by_cases h : p.p_p.PS_PLEDGE = false
  · rw [if_pos h, if_pos h]; rfl
  · rw [if_neg h, if_neg h]; rfl

/-- C34: baseline ioctls.  For every process, pledged or not, every promise
set (the empty one included), every descriptor of any type and every value
of the header constants, pledge_ioctl returns 0 and leaves the process
unchanged for the commands FIONREAD, FIONBIO, FIOCLEX and FIONCLEX. -/
theorem pledge_ioctl_baseline (k : ioctl_env) (p : proc) (fp : file) :
    pledge_ioctl k p k.FIONREAD fp = (0, p) ∧ pledge_ioctl k p k.FIONBIO fp = (0, p) ∧
    pledge_ioctl k p k.FIOCLEX fp = (0, p) ∧ pledge_ioctl k p k.FIONCLEX fp = (0, p) := by
  refine ⟨?_, ?_, ?_, ?_⟩ <;>
  · unfold pledge_ioctl
    by_cases h : p.p_p.PS_PLEDGE = false
    · rw [if_pos h]; rfl
    · rw [if_neg h, if_pos (by simp)]; rfl

theorem foldl_set_length : ∀ (init : List (Nat × Nat)) (a : List Nat),
    (init.foldl (fun a e => a.set e.1 e.2) a).length = a.length := by
  intro init
  induction init with
  | nil => intro a; rfl
  | cons x xs ih => intro a; rw [List.foldl_cons, ih, List.length_set]

theorem foldl_set_getD : ∀ (init : List (Nat × Nat)) (a : List Nat) (i : Nat),
    i < a.length →
    (init.foldl (fun a e => a.set e.1 e.2) a).getD i 0 =
      match init.reverse.find? (fun e => e.1 = i) with
      | some e => e.2
      | none => a.getD i 0 := by
  intro init
  induction init with
  | nil => intro a i _; rfl
  | cons x xs ih =>
    intro a i hi
    rw [List.foldl_cons, ih (a.set x.1 x.2) i (by rw [List.length_set]; exact hi),
      List.reverse_cons, List.find?_append]
    cases hf : xs.reverse.find? (fun e => e.1 = i) with
    | some e => rfl
    | none =>
      simp only [Option.none_or, List.find?_cons, List.find?_nil]
      by_cases hx : x.1 = i
      · subst hx
        simp [List.getD_eq_getElem?_getD, List.getElem?_set_self hi]
      · simp [hx, List.getD_eq_getElem?_getD, List.getElem?_set_ne hx]

theorem find_map_injOn (SYS : String → Nat) (name : String) :
    ∀ (l : List (String × Nat)), (∀ e ∈ l, SYS e.1 = SYS name → e.1 = name) →
    (l.map (fun e => (SYS e.1, e.2))).find? (fun e => e.1 = SYS name) =
      (l.find? (fun e => e.1 = name)).map (fun e => (SYS e.1, e.2)) := by
  intro l
  induction l with
  | nil => intro _; rfl
  | cons x xs ih =>
    intro h
    have ih' := ih (fun e he => h e (List.mem_cons_of_mem _ he))
    rw [List.map_cons, List.find?_cons, List.find?_cons]
    by_cases hx : x.1 = name
    · simp [hx]
    · have hx' : ¬ SYS x.1 = SYS name := fun e => hx (h x (List.mem_cons_self _ _) e)
      simp [hx, hx', ih']

theorem pledge_syscalls_length (SYS : String → Nat) (max : Nat) :
    (pledge_syscalls SYS max).length = max := by
  unfold pledge_syscalls designated
  rw [foldl_set_length, List.length_replicate]

theorem pledge_syscalls_getD (SYS : String → Nat) (max : Nat)
    (hinj : ∀ a ∈ syscall_names, ∀ b ∈ syscall_names, SYS a = SYS b → a = b)
    (hmax : ∀ a ∈ syscall_names, SYS a < max) (name : String) (hname : name ∈ syscall_names) :
    (pledge_syscalls SYS max).getD (SYS name) 0 = syscall_flags name := by
  unfold pledge_syscalls designated syscall_flags
  rw [foldl_set_getD _ _ _ (by rw [List.length_replicate]; exact hmax name hname),
    ← List.map_reverse, find_map_injOn SYS name]
  · cases pledge_syscalls_init.reverse.find? (fun e => e.1 = name) with
    | some e => rfl
    | none =>
      simp only [Option.map_none']
      rw [List.getD_eq_getElem?_getD, List.getElem?_replicate]
      split_ifs <;> rfl
  · intro e he h
    have he' : e.1 ∈ syscall_names :=
      List.mem_map_of_mem _ (List.mem_reverse.mp he)
    exact hinj e.1 he' name hname h

theorem pledge_syscall_entry (tbl : List Nat) (p : proc) (c f : Nat) (hc : c < tbl.length)
    (hf : tbl.getD c 0 = f) :
    (pledge_syscall tbl p (c : Int)).1 =
      if f = PLEDGE_ALWAYS then 0 else if p.p_p.ps_pledge &&& f ≠ 0 then 0 else EPERM := by
  unfold pledge_syscall
  have h1 : ¬ ((c : Int) < 0 ∨ (c : Int) > (tbl.length : Int) - 1) := by omega
  rw [Int.toNat_ofNat, hf]
  simp only [if_neg h1]
  split_ifs <;> rfl

theorem syscall_group_always : ∀ n ∈ ["exit", "kbind", "thrkill", "pledge"],
    n ∈ syscall_names ∧ syscall_flags n = PLEDGE_ALWAYS := by decide

theorem syscall_group_stdio : ∀ n ∈ ["getuid", "getpid", "clock_gettime", "mmap", "read",
      "write", "poll", "close", "fcntl", "ioctl", "kill", "open", "stat", "access",
      "readlink", "sysctl"],
    n ∈ syscall_names ∧ syscall_flags n = PLEDGE_STDIO := by decide

theorem syscall_group_rpath : ∀ n ∈ ["chdir", "getdents", "getfsstat"],
    n ∈ syscall_names ∧ syscall_flags n = PLEDGE_RPATH := by decide

theorem syscall_group_exec : ∀ n ∈ ["execve"],
    n ∈ syscall_names ∧ syscall_flags n = PLEDGE_EXEC := by decide

theorem syscall_group_id : ∀ n ∈ ["setuid", "setgid"],
    n ∈ syscall_names ∧ syscall_flags n = PLEDGE_ID := by decide

theorem syscall_group_chown : ∀ n ∈ ["chown", "lchown", "fchown"],
    n ∈ syscall_names ∧ syscall_flags n = PLEDGE_CHOWN := by decide

theorem syscall_group_vminfo : ∀ n ∈ ["swapctl"],
    n ∈ syscall_names ∧ syscall_flags n = PLEDGE_VMINFO := by decide

theorem syscall_group_net : ∀ n ∈ ["socket", "connect", "bind"],
    n ∈ syscall_names ∧
      syscall_flags n = PLEDGE_INET ||| PLEDGE_UNIX ||| PLEDGE_DNS ||| PLEDGE_YPACTIVE := by
  decide

/-- C35: the syscall policy table.  For every numbering of the syscalls
that gives the names of the table distinct numbers below SYS_MAXSYSCALL, the
array maps exit, kbind, thrkill and pledge to ALWAYS; getuid, getpid,
clock_gettime, mmap, read, write, poll, close, fcntl, ioctl, kill, open,
stat, access, readlink and sysctl to exactly stdio; chdir, getdents and
getfsstat to exactly rpath; execve to exec; setuid and setgid to id; chown,
lchown and fchown to chown; swapctl to vminfo; socket, connect and bind to
inet|unix|dns|YPACTIVE.  Hence with promises exactly stdio, pledge_syscall
returns 0 for the ALWAYS and stdio groups and EPERM for all the others of
this list. -/
theorem pledge_syscalls_policy (SYS : String → Nat) (SYS_MAXSYSCALL : Nat)
    (hinj : ∀ a ∈ syscall_names, ∀ b ∈ syscall_names, SYS a = SYS b → a = b)
    (hmax : ∀ a ∈ syscall_names, SYS a < SYS_MAXSYSCALL) :
    (∀ n ∈ ["exit", "kbind", "thrkill", "pledge"],
      (pledge_syscalls SYS SYS_MAXSYSCALL).getD (SYS n) 0 = PLEDGE_ALWAYS) ∧
    (∀ n ∈ ["getuid", "getpid", "clock_gettime", "mmap", "read", "write", "poll", "close",
        "fcntl", "ioctl", "kill", "open", "stat", "access", "readlink", "sysctl"],
      (pledge_syscalls SYS SYS_MAXSYSCALL).getD (SYS n) 0 = PLEDGE_STDIO) ∧
    (∀ n ∈ ["chdir", "getdents", "getfsstat"],
      (pledge_syscalls SYS SYS_MAXSYSCALL).getD (SYS n) 0 = PLEDGE_RPATH) ∧
    (pledge_syscalls SYS SYS_MAXSYSCALL).getD (SYS "execve") 0 = PLEDGE_EXEC ∧
    (∀ n ∈ ["setuid", "setgid"],
      (pledge_syscalls SYS SYS_MAXSYSCALL).getD (SYS n) 0 = PLEDGE_ID) ∧
    (∀ n ∈ ["chown", "lchown", "fchown"],
      (pledge_syscalls SYS SYS_MAXSYSCALL).getD (SYS n) 0 = PLEDGE_CHOWN) ∧
    (pledge_syscalls SYS SYS_MAXSYSCALL).getD (SYS "swapctl") 0 = PLEDGE_VMINFO ∧
    (∀ n ∈ ["socket", "connect", "bind"],
      (pledge_syscalls SYS SYS_MAXSYSCALL).getD (SYS n) 0 =
        PLEDGE_INET ||| PLEDGE_UNIX ||| PLEDGE_DNS ||| PLEDGE_YPACTIVE) ∧
    (∀ p : proc, p.p_p.ps_pledge = PLEDGE_STDIO →
      (∀ n ∈ ["exit", "kbind", "thrkill", "pledge", "getuid", "getpid", "clock_gettime",
          "mmap", "read", "write", "poll", "close", "fcntl", "ioctl", "kill", "open", "stat",
          "access", "readlink", "sysctl"],
        (pledge_syscall (pledge_syscalls SYS SYS_MAXSYSCALL) p (SYS n)).1 = 0) ∧
      (∀ n ∈ ["chdir", "getdents", "getfsstat", "execve", "setuid", "setgid", "chown",
          "lchown", "fchown", "swapctl", "socket", "connect", "bind"],
        (pledge_syscall (pledge_syscalls SYS SYS_MAXSYSCALL) p (SYS n)).1 = EPERM)) := by
  have hget := pledge_syscalls_getD SYS SYS_MAXSYSCALL hinj hmax
  have hlen := pledge_syscalls_length SYS SYS_MAXSYSCALL
  have g1 : ∀ n ∈ ["exit", "kbind", "thrkill", "pledge"],
      (pledge_syscalls SYS SYS_MAXSYSCALL).getD (SYS n) 0 = PLEDGE_ALWAYS :=
    fun n hn => by rw [hget n (syscall_group_always n hn).1, (syscall_group_always n hn).2]
  have g2 : ∀ n ∈ ["getuid", "getpid", "clock_gettime", "mmap", "read", "write", "poll",
      "close", "fcntl", "ioctl", "kill", "open", "stat", "access", "readlink", "sysctl"],
      (pledge_syscalls SYS SYS_MAXSYSCALL).getD (SYS n) 0 = PLEDGE_STDIO :=
    fun n hn => by rw [hget n (syscall_group_stdio n hn).1, (syscall_group_stdio n hn).2]
  have g3 : ∀ n ∈ ["chdir", "getdents", "getfsstat"],
      (pledge_syscalls SYS SYS_MAXSYSCALL).getD (SYS n) 0 = PLEDGE_RPATH :=
    fun n hn => by rw [hget n (syscall_group_rpath n hn).1, (syscall_group_rpath n hn).2]
  have g4 : ∀ n ∈ ["execve"],
      (pledge_syscalls SYS SYS_MAXSYSCALL).getD (SYS n) 0 = PLEDGE_EXEC :=
    fun n hn => by rw [hget n (syscall_group_exec n hn).1, (syscall_group_exec n hn).2]
  have g5 : ∀ n ∈ ["setuid", "setgid"],
      (pledge_syscalls SYS SYS_MAXSYSCALL).getD (SYS n) 0 = PLEDGE_ID :=
    fun n hn => by rw [hget n (syscall_group_id n hn).1, (syscall_group_id n hn).2]
  have g6 : ∀ n ∈ ["chown", "lchown", "fchown"],
      (pledge_syscalls SYS SYS_MAXSYSCALL).getD (SYS n) 0 = PLEDGE_CHOWN :=
    fun n hn => by rw [hget n (syscall_group_chown n hn).1, (syscall_group_chown n hn).2]
  have g7 : ∀ n ∈ ["swapctl"],
      (pledge_syscalls SYS SYS_MAXSYSCALL).getD (SYS n) 0 = PLEDGE_VMINFO :=
    fun n hn => by rw [hget n (syscall_group_vminfo n hn).1, (syscall_group_vminfo n hn).2]
  have g8 : ∀ n ∈ ["socket", "connect", "bind"],
      (pledge_syscalls SYS SYS_MAXSYSCALL).getD (SYS n) 0 =
        PLEDGE_INET ||| PLEDGE_UNIX ||| PLEDGE_DNS ||| PLEDGE_YPACTIVE :=
    fun n hn => by rw [hget n (syscall_group_net n hn).1, (syscall_group_net n hn).2]
  refine ⟨g1, g2, g3, g4 _ (by decide), g5, g6, g7 _ (by decide), g8, ?_⟩
  intro p hp
  have hin : ∀ n ∈ syscall_names, SYS n < (pledge_syscalls SYS SYS_MAXSYSCALL).length :=
    fun n hn => by rw [hlen]; exact hmax n hn
  constructor
  · intro n hn
    rw [show ["exit", "kbind", "thrkill", "pledge", "getuid", "getpid", "clock_gettime",
        "mmap", "read", "write", "poll", "close", "fcntl", "ioctl", "kill", "open", "stat",
        "access", "readlink", "sysctl"] = ["exit", "kbind", "thrkill", "pledge"] ++
        ["getuid", "getpid", "clock_gettime", "mmap", "read", "write", "poll", "close",
        "fcntl", "ioctl", "kill", "open", "stat", "access", "readlink", "sysctl"] from rfl,
      List.mem_append] at hn
    rcases hn with hn | hn
    · rw [pledge_syscall_entry _ p (SYS n) _ (hin n (syscall_group_always n hn).1) (g1 n hn),
        if_pos rfl]
    · rw [pledge_syscall_entry _ p (SYS n) _ (hin n (syscall_group_stdio n hn).1) (g2 n hn),
        hp]
      decide
  · intro n hn
    rw [show ["chdir", "getdents", "getfsstat", "execve", "setuid", "setgid", "chown",
        "lchown", "fchown", "swapctl", "socket", "connect", "bind"] =
        ["chdir", "getdents", "getfsstat"] ++ (["execve"] ++ (["setuid", "setgid"] ++
        (["chown", "lchown", "fchown"] ++ (["swapctl"] ++ ["socket", "connect", "bind"]))))
        from rfl] at hn
    simp only [List.mem_append] at hn
    rcases hn with hn | hn | hn | hn | hn | hn
    · rw [pledge_syscall_entry _ p (SYS n) _ (hin n (syscall_group_rpath n hn).1) (g3 n hn),
        hp]
      decide
    · rw [pledge_syscall_entry _ p (SYS n) _ (hin n (syscall_group_exec n hn).1) (g4 n hn),
        hp]
      decide
    · rw [pledge_syscall_entry _ p (SYS n) _ (hin n (syscall_group_id n hn).1) (g5 n hn),
        hp]
      decide
    · rw [pledge_syscall_entry _ p (SYS n) _ (hin n (syscall_group_chown n hn).1) (g6 n hn),
        hp]
      decide
    · rw [pledge_syscall_entry _ p (SYS n) _ (hin n (syscall_group_vminfo n hn).1) (g7 n hn),
        hp]
      decide
    · rw [pledge_syscall_entry _ p (SYS n) _ (hin n (syscall_group_net n hn).1) (g8 n hn),
        hp]
      decide

/-- Witness for C35: numbering the syscalls by their position in the table
(170 names), a process holding exactly stdio may call read and is denied
chdir with EPERM. -/
theorem pledge_syscalls_policy_witness :
    (pledge_syscall (pledge_syscalls (fun n => syscall_names.indexOf n) 170)
      ⟨⟨true, false, PLEDGE_STDIO⟩, 0, []⟩ (syscall_names.indexOf "read" : Nat)).1 = 0 ∧
    (pledge_syscall (pledge_syscalls (fun n => syscall_names.indexOf n) 170)
      ⟨⟨true, false, PLEDGE_STDIO⟩, 0, []⟩ (syscall_names.indexOf "chdir" : Nat)).1 = EPERM :=
  ⟨((pledge_syscalls_policy (fun n => syscall_names.indexOf n) 170
      (fun _ ha _ hb h => (List.indexOf_inj ha hb).mp h)
      (fun _ ha => List.indexOf_lt_length.mpr ha)).2.2.2.2.2.2.2.2
      ⟨⟨true, false, PLEDGE_STDIO⟩, 0, []⟩ rfl).1 "read" (by decide),
    ((pledge_syscalls_policy (fun n => syscall_names.indexOf n) 170
      (fun _ ha _ hb h => (List.indexOf_inj ha hb).mp h)
      (fun _ ha => List.indexOf_lt_length.mpr ha)).2.2.2.2.2.2.2.2
      ⟨⟨true, false, PLEDGE_STDIO⟩, 0, []⟩ rfl).2 "chdir" (by decide)⟩

theorem strcmp_cstr : ∀ (s t : List Char), strcmp (cstr s) t = strcmp s t := by
  intro s
  induction s with
  | nil => intro t; rfl
  | cons c s ih =>
    intro t
    by_cases hc : c = NUL
    · subst hc
      have e : cstr (NUL :: s) = [] := by simp [cstr]
      rw [e]
      simp only [strcmp]
      by_cases ht : NUL = peek t 0
      · rw [if_pos ht, ← ht]; simp
      · rw [if_neg ht]
    · have e : cstr (c :: s) = c :: cstr s := by
        simp [cstr, List.takeWhile_cons, hc]
      rw [e]
      simp only [strcmp]
      rw [ih]

theorem pledgereq_search_cstr (s : List Char) : ∀ (n base lim : Nat),
    pledgereq_search (cstr s) n base lim = pledgereq_search s n base lim := by
  intro n
  induction n with
  | zero => intro _ _; rfl
  | succ n ih =>
    intro base lim
    simp only [pledgereq_search, strcmp_cstr, ih]

theorem linear_scan_entry : ∀ e ∈ pledgereq, linear_scan e.1 = e.2 := by decide

theorem pledgereq_sorted :
    pledgereq.Pairwise (fun a b => strcmp a.1 b.1 < 0) := by decide

theorem strcmp_zero_cstr (s t : List Char) (ht : NUL ∉ t) (h : strcmp s t = 0) :
    cstr s = t := by
  rw [← strcmp_cstr] at h
  exact strcmp_eq_zero (cstr s) t (cstr_nul_free s) ht h

theorem pledgereq_flags_linear (s : List Char) : pledgereq_flags s = linear_scan s := by
  by_cases h : ∃ e ∈ pledgereq, strcmp s e.1 = 0
  · obtain ⟨e, he, hs⟩ := h
    have hc := strcmp_zero_cstr s e.1 (pledgereq_names_nul_free e he) hs
    have e1 : pledgereq_flags s = pledgereq_flags e.1 := by
      unfold pledgereq_flags
      rw [← pledgereq_search_cstr s, hc]
    have e2 : linear_scan s = linear_scan e.1 := by
      unfold linear_scan
      have : (fun x : List Char × Nat => decide (strcmp s x.1 = 0)) =
          (fun x : List Char × Nat => decide (strcmp e.1 x.1 = 0)) := by
        funext x
        rw [← strcmp_cstr s, hc]
      rw [this]
    rw [e1, e2, (pledgereq_flags_entry e he).1, linear_scan_entry e he]
  · have e1 : pledgereq_flags s = 0 := by
      by_contra hne
      obtain ⟨e, he, hs, _⟩ := pledgereq_search_sound s _ _ _ hne
      exact h ⟨e, he, hs⟩
    have e2 : linear_scan s = 0 := by
      unfold linear_scan
      have : pledgereq.find? (fun e => strcmp s e.1 = 0) = none := by
        rw [List.find?_eq_none]
        intro x hx hd
        exact h ⟨x, hx, by simpa using hd⟩
      rw [this]
    rw [e1, e2]

/-- C36: binary search correctness.  The table pledgereq is strictly
increasing in strcmp order of its names and every entry has non-zero flags;
for every string s, pledgereq_flags(s) (a total function: the search ends
within any iteration bound of at least the table size) equals the linear scan
of the table: the flags of the entry whose name is the C string s when there
is one, and 0 otherwise; so it returns 0 exactly for the strings that name no
entry. -/
theorem pledgereq_flags_correct :
    pledgereq.Pairwise (fun a b => strcmp a.1 b.1 < 0) ∧
    (∀ e ∈ pledgereq, e.2 ≠ 0) ∧
    (∀ s : List Char, pledgereq_flags s = linear_scan s) ∧
    (∀ (s : List Char) (n : Nat), pledgereq.length ≤ n →
      pledgereq_search s n 0 pledgereq.length = pledgereq_flags s) ∧
    (∀ s : List Char, ∀ e ∈ pledgereq, cstr s = e.1 → pledgereq_flags s = e.2) ∧
    (∀ s : List Char, pledgereq_flags s = 0 ↔ ∀ e ∈ pledgereq, cstr s ≠ e.1) := by
  refine ⟨pledgereq_sorted, fun e he => (pledgereq_flags_entry e he).2,
    pledgereq_flags_linear, ?_, ?_, ?_⟩
  · intro s n hn
    exact pledgereq_search_fuel s n pledgereq.length 0 pledgereq.length hn (le_refl _)
  · intro s e he hc
    unfold pledgereq_flags
    rw [← pledgereq_search_cstr s, hc]
    exact (pledgereq_flags_entry e he).1
  · intro s
    constructor
    · intro h0 e he hc
      have : pledgereq_flags s = e.2 := by
        unfold pledgereq_flags
        rw [← pledgereq_search_cstr s, hc]
        exact (pledgereq_flags_entry e he).1
      rw [h0] at this
      exact (pledgereq_flags_entry e he).2 this.symm
    · intro hno
      by_contra hne
      obtain ⟨e, he, hs, _⟩ := pledgereq_search_sound s _ _ _ hne
      exact hno e he (strcmp_zero_cstr s e.1 (pledgereq_names_nul_free e he) hs)

theorem sys_pledge_locked_out (s : proc) (hs : locked_out s) (request : Option (List Char))
    (paths : Option (List (List Char))) :
    locked_out (sys_pledge s request paths).2 ∧
    ((sys_pledge s request paths).1 = 0 → ∀ r, request = some r → pledge_parse r = .ok 0) := by
  cases request with
  | none =>
    constructor
    · unfold sys_pledge
      simp only []
      split_ifs <;> exact hs
    · intro _ r hr
      cases hr
  | some r =>
    cases hparse : pledge_parse r with
    | error e =>
      have hreq : pledge_request s r = .error e := by
        unfold pledge_request; rw [hparse]
      have e1 : sys_pledge s (some r) paths = (e, s) := by
        unfold sys_pledge; simp only [hreq]
      rw [e1]
      refine ⟨hs, fun h0 => ?_⟩
      exact absurd h0 (pledge_request_error_ne_zero s r e hreq)
    | ok F =>
      by_cases hF : F = 0
      · subst hF
        have hreq : pledge_request s r = .ok 0 := by
          unfold pledge_request
          rw [hparse]
          simp only []
          rw [if_neg (by rw [hs.2]; simp)]
        constructor
        · unfold sys_pledge
          simp only [hreq]
          split_ifs
          · exact hs
          · exact ⟨rfl, rfl⟩
        · intro _ r' hr'
          injection hr' with hr'
          rw [← hr']
          exact hparse
      · have hreq : pledge_request s r = .error EPERM := by
          unfold pledge_request
          rw [hparse]
          simp only []
          rw [if_pos ⟨hs.1, by rw [hs.2, Nat.or_zero]; exact hF⟩]
        have e1 : sys_pledge s (some r) paths = (EPERM, s) := by
          unfold sys_pledge; simp only [hreq]
        rw [e1]
        exact ⟨hs, fun h0 => absurd (show EPERM = (0 : Int) from h0) (by decide)⟩

theorem sys_pledge_calls_locked_out :
    ∀ (calls : List (Option (List Char) × Option (List (List Char)))) (s : proc),
    locked_out s → locked_out (calls.foldl (fun s c => (sys_pledge s c.1 c.2).2) s) := by
  intro calls
  induction calls with
  | nil => intro s hs; exact hs
  | cons c calls ih =>
    intro s hs
    rw [List.foldl_cons]
    exact ih _ (sys_pledge_locked_out s hs c.1 c.2).1

/-- C38: lock-out after a violation.  pledge_fail on a pledged process
leaves the pledged flag set and the promises 0.  In every such state,
pledge_syscall denies with EPERM every valid syscall whose table entry is not
ALWAYS (and stays in such a state), sys_pledge returns 0 only for a null
request or a request that parses to the empty set, and after any sequence of
pledge calls the promises are still 0: no user-settable promise comes back. -/
theorem lockout_after_violation (p : proc) (error : Int) (code : Nat)
    (hp : p.p_p.PS_PLEDGE = true) :
    locked_out (pledge_fail p error code).2 ∧
    (∀ s, locked_out s →
      (∀ (tbl : List Nat) (c : Int), 0 ≤ c → c < (tbl.length : Int) →
        tbl.getD c.toNat 0 ≠ PLEDGE_ALWAYS →
        (pledge_syscall tbl s c).1 = EPERM ∧ locked_out (pledge_syscall tbl s c).2.2) ∧
      (∀ request paths, locked_out (sys_pledge s request paths).2 ∧
        ((sys_pledge s request paths).1 = 0 →
          ∀ r, request = some r → pledge_parse r = .ok 0)) ∧
      (∀ calls : List (Option (List Char) × Option (List (List Char))),
        locked_out (calls.foldl (fun s c => (sys_pledge s c.1 c.2).2) s))) := by
  refine ⟨⟨hp, rfl⟩, fun s hs => ⟨?_, ?_, ?_⟩⟩
  · intro tbl c h0 h1 hne
    unfold pledge_syscall
    have g1 : ¬ (c < 0 ∨ c > (tbl.length : Int) - 1) := by omega
    have g2 : ¬ (s.p_p.ps_pledge &&& tbl.getD c.toNat 0 ≠ 0) := by
      rw [hs.2, Nat.zero_and]; simp
    simp only [if_neg g1, if_neg hne, if_neg g2]
    exact ⟨trivial, hs⟩
  · intro request paths
    exact sys_pledge_locked_out s hs request paths
  · intro calls
    exact sys_pledge_calls_locked_out calls s hs

/-- Witness for C38: a process pledged to stdio|rpath violates on an open;
afterwards the table entry stdio is denied, "stdio" is refused with EPERM and
"" is accepted with the promises still 0. -/
theorem lockout_after_violation_witness :
    (pledge_fail ⟨⟨true, false, PLEDGE_STDIO ||| PLEDGE_RPATH⟩, SYS_open, []⟩ EPERM
      PLEDGE_WPATH).2 = ⟨⟨true, false, 0⟩, SYS_open, [⟨EPERM, PLEDGE_WPATH, SYS_open⟩]⟩ ∧
    (pledge_syscall [PLEDGE_ALWAYS, PLEDGE_STDIO]
      ⟨⟨true, false, 0⟩, SYS_open, [⟨EPERM, PLEDGE_WPATH, SYS_open⟩]⟩ 1).1 = EPERM ∧
    sys_pledge ⟨⟨true, false, 0⟩, SYS_open, [⟨EPERM, PLEDGE_WPATH, SYS_open⟩]⟩
      (some "stdio".toList) none =
      (EPERM, ⟨⟨true, false, 0⟩, SYS_open, [⟨EPERM, PLEDGE_WPATH, SYS_open⟩]⟩) ∧
    locked_out ([(some "stdio".toList, none), (some "".toList, none)].foldl
      (fun s c => (sys_pledge s c.1 c.2).2)
      ⟨⟨true, false, 0⟩, SYS_open, [⟨EPERM, PLEDGE_WPATH, SYS_open⟩]⟩) :=
  ⟨by decide,
    (((lockout_after_violation ⟨⟨true, false, PLEDGE_STDIO ||| PLEDGE_RPATH⟩, SYS_open, []⟩
      EPERM PLEDGE_WPATH rfl).2
      ⟨⟨true, false, 0⟩, SYS_open, [⟨EPERM, PLEDGE_WPATH, SYS_open⟩]⟩ (by decide)).1
      [PLEDGE_ALWAYS, PLEDGE_STDIO] 1 (by decide) (by decide) (by decide)).1,
    by decide,
    ((lockout_after_violation ⟨⟨true, false, PLEDGE_STDIO ||| PLEDGE_RPATH⟩, SYS_open, []⟩
      EPERM PLEDGE_WPATH rfl).2
      ⟨⟨true, false, 0⟩, SYS_open, [⟨EPERM, PLEDGE_WPATH, SYS_open⟩]⟩ (by decide)).2.2
      [(some "stdio".toList, none), (some "".toList, none)]⟩

theorem namei_switch_none_mono (p q : proc) (ni : nameidata) (path : List Char)
    (hsys : q.p_pledge_syscall = p.p_pledge_syscall)
    (hmono : ∀ m, p.p_p.ps_pledge &&& m ≠ 0 → q.p_p.ps_pledge &&& m ≠ 0)
    (h : namei_switch q ni path = none) : namei_switch p ni path = none := by
  unfold namei_switch at h ⊢
  rw [hsys] at h
  generalize strcmp path "/var/run/ypbind.lock".toList = s_yp at h ⊢
  generalize strcmp path "/etc/localtime".toList = s1 at h ⊢
  generalize strcmp path "/dev/null".toList = s2 at h ⊢
  generalize strcmp path "/dev/tty".toList = s3 at h ⊢
  generalize strcmp path "/etc/spwd.db".toList = s4 at h ⊢
  generalize strcmp path "/etc/pwd.db".toList = s5 at h ⊢
  generalize strcmp path "/etc/group".toList = s6 at h ⊢
  generalize strcmp path "/etc/netid".toList = s7 at h ⊢
  generalize strcmp path "/etc/resolv.conf".toList = s8 at h ⊢
  generalize strcmp path "/etc/hosts".toList = s9 at h ⊢
  generalize strcmp path "/etc/services".toList = s10 at h ⊢
  generalize strcmp path "/etc/malloc.conf".toList = s11 at h ⊢
  generalize strncmp path "/var/yp/binding/".toList "/var/yp/binding/".toList.length = s12
    at h ⊢
  generalize strncmp path "/usr/share/zoneinfo/".toList
    "/usr/share/zoneinfo/".toList.length = s13 at h ⊢
  by_cases c1 : p.p_pledge_syscall = SYS_access
  · rw [if_pos c1] at h ⊢
    by_cases a1 : ni.ni_pledge = PLEDGE_RPATH ∧ s1 = 0
    · rw [if_pos a1] at h; cases h
    rw [if_neg a1] at h ⊢
    by_cases a2 : ni.ni_pledge = PLEDGE_RPATH ∧ s_yp = 0
    · rw [if_pos a2] at h
      by_cases a3 : q.p_p.ps_pledge &&& PLEDGE_GETPW ≠ 0
      · rw [if_pos a3] at h; cases h
      · rw [if_neg a3] at h; cases h
    rw [if_neg a2] at h ⊢
  rw [if_neg c1] at h ⊢
  by_cases c2 : p.p_pledge_syscall = SYS_open
  · rw [if_pos c2] at h ⊢
    by_cases o0 : ni.ni_pledge &&& not64 (PLEDGE_RPATH ||| PLEDGE_WPATH) = 0 ∧ s2 = 0
    · rw [if_pos o0] at h; cases h
    rw [if_neg o0] at h
    rw [if_neg (show ¬ (ni.ni_pledge &&& not64 (PLEDGE_RPATH ||| PLEDGE_WPATH) = 0 ∧ s2 = 0) from
      o0)]
    by_cases o1 : q.p_p.ps_pledge &&& PLEDGE_TTY ≠ 0 ∧
        ni.ni_pledge &&& not64 (PLEDGE_RPATH ||| PLEDGE_WPATH) = 0 ∧ s3 = 0
    · rw [if_pos o1] at h; cases h
    rw [if_neg o1] at h
    rw [if_neg (show ¬ (p.p_p.ps_pledge &&& PLEDGE_TTY ≠ 0 ∧
        ni.ni_pledge &&& not64 (PLEDGE_RPATH ||| PLEDGE_WPATH) = 0 ∧ s3 = 0) from
      fun x => o1 ⟨hmono _ x.1, x.2⟩)]
    by_cases o2 : ni.ni_pledge = PLEDGE_RPATH ∧ q.p_p.ps_pledge &&& PLEDGE_GETPW ≠ 0 ∧ s4 = 0
    · rw [if_pos o2] at h; cases h
    rw [if_neg o2] at h
    rw [if_neg (show ¬ (ni.ni_pledge = PLEDGE_RPATH ∧ p.p_p.ps_pledge &&& PLEDGE_GETPW ≠ 0 ∧ s4 = 0) from
      fun x => o2 ⟨x.1, hmono _ x.2.1, x.2.2⟩)]
    by_cases o3 : ni.ni_pledge = PLEDGE_RPATH ∧ q.p_p.ps_pledge &&& PLEDGE_GETPW ≠ 0 ∧ s5 = 0
    · rw [if_pos o3] at h; cases h
    rw [if_neg o3] at h
    rw [if_neg (show ¬ (ni.ni_pledge = PLEDGE_RPATH ∧ p.p_p.ps_pledge &&& PLEDGE_GETPW ≠ 0 ∧ s5 = 0) from
      fun x => o3 ⟨x.1, hmono _ x.2.1, x.2.2⟩)]
    by_cases o4 : ni.ni_pledge = PLEDGE_RPATH ∧ q.p_p.ps_pledge &&& PLEDGE_GETPW ≠ 0 ∧ s6 = 0
    · rw [if_pos o4] at h; cases h
    rw [if_neg o4] at h
    rw [if_neg (show ¬ (ni.ni_pledge = PLEDGE_RPATH ∧ p.p_p.ps_pledge &&& PLEDGE_GETPW ≠ 0 ∧ s6 = 0) from
      fun x => o4 ⟨x.1, hmono _ x.2.1, x.2.2⟩)]
    by_cases o5 : ni.ni_pledge = PLEDGE_RPATH ∧ q.p_p.ps_pledge &&& PLEDGE_GETPW ≠ 0 ∧ s7 = 0
    · rw [if_pos o5] at h; cases h
    rw [if_neg o5] at h
    rw [if_neg (show ¬ (ni.ni_pledge = PLEDGE_RPATH ∧ p.p_p.ps_pledge &&& PLEDGE_GETPW ≠ 0 ∧ s7 = 0) from
      fun x => o5 ⟨x.1, hmono _ x.2.1, x.2.2⟩)]
    by_cases o6 : ni.ni_pledge = PLEDGE_RPATH ∧ q.p_p.ps_pledge &&& PLEDGE_DNS ≠ 0 ∧ s8 = 0
    · rw [if_pos o6] at h; cases h
    rw [if_neg o6] at h
    rw [if_neg (show ¬ (ni.ni_pledge = PLEDGE_RPATH ∧ p.p_p.ps_pledge &&& PLEDGE_DNS ≠ 0 ∧ s8 = 0) from
      fun x => o6 ⟨x.1, hmono _ x.2.1, x.2.2⟩)]
    by_cases o7 : ni.ni_pledge = PLEDGE_RPATH ∧ q.p_p.ps_pledge &&& PLEDGE_DNS ≠ 0 ∧ s9 = 0
    · rw [if_pos o7] at h; cases h
    rw [if_neg o7] at h
    rw [if_neg (show ¬ (ni.ni_pledge = PLEDGE_RPATH ∧ p.p_p.ps_pledge &&& PLEDGE_DNS ≠ 0 ∧ s9 = 0) from
      fun x => o7 ⟨x.1, hmono _ x.2.1, x.2.2⟩)]
    by_cases o8 : ni.ni_pledge = PLEDGE_RPATH ∧ q.p_p.ps_pledge &&& PLEDGE_DNS ≠ 0 ∧ s10 = 0
    · rw [if_pos o8] at h; cases h
    rw [if_neg o8] at h
    rw [if_neg (show ¬ (ni.ni_pledge = PLEDGE_RPATH ∧ p.p_p.ps_pledge &&& PLEDGE_DNS ≠ 0 ∧ s10 = 0) from
      fun x => o8 ⟨x.1, hmono _ x.2.1, x.2.2⟩)]
    by_cases o9 : ni.ni_pledge = PLEDGE_RPATH ∧ q.p_p.ps_pledge &&& PLEDGE_GETPW ≠ 0 ∧ s_yp = 0
    · rw [if_pos o9] at h; cases h
    rw [if_neg o9] at h
    rw [if_neg (show ¬ (ni.ni_pledge = PLEDGE_RPATH ∧ p.p_p.ps_pledge &&& PLEDGE_GETPW ≠ 0 ∧ s_yp = 0) from
      fun x => o9 ⟨x.1, hmono _ x.2.1, x.2.2⟩)]
    by_cases o10 : ni.ni_pledge = PLEDGE_RPATH ∧ q.p_p.ps_pledge &&& PLEDGE_GETPW ≠ 0 ∧ s12 = 0
    · rw [if_pos o10] at h; cases h
    rw [if_neg o10] at h
    rw [if_neg (show ¬ (ni.ni_pledge = PLEDGE_RPATH ∧ p.p_p.ps_pledge &&& PLEDGE_GETPW ≠ 0 ∧ s12 = 0) from
      fun x => o10 ⟨x.1, hmono _ x.2.1, x.2.2⟩)]
    by_cases o11 : ni.ni_pledge = PLEDGE_RPATH ∧ s13 = 0
    · rw [if_pos o11] at h; cases h
    rw [if_neg o11] at h
    rw [if_neg (show ¬ (ni.ni_pledge = PLEDGE_RPATH ∧ s13 = 0) from
      o11)]
    by_cases o12 : ni.ni_pledge = PLEDGE_RPATH ∧ s1 = 0
    · rw [if_pos o12] at h; cases h
    rw [if_neg o12] at h
    rw [if_neg (show ¬ (ni.ni_pledge = PLEDGE_RPATH ∧ s1 = 0) from
      o12)]
  rw [if_neg c2] at h ⊢
  by_cases c3 : p.p_pledge_syscall = SYS_readlink
  · rw [if_pos c3] at h ⊢
    by_cases r1 : ni.ni_pledge = PLEDGE_RPATH ∧ s11 = 0
    · rw [if_pos r1] at h; cases h
    rw [if_neg r1]
  rw [if_neg c3] at h ⊢
  by_cases c4 : p.p_pledge_syscall = SYS_stat
  · rw [if_pos c4] at h ⊢
    by_cases t1 : ni.ni_pledge = PLEDGE_RPATH ∧ q.p_p.ps_pledge &&& PLEDGE_DNS ≠ 0 ∧ s8 = 0
    · rw [if_pos t1] at h; cases h
    rw [if_neg (show ¬ (ni.ni_pledge = PLEDGE_RPATH ∧ p.p_p.ps_pledge &&& PLEDGE_DNS ≠ 0 ∧
      s8 = 0) from fun x => t1 ⟨x.1, hmono _ x.2.1, x.2.2⟩)]
  rw [if_neg c4]

theorem namei_switch_result (p : proc) (ni : nameidata) (path : List Char) (r : Int)
    (p' : proc) (h : namei_switch p ni path = some (r, p')) :
    r = 0 ∨ (r = EPERM ∧ p' = p ∧ p.p_pledge_syscall = SYS_open ∧
      ni.ni_pledge = PLEDGE_RPATH ∧ p.p_p.ps_pledge &&& PLEDGE_GETPW ≠ 0 ∧
      strcmp path "/etc/spwd.db".toList = 0) := by
  unfold namei_switch at h
  generalize hsp : strcmp path "/etc/spwd.db".toList = s4 at h ⊢
  generalize strcmp path "/var/run/ypbind.lock".toList = s_yp at h
  generalize strcmp path "/etc/localtime".toList = s1 at h
  generalize strcmp path "/dev/null".toList = s2 at h
  generalize strcmp path "/dev/tty".toList = s3 at h
  generalize strcmp path "/etc/pwd.db".toList = s5 at h
  generalize strcmp path "/etc/group".toList = s6 at h
  generalize strcmp path "/etc/netid".toList = s7 at h
  generalize strcmp path "/etc/resolv.conf".toList = s8 at h
  generalize strcmp path "/etc/hosts".toList = s9 at h
  generalize strcmp path "/etc/services".toList = s10 at h
  generalize strcmp path "/etc/malloc.conf".toList = s11 at h
  generalize strncmp path "/var/yp/binding/".toList "/var/yp/binding/".toList.length = s12
    at h
  generalize strncmp path "/usr/share/zoneinfo/".toList
    "/usr/share/zoneinfo/".toList.length = s13 at h
  by_cases c1 : p.p_pledge_syscall = SYS_access
  · rw [if_pos c1] at h
    by_cases a1 : ni.ni_pledge = PLEDGE_RPATH ∧ s1 = 0
    · rw [if_pos a1] at h; injection h with h; injection h with h1 h2; left; exact h1.symm
    rw [if_neg a1] at h
    by_cases a2 : ni.ni_pledge = PLEDGE_RPATH ∧ s_yp = 0
    · rw [if_pos a2] at h
      by_cases a3 : p.p_p.ps_pledge &&& PLEDGE_GETPW ≠ 0
      · rw [if_pos a3] at h; injection h with h; injection h with h1 h2; left; exact h1.symm
      · rw [if_neg a3] at h; injection h with h; injection h with h1 h2; left; exact h1.symm
    rw [if_neg a2] at h; cases h
  rw [if_neg c1] at h
  by_cases c2 : p.p_pledge_syscall = SYS_open
  · rw [if_pos c2] at h
    by_cases o0 : ni.ni_pledge &&& not64 (PLEDGE_RPATH ||| PLEDGE_WPATH) = 0 ∧ s2 = 0
    · rw [if_pos o0] at h; injection h with h; injection h with h1 h2; left; exact h1.symm
    rw [if_neg o0] at h
    by_cases o1 : p.p_p.ps_pledge &&& PLEDGE_TTY ≠ 0 ∧
        ni.ni_pledge &&& not64 (PLEDGE_RPATH ||| PLEDGE_WPATH) = 0 ∧ s3 = 0
    · rw [if_pos o1] at h; injection h with h; injection h with h1 h2; left; exact h1.symm
    rw [if_neg o1] at h
    by_cases o2 : ni.ni_pledge = PLEDGE_RPATH ∧ p.p_p.ps_pledge &&& PLEDGE_GETPW ≠ 0 ∧ s4 = 0
    · rw [if_pos o2] at h; injection h with h; injection h with h1 h2
      right; exact ⟨h1.symm, h2.symm, c2, o2.1, o2.2.1, o2.2.2⟩
    rw [if_neg o2] at h
    by_cases o3 : ni.ni_pledge = PLEDGE_RPATH ∧ p.p_p.ps_pledge &&& PLEDGE_GETPW ≠ 0 ∧ s5 = 0
    · rw [if_pos o3] at h; injection h with h; injection h with h1 h2; left; exact h1.symm
    rw [if_neg o3] at h
    by_cases o4 : ni.ni_pledge = PLEDGE_RPATH ∧ p.p_p.ps_pledge &&& PLEDGE_GETPW ≠ 0 ∧ s6 = 0
    · rw [if_pos o4] at h; injection h with h; injection h with h1 h2; left; exact h1.symm
    rw [if_neg o4] at h
    by_cases o5 : ni.ni_pledge = PLEDGE_RPATH ∧ p.p_p.ps_pledge &&& PLEDGE_GETPW ≠ 0 ∧ s7 = 0
    · rw [if_pos o5] at h; injection h with h; injection h with h1 h2; left; exact h1.symm
    rw [if_neg o5] at h
    by_cases o6 : ni.ni_pledge = PLEDGE_RPATH ∧ p.p_p.ps_pledge &&& PLEDGE_DNS ≠ 0 ∧ s8 = 0
    · rw [if_pos o6] at h; injection h with h; injection h with h1 h2; left; exact h1.symm
    rw [if_neg o6] at h
    by_cases o7 : ni.ni_pledge = PLEDGE_RPATH ∧ p.p_p.ps_pledge &&& PLEDGE_DNS ≠ 0 ∧ s9 = 0
    · rw [if_pos o7] at h; injection h with h; injection h with h1 h2; left; exact h1.symm
    rw [if_neg o7] at h
    by_cases o8 : ni.ni_pledge = PLEDGE_RPATH ∧ p.p_p.ps_pledge &&& PLEDGE_DNS ≠ 0 ∧ s10 = 0
    · rw [if_pos o8] at h; injection h with h; injection h with h1 h2; left; exact h1.symm
    rw [if_neg o8] at h
    by_cases o9 : ni.ni_pledge = PLEDGE_RPATH ∧ p.p_p.ps_pledge &&& PLEDGE_GETPW ≠ 0 ∧ s_yp = 0
    · rw [if_pos o9] at h; injection h with h; injection h with h1 h2; left; exact h1.symm
    rw [if_neg o9] at h
    by_cases o10 : ni.ni_pledge = PLEDGE_RPATH ∧ p.p_p.ps_pledge &&& PLEDGE_GETPW ≠ 0 ∧ s12 = 0
    · rw [if_pos o10] at h; injection h with h; injection h with h1 h2; left; exact h1.symm
    rw [if_neg o10] at h
    by_cases o11 : ni.ni_pledge = PLEDGE_RPATH ∧ s13 = 0
    · rw [if_pos o11] at h; injection h with h; injection h with h1 h2; left; exact h1.symm
    rw [if_neg o11] at h
    by_cases o12 : ni.ni_pledge = PLEDGE_RPATH ∧ s1 = 0
    · rw [if_pos o12] at h; injection h with h; injection h with h1 h2; left; exact h1.symm
    rw [if_neg o12] at h
    cases h
  rw [if_neg c2] at h
  by_cases c3 : p.p_pledge_syscall = SYS_readlink
  · rw [if_pos c3] at h
    by_cases r1 : ni.ni_pledge = PLEDGE_RPATH ∧ s11 = 0
    · rw [if_pos r1] at h; injection h with h; injection h with h1 h2; left; exact h1.symm
    rw [if_neg r1] at h; cases h
  rw [if_neg c3] at h
  by_cases c4 : p.p_pledge_syscall = SYS_stat
  · rw [if_pos c4] at h
    by_cases t1 : ni.ni_pledge = PLEDGE_RPATH ∧ p.p_p.ps_pledge &&& PLEDGE_DNS ≠ 0 ∧ s8 = 0
    · rw [if_pos t1] at h; injection h with h; injection h with h1 h2; left; exact h1.symm
    rw [if_neg t1] at h; cases h
  rw [if_neg c4] at h; cases h
theorem and_ne_zero_mono (P Q m : Nat) (hsub : ∀ i, P.testBit i = true → Q.testBit i = true)
    (h : P &&& m ≠ 0) : Q &&& m ≠ 0 := by
  intro e
  apply h
  apply Nat.eq_of_testBit_eq
  intro i
  have hz : (Q &&& m).testBit i = false := by rw [e]; exact Nat.zero_testBit i
  rw [Nat.testBit_and] at hz
  rw [Nat.zero_testBit, Nat.testBit_and]
  cases hP : P.testBit i with
  | false => simp
  | true =>
    rw [hsub i hP] at hz
    simpa using hz

/-- C37 (as written): open of /etc/spwd.db requiring rpath is admitted with
promises stdio|rpath (the final check passes) and denied with EPERM once
getpw is added, although stdio|rpath is a subset of stdio|rpath|getpw. -/
theorem pledge_namei_not_monotone_counterexample :
    pledge_namei ⟨⟨true, false, PLEDGE_STDIO ||| PLEDGE_RPATH⟩, SYS_open, []⟩
        (some ⟨PLEDGE_RPATH⟩) "/etc/spwd.db".toList =
      some (0, ⟨⟨true, false, PLEDGE_STDIO ||| PLEDGE_RPATH⟩, SYS_open, []⟩) ∧
    pledge_namei ⟨⟨true, false, PLEDGE_STDIO ||| PLEDGE_RPATH ||| PLEDGE_GETPW⟩, SYS_open, []⟩
        (some ⟨PLEDGE_RPATH⟩) "/etc/spwd.db".toList =
      some (EPERM, ⟨⟨true, false, PLEDGE_STDIO ||| PLEDGE_RPATH ||| PLEDGE_GETPW⟩,
        SYS_open, []⟩) ∧
    ( PLEDGE_STDIO ||| PLEDGE_RPATH) &&& ( PLEDGE_STDIO ||| PLEDGE_RPATH ||| PLEDGE_GETPW) =
      PLEDGE_STDIO ||| PLEDGE_RPATH := by
  decide

/-- C37 (amended): the path gate is monotone in the promises except for the
silent denial of /etc/spwd.db.  Let p and q be two states of a pledged
process that agree on the flags and on the current syscall, the promises of p
being a subset of those of q.  For every lookup (required bits a uint64_t,
any path) that pledge_namei admits (returns 0) in p: either it is admitted in
q too, or the current syscall is open, the required bits are exactly rpath,
the canonical path is /etc/spwd.db, getpw is held in q and not in p, and in q
pledge_namei returns EPERM without reporting a violation. -/
theorem pledge_namei_monotone (p q : proc) (ni : nameidata) (x : List Char) (p1 : proc)
    (hflag : q.p_p.PS_PLEDGE = p.p_p.PS_PLEDGE)
    (hcore : q.p_p.PS_COREDUMP = p.p_p.PS_COREDUMP)
    (hsys : q.p_pledge_syscall = p.p_pledge_syscall)
    (hsub : ∀ i, p.p_p.ps_pledge.testBit i = true → q.p_p.ps_pledge.testBit i = true)
    (hreq64 : ni.ni_pledge < 2 ^ 64)
    (hadm : pledge_namei p (some ni) x = some (0, p1)) :
    (∃ q1, pledge_namei q (some ni) x = some (0, q1)) ∨
    (pledge_namei q (some ni) x = some (EPERM, q) ∧ p.p_pledge_syscall = SYS_open ∧
      ni.ni_pledge = PLEDGE_RPATH ∧
      canonpath x PATH_MAX = .ok "/etc/spwd.db".toList ∧
      p.p_p.ps_pledge &&& PLEDGE_GETPW = 0 ∧ q.p_p.ps_pledge &&& PLEDGE_GETPW ≠ 0) := by
  have hmono : ∀ m, p.p_p.ps_pledge &&& m ≠ 0 → q.p_p.ps_pledge &&& m ≠ 0 :=
    fun m h => and_ne_zero_mono _ _ m hsub h
  unfold pledge_namei at hadm ⊢
  rw [hflag, hcore]
  by_cases g : p.p_p.PS_PLEDGE = false ∨ p.p_p.PS_COREDUMP = true
  · rw [if_pos g]
    exact Or.inl ⟨q, rfl⟩
  rw [if_neg g] at hadm ⊢
  simp only [] at hadm ⊢
  by_cases n0 : ni.ni_pledge = 0
  · rw [if_pos n0] at hadm; cases hadm
  rw [if_neg n0] at hadm ⊢
  by_cases ex : ni.ni_pledge &&& PLEDGE_EXEC ≠ 0 ∧ q.p_p.ps_pledge &&& PLEDGE_EXEC ≠ 0
  · rw [if_pos ex]
    exact Or.inl ⟨q, rfl⟩
  have ex' : ¬ (ni.ni_pledge &&& PLEDGE_EXEC ≠ 0 ∧ p.p_p.ps_pledge &&& PLEDGE_EXEC ≠ 0) :=
    fun h => ex ⟨h.1, hmono _ h.2⟩
  rw [if_neg ex] 
  rw [if_neg ex'] at hadm
  cases hc : canonpath x PATH_MAX with
  | error e =>
    rw [hc] at hadm
    simp only [] at hadm ⊢
    injection hadm with hadm
    injection hadm with h1 h2
    rw [h1]
    exact Or.inl ⟨q, rfl⟩
  | ok path =>
    rw [hc] at hadm
    simp only [] at hadm ⊢
    have hnul := canonpath_nul_free x path PATH_MAX hc
    rw [hsys]
    by_cases t1 : q.p_p.ps_pledge &&& PLEDGE_TMPPATH ≠ 0 ∧ p.p_pledge_syscall = SYS_open ∧
        ni.ni_pledge &&& PLEDGE_CPATH ≠ 0 ∧
        strncmp path "/tmp/".toList "/tmp/".toList.length = 0
    · rw [if_pos t1]
      exact Or.inl ⟨q, rfl⟩
    have t1' : ¬ (p.p_p.ps_pledge &&& PLEDGE_TMPPATH ≠ 0 ∧ p.p_pledge_syscall = SYS_open ∧
        ni.ni_pledge &&& PLEDGE_CPATH ≠ 0 ∧
        strncmp path "/tmp/".toList "/tmp/".toList.length = 0) :=
      fun h => t1 ⟨hmono _ h.1, h.2⟩
    rw [if_neg t1]
    rw [if_neg t1'] at hadm
    by_cases t2 : q.p_p.ps_pledge &&& PLEDGE_TMPPATH ≠ 0 ∧
        p.p_pledge_syscall = SYS_unlink ∧
        strncmp path "/tmp/".toList "/tmp/".toList.length = 0
    · rw [if_pos t2]
      exact Or.inl ⟨q, rfl⟩
    have t2' : ¬ (p.p_p.ps_pledge &&& PLEDGE_TMPPATH ≠ 0 ∧
        p.p_pledge_syscall = SYS_unlink ∧
        strncmp path "/tmp/".toList "/tmp/".toList.length = 0) :=
      fun h => t2 ⟨hmono _ h.1, h.2⟩
    rw [if_neg t2]
    rw [if_neg t2'] at hadm
    cases hs : namei_switch q ni path with
    | some rq =>
      simp only []
      rcases namei_switch_result q ni path rq.1 rq.2 hs with h0 | ⟨h1, h2, h3, h4, h5, h6⟩
      · left
        exact ⟨rq.2, by rw [← h0]⟩
      · right
        have hpath : path = "/etc/spwd.db".toList :=
          strcmp_eq_zero path _ hnul (by decide) h6
        have hrq : rq = (EPERM, q) := Prod.ext h1 h2
        refine ⟨by rw [hrq], by rw [← hsys]; exact h3, h4, by rw [hpath], ?_, h5⟩
        by_contra hpw
        rw [hpath, namei_switch_open_spwd p ni (by rw [← hsys]; exact h3) h4 hpw] at hadm
        simp only [] at hadm
        injection hadm with hadm
        injection hadm with e1 e2
        exact absurd e1 (by decide)
    | none =>
      simp only []
      rw [namei_switch_none_mono p q ni path hsys hmono hs] at hadm
      simp only [] at hadm
      by_cases f : ni.ni_pledge &&& not64 p.p_p.ps_pledge ≠ 0
      · rw [if_pos f] at hadm
        injection hadm with hadm
        injection hadm with e1 e2
        exact absurd e1 (by decide)
      · have fq : ¬ (ni.ni_pledge &&& not64 q.p_p.ps_pledge ≠ 0) := by
          rw [not_not] at f ⊢
          rw [and_not64_eq_zero_iff _ _ hreq64] at f ⊢
          exact fun i hi => hsub i (f i hi)
        rw [if_neg fq]
        exact Or.inl ⟨q, rfl⟩

/-- Witness for C37, amended: open of /etc/hosts requiring rpath is admitted
with stdio|rpath, hence with stdio|rpath|dns too. -/
theorem pledge_namei_monotone_witness :
    pledge_namei ⟨⟨true, false, PLEDGE_STDIO ||| PLEDGE_RPATH⟩, SYS_open, []⟩
        (some ⟨PLEDGE_RPATH⟩) "/etc/hosts".toList =
      some (0, ⟨⟨true, false, PLEDGE_STDIO ||| PLEDGE_RPATH⟩, SYS_open, []⟩) ∧
    ∃ q1, pledge_namei ⟨⟨true, false, PLEDGE_STDIO ||| PLEDGE_RPATH ||| PLEDGE_DNS⟩,
        SYS_open, []⟩ (some ⟨PLEDGE_RPATH⟩) "/etc/hosts".toList = some (0, q1) :=
  ⟨by decide,
    (pledge_namei_monotone ⟨⟨true, false, PLEDGE_STDIO ||| PLEDGE_RPATH⟩, SYS_open, []⟩
      ⟨⟨true, false, PLEDGE_STDIO ||| PLEDGE_RPATH ||| PLEDGE_DNS⟩, SYS_open, []⟩
      ⟨PLEDGE_RPATH⟩ "/etc/hosts".toList
      ⟨⟨true, false, PLEDGE_STDIO ||| PLEDGE_RPATH⟩, SYS_open, []⟩ rfl rfl rfl
      (by
        intro i hi
        have h9 : ( PLEDGE_STDIO ||| PLEDGE_RPATH ||| PLEDGE_DNS).testBit i =
            (( PLEDGE_STDIO ||| PLEDGE_RPATH).testBit i || PLEDGE_DNS.testBit i) :=
          Nat.testBit_lor _ _ _
        show ( PLEDGE_STDIO ||| PLEDGE_RPATH ||| PLEDGE_DNS).testBit i = true
        rw [h9]
        have hi' : ( PLEDGE_STDIO ||| PLEDGE_RPATH).testBit i = true := hi
        rw [hi']
        rfl)
      (by decide) (by decide)).resolve_right (fun h => absurd h.2.2.2.1 (by decide))⟩

theorem peek_drop (p : List Char) (k j : Nat) : peek (p.drop k) j = peek p (k + j) := by
  unfold peek
  simp [List.getD_eq_getElem?_getD, List.getElem?_drop]

theorem scan_back_checked_eq : ∀ q : List Char, '/' ∈ q →
    scan_back_checked q = some (scan_back q) ∧ ∃ w, q = w ++ '/' :: scan_back q := by
  intro q
  induction q with
  | nil => intro h; cases h
  | cons c q ih =>
    intro h
    simp only [scan_back_checked, scan_back]
    by_cases hc : c = '/'
    · rw [if_pos hc, if_pos hc]
      exact ⟨rfl, [], by rw [hc]; rfl⟩
    · rw [if_neg hc, if_neg hc]
      have hq : '/' ∈ q := by
        rcases List.mem_cons.mp h with e | e
        · exact absurd e.symm hc
        · exact e
      obtain ⟨h1, w, h2⟩ := ih hq
      exact ⟨h1, c :: w, by rw [List.cons_append, ← h2]⟩

theorem canon_loop_checked_eq (b : Nat) : ∀ (n : Nat) (p q : List Char), canon_inv p q →
    canon_loop_checked b n p q = some (canon_loop b n p q) := by
  intro n
  induction n with
  | zero =>
    intro p q _
    simp only [canon_loop_checked, canon_loop, canon_exit_checked, canon_exit]
    split_ifs with h1 h2
    · rfl
    · exact absurd h1.2 h2
    · rfl
  | succ n ih =>
    intro p q hinv
    simp only [canon_loop_checked, canon_loop]
    by_cases h0 : peek p 0 ≠ NUL ∧ q.length < b
    · rw [if_pos h0, if_pos h0]
      by_cases h1 : peek p 0 = '/' ∧ (peek p 1 = '/' ∨ peek p 1 = NUL)
      · rw [if_pos h1, if_pos h1]
        apply ih
        rcases hinv with ⟨hq, _⟩ | hq
        · left
          refine ⟨hq, ?_⟩
          unfold at_boundary
          rw [peek_drop]
          exact h1.2
        · exact Or.inr hq
      rw [if_neg h1, if_neg h1]
      by_cases h2 : peek p 0 = '/' ∧ peek p 1 = '.' ∧ (peek p 2 = '/' ∨ peek p 2 = NUL)
      · rw [if_pos h2, if_pos h2]
        apply ih
        rcases hinv with ⟨hq, _⟩ | hq
        · left
          refine ⟨hq, ?_⟩
          unfold at_boundary
          rw [peek_drop]
          exact h2.2.2
        · exact Or.inr hq
      rw [if_neg h2, if_neg h2]
      by_cases h3 : peek p 0 = '/' ∧ peek p 1 = '.' ∧ peek p 2 = '.' ∧
          (peek p 3 = '/' ∨ peek p 3 = NUL)
      · rw [if_pos h3, if_pos h3]
        have hb : at_boundary (p.drop 3) := by
          unfold at_boundary
          rw [peek_drop]
          exact h3.2.2.2
        by_cases hq : q ≠ []
        · rw [if_pos hq, if_pos hq]
          have hlast : q.getLast? = some '/' := by
            rcases hinv with ⟨e, _⟩ | e
            · exact absurd e hq
            · exact e
          have hmem : '/' ∈ q := List.mem_of_getLast?_eq_some hlast
          obtain ⟨e1, w, e2⟩ := scan_back_checked_eq q hmem
          rw [e1]
          simp only []
          apply ih
          by_cases hs : scan_back q = []
          · exact Or.inl ⟨hs, hb⟩
          · right
            generalize scan_back q = sb at e2 hs
            rw [e2] at hlast
            cases sb with
            | nil => exact absurd rfl hs
            | cons d t =>
              rw [List.getLast?_append, List.getLast?_cons_cons] at hlast
              cases hdt : (d :: t).getLast? with
              | none => simp at hdt
              | some z => rw [hdt] at hlast; simpa using hlast
        · rw [if_neg hq, if_neg hq]
          apply ih
          exact Or.inl ⟨not_not.mp hq, hb⟩
      rw [if_neg h3, if_neg h3, if_pos h0.2]
      apply ih
      right
      rcases hinv with ⟨hq, hbd⟩ | hq
      · rw [hq]
        rcases hbd with e | e
        · rw [e]; rfl
        · exact absurd e h0.1
      · cases q with
        | nil => cases hq
        | cons d q => rw [List.getLast?_cons_cons]; exact hq
    · rw [if_neg h0, if_neg h0]
      simp only [canon_exit_checked, canon_exit]
      split_ifs with h1 h2
      · rfl
      · exact absurd h1.2 h2
      · rfl

theorem canonpath_length_le (input : List Char) (bufsize : Nat) (habs : peek input 0 = '/')
    (hnul : NUL ∉ input) (hsize : input.length < bufsize) :
    ∃ out, canonpath input bufsize = .ok out ∧ out.length ≤ input.length := by
  have h1 : canonpath input bufsize = .ok (lexical_normalise input) := by
    rw [canonpath_absolute input bufsize habs hnul,
      if_pos (fits_of_absolute_length input bufsize habs hsize)]
  have h2 : canonpath input (input.length + 1) = .ok (lexical_normalise input) := by
    rw [canonpath_absolute input _ habs hnul,
      if_pos (fits_of_absolute_length input _ habs (Nat.lt_succ_self _))]
  obtain ⟨_, _, _, h3, _⟩ := canonpath_ok_shape input _ _ habs hnul h2
  exact ⟨_, h1, by omega⟩

theorem canonpath_checked_eq (input : List Char) (bufsize : Nat) :
    canonpath_checked input bufsize = some (canonpath input bufsize) := by
  unfold canonpath_checked canonpath
  by_cases habs : peek input 0 ≠ '/'
  · rw [if_pos habs, if_pos habs]
    by_cases h1 : (strlcpy input bufsize).2 ≥ bufsize
    · rw [if_pos h1, if_pos h1]
    · rw [if_neg h1, if_neg h1]
      have h2 : (strlcpy input bufsize).1.length + 1 ≤ bufsize := by
        have h3 : (cstr input).length < bufsize := Nat.lt_of_not_le h1
        show ((cstr input).take (bufsize - 1)).length + 1 ≤ bufsize
        rw [List.length_take]
        omega
      rw [if_pos h2]
  · rw [if_neg habs, if_neg habs]
    exact canon_loop_checked_eq bufsize _ _ _ (Or.inl ⟨rfl, Or.inl (not_not.mp habs)⟩)

/-- C39: canonpath never lengthens and stays in bounds.  For every absolute
input (a C string: no NUL inside) and every bufsize strictly greater than its
length, canonpath returns 0 and its output is no longer than the input.  For
every input and every bufsize, the run of canonpath in which every store
(`*q++ = *p++`, `*q = 0`, the bytes of strlcpy) is checked to fall at an
index below bufsize and the ".." back-scan is checked not to read before
`buf[0]` never fails a check and computes what canonpath computes. -/
theorem canonpath_in_bounds (input : List Char) (bufsize : Nat) :
    (peek input 0 = '/' → NUL ∉ input → input.length < bufsize →
      ∃ out, canonpath input bufsize = .ok out ∧ out.length ≤ input.length) ∧
    canonpath_checked input bufsize = some (canonpath input bufsize) ∧
    (peek input 0 ≠ '/' → 1 ≤ bufsize → (strlcpy input bufsize).1.length + 1 ≤ bufsize) := by
  refine ⟨canonpath_length_le input bufsize, canonpath_checked_eq input bufsize, ?_⟩
  intro _ hb
  show ((cstr input).take (bufsize - 1)).length + 1 ≤ bufsize
  rw [List.length_take]
  omega

/-- Witness for C39: `"/a/b/../../../c"` in a buffer of 16 bytes: the result
`"/c"` is shorter than the input, and the checked run (whose third ".."
finds the buffer empty) agrees with it. -/
theorem canonpath_in_bounds_witness :
    (∃ out, canonpath "/a/b/../../../c".toList 16 = .ok out ∧
      out.length ≤ "/a/b/../../../c".toList.length) ∧
    canonpath_checked "/a/b/../../../c".toList 16 = some (.ok "/c".toList) :=
  ⟨(canonpath_in_bounds "/a/b/../../../c".toList 16).1 (by decide) (by decide) (by decide),
    by decide⟩

theorem pledge_namei_wlpath_error (p : proc) (names : List (List Char)) (env : lookup_env)
    (ni : nameidata) (path : List Char) (len : Nat) (r : List Char) (rl : Nat)
    (hnames : ∀ n ∈ names, peek n 0 = '/' ∧ NUL ∉ n)
    (hres : resolvpath env path (len + 1) = .ok (r, rl)) :
    (pledge_namei_wlpath p (some (whitelist names)) env ni (some path) len).map Prod.fst =
      some (if (∃ n ∈ names, wl_match n r) ∨
          ((∃ n ∈ names, path_ancestor r n) ∧ stat_family p.p_pledge_syscall) then 0
        else ENOENT) := by
  have hr := (resolvpath_ok env path (len + 1) r rl hres).2
  rw [pledge_namei_wlpath_eq p names env ni path len r rl hres]
  by_cases hex : ∃ n ∈ names, wl_match n r
  · rw [if_pos (Or.inl hex)]
    have h0 := wl_loop_hit r hr names ENOENT false (by decide) hnames hex
    split_ifs
    · rfl
    · rw [h0]; rfl
  · obtain ⟨h1, h2⟩ := wl_loop_miss r hr names ENOENT false (by decide) hnames hex
    by_cases hpar : (∃ n ∈ names, path_ancestor r n) ∧ stat_family p.p_pledge_syscall
    · rw [if_pos (Or.inr hpar), if_pos ⟨h2.mpr (Or.inr hpar.1), hpar.2⟩]
      rfl
    · have hn : ¬ ((∃ n ∈ names, wl_match n r) ∨
          ((∃ n ∈ names, path_ancestor r n) ∧ stat_family p.p_pledge_syscall)) := by
        rintro (h | h)
        · exact hex h
        · exact hpar h
      have hc : ¬ ((wl_loop r (r.length + 1) (whitelist names) ENOENT false).2 = true ∧
          stat_family p.p_pledge_syscall) := by
        rintro ⟨h3, h4⟩
        rcases h2.mp h3 with h5 | h5
        · cases h5
        · exact hpar ⟨h5, h4⟩
      rw [if_neg hn, if_neg hc, h1]
      rfl

theorem pledge_namei_wlpath_error_perm (p : proc) (names names1 : List (List Char))
    (env : lookup_env) (ni : nameidata) (path : List Char) (len : Nat) (r : List Char)
    (rl : Nat) (hperm : names.Perm names1)
    (hnames : ∀ n ∈ names, peek n 0 = '/' ∧ NUL ∉ n)
    (hres : resolvpath env path (len + 1) = .ok (r, rl)) :
    (pledge_namei_wlpath p (some (whitelist names)) env ni (some path) len).map Prod.fst =
      (pledge_namei_wlpath p (some (whitelist names1)) env ni (some path) len).map Prod.fst := by
  have hnames1 : ∀ n ∈ names1, peek n 0 = '/' ∧ NUL ∉ n :=
    fun n hn => hnames n (hperm.mem_iff.mpr hn)
  rw [pledge_namei_wlpath_error p names env ni path len r rl hnames hres,
    pledge_namei_wlpath_error p names1 env ni path len r rl hnames1 hres]
  have e1 : (∃ n ∈ names, wl_match n r) ↔ (∃ n ∈ names1, wl_match n r) :=
    ⟨fun ⟨n, hn, h⟩ => ⟨n, hperm.mem_iff.mp hn, h⟩,
      fun ⟨n, hn, h⟩ => ⟨n, hperm.mem_iff.mpr hn, h⟩⟩
  have e2 : (∃ n ∈ names, path_ancestor r n) ↔ (∃ n ∈ names1, path_ancestor r n) :=
    ⟨fun ⟨n, hn, h⟩ => ⟨n, hperm.mem_iff.mp hn, h⟩,
      fun ⟨n, hn, h⟩ => ⟨n, hperm.mem_iff.mpr hn, h⟩⟩
  simp only [e1, e2]

end Pledge

